import Mathlib

/-!
# SpineExporter: JSON skeleton to binary skeleton

A shallow embedding of `SpineExporter.cpp` and the properties of its output.

Conventions of the embedding.

* A byte is a natural number below 256; the output buffer is the list of the
  bytes stored at positions `0 .. buff_pos - 1`, so `buff_pos` is its length.
* An `int` is an `Int`; conversions to `unsigned int`, `unsigned short` and
  `unsigned char` reduce modulo `2^32`, `2^16` and `2^8`.  Sizes of strings and
  of child lists are taken to fit an `int`.
* A `float` is its IEEE-754 bit pattern, a natural number below `2^32`.
* A C string is a `String` whose characters stand for its bytes; a `const char*`
  that may be null is an `Option String`.
* Statements that the C++ language leaves without a defined result (reading
  through a null pointer, reading past the end of an array) are the outcome
  `Res.crash`.
-/

namespace SpineExporter

/-! ## Machine integers -/

/-- Conversion of an `int` to `unsigned int`. -/
def toU32 (x : Int) : Nat := (x % 4294967296).toNat

/-- Conversion of an `int` to `unsigned short`. -/
def toU16 (x : Int) : Nat := (x % 65536).toNat

/-- Conversion of an `int` to `unsigned char`. -/
def toU8 (x : Int) : Nat := (x % 256).toNat

/-- Conversion of an `unsigned int` to `int` (two's complement). -/
def toI32 (u : Nat) : Int :=
  if u % 4294967296 < 2147483648 then ((u % 4294967296 : Nat) : Int)
  else ((u % 4294967296 : Nat) : Int) - 4294967296

/-- What `v >> n` yields on a 32-bit unsigned `v` when the count `n` is 32 or
more.  C++ gives such a shift no defined result, so the embedding takes the
value as a parameter: every theorem below that quantifies over a `WideShift`
holds whatever the compiled code computes there. -/
abbrev WideShift := Nat → Nat → Nat

/-- The over-wide shift that yields zero, as if the operand were shifted out. -/
def wideZero : WideShift := fun _ _ => 0

/-- The over-wide shift of the x86 and AArch64 shift instructions, which use the
count modulo 32. -/
def wideMasked : WideShift := fun v n => v >>> (n % 32)

/-- The operator `>>` on an `unsigned int`. -/
def shr32 (wide : WideShift) (v n : Nat) : Nat :=
  if n < 32 then v >>> n else wide v n

/-- The expression `(value << 1) ^ (value >> 31)` on the bits `u` of the `int`
`value`, with the arithmetic right shift and the wrapping left shift of 32-bit
two's complement. -/
def zigzag32 (u : Nat) : Nat :=
  ((u <<< 1) % 4294967296) ^^^ (if u >>> 31 = 0 then 0 else 4294967295)

/-! ## File-scope state and the effect of a statement -/

/-- One name lookup made by the encoder: the table searched, the name searched
for, and the value the search returned.  The list of lookups is not program
state; it is recorded so that properties of the indices written can be stated. -/
structure Lookup where
  table : List String
  name : String
  index : Int

/-- The file-scope variables `buff_data` / `buff_pos` and `all_atlas`, and the
record of the lookups made so far. -/
structure State where
  buff_data : List Nat
  all_atlas : List String
  lookups : List Lookup

/-- The write position. -/
def State.buff_pos (s : State) : Nat := s.buff_data.length

/-- The state after storing the bytes `bs` at the write position. -/
def State.append (s : State) (bs : List Nat) : State :=
  { s with buff_data := s.buff_data ++ bs }

/-- Outcome of running a statement: it completes with a value, it executes a
`return code;` of the enclosing function, or it has no defined behaviour. -/
inductive Res (α : Type) where
  | ok (a : α) (s : State) : Res α
  | ret (code : Int) (s : State) : Res α
  | crash : Res α

/-- A statement of the encoder: a function of the file-scope state. -/
def M (α : Type) : Type := State → Res α

instance : Monad M where
  pure a := fun s => Res.ok a s
  bind m f := fun s =>
    match m s with
    | Res.ok a s1 => f a s1
    | Res.ret c s1 => Res.ret c s1
    | Res.crash => Res.crash

/-- The statement `return code;`. -/
def ret {α : Type} (code : Int) : M α := fun s => Res.ret code s

/-- A statement without defined behaviour. -/
def crash {α : Type} : M α := fun _ => Res.crash

/-- Stores `bs` at the write position and advances it. -/
def emit (bs : List Nat) : M Unit := fun s => Res.ok () (s.append bs)

/-- Use of a value that is undefined when absent. -/
def defined {α : Type} : Option α → M α
  | some a => pure a
  | none => crash

/-! ## Primitive writers -/

/-- `push_byte(unsigned char c)`. -/
def push_byte (c : Int) : M Unit := emit [toU8 c]

/-- `push_float(float v)`: the four bytes of the bit pattern, most significant
first. -/
def push_float (v : Nat) : M Unit := do
  push_byte ((v >>> 24) &&& 255 : Nat)
  push_byte ((v >>> 16) &&& 255 : Nat)
  push_byte ((v >>> 8) &&& 255 : Nat)
  push_byte (v &&& 255 : Nat)

/-- The loop of `push_varint` from iteration `i` on, with `fuel = 5 - i`
iterations left: the bytes it stores. -/
def varint_loop (wide : WideShift) (v : Nat) : Nat → Nat → List Nat
  | 0, _ => []
  | fuel + 1, i =>
    let b := shr32 wide v (i * 7) &&& 0x7F
    if shr32 wide v ((i + 1) * 7) ≠ 0 then
      (b ||| 0x80) :: varint_loop wide v fuel (i + 1)
    else
      [b]

/-- `push_varint(int value, int optimizePositive)`. -/
def push_varint (wide : WideShift) (value : Int) (optimizePositive : Bool) : M Unit :=
  let v := if optimizePositive then toU32 value else zigzag32 (toU32 value)
  emit (varint_loop wide v 5 0)

/-- `push_boolen(unsigned char v)`. -/
def push_boolen (v : Int) : M Unit := emit [toU8 v]

/-- The bytes of a C string, without the terminator. -/
def strBytes (str : String) : List Nat := str.toList.map fun c => c.toNat % 256

/-- `push_string(const char *str)`. -/
def push_string (wide : WideShift) (str : Option String) : M Unit :=
  match str with
  | none => push_varint wide 0 true
  | some s => do
    let len : Int := s.length
    push_varint wide (len + 1) true
    emit (strBytes s)

/-- `hex_value(const char c)`. -/
def hex_value (c : Char) : Nat :=
  if c = 'a' ∨ c = 'A' then 10
  else if c = 'b' ∨ c = 'B' then 11
  else if c = 'c' ∨ c = 'C' then 12
  else if c = 'd' ∨ c = 'D' then 13
  else if c = 'e' ∨ c = 'E' then 14
  else if c = 'f' ∨ c = 'F' then 15
  else toU8 ((c.toNat : Int) - 48)

/-- The character `str[i]` of a C string: a character of the string, the
terminator at `i = strlen(str)`, and undefined past it. -/
def charAt (str : String) (i : Nat) : Option Char :=
  if i < str.length then some (str.toList.getD i (Char.ofNat 0))
  else if i = str.length then some (Char.ofNat 0)
  else none

/-- One byte of `push_color`: `hex_value(color[i]) << 4 | hex_value(color[i + 1])`. -/
def color_byte (color : String) (i : Nat) : M Int := do
  let hi ← defined (charAt color i)
  let lo ← defined (charAt color (i + 1))
  pure (((hex_value hi <<< 4) ||| hex_value lo : Nat) : Int)

/-- `push_color(const char *color)`. -/
def push_color (color : Option String) : M Unit :=
  match color with
  | some c => do
    push_byte (← color_byte c 0)
    push_byte (← color_byte c 2)
    push_byte (← color_byte c 4)
    push_byte (← color_byte c 6)
  | none => do
    push_byte 255
    push_byte 255
    push_byte 255
    push_byte 255

/-! ## The parse tree -/

/-- Modelled from the spec: the type tag of a node of the parse tree declared in
`Json.h`, which is not among the sources. -/
inductive JsonType where
  | False | True | NULL | Number | String | Array | Object
  deriving DecidableEq

/-- Modelled from the spec: a node of the "already-materialized tree with typed
leaf access" declared in `Json.h`: the fields `name`, `type`, `valueString`,
`valueInt`, `valueFloat` that the encoder reads, and the list of children that it
walks through `child` and `next`. -/
inductive Json where
  | mk (name : Option String) (type : JsonType) (valueString : Option String)
      (valueInt : Int) (valueFloat : Nat) (child : List Json) : Json

namespace Json

/-- The field `name`: the key of the node in its parent object, null otherwise. -/
def name : Json → Option String
  | mk n _ _ _ _ _ => n

/-- The field `type`. -/
def type : Json → JsonType
  | mk _ t _ _ _ _ => t

/-- The field `valueString`. -/
def valueString : Json → Option String
  | mk _ _ v _ _ _ => v

/-- The field `valueInt`. -/
def valueInt : Json → Int
  | mk _ _ _ v _ _ => v

/-- The field `valueFloat`, as a bit pattern. -/
def valueFloat : Json → Nat
  | mk _ _ _ _ v _ => v

/-- The children, in the order of the `child` / `next` chain. -/
def child : Json → List Json
  | mk _ _ _ _ _ c => c

/-- The field `size`: the number of children. -/
def size (j : Json) : Int := j.child.length

end Json

/-- The children of a node that may be null: `node ? node->child : 0`. -/
def children : Option Json → List Json
  | some j => j.child
  | none => []

/-- The expression `node ? node->size : 0`. -/
def sizeOrZero : Option Json → Int
  | some j => j.size
  | none => 0

/-- Modelled from the spec: `Json_getItem(object, key)` of `Json.h`, the first
child of `object` with the key `key`, null when there is none. -/
def Json_getItem (object : Json) (key : String) : Option Json :=
  object.child.find? fun c => c.name == some key

/-- Modelled from the spec: `Json_getString(object, key, defaultValue)` of
`Json.h`, the `valueString` of the item when the key is present and the default
otherwise. -/
def Json_getString (object : Json) (key : String) (defaultValue : Option String) :
    Option String :=
  match Json_getItem object key with
  | some item => item.valueString
  | none => defaultValue

/-- Modelled from the spec: `Json_getFloat(object, key, defaultValue)` of
`Json.h`. -/
def Json_getFloat (object : Json) (key : String) (defaultValue : Nat) : Nat :=
  match Json_getItem object key with
  | some item => item.valueFloat
  | none => defaultValue

/-- Modelled from the spec: `Json_getInt(object, key, defaultValue)` of `Json.h`. -/
def Json_getInt (object : Json) (key : String) (defaultValue : Int) : Int :=
  match Json_getItem object key with
  | some item => item.valueInt
  | none => defaultValue

/-- The `float` constant `1`. -/
def f32_one : Nat := 0x3F800000

/-- The `float` constant `-1`. -/
def f32_neg_one : Nat := 0xBF800000

/-- The `float` constant `32`. -/
def f32_32 : Nat := 0x42000000

/-- The conversion `(int)x` of a `float`: truncation toward zero, undefined when
the truncated value does not fit an `int` or `x` is not finite. -/
def f32_to_int (v : Nat) : Option Int :=
  let e := (v >>> 23) &&& 0xFF
  let m := (v &&& 0x7FFFFF) ||| 0x800000
  if e = 255 then none
  else if e < 127 then some 0
  else
    let mag : Nat := if 150 ≤ e then m <<< (e - 150) else m >>> (150 - e)
    let x : Int := if (v >>> 31) &&& 1 = 1 then -(mag : Int) else (mag : Int)
    if -2147483648 ≤ x ∧ x ≤ 2147483647 then some x else none

/-- Whether a value fits an `int`. -/
def fitsInt (x : Int) : Bool := decide (-2147483648 ≤ x ∧ x ≤ 2147483647)

/-- The expression `x << 1` on an `int`, wrapping in 32 bits. -/
def shl1 (x : Int) : Int := toI32 (toU32 x <<< 1)

/-! ## Loops over child lists -/

/-- A loop `for (x = first; x; x = x->next) body`. -/
def forEach {α : Type} (xs : List α) (body : α → M Unit) : M Unit :=
  match xs with
  | [] => pure ()
  | x :: rest => do
    body x
    forEach rest body

/-- A loop over the frames of a timeline whose body tests `valueMap->next`: the
body receives the frame and whether a next frame exists. -/
def forFrames (xs : List Json) (body : Json → Bool → M Unit) : M Unit :=
  match xs with
  | [] => pure ()
  | x :: rest => do
    body x (!rest.isEmpty)
    forFrames rest body

/-- A loop that grows a local table: the body receives the table built so far
and returns the table after this element. -/
def forAcc {α β : Type} (xs : List α) (acc : β) (body : β → α → M β) : M β :=
  match xs with
  | [] => pure acc
  | x :: rest => do
    let acc1 ← body acc x
    forAcc rest acc1 body

/-! ## Bones -/

/-- `struct BoneData`. -/
structure BoneData where
  name : String
  parent : Int
  parent_name : String
  rotation : Nat
  x : Nat
  y : Nat
  scaleX : Nat
  scaleY : Nat
  shearX : Nat
  shearY : Nat
  length : Nat
  mode : Int

/-- `struct EventData`. -/
structure EventData where
  name : String
  intValue : Int
  floatValue : Nat
  stringValue : String

/-- The chain of `strcmp` tests of `process_bones` that sets `bd.mode`, which
the constructor has set to 0. -/
def bone_mode (transform : String) : Int :=
  let m0 : Int := 0
  let m1 := if transform = "normal" then 0 else m0
  let m2 := if transform = "onlyTranslation" then 1 else m1
  let m3 := if transform = "noRotationOrReflection" then 2 else m2
  let m4 := if transform = "noScale" then 3 else m3
  if transform = "noScaleOrReflection" then 4 else m4

/-- The body of the first loop of `process_bones`: the record of one bone.  It
is undefined when `name`, `parent` or `transform` is present without being a
string, since the null `valueString` is then assigned to a `std::string` or
handed to `strcmp`. -/
def read_bone (bone : Json) : Option BoneData := do
  let name ← Json_getString bone "name" (some "")
  let parent_name ← Json_getString bone "parent" (some "")
  let transform ← Json_getString bone "transform" (some "normal")
  pure {
    name := name
    parent := 0
    parent_name := parent_name
    rotation := Json_getFloat bone "rotation" 0
    x := Json_getFloat bone "x" 0
    y := Json_getFloat bone "y" 0
    scaleX := Json_getFloat bone "scaleX" f32_one
    scaleY := Json_getFloat bone "scaleY" f32_one
    shearX := Json_getFloat bone "shearX" 0
    shearY := Json_getFloat bone "shearY" 0
    length := Json_getFloat bone "length" 0
    mode := bone_mode transform }

/-- The first loop of `process_bones`. -/
def read_bones : List Json → Option (List BoneData)
  | [] => some []
  | bone :: rest => do
    let bd ← read_bone bone
    let res ← read_bones rest
    pure (bd :: res)

/-- The inner loop of the second pass of `process_bones`, from index `j` on,
over the bones `res[j], res[j + 1], ...`: the value of `res[i].parent`
afterwards, which was `parent` before. -/
def scan_parent (parent_name : String) (parent : Int) : List BoneData → Int → Int
  | [], _ => parent
  | b :: rest, j => if parent_name = b.name then j else scan_parent parent_name parent rest (j + 1)

/-- The second loop of `process_bones`. -/
def resolve_parents (res : List BoneData) : List BoneData :=
  res.map fun b =>
    if b.parent_name.length > 0 then { b with parent := scan_parent b.parent_name b.parent res 0 }
    else b

/-- `process_bones(Json* bones)`. -/
def process_bones (bones : Json) : Option (List BoneData) :=
  (read_bones bones.child).map resolve_parents

/-! ## Atlas -/

/-- The loop of `get_line` on the text from `pos` on.  `start` holds the
characters from `start` to `pos` once `start != -1`.  The result is the line
returned and the text from the final `pos` on. -/
def get_line_loop : List Char → Option (List Char) → List Char × List Char
  | [], none => ([], [])
  | [], some line => (line, [])
  | c :: rest, none =>
    if c = '\r' ∨ c = '\n' then get_line_loop rest none
    else get_line_loop rest (some [c])
  | c :: rest, some line =>
    if c = '\r' ∨ c = '\n' then (line, c :: rest)
    else get_line_loop rest (some (line ++ [c]))

/-- `get_line(const char *str, int &pos)`, on the text from `pos` on. -/
def get_line (str : List Char) : List Char × List Char := get_line_loop str none

/-- The statement `all_atlas.insert(line)` guarded by its test. -/
def atlas_insert (all_atlas : List String) (line : List Char) : List String :=
  if line.length > 0 ∧ ':' ∉ line then
    (if String.mk line ∈ all_atlas then all_atlas else all_atlas ++ [String.mk line])
  else all_atlas

/-- The `do ... while (atlas[pos])` loop of `parse_atlas`, with a bound on the
number of iterations; `none` when the bound is reached. -/
def parse_atlas_loop : Nat → List Char → List String → Option (List String)
  | 0, _, _ => none
  | fuel + 1, str, all_atlas =>
    let r := get_line str
    let all_atlas1 := atlas_insert all_atlas r.1
    if r.2 = [] then some all_atlas1 else parse_atlas_loop fuel r.2 all_atlas1

/-- The set `all_atlas` after `parse_atlas(atlas)`. -/
def atlas_lines (atlas : String) (all_atlas : List String) : Option (List String) :=
  parse_atlas_loop (atlas.length + 1) atlas.toList all_atlas

/-- `parse_atlas(const char *atlas)`. -/
def parse_atlas (atlas : String) : M Unit := fun s =>
  match atlas_lines atlas s.all_atlas with
  | some set => Res.ok () { s with all_atlas := set }
  | none => Res.crash

/-! ## Name tables -/

/-- The loop of `find_string` from index `i` on. -/
def find_string_loop (str : String) : List String → Int → Int
  | [], _ => -1
  | x :: rest, i => if x = str then i else find_string_loop str rest (i + 1)

/-- `find_string(vector<string> vcStr, string str)`. -/
def find_string (vcStr : List String) (str : String) : Int :=
  find_string_loop str vcStr 0

/-- The loop of `find_bone` from index `i` on. -/
def find_bone_loop (name : String) : List BoneData → Int → Int
  | [], _ => -1
  | b :: rest, i => if b.name = name then i else find_bone_loop name rest (i + 1)

/-- `find_bone(vector<BoneData> &bones, string name)`. -/
def find_bone (bones : List BoneData) (name : String) : Int :=
  find_bone_loop name bones 0

/-- The search for the event of an event frame in `parse_animation`, from index
`i` on: the value of `eventIndex`. -/
def find_event_loop (name : String) : List EventData → Int → Int
  | [], _ => -1
  | e :: rest, i => if e.name = name then i else find_event_loop name rest (i + 1)

/-- Records a lookup and yields its result. -/
def noted (table : List String) (name : String) (index : Int) : M Int := fun s =>
  Res.ok index { s with lookups := s.lookups ++ [⟨table, name, index⟩] }

/-- A call of `find_string` whose result is written as an index. -/
def lookup_string (vcStr : List String) (str : String) : M Int :=
  noted vcStr str (find_string vcStr str)

/-- A call of `find_bone` whose result is written as an index. -/
def lookup_bone (bones : List BoneData) (name : String) : M Int :=
  noted (bones.map fun b => b.name) name (find_bone bones name)

/-- The event search of an event frame. -/
def lookup_event (vcEvents : List EventData) (name : String) : M Int :=
  noted (vcEvents.map fun e => e.name) name (find_event_loop name vcEvents 0)

/-- The statements `int i = find_string(vcStr, str); if (i == -1) return code;`
of the encoder: the value of `i` when execution continues. -/
def resolve_string (vcStr : List String) (str : String) (code : Int) : M Int := do
  let i ← lookup_string vcStr str
  if i = -1 then ret code else pure i

/-- The statements `int i = find_bone(bones, name); if (i == -1) return code;`:
the value of `i` when execution continues. -/
def resolve_bone (bones : List BoneData) (name : String) (code : Int) : M Int := do
  let i ← lookup_bone bones name
  if i = -1 then ret code else pure i

/-- The event search of an event frame followed by `if (eventIndex == -1)
return code;`: the value of `eventIndex` when execution continues. -/
def resolve_event (vcEvents : List EventData) (name : String) (code : Int) : M Int := do
  let i ← lookup_event vcEvents name
  if i = -1 then ret code else pure i

/-- The statements `int rt = f(...); if (rt != 0) return base + rt;` of the
driver. -/
def call_checked (base : Int) (f : M Int) : M Unit := fun s =>
  match f s with
  | Res.ok rt s1 => if rt ≠ 0 then Res.ret (base + rt) s1 else Res.ok () s1
  | Res.ret rt s1 => if rt ≠ 0 then Res.ret (base + rt) s1 else Res.ok () s1
  | Res.crash => Res.crash

/-! ## Vertices -/

/-- The element `vert[i]` of the array copied from the children of `vertices`;
undefined past its end. -/
def vertAt (vert : List Nat) (i : Nat) : M Nat :=
  if i < vert.length then pure (vert.getD i 0) else crash

/-- The inner loop of the weighted branch of `push_vertices`, for `count`
iterations from index `i`: the index after the loop. -/
def weighted_bones (wide : WideShift) (vert : List Nat) : Nat → Nat → M Nat
  | 0, i => pure i
  | count + 1, i => do
    let bone ← defined (f32_to_int (← vertAt vert i))
    push_varint wide bone true
    push_float (← vertAt vert (i + 1))
    push_float (← vertAt vert (i + 2))
    push_float (← vertAt vert (i + 3))
    weighted_bones wide vert count (i + 4)

/-- The outer loop of the weighted branch of `push_vertices` from index `i`,
with at most `fuel` iterations.  Every iteration advances `i`, so `size`
iterations exhaust the array. -/
def weighted_loop (wide : WideShift) (vert : List Nat) : Nat → Nat → M Unit
  | 0, _ => pure ()
  | fuel + 1, i =>
    if i < vert.length then do
      let boneCount ← defined (f32_to_int (← vertAt vert i))
      push_varint wide boneCount true
      if !fitsInt (boneCount * 4) || !fitsInt ((i : Int) + 1 + boneCount * 4) then crash
      let i1 ← weighted_bones wide vert boneCount.toNat (i + 1)
      weighted_loop wide vert fuel i1
    else pure ()

/-- `push_vertices(Json *vertices, int verticesLength)`. -/
def push_vertices (wide : WideShift) (vertices : Option Json) (verticesLength : Int) :
    M Unit := do
  let vertices ← defined vertices
  let size := vertices.size
  if size ≤ 0 then
    pure ()
  else
    let vert := vertices.child.map Json.valueFloat
    if verticesLength = size then do
      push_boolen 0
      forEach vert push_float
    else do
      push_boolen 1
      weighted_loop wide vert vert.length 0

/-! ## Skins -/

/-- The loop of `parse_skin` that fills `validAttachment`, appending to the
attachments kept so far.  It is undefined where a null string is converted to a
`std::string`. -/
def valid_loop (all_atlas : List String) : List Json → List Json → Option (List Json)
  | [], validAttachment => some validAttachment
  | attachment :: rest, validAttachment =>
    if all_atlas = [] then valid_loop all_atlas rest (validAttachment ++ [attachment])
    else do
      let typeString ← Json_getString attachment "type" (some "region")
      if typeString = "region" ∨ typeString = "mesh" ∨ typeString = "linkedmesh" then do
        let attachmentName ← Json_getString attachment "name" attachment.name
        if attachmentName ∈ all_atlas then
          valid_loop all_atlas rest (validAttachment ++ [attachment])
        else valid_loop all_atlas rest validAttachment
      else valid_loop all_atlas rest (validAttachment ++ [attachment])

/-- The chain of tests of `parse_skin` that sets `spAttachmentType`. -/
def attachment_type (typeString : String) : Int :=
  if typeString = "mesh" then 2
  else if typeString = "linkedmesh" then 3
  else if typeString = "boundingbox" then 1
  else if typeString = "path" then 4
  else if typeString = "clipping" then 6
  else 0

/-- The statement `if (attachmentPath) push_string(attachmentPath); else
push_varint(0, 1);`, also used for the skin of a linked mesh. -/
def push_string_or_zero (wide : WideShift) (str : Option String) : M Unit :=
  match str with
  | some p => push_string wide (some p)
  | none => push_varint wide 0 true

/-- The chain of tests on `spAttachmentType` in the loop of `parse_skin` over
`validAttachment`: the payload of one attachment, written after its type byte. -/
def push_payload (wide : WideShift) (slots : List String) (attachment : Json)
    (attachmentPath : Option String) (spAttachmentType : Int) : M Unit :=
  if spAttachmentType = 0 then do
    push_string_or_zero wide attachmentPath
    push_float (Json_getFloat attachment "rotation" 0)
    push_float (Json_getFloat attachment "x" 0)
    push_float (Json_getFloat attachment "y" 0)
    push_float (Json_getFloat attachment "scaleX" f32_one)
    push_float (Json_getFloat attachment "scaleY" f32_one)
    push_float (Json_getFloat attachment "width" f32_32)
    push_float (Json_getFloat attachment "height" f32_32)
    push_color (Json_getString attachment "color" none)
  else if spAttachmentType = 1 then do
    let vertexCount := shl1 (Json_getInt attachment "vertexCount" 0)
    push_varint wide vertexCount true
    let vertices := Json_getItem attachment "vertices"
    push_vertices wide vertices vertexCount
  else if spAttachmentType = 2 then do
    push_string_or_zero wide attachmentPath
    push_color (Json_getString attachment "color" none)
    let uvs ← defined (Json_getItem attachment "uvs")
    let verticesLength := uvs.size
    push_varint wide (verticesLength / 2) true
    forEach uvs.child fun uv => push_float uv.valueFloat
    let triangles ← defined (Json_getItem attachment "triangles")
    push_varint wide triangles.size true
    forEach triangles.child fun triangle => do
      let v := toU16 triangle.valueInt
      push_byte ((v >>> 8 : Nat) : Int)
      push_byte ((v &&& 0xff : Nat) : Int)
    let vertices := Json_getItem attachment "vertices"
    push_vertices wide vertices verticesLength
    push_varint wide (Json_getInt attachment "hull" 0 / 2) true
  else if spAttachmentType = 3 then do
    push_string_or_zero wide attachmentPath
    push_color (Json_getString attachment "color" none)
    let skin := Json_getString attachment "skin" none
    push_string_or_zero wide skin
    push_string wide attachment.valueString
    let deform := Json_getInt attachment "deform" 1
    push_boolen deform
  else if spAttachmentType = 4 then do
    push_boolen (Json_getInt attachment "closed" 0)
    push_boolen (Json_getInt attachment "constantSpeed" 0)
    let vertexCount := Json_getInt attachment "vertexCount" 0
    push_varint wide vertexCount true
    let vertices := Json_getItem attachment "vertices"
    push_vertices wide vertices (shl1 vertexCount)
    let lengths ← defined (Json_getItem attachment "lengths")
    forEach lengths.child fun length => push_float length.valueFloat
  else if spAttachmentType = 5 then do
    push_float (Json_getFloat attachment "x" 0)
    push_float (Json_getFloat attachment "y" 0)
    push_float (Json_getFloat attachment "rotation" 0)
  else if spAttachmentType = 6 then do
    let endName := Json_getString attachment "end" none
    match endName with
    | some e =>
      if find_string slots e ≠ -1 then push_varint wide (find_string slots e) true
      else push_varint wide 0 true
    | none => push_varint wide 0 true
    let vertexCount := Json_getInt attachment "vertexCount" 0
    push_varint wide vertexCount true
    let vertices := Json_getItem attachment "vertices"
    push_vertices wide vertices (shl1 vertexCount)
  else pure ()

/-- The body of the loop of `parse_skin` over `validAttachment`: one attachment. -/
def push_attachment (wide : WideShift) (slots : List String) (attachment : Json) :
    M Unit := do
  let attachmentName := Json_getString attachment "name" attachment.name
  push_string wide attachment.name
  push_string wide attachmentName
  let attachmentPath := Json_getString attachment "path" none
  let typeString ← defined (Json_getString attachment "type" (some "region"))
  let spAttachmentType := attachment_type typeString
  push_byte spAttachmentType
  push_payload wide slots attachment attachmentPath spAttachmentType

/-- The current value of the file-scope set `all_atlas`. -/
def read_atlas : M (List String) := fun s => Res.ok s.all_atlas s

/-- The body of the outer loop of `parse_skin`: the entry of one slot. -/
def push_skin_entry (wide : WideShift) (slots : List String) (attachments : Json) :
    M Unit := do
  let slot ← resolve_string slots (← defined attachments.name) (-1)
  push_varint wide slot true
  let all_atlas ← read_atlas
  let validAttachment ← defined (valid_loop all_atlas attachments.child [])
  push_varint wide validAttachment.length true
  forEach validAttachment (push_attachment wide slots)

/-- `parse_skin(Json *skin, vector<string> slots)`. -/
def parse_skin (wide : WideShift) (skin : Json) (slots : List String) : M Int := do
  push_varint wide skin.size true
  if skin.size = 0 then ret 0
  forEach skin.child (push_skin_entry wide slots)
  ret 0

/-! ## Animations -/

/-- `push_curve(Json* curve)`. -/
def push_curve (curve : Option Json) : M Unit :=
  match curve with
  | none => push_byte 0
  | some c => do
    let stepped ←
      if c.type = JsonType.String then do
        let v ← defined c.valueString
        pure (decide (v = "stepped"))
      else pure false
    if stepped then push_byte 1
    else if c.type = JsonType.Array then do
      push_byte 2
      match c.child with
      | child0 :: child1 :: child2 :: child3 :: _ => do
        push_float child0.valueFloat
        push_float child1.valueFloat
        push_float child2.valueFloat
        push_float child3.valueFloat
      | _ => crash
    else push_byte 0

/-- The statement `if (valueMap->next) push_curve(Json_getItem(valueMap, "curve"));`. -/
def curve_if_next (valueMap : Json) (next : Bool) : M Unit :=
  if next then push_curve (Json_getItem valueMap "curve") else pure ()

/-- The body of the loop over the frames of a `color` timeline. -/
def color_frame (valueMap : Json) (next : Bool) : M Unit := do
  push_float (Json_getFloat valueMap "time" 0)
  push_color (Json_getString valueMap "color" none)
  curve_if_next valueMap next

/-- The body of the loop over the frames of a `twoColor` timeline. -/
def two_color_frame (valueMap : Json) (next : Bool) : M Unit := do
  push_float (Json_getFloat valueMap "time" 0)
  push_color (Json_getString valueMap "light" none)
  push_color (Json_getString valueMap "dark" none)
  curve_if_next valueMap next

/-- The body of the loop over the frames of a `rotate` timeline. -/
def rotate_frame (valueMap : Json) (next : Bool) : M Unit := do
  push_float (Json_getFloat valueMap "time" 0)
  push_float (Json_getFloat valueMap "angle" 0)
  curve_if_next valueMap next

/-- The body of the loop over the frames of a `translate`, `scale` or `shear`
timeline. -/
def translate_frame (valueMap : Json) (next : Bool) : M Unit := do
  push_float (Json_getFloat valueMap "time" 0)
  push_float (Json_getFloat valueMap "x" 0)
  push_float (Json_getFloat valueMap "y" 0)
  curve_if_next valueMap next

/-- The body of the loop over the frames of a `position` or `spacing` timeline
of a path constraint. -/
def path_value_frame (timelineName : String) (valueMap : Json) (next : Bool) : M Unit := do
  push_float (Json_getFloat valueMap "time" 0)
  push_float (Json_getFloat valueMap timelineName 0)
  curve_if_next valueMap next

/-- The body of the loop over the frames of a `mix` timeline of a path
constraint. -/
def path_mix_frame (valueMap : Json) (next : Bool) : M Unit := do
  push_float (Json_getFloat valueMap "time" 0)
  push_float (Json_getFloat valueMap "rotateMix" f32_one)
  push_float (Json_getFloat valueMap "translateMix" f32_one)
  curve_if_next valueMap next

/-- The body of the loop over the frames of the timeline of an IK constraint. -/
def ik_frame (valueMap : Json) (next : Bool) : M Unit := do
  push_float (Json_getFloat valueMap "time" 0)
  push_float (Json_getFloat valueMap "mix" f32_one)
  push_byte (if Json_getInt valueMap "bendPositive" 1 ≠ 0 then 1 else -1)
  curve_if_next valueMap next

/-- The body of the loop over the frames of the timeline of a transform
constraint. -/
def transform_frame (valueMap : Json) (next : Bool) : M Unit := do
  push_float (Json_getFloat valueMap "time" 0)
  push_float (Json_getFloat valueMap "rotateMix" f32_one)
  push_float (Json_getFloat valueMap "translateMix" f32_one)
  push_float (Json_getFloat valueMap "scaleMix" f32_one)
  push_float (Json_getFloat valueMap "shearMix" f32_one)
  curve_if_next valueMap next

/-- The slot timelines of `parse_animation`: the body of the loop over the
timelines of one slot. -/
def slot_timeline (wide : WideShift) (timelineMap : Json) : M Unit := do
  let name ← defined timelineMap.name
  if name = "attachment" then do
    push_byte 0
    push_varint wide timelineMap.size true
    forEach timelineMap.child fun valueMap => do
      push_float (Json_getFloat valueMap "time" 0)
      push_string wide (Json_getString valueMap "name" (some ""))
  else if name = "color" then do
    push_byte 1
    push_varint wide timelineMap.size true
    forFrames timelineMap.child color_frame
  else if name = "twoColor" then do
    push_byte 2
    push_varint wide timelineMap.size true
    forFrames timelineMap.child two_color_frame
  else ret (-2)

/-- The bone timelines of `parse_animation`: the body of the loop over the
timelines of one bone. -/
def bone_timeline (wide : WideShift) (timelineMap : Json) : M Unit := do
  let name ← defined timelineMap.name
  if name = "rotate" then do
    push_byte 0
    push_varint wide timelineMap.size true
    forFrames timelineMap.child rotate_frame
  else do
    if name = "scale" then push_byte 2
    else if name = "translate" then push_byte 1
    else if name = "shear" then push_byte 3
    else ret (-4)
    push_varint wide timelineMap.size true
    forFrames timelineMap.child translate_frame

/-- The path constraint timelines of `parse_animation`: the body of the loop
over the timelines of one constraint. -/
def path_timeline (wide : WideShift) (timelineMap : Json) : M Unit := do
  let timelineName ← defined timelineMap.name
  if timelineName = "position" ∨ timelineName = "spacing" then do
    if timelineName = "position" then push_byte 0 else push_byte 1
    push_varint wide timelineMap.size true
    forFrames timelineMap.child (path_value_frame timelineName)
  else if timelineName = "mix" then do
    push_byte 2
    push_varint wide timelineMap.size true
    forFrames timelineMap.child path_mix_frame
  else ret (-8)

/-- The deform timelines of `parse_animation`: the body of the loop over the
frames of one timeline. -/
def deform_frame (wide : WideShift) (valueMap : Json) (next : Bool) : M Unit := do
  push_float (Json_getFloat valueMap "time" 0)
  let vertices := Json_getItem valueMap "vertices"
  match vertices with
  | none => push_varint wide 0 true
  | some vertices => do
    push_varint wide vertices.size true
    let start := Json_getInt valueMap "offset" 0
    push_varint wide start true
    forEach vertices.child fun vertex => push_float vertex.valueFloat
  curve_if_next valueMap next

/-- The draw order timeline of `parse_animation`: the body of the loop over
the `offsets` of one frame. -/
def offset_entry (wide : WideShift) (vcSlots : List String) (offsetMap : Json) : M Unit := do
  let slotIndex ← resolve_string vcSlots (← defined (Json_getString offsetMap "slot" none))
    (-11)
  push_varint wide slotIndex true
  push_varint wide (Json_getInt offsetMap "offset" 0) true

/-- The event timeline of `parse_animation`: the body of the loop over the
event frames. -/
def event_frame (wide : WideShift) (vcEvents : List EventData) (valueMap : Json) :
    M Unit := do
  let name := Json_getString valueMap "name" none
  match name with
  | none => ret (-12)
  | some name => do
    push_float (Json_getFloat valueMap "time" 0)
    let eventIndex ← resolve_event vcEvents name (-13)
    push_varint wide eventIndex true
    let event ← defined (vcEvents.get? eventIndex.toNat)
    push_varint wide (Json_getInt valueMap "int" event.intValue) false
    push_float (Json_getFloat valueMap "float" event.floatValue)
    let str := Json_getString valueMap "string" none
    push_boolen (if str.isSome then 1 else 0)
    match str with
    | some str => push_string wide (some str)
    | none => pure ()

/-- `parse_animation(animation, vcSlots, vcBones, vcIK, vcTransform, vcPaths,
vcSkins, vcEvents)`.  The line it prints on the standard output is left out. -/
def parse_animation (wide : WideShift) (animation : Json) (vcSlots : List String)
    (vcBones : List BoneData) (vcIK vcTransform vcPaths vcSkins : List String)
    (vcEvents : List EventData) : M Int := do
  -- Slot timelines.
  let slots := Json_getItem animation "slots"
  push_varint wide (sizeOrZero slots) true
  forEach (children slots) fun slotMap => do
    let slotIndex ← resolve_string vcSlots (← defined slotMap.name) (-1)
    push_varint wide slotIndex true
    push_varint wide slotMap.size true
    forEach slotMap.child (slot_timeline wide)
  -- Bone timelines.
  let bones := Json_getItem animation "bones"
  push_varint wide (sizeOrZero bones) true
  forEach (children bones) fun boneMap => do
    let boneIndex ← resolve_bone vcBones (← defined boneMap.name) (-3)
    push_varint wide boneIndex true
    push_varint wide boneMap.size true
    forEach boneMap.child (bone_timeline wide)
  -- IK constraint timelines.
  let ik := Json_getItem animation "ik"
  push_varint wide (sizeOrZero ik) true
  forEach (children ik) fun ikMap => do
    let ikIndex ← resolve_string vcIK (← defined ikMap.name) (-5)
    push_varint wide ikIndex true
    push_varint wide ikMap.size true
    forFrames ikMap.child ik_frame
  -- Transform constraint timelines.
  let transform := Json_getItem animation "transform"
  push_varint wide (sizeOrZero transform) true
  forEach (children transform) fun transMap => do
    let index ← resolve_string vcTransform (← defined transMap.name) (-6)
    push_varint wide index true
    push_varint wide transMap.size true
    forFrames transMap.child transform_frame
  -- Path constraint timelines.
  let paths := Json_getItem animation "paths"
  push_varint wide (sizeOrZero paths) true
  forEach (children paths) fun pathMap => do
    let pathIndex ← resolve_string vcPaths (← defined pathMap.name) (-7)
    push_varint wide pathIndex true
    push_varint wide pathMap.size true
    forEach pathMap.child (path_timeline wide)
  -- Deform timelines.
  let deform := Json_getItem animation "deform"
  push_varint wide (sizeOrZero deform) true
  forEach (children deform) fun deformMap => do
    let skinIndex ← resolve_string vcSkins (← defined deformMap.name) (-9)
    push_varint wide skinIndex true
    push_varint wide deformMap.size true
    forEach deformMap.child fun slotMap => do
      let slotIndex ← resolve_string vcSlots (← defined slotMap.name) (-10)
      push_varint wide slotIndex true
      push_varint wide slotMap.size true
      forEach slotMap.child fun timelineMap => do
        push_string wide timelineMap.name
        push_varint wide timelineMap.size true
        forFrames timelineMap.child (deform_frame wide)
  -- Draw order timeline.
  let drawOrder := Json_getItem animation "drawOrder"
  push_varint wide (sizeOrZero drawOrder) true
  forEach (children drawOrder) fun valueMap => do
    push_float (Json_getFloat valueMap "time" 0)
    let offsets := Json_getItem valueMap "offsets"
    push_varint wide (sizeOrZero offsets) true
    forEach (children offsets) (offset_entry wide vcSlots)
  -- Event timeline.
  let events := Json_getItem animation "events"
  push_varint wide (sizeOrZero events) true
  forEach (children events) (event_frame wide vcEvents)
  ret 0

/-! ## The driver -/

/-- Whether `needle` occurs in `hay` as a run of consecutive characters:
`hay.find(needle) != npos`. -/
def contains_sub (needle : List Char) : List Char → Bool
  | [] => needle.isEmpty
  | c :: rest => needle.isPrefixOf (c :: rest) || contains_sub needle rest

/-- The characters `json[i], ..., json[i + n - 1]` that `string head(json, n)`
copies; undefined when they reach past the terminator. -/
def read_chars (json : String) : Nat → Nat → Option (List Char)
  | 0, _ => some []
  | n + 1, i => do
    let c ← charAt json i
    let rest ← read_chars json n (i + 1)
    pure (c :: rest)

/-- The body of the loop of the driver over the bones: the record of the bone
at index `i`. -/
def push_bone (wide : WideShift) (i : Nat) (bone : BoneData) : M Unit := do
  push_string wide (some bone.name)
  if i > 0 then push_varint wide bone.parent true
  push_float bone.rotation
  push_float bone.x
  push_float bone.y
  push_float bone.scaleX
  push_float bone.scaleY
  push_float bone.shearX
  push_float bone.shearY
  push_float bone.length
  push_varint wide bone.mode true

/-- The loop of the driver over the bones `vcBones[i], vcBones[i + 1], ...`. -/
def push_bones (wide : WideShift) : List BoneData → Nat → M Unit
  | [], _ => pure ()
  | bone :: rest, i => do
    push_bone wide i bone
    push_bones wide rest (i + 1)

/-- The statements of the driver that set `blendMode`. -/
def blend_mode (blend : Option Json) : M Int :=
  match blend with
  | none => pure 0
  | some b => do
    let v ← defined b.valueString
    if v = "additive" then pure 1
    else if v = "multiply" then pure 2
    else if v = "screen" then pure 3
    else pure 0

/-- The body of the loop of the driver over the slots; the result is `vcSlots`
after the `push_back`. -/
def push_slot (wide : WideShift) (vcBones : List BoneData) (vcSlots : List String)
    (slot : Json) : M (List String) := do
  let name := Json_getString slot "name" (some "")
  push_string wide name
  let vcSlots1 := vcSlots ++ [← defined name]
  let boneName ← defined (Json_getString slot "bone" (some ""))
  let boneIndex ← resolve_bone vcBones boneName (-10)
  push_varint wide boneIndex true
  let color := Json_getString slot "color" none
  push_color color
  let dark := Json_getString slot "dark" none
  push_color dark
  let attachment := Json_getString slot "attachment" (some "")
  push_string wide attachment
  let blend := Json_getItem slot "blend"
  let blendMode ← blend_mode blend
  push_varint wide blendMode true
  pure vcSlots1

/-- The loop over the `bones` array of a constraint: every bone is resolved
with `find_bone` and written; `code` is returned for an unknown bone. -/
def push_constraint_bones (wide : WideShift) (vcBones : List BoneData) (code : Int)
    (bones : Json) : M Unit :=
  forEach bones.child fun bone => do
    let boneIndex ← resolve_bone vcBones (← defined bone.valueString) code
    push_varint wide boneIndex true

/-- The body of the loop of the driver over the IK constraints. -/
def push_ik (wide : WideShift) (vcBones : List BoneData) (vcIK : List String)
    (ikMap : Json) : M (List String) := do
  push_string wide (Json_getString ikMap "name" (some ""))
  let vcIK1 := vcIK ++ [← defined (Json_getString ikMap "name" (some ""))]
  push_varint wide (Json_getInt ikMap "order" 0) true
  let bones := Json_getItem ikMap "bones"
  match bones with
  | none => ret (-11)
  | some bones => do
    push_varint wide bones.size true
    push_constraint_bones wide vcBones (-12) bones
    let targetName ← defined (Json_getString ikMap "target" (some ""))
    let boneIndex ← resolve_bone vcBones targetName (-13)
    push_varint wide boneIndex true
    push_float (Json_getFloat ikMap "mix" f32_one)
    push_float (if Json_getInt ikMap "bendPositive" 1 ≠ 0 then f32_one else f32_neg_one)
    pure vcIK1

/-- The body of the loop of the driver over the transform constraints. -/
def push_transform (wide : WideShift) (vcBones : List BoneData) (vcTransform : List String)
    (transformMap : Json) : M (List String) := do
  push_string wide (Json_getString transformMap "name" (some ""))
  let vcTransform1 := vcTransform ++ [← defined (Json_getString transformMap "name" (some ""))]
  push_varint wide (Json_getInt transformMap "order" 0) true
  let bones := Json_getItem transformMap "bones"
  match bones with
  | none => ret (-15)
  | some bones => do
    push_varint wide bones.size true
    push_constraint_bones wide vcBones (-15) bones
    let targetName ← defined (Json_getString transformMap "target" (some ""))
    let boneIndex ← resolve_bone vcBones targetName (-16)
    push_varint wide boneIndex true
    push_boolen (Json_getInt transformMap "local" 0)
    push_boolen (Json_getInt transformMap "relative" 0)
    push_float (Json_getFloat transformMap "rotation" 0)
    push_float (Json_getFloat transformMap "x" 0)
    push_float (Json_getFloat transformMap "y" 0)
    push_float (Json_getFloat transformMap "scaleX" 0)
    push_float (Json_getFloat transformMap "scaleY" 0)
    push_float (Json_getFloat transformMap "shearY" 0)
    push_float (Json_getFloat transformMap "rotateMix" f32_one)
    push_float (Json_getFloat transformMap "translateMix" f32_one)
    push_float (Json_getFloat transformMap "scaleMix" f32_one)
    push_float (Json_getFloat transformMap "shearMix" f32_one)
    pure vcTransform1

/-- The body of the loop of the driver over the path constraints. -/
def push_path (wide : WideShift) (vcBones : List BoneData) (vcSlots vcPaths : List String)
    (pathMap : Json) : M (List String) := do
  push_string wide (Json_getString pathMap "name" (some ""))
  let vcPaths1 := vcPaths ++ [← defined (Json_getString pathMap "name" (some ""))]
  push_varint wide (Json_getInt pathMap "order" 0) true
  let bones := Json_getItem pathMap "bones"
  match bones with
  | none => ret (-17)
  | some bones => do
    push_varint wide bones.size true
    push_constraint_bones wide vcBones (-18) bones
    let targetName ← defined (Json_getString pathMap "target" (some ""))
    let slotIndex ← resolve_string vcSlots targetName (-19)
    push_varint wide slotIndex true
    let positionMode ← defined (Json_getString pathMap "positionMode" (some "percent"))
    if positionMode = "fixed" then push_varint wide 0 true
    else push_varint wide 1 true
    let spacingMode ← defined (Json_getString pathMap "spacingMode" (some "length"))
    if spacingMode = "fixed" then push_varint wide 1 true
    else if spacingMode = "percent" then push_varint wide 2 true
    else push_varint wide 0 true
    let rotateMode ← defined (Json_getString pathMap "rotateMode" (some "tangent"))
    if rotateMode = "chain" then push_varint wide 1 true
    else if rotateMode = "chainScale" then push_varint wide 2 true
    else push_varint wide 0 true
    push_float (Json_getFloat pathMap "rotation" 0)
    push_float (Json_getFloat pathMap "position" 0)
    push_float (Json_getFloat pathMap "spacing" 0)
    push_float (Json_getFloat pathMap "rotateMix" f32_one)
    push_float (Json_getFloat pathMap "translateMix" f32_one)
    pure vcPaths1

/-- The loop of the driver that looks for the default skin: the first skin
named `default`, null when there is none.  It is undefined when it meets a skin
without a name first. -/
def find_default : List Json → Option (Option Json)
  | [] => some none
  | skin :: rest =>
    match skin.name with
    | none => none
    | some n => if n = "default" then some (some skin) else find_default rest

/-- The body of the loop of the driver over the named skins; the result is
`vcSkins` afterwards. -/
def push_named_skin (wide : WideShift) (vcSlots vcSkins : List String) (skin : Json) :
    M (List String) := do
  let name ← defined skin.name
  if name ≠ "default" then do
    let vcSkins1 := vcSkins ++ [name]
    push_string wide skin.name
    call_checked (-200) (parse_skin wide skin vcSlots)
    pure vcSkins1
  else pure vcSkins

/-- The body of the loop of the driver over the events; the result is
`vcEvents` afterwards. -/
def push_event (wide : WideShift) (vcEvents : List EventData) (eventMap : Json) :
    M (List EventData) := do
  let name ← defined eventMap.name
  let intValue := Json_getInt eventMap "int" 0
  let floatValue := Json_getFloat eventMap "float" 0
  let stringValue ← defined (Json_getString eventMap "string" none)
  let ed : EventData :=
    { name := name, intValue := intValue, floatValue := floatValue, stringValue := stringValue }
  let vcEvents1 := vcEvents ++ [ed]
  push_string wide (some ed.name)
  push_varint wide ed.intValue false
  push_float ed.floatValue
  push_string wide (some ed.stringValue)
  pure vcEvents1

/-- The test `if (!node || node->size == 0) return code;` of the driver (for the
skins `node->size <= 0`, which is the same for a count of children). -/
def require_items (node : Option Json) (code : Int) : M Json :=
  match node with
  | none => ret code
  | some j => if j.size ≤ 0 then ret code else pure j

/-- The skins block of the driver, on the `skins` node: the unnamed block of
the default skin when there is one, the count, and the named skins; the result
is `vcSkins`. -/
def push_skins (wide : WideShift) (vcSlots : List String) (skins : Json) :
    M (List String) := do
  let defaultSkin ← defined (find_default skins.child)
  let vcSkins0 ←
    match defaultSkin with
    | some defaultSkin => do
      call_checked (-100) (parse_skin wide defaultSkin vcSlots)
      pure ["default"]
    | none => pure []
  push_varint wide (skins.size - 1) true
  forAcc skins.child vcSkins0 (push_named_skin wide vcSlots)

/-- The body of the loop of the driver over the animations. -/
def push_animation (wide : WideShift) (vcSlots : List String) (vcBones : List BoneData)
    (vcIK vcTransform vcPaths vcSkins : List String) (vcEvents : List EventData)
    (aniMap : Json) : M Unit := do
  push_string wide aniMap.name
  call_checked (-300) (parse_animation wide aniMap vcSlots vcBones vcIK vcTransform vcPaths
    vcSkins vcEvents)

/-- The statements of the driver from the `width` of the skeleton to the last
animation, on the parse tree `root` and its `skeleton` object. -/
def convert_stages (wide : WideShift) (root skeleton : Json) : M Unit := do
  let width := Json_getFloat skeleton "width" 0
  push_float width
  let height := Json_getFloat skeleton "height" 0
  push_float height
  push_boolen 0
  -- bones
  let bones ← require_items (Json_getItem root "bones") (-8)
  let vcBones ← defined (process_bones bones)
  push_varint wide vcBones.length true
  push_bones wide vcBones 0
  -- Slots
  let slots ← require_items (Json_getItem root "slots") (-9)
  push_varint wide slots.size true
  let vcSlots ← forAcc slots.child [] (push_slot wide vcBones)
  -- IK constraints.
  let ik := Json_getItem root "ik"
  push_varint wide (sizeOrZero ik) true
  let vcIK ← forAcc (children ik) [] (push_ik wide vcBones)
  -- Transform constraints.
  let transform := Json_getItem root "transform"
  push_varint wide (sizeOrZero transform) true
  let vcTransform ← forAcc (children transform) [] (push_transform wide vcBones)
  -- Path constraints
  let path := Json_getItem root "path"
  push_varint wide (sizeOrZero path) true
  let vcPaths ← forAcc (children path) [] (push_path wide vcBones vcSlots)
  -- Skins.
  let skins ← require_items (Json_getItem root "skins") (-20)
  let vcSkins ← push_skins wide vcSlots skins
  -- Events.
  let events := Json_getItem root "events"
  push_varint wide (sizeOrZero events) true
  let vcEvents ← forAcc (children events) [] (push_event wide)
  -- Animations.
  let animations := Json_getItem root "animations"
  push_varint wide (sizeOrZero animations) true
  forEach (children animations)
    (push_animation wide vcSlots vcBones vcIK vcTransform vcPaths vcSkins vcEvents)

/-- The statements of the driver from the skeleton header to the last
animation, on the parse tree `root`. -/
def convert_body (wide : WideShift) (root : Json) : M Unit := do
  -- skeleton
  let skeleton := Json_getItem root "skeleton"
  match skeleton with
  | none => ret (-5)
  | some skeleton => do
    let hash := Json_getString skeleton "hash" (some "")
    if hash.isNone then ret (-6)
    push_string wide hash
    let version := Json_getString skeleton "spine" (some "")
    if version.isNone then ret (-7)
    push_string wide version
    convert_stages wide root skeleton

/-- The statement `return buff_pos;`, which converts the `unsigned int` write
position to the `int` result. -/
def return_pos : M Int := fun s => Res.ret (toI32 s.buff_pos) s

/-- The statements of the driver from the skeleton header on, on the parse
tree `root`. -/
def convert_root (wide : WideShift) (root : Json) : M Int := do
  convert_body wide root
  return_pos

/-- `convert_json_to_binary(json, len, outBuff, atlas)`.  `root` is the parse
tree that `Json_create(json)` returns, null when the text cannot be parsed.  The
output buffer is the field `buff_data` of the final state. -/
def convert_json_to_binary (wide : WideShift) (json : String) (len : Nat)
    (root : Option Json) (atlas : Option String) : M Int := do
  (fun s => Res.ok () { s with buff_data := [], lookups := [] } : M Unit)
  if len < 16 then ret (-1)
  if (← defined (charAt json 0)) ≠ '{' then ret (-2)
  let head ← defined (read_chars json 18 0)
  if !contains_sub "\"skeleton\"".toList head then ret (-3)
  match root with
  | none => ret (-4)
  | some root => do
    (fun s => Res.ok () { s with all_atlas := [] } : M Unit)
    match atlas with
    | some atlas => parse_atlas atlas
    | none => pure ()
    convert_root wide root

/-! ## Reference notions used in the statements -/

/-- The value a Spine varint reader recovers from the bytes of one varint: the
sum of `(byte & 0x7F) * 2^(7 i)` over the bytes, low group first. -/
def varint_value : List Nat → Nat
  | [] => 0
  | b :: rest => (b &&& 0x7F) + 128 * varint_value rest

/-- The zig-zag inverse of the reader, `(u >>> 1) ^ -(u & 1)` on 32 bits. -/
def unzigzag32 (u : Nat) : Nat :=
  (u >>> 1) ^^^ (if u &&& 1 = 0 then 0 else 4294967295)

/-- The value of a hexadecimal digit, upper or lower case; `none` for any other
character. -/
def hexDigit (c : Char) : Option Nat :=
  let n := c.toNat
  if 48 ≤ n ∧ n ≤ 57 then some (n - 48)
  else if 65 ≤ n ∧ n ≤ 70 then some (n - 55)
  else if 97 ≤ n ∧ n ≤ 102 then some (n - 87)
  else none

/-- The effect of a statement on the file-scope state. -/
inductive Eff (α : Type) where
  | ok (a : α) (bs : List Nat) (ls : List Lookup) : Eff α
  | ret (code : Int) (bs : List Nat) (ls : List Lookup) : Eff α
  | crash : Eff α

/-- The state after the bytes `bs` are stored and the lookups `ls` recorded. -/
def State.extend (s : State) (bs : List Nat) (ls : List Lookup) : State :=
  ⟨s.buff_data ++ bs, s.all_atlas, s.lookups ++ ls⟩

/-- The outcome of a statement that has the effect `e` from the state `s`. -/
def State.apply {α : Type} (s : State) : Eff α → Res α
  | Eff.ok a bs ls => Res.ok a (s.extend bs ls)
  | Eff.ret c bs ls => Res.ret c (s.extend bs ls)
  | Eff.crash => Res.crash

/-- A lookup that found its name. -/
def Lookup.Resolved (l : Lookup) : Prop :=
  ∃ i : Nat, l.index = (i : Int) ∧ i < l.table.length ∧ l.table.get? i = some l.name ∧
    ∀ j, j < i → l.table.get? j ≠ some l.name

/-- An effect whose lookups all found their name, unless it is a `return` of
a negative code. -/
def Eff.Good {α : Type} : Eff α → Prop
  | Eff.ok _ _ ls => ∀ l ∈ ls, l.Resolved
  | Eff.ret c _ ls => 0 ≤ c → ∀ l ∈ ls, l.Resolved
  | Eff.crash => True

/-- The statement `m` has the effect `e` from every state whose atlas set is
`atlas`. -/
def Acts {α : Type} (atlas : List String) (m : M α) (e : Eff α) : Prop :=
  ∀ s : State, s.all_atlas = atlas → m s = s.apply e

/-- A statement that has a definite effect for every atlas set, that is, one
that only appends bytes and lookups and leaves the atlas set alone, and whose
effect is good. -/
structure Sound {α : Type} (m : M α) : Prop where
  effect : ∀ atlas : List String, ∃ e : Eff α, Acts atlas m e ∧ e.Good

/-- The bytes that the statement `m` stores when it is run with the atlas set
`atlas`, up to its completion or its `return`; none when it is undefined. -/
def written {α : Type} (m : M α) (atlas : List String) : List Nat :=
  match m ⟨[], atlas, []⟩ with
  | Res.ok _ s => s.buff_data
  | Res.ret _ s => s.buff_data
  | Res.crash => []

/-- The type of an attachment; an absent `type` counts as `region`.  It is
`none` when `type` is present without being a string. -/
def attachmentType (attachment : Json) : Option String :=
  Json_getString attachment "type" (some "region")

/-- The actual name of an attachment: its `name` field, else its placeholder
key. -/
def actualName (attachment : Json) : Option String :=
  Json_getString attachment "name" attachment.name

/-- Whether the atlas filter applies to a type: region, mesh and linkedmesh. -/
def atlasFiltered (t : String) : Bool :=
  decide (t = "region" ∨ t = "mesh" ∨ t = "linkedmesh")

/-- Whether the atlas set keeps an attachment: its type is not filtered, or
its actual name is in the set. -/
def atlasKeeps (all_atlas : List String) (attachment : Json) : Bool :=
  match attachmentType attachment with
  | none => false
  | some t =>
    if atlasFiltered t then
      match actualName attachment with
      | none => false
      | some n => decide (n ∈ all_atlas)
    else true

/-- Whether the strings the atlas filter reads from an attachment are there:
the type, and the actual name when the type is filtered. -/
def atlasReadable (attachment : Json) : Bool :=
  match attachmentType attachment with
  | none => false
  | some t => if atlasFiltered t then (actualName attachment).isSome else true

/-- Whether a character is a line break, `'\r'` or `'\n'`. -/
def isBreak (c : Char) : Bool := decide (c = '\r' ∨ c = '\n')

/-- The lines of a text: the maximal runs of characters other than line
breaks that are not empty. -/
def textLines (text : List Char) : List (List Char) :=
  (text.splitOnP isBreak).filter fun line => decide (line ≠ [])

/-- The region names of an atlas text in the words of the specification: the
lines that are non-empty and contain no `':'`. -/
def regionNames (text : List Char) : List String :=
  ((textLines text).filter fun line => decide (':' ∉ line)).map String.mk

/-! ## Sample inputs -/

/-- A string member `key: value` of an object. -/
def sampleString (key value : String) : Json :=
  Json.mk (some key) JsonType.String (some value) 0 0 []

/-- An object with the members `members`, under the key `key`. -/
def sampleObject (key : Option String) (members : List Json) : Json :=
  Json.mk key JsonType.Object none 0 0 members

/-- An array with the items `items`, under the key `key`. -/
def sampleArray (key : Option String) (items : List Json) : Json :=
  Json.mk key JsonType.Array none 0 0 items

/-- The bone table of a skeleton whose only bone is `root`. -/
def sampleBones : Option (List BoneData) :=
  process_bones (sampleArray (some "bones") [sampleObject none [sampleString "name" "root"]])

/-- The slot `{"name": "s", "bone": "root"}`, which has no `color`. -/
def sampleSlot : Json :=
  sampleObject none [sampleString "name" "s", sampleString "bone" "root"]

/-- A statement that, from a state with no lookup recorded, either goes on
with no lookup recorded or returns a negative code. -/
structure Preflight {α : Type} (m : M α) : Prop where
  run : ∀ s : State, s.lookups = [] →
    match m s with
    | Res.ok _ s1 => s1.lookups = []
    | Res.ret c _ => c < 0
    | Res.crash => True

/-- A statement that, from a state with no lookup recorded, returns a
non-negative code only when every lookup it has recorded found its name. -/
structure Checked (m : M Int) : Prop where
  run : ∀ (s s1 : State) (c : Int), s.lookups = [] → m s = Res.ret c s1 → 0 ≤ c →
    ∀ l ∈ s1.lookups, l.Resolved

/-- The skeleton `{"skeleton": {"hash": "h", "spine": "3.8"}, "bones": [{"name":
"root"}], "slots": [{"name": "s", "bone": "root"}], "skins": {"default": {}}}`. -/
def sampleSkeleton : Json :=
  sampleObject none [
    sampleObject (some "skeleton") [sampleString "hash" "h", sampleString "spine" "3.8"],
    sampleArray (some "bones") [sampleObject none [sampleString "name" "root"]],
    sampleArray (some "slots") [sampleSlot],
    sampleObject (some "skins") [sampleObject (some "default") []]]

/-- The first characters of a text that passes the tests of the driver on the
text. -/
def sampleText : String := "\x7b\"skeleton\":\x7b\"hash\":\"h\"\x7d\x7d"

/-- The bytes that `push_float` stores: the bit pattern, most significant byte
first. -/
def float_bytes (v : Nat) : List Nat :=
  [toU8 ((v >>> 24) &&& 255 : Nat), toU8 ((v >>> 16) &&& 255 : Nat),
    toU8 ((v >>> 8) &&& 255 : Nat), toU8 (v &&& 255 : Nat)]

/-- The bytes that `push_string` stores for a string that is not null. -/
def string_bytes (wide : WideShift) (str : String) : List Nat :=
  varint_loop wide (toU32 ((str.length : Int) + 1)) 5 0 ++ strBytes str

/-- The names of a bone table. -/
def boneNames (vcBones : List BoneData) : List String := vcBones.map fun b => b.name

/-- The bones `root`, `a` with the parent `b`, and `b` with the parent `root`:
the parent of `a` comes after it. -/
def sampleForward : Json :=
  sampleArray (some "bones") [
    sampleObject none [sampleString "name" "root"],
    sampleObject none [sampleString "name" "a", sampleString "parent" "b"],
    sampleObject none [sampleString "name" "b", sampleString "parent" "root"]]

/-- The skin entry of the slot `s` with the region attachments `head` and
`torso` and the point attachment `pin`. -/
def sampleEntry : Json :=
  sampleObject (some "s") [
    sampleObject (some "head") [],
    sampleObject (some "torso") [],
    sampleObject (some "pin") [sampleString "type" "point"]]

/-- Whether the loop of the driver over the named skins writes a skin: its name
is not `default`. -/
def isNamed (skin : Json) : Bool := decide (skin.name ≠ some "default")

/-- The bytes of the block of a named skin: the name of the skin and then the
body that `parse_skin` writes. -/
def named_block (wide : WideShift) (vcSlots all_atlas : List String) (skin : Json) :
    List Nat :=
  written (push_string wide skin.name) [] ++ written (parse_skin wide skin vcSlots) all_atlas

/-- A skeleton with one bone and one slot and the skins `skins`. -/
def sampleWithSkins (skins : List Json) : Json :=
  sampleObject none [
    sampleObject (some "skeleton") [sampleString "hash" "h", sampleString "spine" "3.8"],
    sampleArray (some "bones") [sampleObject none [sampleString "name" "root"]],
    sampleArray (some "slots") [sampleSlot],
    sampleObject (some "skins") skins]

/-- The skins `{"a": {"s": {"head": {}}}}`: no skin is named `default`. -/
def sampleNoDefault : List Json :=
  [sampleObject (some "a") [sampleObject (some "s") [sampleObject (some "head") []]]]

/-- The skins `{"default": {}, "default": {}}`: two skins are named `default`. -/
def sampleTwoDefaults : List Json :=
  [sampleObject (some "default") [], sampleObject (some "default") []]

/-- The skins `{"default": {}, "a": {"s": {"head": {}}}}`. -/
def sampleTwoSkins : List Json :=
  [sampleObject (some "default") [],
    sampleObject (some "a") [sampleObject (some "s") [sampleObject (some "head") []]]]

/-- The codes that a statement can hand to a `return` all satisfy `P`. -/
structure Returns {α : Type} (P : Int → Prop) (m : M α) : Prop where
  code : ∀ (s s1 : State) (c : Int), m s = Res.ret c s1 → P c

/-- A statement that never falls through to the statement after it: it ends in
a `return`, unless it is undefined. -/
structure Exits {α : Type} (m : M α) : Prop where
  never : ∀ (s s1 : State) (a : α), m s ≠ Res.ok a s1

/-- The codes of the header, bones and slots stage of the driver. -/
def headerCode (c : Int) : Prop := -10 ≤ c ∧ c ≤ -5

/-- The codes of the constraints stage of the driver. -/
def constraintCode (c : Int) : Prop := -19 ≤ c ∧ c ≤ -11

/-- The codes that `parse_skin` returns on a failure. -/
def skinInner (c : Int) : Prop := c = -1

/-- The codes that `parse_animation` returns on a failure. -/
def animationInner (c : Int) : Prop := -13 ≤ c ∧ c ≤ -1

/-- The codes of the skins stage of the driver. -/
def skinCode (c : Int) : Prop :=
  c = -20 ∨ ∃ inner, skinInner inner ∧ (c = -100 + inner ∨ c = -200 + inner)

/-- The codes of the animations stage of the driver. -/
def animationCode (c : Int) : Prop := ∃ inner, animationInner inner ∧ c = -300 + inner

/-- The codes of the failures of the driver after the parse tree is there. -/
def stageCode (c : Int) : Prop :=
  headerCode c ∨ constraintCode c ∨ skinCode c ∨ animationCode c

/-- A skeleton whose `skeleton` object is empty: it has no `hash` and no `spine`
key. -/
def sampleBare : Json :=
  sampleObject none [
    sampleObject (some "skeleton") [],
    sampleArray (some "bones") [sampleObject none [sampleString "name" "root"]],
    sampleArray (some "slots") [sampleSlot],
    sampleObject (some "skins") [sampleObject (some "default") []]]

/-- The value of a string key of an object: the empty string when the key is
absent, the string of the item when it is present with a string. -/
def stringKey (object : Json) (key value : String) : Prop :=
  (Json_getItem object key = none ∧ value = "") ∨
    ∃ item, Json_getItem object key = some item ∧ item.valueString = some value

/-- A key of an object that is present with a value that is not a string. -/
def nonStringKey (object : Json) (key : String) : Prop :=
  ∃ item, Json_getItem object key = some item ∧ item.valueString = none

/-- The bytes that `push_string` stores: the single byte 0 for a null string. -/
def opt_string_bytes (wide : WideShift) : Option String → List Nat
  | none => [0]
  | some str => string_bytes wide str

/-- A number member `key: value` of an object, with the value as an `int` and
as the bit pattern of a `float`. -/
def sampleNumber (key : String) (valueInt : Int) (valueFloat : Nat) : Json :=
  Json.mk (some key) JsonType.Number none valueInt valueFloat []

/-- The point attachment `"pin": {"type": "point", "x": 1, "y": 2, "rotation": 90}`. -/
def samplePoint : Json :=
  sampleObject (some "pin") [sampleString "type" "point", sampleNumber "x" 1 0x3F800000,
    sampleNumber "y" 2 0x40000000, sampleNumber "rotation" 90 0x42B40000]

/-- The linked mesh `"m": {"type": "linkedmesh", "skin": "default", "parent":
"head"}`. -/
def sampleLinked : Json :=
  sampleObject (some "m") [sampleString "type" "linkedmesh", sampleString "skin" "default",
    sampleString "parent" "head"]

/-- A curve record: the tag 0 (linear) or 1 (stepped), or the tag 2 followed by
four floats. -/
def isCurveRecord (record : List Nat) : Prop :=
  record = [0] ∨ record = [1] ∨
    ∃ a b c d, record = 2 :: (float_bytes a ++ float_bytes b ++ float_bytes c ++ float_bytes d)

/-- The bytes of a timeline, from the bytes of its frames and of its curve
records: every frame, each followed by its curve record as long as there is
one. -/
def timeline_bytes (frames curves : List (List Nat)) : List Nat :=
  (List.zipWith (fun frame curve => frame ++ curve) frames (curves ++ [[]])).flatten

/-- The frame bodies of the timelines with curves: color, twoColor, rotate,
translate / scale / shear, IK, transform, path position / spacing, path mix and
deform. -/
def isCurveFrame (wide : WideShift) (body : Json → Bool → M Unit) : Prop :=
  body = color_frame ∨ body = two_color_frame ∨ body = rotate_frame ∨
    body = translate_frame ∨ body = ik_frame ∨ body = transform_frame ∨
    (∃ timelineName, body = path_value_frame timelineName) ∨ body = path_mix_frame ∨
    body = deform_frame wide

/-- The frame `{"time": 1, "color": "ff0000ff", "curve": "stepped"}`. -/
def sampleFrame : Json :=
  sampleObject none [sampleNumber "time" 1 0x3F800000, sampleString "color" "ff0000ff",
    sampleString "curve" "stepped"]

/-- The offset `{"slot": "s", "offset": -1}` of a draw order frame. -/
def sampleOffset : Json :=
  sampleObject none [sampleString "slot" "s", sampleNumber "offset" (-1) 0xBF800000]

/-- The array elements of one group of a weighted vertex: the bone index, x, y
and the weight, as bit patterns of floats. -/
def group_stream (g : Nat × Nat × Nat × Nat) : List Nat := [g.1, g.2.1, g.2.2.1, g.2.2.2]

/-- The array elements of one vertex of a weighted stream: the bone count and
then its groups. -/
def vertex_stream (v : Nat × List (Nat × Nat × Nat × Nat)) : List Nat :=
  v.1 :: (v.2.map group_stream).flatten

/-- A well-formed vertex of a weighted stream: its bone count is the number of
its groups, and the bone index of every group is a float with an `int` value. -/
def wellFormedVertex (v : Nat × List (Nat × Nat × Nat × Nat)) : Prop :=
  f32_to_int v.1 = some (v.2.length : Int) ∧ ∀ g ∈ v.2, (f32_to_int g.1).isSome = true

instance (v : Nat × List (Nat × Nat × Nat × Nat)) : Decidable (wellFormedVertex v) := by
  unfold wellFormedVertex
  infer_instance

/-- The bytes of one group of a weighted vertex: the positive varint of the
bone index and the three floats x, y and weight. -/
def group_bytes (wide : WideShift) (g : Nat × Nat × Nat × Nat) : List Nat :=
  varint_loop wide (toU32 ((f32_to_int g.1).getD 0)) 5 0 ++ float_bytes g.2.1 ++
    float_bytes g.2.2.1 ++ float_bytes g.2.2.2

/-- The bytes of one vertex of a weighted stream: the positive varint of the
bone count and then its groups. -/
def vertex_bytes (wide : WideShift) (v : Nat × List (Nat × Nat × Nat × Nat)) : List Nat :=
  varint_loop wide (toU32 (v.2.length : Int)) 5 0 ++ (v.2.map (group_bytes wide)).flatten

/-- An array of the numbers with the float bit patterns `values`, under the key
`key`. -/
def sampleFloats (key : String) (values : List Nat) : Json :=
  sampleArray (some key) (values.map fun v => Json.mk none JsonType.Number none 0 v [])

/-- Two vertices with one bone each: bone 0 at (1, 2) and bone 1 at (2, 1), both
with the weight 1. -/
def sampleWeighted : List (Nat × List (Nat × Nat × Nat × Nat)) :=
  [(0x3F800000, [(0, 0x3F800000, 0x40000000, 0x3F800000)]),
    (0x3F800000, [(0x3F800000, 0x40000000, 0x3F800000, 0x3F800000)])]

/-- The `vertices` array of a mesh with the ten values of `sampleWeighted`. -/
def sampleVertices : Json :=
  sampleFloats "vertices" (sampleWeighted.map vertex_stream).flatten

/-! ## The output buffer as memory -/

/-- The caller's buffer `outBuff` as memory, with the byte at every offset, and
the `unsigned int` write position `buff_pos`. -/
structure Buffer where
  data : Nat → Nat
  pos : Nat

/-- The assignment `buff_data[i] = v`. -/
def Buffer.store (b : Buffer) (i v : Nat) : Buffer :=
  { b with data := fun j => if j = i then v else b.data j }

/-- The statement `buff_data[buff_pos++] = c`, with the wrapping increment of an
`unsigned int`. -/
def Buffer.put (b : Buffer) (c : Nat) : Buffer :=
  { data := fun j => if j = b.pos then c else b.data j, pos := (b.pos + 1) % 4294967296 }

/-- The statements `memcpy(buff_data + buff_pos, str, len); buff_pos += len;`. -/
def Buffer.copy (b : Buffer) (bytes : List Nat) : Buffer :=
  { data := fun j =>
      if b.pos ≤ j ∧ j < b.pos + bytes.length then bytes.getD (j - b.pos) 0 else b.data j,
    pos := (b.pos + bytes.length) % 4294967296 }

namespace Raw

/-- `push_byte(unsigned char c)` on the memory of the buffer. -/
def push_byte (c : Int) (b : Buffer) : Buffer := b.put (toU8 c)

/-- `push_float(float v)` on the memory of the buffer. -/
def push_float (v : Nat) (b : Buffer) : Buffer :=
  push_byte ((v &&& 255 : Nat) : Int)
    (push_byte (((v >>> 8) &&& 255 : Nat) : Int)
      (push_byte (((v >>> 16) &&& 255 : Nat) : Int)
        (push_byte (((v >>> 24) &&& 255 : Nat) : Int) b)))

/-- The loop of `push_varint` on the memory of the buffer, from iteration `i` on
with `fuel = 5 - i` iterations left: the byte is stored at the write position,
and the continuation bit is set in place at `buff_pos - 1`. -/
def varint_loop (wide : WideShift) (v : Nat) : Nat → Nat → Buffer → Buffer
  | 0, _, b => b
  | fuel + 1, i, b =>
    let b1 := b.put (shr32 wide v (i * 7) &&& 0x7F)
    if shr32 wide v ((i + 1) * 7) ≠ 0 then
      let last := (b1.pos + 4294967295) % 4294967296
      varint_loop wide v fuel (i + 1) (b1.store last (b1.data last ||| 0x80))
    else
      b1

/-- `push_varint(int value, int optimizePositive)` on the memory of the buffer. -/
def push_varint (wide : WideShift) (value : Int) (optimizePositive : Bool) (b : Buffer) :
    Buffer :=
  let v := if optimizePositive then toU32 value else zigzag32 (toU32 value)
  varint_loop wide v 5 0 b

/-- `push_boolen(unsigned char v)` on the memory of the buffer. -/
def push_boolen (v : Int) (b : Buffer) : Buffer := b.put (toU8 v)

/-- `push_string(const char *str)` on the memory of the buffer. -/
def push_string (wide : WideShift) (str : Option String) (b : Buffer) : Buffer :=
  match str with
  | none => push_varint wide 0 true b
  | some s =>
    let len : Int := s.length
    (push_varint wide (len + 1) true b).copy (strBytes s)

/-- One byte of `push_color`, `hex_value(color[i]) << 4 | hex_value(color[i + 1])`;
undefined where it reads past the terminator. -/
def color_value (color : String) (i : Nat) : Option Int :=
  match charAt color i, charAt color (i + 1) with
  | some hi, some lo => some (((hex_value hi <<< 4) ||| hex_value lo : Nat) : Int)
  | _, _ => none

/-- `push_color(const char *color)` on the memory of the buffer. -/
def push_color (color : Option String) (b : Buffer) : Option Buffer :=
  match color with
  | some c => do
    let b1 := push_byte (← color_value c 0) b
    let b2 := push_byte (← color_value c 2) b1
    let b3 := push_byte (← color_value c 4) b2
    pure (push_byte (← color_value c 6) b3)
  | none => some (push_byte 255 (push_byte 255 (push_byte 255 (push_byte 255 b))))

end Raw

/-- The buffer `b1` is the buffer `b` with the bytes `bs` stored at the write
position of `b`: the position has advanced by their number, and no byte below
the old position has changed. -/
structure Buffer.Extends (b b1 : Buffer) (bs : List Nat) : Prop where
  pos : b1.pos = b.pos + bs.length
  below : ∀ i, i < b.pos → b1.data i = b.data i
  stored : ∀ k, k < bs.length → b1.data (b.pos + k) = bs.getD k 0

/-- The memory `b` holds the output `s.buff_data`: the write position is its
length and the bytes below the position are its bytes. -/
def Buffer.Holds (b : Buffer) (s : State) : Prop :=
  b.pos = s.buff_data.length ∧ ∀ i, i < s.buff_data.length → b.data i = s.buff_data.getD i 0

/-- The writer `raw` on the memory of the buffer does what the statement `m`
does on the output, for a write position that stays below 2^32 after `n` more
bytes: either both are undefined, or `m` completes, `raw` leaves every byte
below the position it started from unchanged, does not decrease the position
and advances it by `n` at most, and the memory after `raw` holds the output
after `m`. -/
def Refines (raw : Buffer → Option Buffer) (m : M Unit) (n : Nat) : Prop :=
  ∀ (b : Buffer) (s : State), b.pos + n < 4294967296 → b.Holds s →
    (raw b = none ∧ m s = Res.crash) ∨
    ∃ b1 s1, raw b = some b1 ∧ m s = Res.ok () s1 ∧ b1.Holds s1 ∧ b.pos ≤ b1.pos ∧
      b1.pos ≤ b.pos + n ∧ ∀ i, i < b.pos → b1.data i = b.data i

/-- A buffer with the bytes `fe 00` below the write position 2 and the byte 07
at it. -/
def sampleBuffer : Buffer := ⟨fun i => [254, 0, 7].getD i 0, 2⟩

/-- The bytes of the loop `for (item = array->child; item; item = item->next)
push_float(item->valueFloat);` over the items of an array. -/
def child_floats (array : Json) : List Nat :=
  (array.child.map fun item => float_bytes item.valueFloat).flatten

/-- The bytes of the loop of a mesh over its triangles: the `unsigned short` of
every item, high byte first. -/
def triangle_bytes (triangles : Json) : List Nat :=
  (triangles.child.map fun triangle =>
    [toU8 ((toU16 triangle.valueInt >>> 8 : Nat) : Int),
      toU8 ((toU16 triangle.valueInt &&& 0xff : Nat) : Int)]).flatten

/-- The index that a clipping attachment writes for its `end` slot: the index
of the slot when `end` names one, and 0 otherwise. -/
def clip_end (slots : List String) (attachment : Json) : Int :=
  match Json_getString attachment "end" none with
  | some e => if find_string slots e ≠ -1 then find_string slots e else 0
  | none => 0

/-- The bounding box `"box": {"type": "boundingbox", "vertexCount": 3,
"vertices": []}`, whose `vertices` array is empty. -/
def sampleBox : Json :=
  sampleObject (some "box") [sampleString "type" "boundingbox",
    sampleNumber "vertexCount" 3 0x40400000, sampleArray (some "vertices") []]

/-- The bones `root`, `a` without a `parent` key, `b` with an empty `parent`,
and `c` whose `parent` names no bone. -/
def sampleOrphans : Json :=
  sampleArray (some "bones") [
    sampleObject none [sampleString "name" "root"],
    sampleObject none [sampleString "name" "a"],
    sampleObject none [sampleString "name" "b", sampleString "parent" ""],
    sampleObject none [sampleString "name" "c", sampleString "parent" "nobody"]]

/-- What the caller observes of a call of the driver: the value returned and
the bytes in the output buffer; nothing when the call has no defined behaviour. -/
def observed (r : Res Int) : Option (Int × List Nat) :=
  match r with
  | Res.ok c s => some (c, s.buff_data)
  | Res.ret c s => some (c, s.buff_data)
  | Res.crash => none

/-- A skeleton with one bone and one slot whose default skin has the entry
`sampleEntry`: the regions `head` and `torso` and the point `pin` on the slot
`s`. -/
def sampleFiltered : Json :=
  sampleWithSkins [sampleObject (some "default") [sampleEntry]]

/-- The record of a bone `root` that has no other key: no parent, the scale 1
and every other number 0. -/
def rootBone : BoneData := ⟨"root", 0, "", 0, 0, 0, f32_one, f32_one, 0, 0, 0, 0⟩

/-- The minimal skeleton: a `skeleton` object with the members `members`, the
bone `root` without a parent, the slot `s` on the bone `root`, and a `default`
skin with no entry; no constraints, events or animations. -/
def minimalSkeleton (members : List Json) : Json :=
  sampleObject none [
    sampleObject (some "skeleton") members,
    sampleArray (some "bones") [sampleObject none [sampleString "name" "root"]],
    sampleArray (some "slots") [sampleSlot],
    sampleObject (some "skins") [sampleObject (some "default") []]]

/-- The output for the minimal skeleton: the header (hash, version, width,
height, the byte 0), the bone count 1 and the record of `root` (name, eight
floats, mode), the slot count 1 and the record of `s` (name, bone index 0, the
two colors, the empty attachment name, the blend mode), the counts 0 of the IK,
transform and path constraints, the size 0 of the default skin, the count 0 of
the named skins, and the counts 0 of the events and animations. -/
def minimal_bytes (wide : WideShift) (hash version : String) (width height : Nat) :
    List Nat :=
  (string_bytes wide hash ++ string_bytes wide version ++ float_bytes width ++
      float_bytes height ++ [0]) ++
    ([1] ++ ([5, 114, 111, 111, 116] ++
      [0, 0, 0, 0, 0, 0, 0, 0, 0, 0, 0, 0, 0x3F, 0x80, 0, 0, 0x3F, 0x80, 0, 0,
        0, 0, 0, 0, 0, 0, 0, 0, 0, 0, 0, 0] ++ [0])) ++
    ([1] ++ ([2, 115] ++ [0] ++ [255, 255, 255, 255] ++ [255, 255, 255, 255] ++ [1] ++ [0])) ++
    [0, 0, 0] ++ [0] ++ [0] ++ [0] ++ [0]

/-- The deform frame `{"time": 1, "offset": 5, "vertices": []}`, whose `vertices`
array is empty. -/
def sampleDeformEmpty : Json :=
  sampleObject none [sampleNumber "time" 1 0x3F800000, sampleNumber "offset" 5 0x40A00000,
    sampleArray (some "vertices") []]

/-- The deform frame `{"time": 1, "offset": 5, "vertices": [1, 2]}`. -/
def sampleDeform : Json :=
  sampleObject none [sampleNumber "time" 1 0x3F800000, sampleNumber "offset" 5 0x40A00000,
    sampleFloats "vertices" [0x3F800000, 0x40000000]]

/-- The linked mesh `"m": {"type": "linkedmesh", "deform": 2}`, whose `deform`
is the number 2. -/
def sampleDeformTwo : Json :=
  sampleObject (some "m") [sampleString "type" "linkedmesh", sampleNumber "deform" 2 0x40000000]

/-! ## Notions of the statements on origins, runs and references -/

/-- A node that fails the test of the driver on a required array: it is
absent, or it has no children. -/
def missing (node : Option Json) : Prop := ∀ j, node = some j → j.size ≤ 0

/-- Where a `return` of the driver after the header comes from, for the code
`c` returned in the state `s1` on the parse tree `root`: the stages in their
order, each with the condition on the input that makes it return.  A stage
further down is reached only with the tables of the stages before it there. -/
def stagesOrigin (wide : WideShift) (root : Json) (c : Int) (s1 : State) : Prop :=
  (c = -8 ∧ missing (Json_getItem root "bones")) ∨
  ∃ bones vcBones, Json_getItem root "bones" = some bones ∧ 0 < bones.size ∧
    process_bones bones = some vcBones ∧
    ((c = -9 ∧ missing (Json_getItem root "slots")) ∨
    ∃ slots, Json_getItem root "slots" = some slots ∧ 0 < slots.size ∧
      ((c = -10 ∧ ∃ slot ∈ slots.child, ∃ acc t,
          push_slot wide vcBones acc slot t = Res.ret c s1) ∨
      ∃ vcSlots, (∃ t t1, forAcc slots.child [] (push_slot wide vcBones) t =
          Res.ok vcSlots t1) ∧
        ((-13 ≤ c ∧ c ≤ -11 ∧ ∃ ikMap ∈ children (Json_getItem root "ik"), ∃ acc t,
            push_ik wide vcBones acc ikMap t = Res.ret c s1) ∨
        (-16 ≤ c ∧ c ≤ -15 ∧
          ∃ transformMap ∈ children (Json_getItem root "transform"), ∃ acc t,
            push_transform wide vcBones acc transformMap t = Res.ret c s1) ∨
        (-19 ≤ c ∧ c ≤ -17 ∧ ∃ pathMap ∈ children (Json_getItem root "path"), ∃ acc t,
            push_path wide vcBones vcSlots acc pathMap t = Res.ret c s1) ∨
        (c = -20 ∧ missing (Json_getItem root "skins")) ∨
        ∃ skins, Json_getItem root "skins" = some skins ∧ 0 < skins.size ∧
          ((∃ inner skin t, skinInner inner ∧ c = -100 + inner ∧
              find_default skins.child = some (some skin) ∧
              parse_skin wide skin vcSlots t = Res.ret inner s1) ∨
          (∃ inner skin t, skinInner inner ∧ c = -200 + inner ∧ skin ∈ skins.child ∧
              skin.name ≠ some "default" ∧
              parse_skin wide skin vcSlots t = Res.ret inner s1) ∨
          ∃ inner aniMap vcIK vcTransform vcPaths vcSkins vcEvents t,
            animationInner inner ∧ c = -300 + inner ∧
            aniMap ∈ children (Json_getItem root "animations") ∧
            parse_animation wide aniMap vcSlots vcBones vcIK vcTransform vcPaths vcSkins
              vcEvents t = Res.ret inner s1))))

/-- Where a `return` of the driver after the tests on the text comes from: the
three tests of the header, then the stages. -/
def bodyOrigin (wide : WideShift) (root : Json) (c : Int) (s1 : State) : Prop :=
  (c = -5 ∧ Json_getItem root "skeleton" = none) ∨
  ∃ skeleton, Json_getItem root "skeleton" = some skeleton ∧
    ((c = -6 ∧ Json_getString skeleton "hash" (some "") = none) ∨
    ∃ hash, Json_getString skeleton "hash" (some "") = some hash ∧
      ((c = -7 ∧ Json_getString skeleton "spine" (some "") = none) ∨
      ∃ version, Json_getString skeleton "spine" (some "") = some version ∧
        stagesOrigin wide root c s1))

/-- A text that passes the three tests of the driver on the text: at least 16
characters, an opening brace first, and the quoted token `skeleton` within the
first 18 characters. -/
def passes (json : String) (len : Nat) : Prop :=
  16 ≤ len ∧ charAt json 0 = some '{' ∧
    ∃ head, read_chars json 18 0 = some head ∧
      contains_sub "\"skeleton\"".toList head = true

/-- Where a negative code of `convert_json_to_binary` comes from, for the code
`c` returned in the state `s1`: the tests on the text and the parse tree in
their order, then the header and the stages. -/
def convertOrigin (wide : WideShift) (json : String) (len : Nat) (root : Option Json)
    (c : Int) (s1 : State) : Prop :=
  (c = -1 ∧ len < 16) ∨
  (c = -2 ∧ 16 ≤ len ∧ ∃ ch, charAt json 0 = some ch ∧ ch ≠ '{') ∨
  (c = -3 ∧ 16 ≤ len ∧ charAt json 0 = some '{' ∧
    ∃ head, read_chars json 18 0 = some head ∧
      contains_sub "\"skeleton\"".toList head = false) ∨
  (c = -4 ∧ passes json len ∧ root = none) ∨
  ∃ r, root = some r ∧ passes json len ∧ bodyOrigin wide r c s1

/-- A parse tree without a `skeleton` object: `{}`. -/
def sampleEmptyRoot : Json := sampleObject none []

/-- The skeleton `{"skeleton": {}, "bones": [{"name": "root"}], "slots": [{"name":
"s", "bone": "root"}]}`, which has no `skins`. -/
def sampleNoSkins : Json :=
  sampleObject none [
    sampleObject (some "skeleton") [],
    sampleArray (some "bones") [sampleObject none [sampleString "name" "root"]],
    sampleArray (some "slots") [sampleSlot]]

/-- The state in which the conversion of `sampleNoSkins` returns: the 67 bytes
written up to the path constraints, and the lookup of the bone `root` of the
slot `s`. -/
def sampleNoSkinsState : State :=
  ⟨[1, 1, 0, 0, 0, 0, 0, 0, 0, 0, 0,
    1, 5, 114, 111, 111, 116, 0, 0, 0, 0, 0, 0, 0, 0, 0, 0, 0, 0, 63, 128, 0, 0,
    63, 128, 0, 0, 0, 0, 0, 0, 0, 0, 0, 0, 0, 0, 0, 0, 0,
    1, 2, 115, 0, 255, 255, 255, 255, 255, 255, 255, 255, 1, 0, 0, 0, 0], [],
    [⟨["root"], "root", 0⟩]⟩

/-- The state `s1` continues the state `s`: the atlas set is the same, and the
bytes of `s` are the first bytes of `s1`. -/
def Grows (s s1 : State) : Prop :=
  s1.all_atlas = s.all_atlas ∧ ∃ bs, s1.buff_data = s.buff_data ++ bs

/-- In the course of a run from the state `s` to the state `s1`, the statement
`m` is executed and completes with the value `a`: it starts in a state that
continues `s`, and `s1` continues the state in which it ends, so that the bytes
it stores are part of the bytes of `s1`. -/
def Ran {α : Type} (m : M α) (a : α) (s s1 : State) : Prop :=
  ∃ t t1, m t = Res.ok a t1 ∧ Grows s t ∧ Grows t1 s1

/-- In the course of a run from the state `s` to the state `s1`, the function
body `f` is executed and ends with `return 0;`. -/
def Called (f : M Int) (s s1 : State) : Prop :=
  ∃ t t1, f t = Res.ret 0 t1 ∧ Grows s t ∧ Grows t1 s1

/-- The slot timelines of `parse_animation`: the body of the loop over the
slots. -/
def slot_entry (wide : WideShift) (vcSlots : List String) (slotMap : Json) : M Unit := do
  let slotIndex ← resolve_string vcSlots (← defined slotMap.name) (-1)
  push_varint wide slotIndex true
  push_varint wide slotMap.size true
  forEach slotMap.child (slot_timeline wide)

/-- The bone timelines of `parse_animation`: the body of the loop over the
bones. -/
def bone_entry (wide : WideShift) (vcBones : List BoneData) (boneMap : Json) : M Unit := do
  let boneIndex ← resolve_bone vcBones (← defined boneMap.name) (-3)
  push_varint wide boneIndex true
  push_varint wide boneMap.size true
  forEach boneMap.child (bone_timeline wide)

/-- The IK constraint timelines of `parse_animation`: the body of the loop over
the constraints. -/
def ik_entry (wide : WideShift) (vcIK : List String) (ikMap : Json) : M Unit := do
  let ikIndex ← resolve_string vcIK (← defined ikMap.name) (-5)
  push_varint wide ikIndex true
  push_varint wide ikMap.size true
  forFrames ikMap.child ik_frame

/-- The transform constraint timelines of `parse_animation`: the body of the
loop over the constraints. -/
def transform_entry (wide : WideShift) (vcTransform : List String) (transMap : Json) :
    M Unit := do
  let index ← resolve_string vcTransform (← defined transMap.name) (-6)
  push_varint wide index true
  push_varint wide transMap.size true
  forFrames transMap.child transform_frame

/-- The path constraint timelines of `parse_animation`: the body of the loop
over the constraints. -/
def path_entry (wide : WideShift) (vcPaths : List String) (pathMap : Json) : M Unit := do
  let pathIndex ← resolve_string vcPaths (← defined pathMap.name) (-7)
  push_varint wide pathIndex true
  push_varint wide pathMap.size true
  forEach pathMap.child (path_timeline wide)

/-- The deform timelines of `parse_animation`: the body of the loop over the
timelines of one slot. -/
def deform_timeline (wide : WideShift) (timelineMap : Json) : M Unit := do
  push_string wide timelineMap.name
  push_varint wide timelineMap.size true
  forFrames timelineMap.child (deform_frame wide)

/-- The deform timelines of `parse_animation`: the body of the loop over the
slots of one skin. -/
def deform_slot_entry (wide : WideShift) (vcSlots : List String) (slotMap : Json) :
    M Unit := do
  let slotIndex ← resolve_string vcSlots (← defined slotMap.name) (-10)
  push_varint wide slotIndex true
  push_varint wide slotMap.size true
  forEach slotMap.child (deform_timeline wide)

/-- The deform timelines of `parse_animation`: the body of the loop over the
skins. -/
def deform_entry (wide : WideShift) (vcSkins vcSlots : List String) (deformMap : Json) :
    M Unit := do
  let skinIndex ← resolve_string vcSkins (← defined deformMap.name) (-9)
  push_varint wide skinIndex true
  push_varint wide deformMap.size true
  forEach deformMap.child (deform_slot_entry wide vcSlots)

/-- The draw order timeline of `parse_animation`: the body of the loop over the
frames. -/
def draw_order_frame (wide : WideShift) (vcSlots : List String) (valueMap : Json) :
    M Unit := do
  push_float (Json_getFloat valueMap "time" 0)
  let offsets := Json_getItem valueMap "offsets"
  push_varint wide (sizeOrZero offsets) true
  forEach (children offsets) (offset_entry wide vcSlots)

/-- A reference that is resolved and written in the course of a run from the
state `s` to the state `s1`: the name `name` is there, the statement `m` is
executed and completes in that run, the index `find n` of the name is the
position of the first entry of `table` with that name, and the bytes that `m`
stores are `pre`, then the positive varint of that index, then more bytes. -/
def Site {α : Type} (wide : WideShift) (m : M α) (table : List String)
    (name : Option String) (find : String → Int) (pre : List Nat) (s s1 : State) : Prop :=
  ∃ (n : String) (t : State) (a : α) (t1 : State) (post : List Nat),
    name = some n ∧ Lookup.Resolved ⟨table, n, find n⟩ ∧ m t = Res.ok a t1 ∧
    Grows s t ∧ Grows t1 s1 ∧
    t1.buff_data = t.buff_data ++ pre ++ varint_loop wide (toU32 (find n)) 5 0 ++ post

/-- The body of the loop of `push_constraint_bones`: one bone of the `bones`
array of a constraint. -/
def constraint_bone (wide : WideShift) (vcBones : List BoneData) (code : Int) (bone : Json) :
    M Unit := do
  let boneIndex ← resolve_bone vcBones (← defined bone.valueString) code
  push_varint wide boneIndex true

/-- A timeline with curves that is written in the course of a run from the
state `s` to the state `s1`: the loop over its frames `frames`, with the frame
body `body`, is executed and completes in that run, and the bytes it stores are
the frames, each but the last followed by its curve record, so that there is
one curve record less than there are frames. -/
def Curves (frames : List Json) (body : Json → Bool → M Unit) (s s1 : State) : Prop :=
  ∃ (t t1 : State) (curves : List (List Nat)),
    Grows s t ∧ Grows t1 s1 ∧ forFrames frames body t = Res.ok () t1 ∧
    curves.length = frames.length - 1 ∧ (∀ curve ∈ curves, isCurveRecord curve) ∧
    curves = frames.dropLast.map
      (fun v => written (push_curve (Json_getItem v "curve")) t.all_atlas) ∧
    t1.buff_data = t.buff_data ++
      timeline_bytes (frames.map fun v => written (body v false) t.all_atlas) curves

/-- A color timeline `"color": [...]` with the frames `frames`. -/
def sampleColorTimeline (frames : List Json) : Json :=
  sampleArray (some "color") frames

/-- The frame `{"time": 1, "color": "ff0000ff"}` with the curve `curve`. -/
def sampleColorFrame (curve : List Json) : Json :=
  sampleObject none
    ([sampleNumber "time" 1 0x3F800000, sampleString "color" "ff0000ff"] ++ curve)

/-- The animation `{"slots": {"s": {"color": [f1, f2, f3]}}}`, whose color
timeline has three frames: the first with the curve `stepped`, the second with
no `curve` key, and the third with the curve `stepped`. -/
def sampleColorAnimation : Json :=
  sampleObject (some "a") [sampleObject (some "slots") [sampleObject (some "s")
    [sampleColorTimeline [sampleColorFrame [sampleString "curve" "stepped"],
      sampleColorFrame [], sampleColorFrame [sampleString "curve" "stepped"]]]]]

/-- Every value with which the statement `m` completes satisfies `P`. -/
def Yields {α : Type} (m : M α) (P : α → Prop) : Prop :=
  ∀ (s : State) (a : α) (s1 : State), m s = Res.ok a s1 → P a

/-- A reference to the bone `root`: an item of the `bones` array of a
constraint. -/
def sampleBoneRef : Json := Json.mk none JsonType.String (some "root") 0 0 []

/-- An IK constraint `k` with the bone `root` and the target `root`. -/
def sampleIk : Json :=
  sampleObject none [sampleString "name" "k", sampleArray (some "bones") [sampleBoneRef],
    sampleString "target" "root"]

/-- The skeleton `sampleSkeleton` with the IK constraint `sampleIk` added under
`ik` and the animation `sampleColorAnimation` under `animations`. -/
def sampleAnimated : Json :=
  sampleObject none [
    sampleObject (some "skeleton") [sampleString "hash" "h", sampleString "spine" "3.8"],
    sampleArray (some "bones") [sampleObject none [sampleString "name" "root"]],
    sampleArray (some "slots") [sampleSlot],
    sampleArray (some "ik") [sampleIk],
    sampleObject (some "skins") [sampleObject (some "default") []],
    sampleObject (some "animations") [sampleColorAnimation]]

/-- The state in which the conversion of `sampleAnimated` ends: the 129 bytes of
the output, and the four lookups made: of the bone `root` of the slot `s`, of
the bone `root` and of the target `root` of the constraint `k`, and of the slot
`s` of the color timeline. -/
def sampleAnimatedState : State :=
  ⟨[2, 104, 4, 51, 46, 56, 0, 0, 0, 0, 0, 0, 0, 0, 0, 1, 5, 114, 111, 111, 116, 0, 0, 0, 0, 0,
      0, 0, 0, 0, 0, 0, 0, 63, 128, 0, 0, 63, 128, 0, 0, 0, 0, 0, 0, 0, 0, 0, 0, 0, 0, 0, 0, 0,
      1, 2, 115, 0, 255, 255, 255, 255, 255, 255, 255, 255, 1, 0, 1, 2, 107, 0, 1, 0, 0, 63,
      128, 0, 0, 63, 128, 0, 0, 0, 0, 0, 0, 0] ++ [1, 2, 97] ++
    ([1, 0, 1, 1, 3] ++
      ([63, 128, 0, 0, 255, 0, 0, 255] ++ [1]) ++
      ([63, 128, 0, 0, 255, 0, 0, 255] ++ [0]) ++
      [63, 128, 0, 0, 255, 0, 0, 255] ++ [0, 0, 0, 0, 0, 0, 0]),
    [], [⟨["root"], "root", 0⟩, ⟨["root"], "root", 0⟩, ⟨["root"], "root", 0⟩,
      ⟨["s"], "s", 0⟩]⟩

/-- The tables that the driver has built when it reaches the skins. -/
structure StageTables where
  vcBones : List BoneData
  vcSlots : List String
  vcIK : List String
  vcTransform : List String
  vcPaths : List String

/-- The statements of the driver from the `width` of the skeleton to the last
path constraint, that is, the statements of `convert_stages` before the skins;
the result is the tables built. -/
def stages_to_skins (wide : WideShift) (root skeleton : Json) : M StageTables := do
  let width := Json_getFloat skeleton "width" 0
  push_float width
  let height := Json_getFloat skeleton "height" 0
  push_float height
  push_boolen 0
  -- bones
  let bones ← require_items (Json_getItem root "bones") (-8)
  let vcBones ← defined (process_bones bones)
  push_varint wide vcBones.length true
  push_bones wide vcBones 0
  -- Slots
  let slots ← require_items (Json_getItem root "slots") (-9)
  push_varint wide slots.size true
  let vcSlots ← forAcc slots.child [] (push_slot wide vcBones)
  -- IK constraints.
  let ik := Json_getItem root "ik"
  push_varint wide (sizeOrZero ik) true
  let vcIK ← forAcc (children ik) [] (push_ik wide vcBones)
  -- Transform constraints.
  let transform := Json_getItem root "transform"
  push_varint wide (sizeOrZero transform) true
  let vcTransform ← forAcc (children transform) [] (push_transform wide vcBones)
  -- Path constraints
  let path := Json_getItem root "path"
  push_varint wide (sizeOrZero path) true
  let vcPaths ← forAcc (children path) [] (push_path wide vcBones vcSlots)
  pure ⟨vcBones, vcSlots, vcIK, vcTransform, vcPaths⟩

/-- The statements of the driver from the skins to the last animation, that is,
the statements of `convert_stages` from the skins on, with the tables `tb`
built before. -/
def stages_from_skins (wide : WideShift) (root : Json) (tb : StageTables) : M Unit := do
  -- Skins.
  let skins ← require_items (Json_getItem root "skins") (-20)
  let vcSkins ← push_skins wide tb.vcSlots skins
  -- Events.
  let events := Json_getItem root "events"
  push_varint wide (sizeOrZero events) true
  let vcEvents ← forAcc (children events) [] (push_event wide)
  -- Animations.
  let animations := Json_getItem root "animations"
  push_varint wide (sizeOrZero animations) true
  forEach (children animations)
    (push_animation wide tb.vcSlots tb.vcBones tb.vcIK tb.vcTransform tb.vcPaths vcSkins
      vcEvents)

/-- A statement that completes from every state: it neither returns from the
function nor is undefined. -/
def Completes {α : Type} (m : M α) : Prop := ∀ s : State, ∃ a s1, m s = Res.ok a s1

/-- A `curve` value that `push_curve` can write: it is absent, or, when it is a
string, its string is there, and, when it is an array, it has four items. -/
def curveDefined (curve : Option Json) : Prop :=
  ∀ c, curve = some c → (c.type = JsonType.String → c.valueString ≠ none) ∧
    (c.type = JsonType.Array → 4 ≤ c.child.length)

/-- A color string that `push_color` can write: it is null, or it has the seven
characters before the one that `color[7]` reads. -/
def colorDefined (color : Option String) : Prop := ∀ c, color = some c → 7 ≤ c.length

/-! ## Running statements -/

theorem bind_run {α β : Type} (m : M α) (f : α → M β) (s : State) :
    (m >>= f) s =
      match m s with
      | Res.ok a s1 => f a s1
      | Res.ret c s1 => Res.ret c s1
      | Res.crash => Res.crash := rfl

theorem pure_run {α : Type} (a : α) (s : State) : (pure a : M α) s = Res.ok a s := rfl

theorem emit_run (bs : List Nat) (s : State) : emit bs s = Res.ok () (s.append bs) := rfl

theorem append_append (s : State) (a b : List Nat) :
    (s.append a).append b = s.append (a ++ b) := by
  simp [State.append]

theorem append_inj (s : State) (a b : List Nat) (h : s.append a = s.append b) : a = b := by
  have h1 : (s.append a).buff_data = (s.append b).buff_data := by rw [h]
  simpa [State.append] using h1

/-! ## Bit arithmetic -/

theorem and_127 (n : Nat) : n &&& 127 = n % 128 := Nat.and_pow_two_sub_one_eq_mod n 7

theorem and_1 (n : Nat) : n &&& 1 = n % 2 := Nat.and_pow_two_sub_one_eq_mod n 1

theorem or_128 (b : Nat) (h : b < 128) : b ||| 128 = b + 128 := by
  interval_cases b <;> rfl

theorem xor_ones (x : Nat) (h : x < 4294967296) : x ^^^ 4294967295 = 4294967295 - x := by
  have hx : x < 2 ^ 32 := by norm_num; exact h
  apply Nat.eq_of_testBit_eq
  intro i
  have h2 : 4294967295 - x = 2 ^ 32 - (x + 1) := by omega
  have h3 : (4294967295 : Nat) = 2 ^ 32 - 1 := by norm_num
  rw [h2, Nat.testBit_two_pow_sub_succ hx, Nat.testBit_xor, h3, Nat.testBit_two_pow_sub_one]
  by_cases hi : i < 32
  · simp [hi]
  · have h5 : 2 ^ 32 ≤ 2 ^ i := Nat.pow_le_pow_right (by norm_num) (by omega)
    have h6 : x.testBit i = false := Nat.testBit_lt_two_pow (lt_of_lt_of_le hx h5)
    simp [hi, h6]

theorem zigzag32_eq (u : Nat) (h : u < 4294967296) :
    zigzag32 u = if u < 2147483648 then 2 * u else 8589934591 - 2 * u := by
  unfold zigzag32
  rw [Nat.shiftLeft_eq, Nat.shiftRight_eq_div_pow]
  by_cases hu : u < 2147483648
  · have h1 : u / 2 ^ 31 = 0 := by norm_num; omega
    have h2 : u * 2 ^ 1 % 4294967296 = 2 * u := by omega
    rw [h1, h2]; simp [hu]
  · have h1 : u / 2 ^ 31 ≠ 0 := by norm_num; omega
    rw [if_neg h1, if_neg hu, xor_ones _ (Nat.mod_lt _ (by norm_num))]
    omega

theorem zigzag32_lt (u : Nat) (h : u < 4294967296) : zigzag32 u < 4294967296 := by
  rw [zigzag32_eq u h]; split_ifs <;> omega

theorem unzigzag32_zigzag32 (u : Nat) (h : u < 4294967296) : unzigzag32 (zigzag32 u) = u := by
  rw [zigzag32_eq u h]
  unfold unzigzag32
  rw [and_1, Nat.shiftRight_eq_div_pow]
  by_cases hu : u < 2147483648
  · have h1 : 2 * u % 2 = 0 := by omega
    simp [hu, h1]
  · have h1 : (8589934591 - 2 * u) % 2 ≠ 0 := by omega
    simp only [hu, h1, if_false]
    rw [xor_ones _ (by norm_num; omega)]
    norm_num; omega

theorem toU32_lt (x : Int) : toU32 x < 4294967296 := by
  unfold toU32; omega

theorem toU32_of_nat (n : Nat) (h : n < 4294967296) : toU32 (n : Int) = n := by
  unfold toU32; omega

theorem toU32_toI32 (u : Nat) (h : u < 4294967296) : toU32 (toI32 u) = u := by
  unfold toU32 toI32; split_ifs <;> omega

theorem toI32_toU32 (x : Int) (h1 : -2147483648 ≤ x) (h2 : x ≤ 2147483647) :
    toI32 (toU32 x) = x := by
  unfold toU32 toI32; split_ifs <;> omega

/-! ## The bytes of a varint -/

theorem varint_loop_unfold (wide : WideShift) (v : Nat) :
    varint_loop wide v 5 0 =
      if v / 128 = 0 then [v % 128]
      else if v / 16384 = 0 then [v % 128 + 128, v / 128 % 128]
      else if v / 2097152 = 0 then [v % 128 + 128, v / 128 % 128 + 128, v / 16384 % 128]
      else if v / 268435456 = 0 then
        [v % 128 + 128, v / 128 % 128 + 128, v / 16384 % 128 + 128, v / 2097152 % 128]
      else if wide v 35 = 0 then
        [v % 128 + 128, v / 128 % 128 + 128, v / 16384 % 128 + 128, v / 2097152 % 128 + 128,
          v / 268435456 % 128]
      else
        [v % 128 + 128, v / 128 % 128 + 128, v / 16384 % 128 + 128, v / 2097152 % 128 + 128,
          v / 268435456 % 128 + 128] := by
  have c : ∀ n, (n % 128 ||| 128) = n % 128 + 128 :=
    fun n => or_128 _ (Nat.mod_lt _ (by norm_num))
  simp only [varint_loop, shr32, and_127, Nat.shiftRight_eq_div_pow, c]
  norm_num
  split_ifs <;> simp_all

theorem varint_value_loop (wide : WideShift) (v : Nat) (h : v < 4294967296) :
    varint_value (varint_loop wide v 5 0) = v := by
  rw [varint_loop_unfold]
  split_ifs <;> simp only [varint_value, and_127] <;> omega

theorem varint_loop_length (wide : WideShift) (v : Nat) :
    1 ≤ (varint_loop wide v 5 0).length ∧ (varint_loop wide v 5 0).length ≤ 5 := by
  rw [varint_loop_unfold]
  split_ifs <;> simp

theorem varint_loop_continuation (wide : WideShift) (v : Nat) :
    ∀ b ∈ (varint_loop wide v 5 0).dropLast, b &&& 128 = 128 := by
  have key : ∀ n : Nat, (n % 128 + 128) &&& 128 = 128 := by
    intro n
    have h1 : n % 128 < 128 := Nat.mod_lt _ (by norm_num)
    generalize n % 128 = m at h1
    interval_cases m <;> rfl
  rw [varint_loop_unfold]
  split_ifs <;> simp [List.dropLast, key]

theorem varint_loop_last_clear (wide : WideShift) (v : Nat) (h : v < 268435456) :
    ∀ b ∈ (varint_loop wide v 5 0).getLast?, b &&& 128 = 0 := by
  have key : ∀ n : Nat, (n % 128) &&& 128 = 0 := by
    intro n
    have h1 : n % 128 < 128 := Nat.mod_lt _ (by norm_num)
    generalize n % 128 = m at h1
    interval_cases m <;> rfl
  have h0 : v / 268435456 = 0 := by omega
  rw [varint_loop_unfold]
  intro b hb
  split_ifs at hb <;> simp [List.getLast?] at hb <;> subst hb <;> exact key _

/-! ## Primitive writers -/

theorem push_varint_true (wide : WideShift) (value : Int) (s : State) :
    push_varint wide value true s =
      Res.ok () (s.append (varint_loop wide (toU32 value) 5 0)) := rfl

theorem push_varint_false (wide : WideShift) (value : Int) (s : State) :
    push_varint wide value false s =
      Res.ok () (s.append (varint_loop wide (zigzag32 (toU32 value)) 5 0)) := rfl

theorem hex_value_digit (c : Char) (v : Nat) (h : hexDigit c = some v) :
    hex_value c = v ∧ v < 16 := by
  have hc : c = Char.ofNat c.toNat := (Char.ofNat_toNat c).symm
  unfold hexDigit at h
  simp only at h
  generalize c.toNat = n at h hc
  subst hc
  split_ifs at h with h1 h2 h3
  · obtain ⟨a, b⟩ := h1
    simp only [Option.some.injEq] at h
    subst h
    interval_cases n <;> exact ⟨by decide, by decide⟩
  · obtain ⟨a, b⟩ := h2
    simp only [Option.some.injEq] at h
    subst h
    interval_cases n <;> exact ⟨by decide, by decide⟩
  · obtain ⟨a, b⟩ := h3
    simp only [Option.some.injEq] at h
    subst h
    interval_cases n <;> exact ⟨by decide, by decide⟩

theorem toU8_of_nat (n : Nat) (h : n < 256) : toU8 (n : Int) = n := by
  unfold toU8; omega

theorem shl4_or (a b : Nat) (ha : a < 16) (hb : b < 16) : (a <<< 4) ||| b = 16 * a + b := by
  interval_cases a <;> interval_cases b <;> rfl

theorem color_byte_run (color : String) (i : Nat) (hi lo : Char) (a b : Nat) (s : State)
    (h1 : charAt color i = some hi) (h2 : charAt color (i + 1) = some lo)
    (ha : hexDigit hi = some a) (hb : hexDigit lo = some b) :
    color_byte color i s = Res.ok ((16 * a + b : Nat) : Int) s := by
  obtain ⟨e1, l1⟩ := hex_value_digit hi a ha
  obtain ⟨e2, l2⟩ := hex_value_digit lo b hb
  simp only [color_byte, bind_run, h1, h2, defined, pure_run, e1, e2, shl4_or a b l1 l2]

theorem push_byte_run (c : Int) (s : State) : push_byte c s = Res.ok () (s.append [toU8 c]) := rfl

theorem push_color_none (s : State) :
    push_color none s = Res.ok () (s.append [255, 255, 255, 255]) := by
  simp only [push_color, bind_run, push_byte_run, append_append]
  rfl

theorem push_color_hex (c0 c1 c2 c3 c4 c5 c6 c7 : Char) (v0 v1 v2 v3 v4 v5 v6 v7 : Nat)
    (h0 : hexDigit c0 = some v0) (h1 : hexDigit c1 = some v1) (h2 : hexDigit c2 = some v2)
    (h3 : hexDigit c3 = some v3) (h4 : hexDigit c4 = some v4) (h5 : hexDigit c5 = some v5)
    (h6 : hexDigit c6 = some v6) (h7 : hexDigit c7 = some v7) (s : State) :
    push_color (some (String.mk [c0, c1, c2, c3, c4, c5, c6, c7])) s =
      Res.ok () (s.append [16 * v0 + v1, 16 * v2 + v3, 16 * v4 + v5, 16 * v6 + v7]) := by
  have l0 := (hex_value_digit c0 v0 h0).2
  have l1 := (hex_value_digit c1 v1 h1).2
  have l2 := (hex_value_digit c2 v2 h2).2
  have l3 := (hex_value_digit c3 v3 h3).2
  have l4 := (hex_value_digit c4 v4 h4).2
  have l5 := (hex_value_digit c5 v5 h5).2
  have l6 := (hex_value_digit c6 v6 h6).2
  have l7 := (hex_value_digit c7 v7 h7).2
  have r0 := fun s => color_byte_run (String.mk [c0, c1, c2, c3, c4, c5, c6, c7]) 0 c0 c1 v0 v1 s rfl rfl h0 h1
  have r2 := fun s => color_byte_run (String.mk [c0, c1, c2, c3, c4, c5, c6, c7]) 2 c2 c3 v2 v3 s rfl rfl h2 h3
  have r4 := fun s => color_byte_run (String.mk [c0, c1, c2, c3, c4, c5, c6, c7]) 4 c4 c5 v4 v5 s rfl rfl h4 h5
  have r6 := fun s => color_byte_run (String.mk [c0, c1, c2, c3, c4, c5, c6, c7]) 6 c6 c7 v6 v7 s rfl rfl h6 h7
  simp only [push_color, bind_run, r0, r2, r4, r6, push_byte_run, append_append]
  rw [toU8_of_nat _ (by omega), toU8_of_nat _ (by omega), toU8_of_nat _ (by omega),
    toU8_of_nat _ (by omega)]
  rfl

/-! ## Effects -/

theorem extend_extend (s : State) (a b : List Nat) (k l : List Lookup) :
    (s.extend a k).extend b l = s.extend (a ++ b) (k ++ l) := by
  simp [State.extend]

theorem extend_atlas (s : State) (a : List Nat) (k : List Lookup) :
    (s.extend a k).all_atlas = s.all_atlas := rfl

theorem sound_pure {α : Type} (a : α) : Sound (pure a : M α) := ⟨fun _ =>
  ⟨Eff.ok a [] [], fun s _ => by simp [State.apply, State.extend, pure_run], by simp [Eff.Good]⟩⟩

theorem sound_ret {α : Type} (c : Int) : Sound (ret c : M α) := ⟨fun _ =>
  ⟨Eff.ret c [] [], fun s _ => by simp [State.apply, State.extend, ret],
    by simp [Eff.Good]⟩⟩

theorem sound_crash {α : Type} : Sound (crash : M α) := ⟨fun _ =>
  ⟨Eff.crash, fun _ _ => rfl, trivial⟩⟩

theorem sound_emit (bs : List Nat) : Sound (emit bs) := ⟨fun _ =>
  ⟨Eff.ok () bs [], fun s _ => by simp [State.apply, State.extend, emit_run, State.append],
    by simp [Eff.Good]⟩⟩

theorem sound_bind {α β : Type} {m : M α} {f : α → M β} (hm : Sound m)
    (hf : ∀ a, Sound (f a)) : Sound (m >>= f) := by
  constructor
  intro atlas
  obtain ⟨e, he, hg⟩ := hm.effect atlas
  cases e with
  | ok a bs ls =>
    obtain ⟨e2, he2, hg2⟩ := (hf a).effect atlas
    cases e2 with
    | ok b bs2 ls2 =>
      refine ⟨Eff.ok b (bs ++ bs2) (ls ++ ls2), fun s hs => ?_, ?_⟩
      · rw [bind_run, he s hs]
        simp only [State.apply]
        rw [he2 _ (by rw [extend_atlas]; exact hs)]
        simp only [State.apply, extend_extend]
      · intro l hl
        rcases List.mem_append.1 hl with h | h
        · exact hg l h
        · exact hg2 l h
    | ret c bs2 ls2 =>
      refine ⟨Eff.ret c (bs ++ bs2) (ls ++ ls2), fun s hs => ?_, ?_⟩
      · rw [bind_run, he s hs]
        simp only [State.apply]
        rw [he2 _ (by rw [extend_atlas]; exact hs)]
        simp only [State.apply, extend_extend]
      · intro hc l hl
        rcases List.mem_append.1 hl with h | h
        · exact hg l h
        · exact hg2 hc l h
    | crash =>
      refine ⟨Eff.crash, fun s hs => ?_, trivial⟩
      rw [bind_run, he s hs]
      simp only [State.apply]
      rw [he2 _ (by rw [extend_atlas]; exact hs)]
      simp only [State.apply]
  | ret c bs ls =>
    refine ⟨Eff.ret c bs ls, fun s hs => ?_, hg⟩
    rw [bind_run, he s hs]
    simp only [State.apply]
  | crash =>
    refine ⟨Eff.crash, fun s hs => ?_, trivial⟩
    rw [bind_run, he s hs]
    simp only [State.apply]

theorem sound_defined {α : Type} (o : Option α) : Sound (defined o) := by
  cases o with
  | none => exact sound_crash
  | some a => exact sound_pure a

theorem sound_push_byte (c : Int) : Sound (push_byte c) := sound_emit _
theorem sound_push_boolen (c : Int) : Sound (push_boolen c) := sound_emit _
theorem sound_push_varint (wide : WideShift) (v : Int) (o : Bool) : Sound (push_varint wide v o) :=
  sound_emit _

theorem sound_push_float (v : Nat) : Sound (push_float v) := by
  unfold push_float
  repeat' first
    | exact sound_push_byte _
    | apply sound_bind
    | intro _

theorem sound_push_string (wide : WideShift) (str : Option String) :
    Sound (push_string wide str) := by
  unfold push_string
  repeat' first
    | exact sound_push_varint _ _ _
    | exact sound_emit _
    | apply sound_bind
    | intro _
    | split

theorem sound_color_byte (color : String) (i : Nat) : Sound (color_byte color i) := by
  unfold color_byte
  repeat' first
    | exact sound_defined _
    | exact sound_pure _
    | apply sound_bind
    | intro _

theorem sound_push_color (color : Option String) : Sound (push_color color) := by
  unfold push_color
  repeat' first
    | exact sound_push_byte _
    | exact sound_color_byte _ _
    | apply sound_bind
    | intro _
    | split

theorem find_string_loop_spec (str : String) (l : List String) (k : Int) :
    find_string_loop str l k = -1 ∧ (0 ≤ k → str ∉ l) ∨
    ∃ i : Nat, find_string_loop str l k = k + i ∧ i < l.length ∧ l.get? i = some str ∧
      ∀ j, j < i → l.get? j ≠ some str := by
  induction l generalizing k with
  | nil => left; simp [find_string_loop]
  | cons x rest ih =>
    unfold find_string_loop
    by_cases hx : x = str
    · right
      refine ⟨0, by simp [hx], by simp, by simp [hx], fun j hj => by omega⟩
    · rw [if_neg hx]
      rcases ih (k + 1) with ⟨h1, h2⟩ | ⟨i, h1, h2, h3, h4⟩
      · left
        refine ⟨h1, fun hk => ?_⟩
        simp only [List.mem_cons, not_or]
        exact ⟨fun h => hx h.symm, h2 (by omega)⟩
      · right
        refine ⟨i + 1, by rw [h1]; push_cast; ring, by simp; omega, by simpa using h3, ?_⟩
        intro j hj
        cases j with
        | zero => simp [hx]
        | succ j => simpa using h4 j (by omega)

theorem find_bone_loop_eq (name : String) (bones : List BoneData) (k : Int) :
    find_bone_loop name bones k = find_string_loop name (bones.map fun b => b.name) k := by
  induction bones generalizing k with
  | nil => rfl
  | cons b rest ih => simp [find_bone_loop, find_string_loop, ih]

theorem find_event_loop_eq (name : String) (events : List EventData) (k : Int) :
    find_event_loop name events k = find_string_loop name (events.map fun e => e.name) k := by
  induction events generalizing k with
  | nil => rfl
  | cons b rest ih => simp [find_event_loop, find_string_loop, ih]

theorem resolved_find (table : List String) (name : String)
    (h : find_string table name ≠ -1) :
    Lookup.Resolved ⟨table, name, find_string table name⟩ := by
  unfold find_string at h ⊢
  rcases find_string_loop_spec name table 0 with ⟨h1, _⟩ | ⟨i, h1, h2, h3, h4⟩
  · exact absurd h1 h
  · exact ⟨i, by simpa using h1, h2, h3, h4⟩

theorem sound_resolve (table : List String) (name : String) (code : Int) (hc : code < 0) :
    Sound (do
      let i ← noted table name (find_string table name)
      if i = -1 then ret code else pure i : M Int) := by
  constructor
  intro atlas
  by_cases h : find_string table name = -1
  · refine ⟨Eff.ret code [] [⟨table, name, find_string table name⟩], fun s _ => ?_, ?_⟩
    · simp [bind_run, noted, h, State.apply, State.extend, ret]
    · intro h0; omega
  · refine ⟨Eff.ok (find_string table name) [] [⟨table, name, find_string table name⟩],
      fun s _ => ?_, ?_⟩
    · simp [bind_run, noted, h, State.apply, State.extend, pure_run]
    · intro l hl
      simp only [List.mem_singleton] at hl
      subst hl
      exact resolved_find table name h

theorem sound_resolve_string (vcStr : List String) (str : String) (code : Int) (hc : code < 0) :
    Sound (resolve_string vcStr str code) := sound_resolve vcStr str code hc

theorem sound_resolve_bone (bones : List BoneData) (name : String) (code : Int)
    (hc : code < 0) : Sound (resolve_bone bones name code) := by
  have h := sound_resolve (bones.map fun b => b.name) name code hc
  unfold resolve_bone lookup_bone find_bone
  rw [find_bone_loop_eq]
  exact h

theorem sound_resolve_event (events : List EventData) (name : String) (code : Int)
    (hc : code < 0) : Sound (resolve_event events name code) := by
  have h := sound_resolve (events.map fun b => b.name) name code hc
  unfold resolve_event lookup_event
  rw [find_event_loop_eq]
  exact h

theorem sound_forEach {α : Type} (xs : List α) (body : α → M Unit) (h : ∀ x, Sound (body x)) :
    Sound (forEach xs body) := by
  induction xs with
  | nil => exact sound_pure _
  | cons x rest ih =>
    unfold forEach
    exact sound_bind (h x) fun _ => ih

theorem sound_forFrames (xs : List Json) (body : Json → Bool → M Unit)
    (h : ∀ x b, Sound (body x b)) : Sound (forFrames xs body) := by
  induction xs with
  | nil => exact sound_pure _
  | cons x rest ih =>
    unfold forFrames
    exact sound_bind (h x _) fun _ => ih

theorem sound_forAcc {α β : Type} (xs : List α) (acc : β) (body : β → α → M β)
    (h : ∀ a x, Sound (body a x)) : Sound (forAcc xs acc body) := by
  induction xs generalizing acc with
  | nil => exact sound_pure _
  | cons x rest ih =>
    unfold forAcc
    exact sound_bind (h acc x) fun a => ih a

theorem sound_read_atlas : Sound read_atlas := ⟨fun atlas =>
  ⟨Eff.ok atlas [] [], fun s hs => by
      subst hs
      simp [read_atlas, State.apply, State.extend],
    by simp [Eff.Good]⟩⟩

theorem sound_call_checked (base : Int) (f : M Int) (hb : base ≤ 0) (hf : Sound f) :
    Sound (call_checked base f) := by
  constructor
  intro atlas
  obtain ⟨e, he, hg⟩ := hf.effect atlas
  cases e with
  | ok rt bs ls =>
    by_cases h : rt = 0
    · refine ⟨Eff.ok () bs ls, fun s hs => ?_, hg⟩
      simp [call_checked, he s hs, State.apply, h]
    · refine ⟨Eff.ret (base + rt) bs ls, fun s hs => ?_, fun _ => hg⟩
      simp [call_checked, he s hs, State.apply, h]
  | ret rt bs ls =>
    by_cases h : rt = 0
    · refine ⟨Eff.ok () bs ls, fun s hs => ?_, ?_⟩
      · simp [call_checked, he s hs, State.apply, h]
      · exact hg (by omega)
    · refine ⟨Eff.ret (base + rt) bs ls, fun s hs => ?_, fun h0 => hg (by omega)⟩
      simp [call_checked, he s hs, State.apply, h]
  | crash =>
    refine ⟨Eff.crash, fun s hs => ?_, trivial⟩
    simp [call_checked, he s hs, State.apply]

theorem sound_vertAt (vert : List Nat) (i : Nat) : Sound (vertAt vert i) := by
  unfold vertAt
  split
  · exact sound_pure _
  · exact sound_crash

theorem sound_weighted_bones (wide : WideShift) (vert : List Nat) (count i : Nat) :
    Sound (weighted_bones wide vert count i) := by
  induction count generalizing i with
  | zero => exact sound_pure _
  | succ n ih =>
    unfold weighted_bones
    repeat' first
      | exact ih _
      | exact sound_vertAt _ _
      | exact sound_defined _
      | exact sound_push_varint _ _ _
      | exact sound_push_float _
      | apply sound_bind
      | intro _

theorem sound_weighted_loop (wide : WideShift) (vert : List Nat) (fuel i : Nat) :
    Sound (weighted_loop wide vert fuel i) := by
  induction fuel generalizing i with
  | zero => exact sound_pure _
  | succ n ih =>
    unfold weighted_loop
    repeat' first
      | exact ih _
      | exact sound_vertAt _ _
      | exact sound_defined _
      | exact sound_pure _
      | exact sound_crash
      | exact sound_push_varint _ _ _
      | exact sound_weighted_bones _ _ _ _
      | apply sound_bind
      | intro _
      | split

theorem sound_push_vertices (wide : WideShift) (vertices : Option Json) (n : Int) :
    Sound (push_vertices wide vertices n) := by
  unfold push_vertices
  repeat' first
    | with_reducible exact sound_defined _
    | with_reducible exact sound_pure _
    | with_reducible exact sound_push_boolen _
    | with_reducible exact sound_push_float _
    | with_reducible exact sound_weighted_loop _ _ _ _
    | with_reducible exact sound_forEach _ _ (fun _ => sound_push_float _)
    | with_reducible apply sound_bind
    | intro _
    | split
    | dsimp only

theorem sound_push_string_or_zero (wide : WideShift) (str : Option String) :
    Sound (push_string_or_zero wide str) := by
  unfold push_string_or_zero
  split
  · exact sound_push_string _ _
  · exact sound_push_varint _ _ _

theorem sound_push_payload (wide : WideShift) (slots : List String) (attachment : Json)
    (attachmentPath : Option String) (spAttachmentType : Int) :
    Sound (push_payload wide slots attachment attachmentPath spAttachmentType) := by
  unfold push_payload
  repeat' first
    | with_reducible exact sound_defined _
    | with_reducible exact sound_pure _
    | with_reducible exact sound_push_boolen _
    | with_reducible exact sound_push_byte _
    | with_reducible exact sound_push_float _
    | with_reducible exact sound_push_color _
    | with_reducible exact sound_push_varint _ _ _
    | with_reducible exact sound_push_string _ _
    | with_reducible exact sound_push_string_or_zero _ _
    | with_reducible exact sound_push_vertices _ _ _
    | with_reducible apply sound_forEach
    | with_reducible apply sound_bind
    | intro _
    | split
    | dsimp only

theorem sound_push_attachment (wide : WideShift) (slots : List String) (attachment : Json) :
    Sound (push_attachment wide slots attachment) := by
  unfold push_attachment
  repeat' first
    | with_reducible exact sound_defined _
    | with_reducible exact sound_push_byte _
    | with_reducible exact sound_push_string _ _
    | with_reducible exact sound_push_payload _ _ _ _ _
    | with_reducible apply sound_bind
    | intro _

theorem sound_push_skin_entry (wide : WideShift) (slots : List String) (attachments : Json) :
    Sound (push_skin_entry wide slots attachments) := by
  unfold push_skin_entry
  repeat' first
    | with_reducible exact sound_defined _
    | with_reducible exact sound_read_atlas
    | with_reducible exact sound_resolve_string _ _ _ (by decide)
    | with_reducible exact sound_push_varint _ _ _
    | with_reducible exact sound_forEach _ _ (fun _ => sound_push_attachment _ _ _)
    | with_reducible apply sound_bind
    | intro _

theorem sound_parse_skin (wide : WideShift) (skin : Json) (slots : List String) :
    Sound (parse_skin wide skin slots) := by
  unfold parse_skin
  repeat' first
    | with_reducible exact sound_ret _
    | with_reducible exact sound_pure _
    | with_reducible exact sound_push_varint _ _ _
    | with_reducible exact sound_forEach _ _ (fun _ => sound_push_skin_entry _ _ _)
    | with_reducible apply sound_bind
    | intro _
    | split

theorem sound_push_curve (curve : Option Json) : Sound (push_curve curve) := by
  unfold push_curve
  repeat' first
    | with_reducible exact sound_defined _
    | with_reducible exact sound_pure _
    | with_reducible exact sound_crash
    | with_reducible exact sound_push_byte _
    | with_reducible exact sound_push_float _
    | with_reducible apply sound_bind
    | intro _
    | split
    | dsimp only

theorem sound_curve_if_next (valueMap : Json) (next : Bool) :
    Sound (curve_if_next valueMap next) := by
  unfold curve_if_next
  split
  · exact sound_push_curve _
  · exact sound_pure _

theorem sound_frames (v : Json) (next : Bool) :
    Sound (color_frame v next) ∧ Sound (two_color_frame v next) ∧ Sound (rotate_frame v next) ∧
      Sound (translate_frame v next) ∧ (∀ name, Sound (path_value_frame name v next)) ∧
      Sound (path_mix_frame v next) ∧ Sound (ik_frame v next) ∧
      Sound (transform_frame v next) := by
  refine ⟨?_, ?_, ?_, ?_, fun name => ?_, ?_, ?_, ?_⟩
  all_goals
    first
      | unfold color_frame
      | unfold two_color_frame
      | unfold rotate_frame
      | unfold translate_frame
      | unfold path_value_frame
      | unfold path_mix_frame
      | unfold ik_frame
      | unfold transform_frame
  all_goals
    repeat' first
      | with_reducible exact sound_push_byte _
      | with_reducible exact sound_push_float _
      | with_reducible exact sound_push_color _
      | with_reducible exact sound_curve_if_next _ _
      | with_reducible apply sound_bind
      | intro _

theorem sound_offset_entry (wide : WideShift) (vcSlots : List String) (offsetMap : Json) :
    Sound (offset_entry wide vcSlots offsetMap) := by
  unfold offset_entry
  repeat' first
    | with_reducible exact sound_defined _
    | with_reducible exact sound_resolve_string _ _ _ (by decide)
    | with_reducible exact sound_push_varint _ _ _
    | with_reducible apply sound_bind
    | intro _

theorem sound_slot_timeline (wide : WideShift) (timelineMap : Json) :
    Sound (slot_timeline wide timelineMap) := by
  unfold slot_timeline
  repeat' first
    | with_reducible exact (sound_frames _ _).1
    | with_reducible exact (sound_frames _ _).2.1
    | with_reducible exact (sound_frames _ _).2.2.1
    | with_reducible exact (sound_frames _ _).2.2.2.1
    | with_reducible exact (sound_frames _ _).2.2.2.2.1 _
    | with_reducible exact (sound_frames _ _).2.2.2.2.2.1
    | with_reducible exact (sound_frames _ _).2.2.2.2.2.2.1
    | with_reducible exact (sound_frames _ _).2.2.2.2.2.2.2
    | with_reducible exact sound_defined _
    | with_reducible exact sound_ret _
    | with_reducible exact sound_push_byte _
    | with_reducible exact sound_push_float _
    | with_reducible exact sound_push_color _
    | with_reducible exact sound_push_varint _ _ _
    | with_reducible exact sound_push_string _ _
    | with_reducible exact sound_curve_if_next _ _
    | with_reducible apply sound_forEach
    | with_reducible apply sound_forFrames
    | with_reducible apply sound_bind
    | intro _
    | split

theorem sound_bone_timeline (wide : WideShift) (timelineMap : Json) :
    Sound (bone_timeline wide timelineMap) := by
  unfold bone_timeline
  repeat' first
    | with_reducible exact (sound_frames _ _).1
    | with_reducible exact (sound_frames _ _).2.1
    | with_reducible exact (sound_frames _ _).2.2.1
    | with_reducible exact (sound_frames _ _).2.2.2.1
    | with_reducible exact (sound_frames _ _).2.2.2.2.1 _
    | with_reducible exact (sound_frames _ _).2.2.2.2.2.1
    | with_reducible exact (sound_frames _ _).2.2.2.2.2.2.1
    | with_reducible exact (sound_frames _ _).2.2.2.2.2.2.2
    | with_reducible exact sound_defined _
    | with_reducible exact sound_ret _
    | with_reducible exact sound_push_byte _
    | with_reducible exact sound_push_float _
    | with_reducible exact sound_push_varint _ _ _
    | with_reducible exact sound_curve_if_next _ _
    | with_reducible apply sound_forFrames
    | with_reducible apply sound_bind
    | intro _
    | split

theorem sound_path_timeline (wide : WideShift) (timelineMap : Json) :
    Sound (path_timeline wide timelineMap) := by
  unfold path_timeline
  repeat' first
    | with_reducible exact (sound_frames _ _).1
    | with_reducible exact (sound_frames _ _).2.1
    | with_reducible exact (sound_frames _ _).2.2.1
    | with_reducible exact (sound_frames _ _).2.2.2.1
    | with_reducible exact (sound_frames _ _).2.2.2.2.1 _
    | with_reducible exact (sound_frames _ _).2.2.2.2.2.1
    | with_reducible exact (sound_frames _ _).2.2.2.2.2.2.1
    | with_reducible exact (sound_frames _ _).2.2.2.2.2.2.2
    | with_reducible exact sound_defined _
    | with_reducible exact sound_ret _
    | with_reducible exact sound_push_byte _
    | with_reducible exact sound_push_float _
    | with_reducible exact sound_push_varint _ _ _
    | with_reducible exact sound_curve_if_next _ _
    | with_reducible apply sound_forFrames
    | with_reducible apply sound_bind
    | intro _
    | split

theorem sound_deform_frame (wide : WideShift) (valueMap : Json) (next : Bool) :
    Sound (deform_frame wide valueMap next) := by
  unfold deform_frame
  repeat' first
    | with_reducible exact sound_push_float _
    | with_reducible exact sound_push_varint _ _ _
    | with_reducible exact sound_curve_if_next _ _
    | with_reducible apply sound_forEach
    | with_reducible apply sound_bind
    | intro _
    | split
    | dsimp only

theorem sound_event_frame (wide : WideShift) (vcEvents : List EventData) (valueMap : Json) :
    Sound (event_frame wide vcEvents valueMap) := by
  unfold event_frame
  repeat' first
    | with_reducible exact sound_defined _
    | with_reducible exact sound_pure _
    | with_reducible exact sound_ret _
    | with_reducible exact sound_resolve_event _ _ _ (by decide)
    | with_reducible exact sound_push_float _
    | with_reducible exact sound_push_boolen _
    | with_reducible exact sound_push_varint _ _ _
    | with_reducible exact sound_push_string _ _
    | with_reducible apply sound_bind
    | intro _
    | split
    | dsimp only

theorem sound_parse_animation (wide : WideShift) (animation : Json) (vcSlots : List String)
    (vcBones : List BoneData) (vcIK vcTransform vcPaths vcSkins : List String)
    (vcEvents : List EventData) :
    Sound (parse_animation wide animation vcSlots vcBones vcIK vcTransform vcPaths vcSkins
      vcEvents) := by
  unfold parse_animation
  repeat' first
    | with_reducible exact (sound_frames _ _).1
    | with_reducible exact (sound_frames _ _).2.1
    | with_reducible exact (sound_frames _ _).2.2.1
    | with_reducible exact (sound_frames _ _).2.2.2.1
    | with_reducible exact (sound_frames _ _).2.2.2.2.1 _
    | with_reducible exact (sound_frames _ _).2.2.2.2.2.1
    | with_reducible exact (sound_frames _ _).2.2.2.2.2.2.1
    | with_reducible exact (sound_frames _ _).2.2.2.2.2.2.2
    | with_reducible exact sound_offset_entry _ _ _
    | with_reducible exact sound_defined _
    | with_reducible exact sound_ret _
    | with_reducible exact sound_resolve_string _ _ _ (by decide)
    | with_reducible exact sound_resolve_bone _ _ _ (by decide)
    | with_reducible exact sound_push_byte _
    | with_reducible exact sound_push_float _
    | with_reducible exact sound_push_varint _ _ _
    | with_reducible exact sound_push_string _ _
    | with_reducible exact sound_curve_if_next _ _
    | with_reducible exact sound_slot_timeline _ _
    | with_reducible exact sound_bone_timeline _ _
    | with_reducible exact sound_path_timeline _ _
    | with_reducible exact sound_deform_frame _ _ _
    | with_reducible exact sound_event_frame _ _ _
    | with_reducible apply sound_forEach
    | with_reducible apply sound_forFrames
    | with_reducible apply sound_bind
    | intro _

theorem sound_push_bone (wide : WideShift) (i : Nat) (bone : BoneData) :
    Sound (push_bone wide i bone) := by
  unfold push_bone
  repeat' first
    | with_reducible exact sound_pure _
    | with_reducible exact sound_push_float _
    | with_reducible exact sound_push_varint _ _ _
    | with_reducible exact sound_push_string _ _
    | with_reducible apply sound_bind
    | intro _
    | split

theorem sound_push_bones (wide : WideShift) (bones : List BoneData) (i : Nat) :
    Sound (push_bones wide bones i) := by
  induction bones generalizing i with
  | nil => exact sound_pure _
  | cons b rest ih =>
    unfold push_bones
    exact sound_bind (sound_push_bone _ _ _) fun _ => ih _

theorem sound_blend_mode (blend : Option Json) : Sound (blend_mode blend) := by
  unfold blend_mode
  repeat' first
    | with_reducible exact sound_pure _
    | with_reducible exact sound_defined _
    | with_reducible apply sound_bind
    | intro _
    | split

theorem sound_push_slot (wide : WideShift) (vcBones : List BoneData) (vcSlots : List String)
    (slot : Json) : Sound (push_slot wide vcBones vcSlots slot) := by
  unfold push_slot
  repeat' first
    | with_reducible exact sound_pure _
    | with_reducible exact sound_defined _
    | with_reducible exact sound_resolve_bone _ _ _ (by decide)
    | with_reducible exact sound_blend_mode _
    | with_reducible exact sound_push_color _
    | with_reducible exact sound_push_varint _ _ _
    | with_reducible exact sound_push_string _ _
    | with_reducible apply sound_bind
    | intro _

theorem sound_push_constraint_bones (wide : WideShift) (vcBones : List BoneData) (code : Int)
    (hc : code < 0) (bones : Json) : Sound (push_constraint_bones wide vcBones code bones) := by
  unfold push_constraint_bones
  repeat' first
    | with_reducible exact sound_defined _
    | with_reducible exact sound_resolve_bone _ _ _ hc
    | with_reducible exact sound_push_varint _ _ _
    | with_reducible apply sound_forEach
    | with_reducible apply sound_bind
    | intro _

theorem sound_push_ik (wide : WideShift) (vcBones : List BoneData) (vcIK : List String)
    (ikMap : Json) : Sound (push_ik wide vcBones vcIK ikMap) := by
  unfold push_ik
  repeat' first
    | with_reducible exact sound_pure _
    | with_reducible exact sound_ret _
    | with_reducible exact sound_defined _
    | with_reducible exact sound_resolve_bone _ _ _ (by decide)
    | with_reducible exact sound_push_constraint_bones _ _ _ (by decide) _
    | with_reducible exact sound_push_float _
    | with_reducible exact sound_push_varint _ _ _
    | with_reducible exact sound_push_string _ _
    | with_reducible apply sound_bind
    | intro _
    | split
    | dsimp only

theorem sound_push_transform (wide : WideShift) (vcBones : List BoneData)
    (vcTransform : List String) (transformMap : Json) :
    Sound (push_transform wide vcBones vcTransform transformMap) := by
  unfold push_transform
  repeat' first
    | with_reducible exact sound_pure _
    | with_reducible exact sound_ret _
    | with_reducible exact sound_defined _
    | with_reducible exact sound_resolve_bone _ _ _ (by decide)
    | with_reducible exact sound_push_constraint_bones _ _ _ (by decide) _
    | with_reducible exact sound_push_float _
    | with_reducible exact sound_push_boolen _
    | with_reducible exact sound_push_varint _ _ _
    | with_reducible exact sound_push_string _ _
    | with_reducible apply sound_bind
    | intro _
    | split
    | dsimp only

theorem sound_push_path (wide : WideShift) (vcBones : List BoneData)
    (vcSlots vcPaths : List String) (pathMap : Json) :
    Sound (push_path wide vcBones vcSlots vcPaths pathMap) := by
  unfold push_path
  repeat' first
    | with_reducible exact sound_pure _
    | with_reducible exact sound_ret _
    | with_reducible exact sound_defined _
    | with_reducible exact sound_resolve_bone _ _ _ (by decide)
    | with_reducible exact sound_resolve_string _ _ _ (by decide)
    | with_reducible exact sound_push_constraint_bones _ _ _ (by decide) _
    | with_reducible exact sound_push_float _
    | with_reducible exact sound_push_varint _ _ _
    | with_reducible exact sound_push_string _ _
    | with_reducible apply sound_bind
    | intro _
    | split
    | dsimp only

theorem sound_push_named_skin (wide : WideShift) (vcSlots vcSkins : List String)
    (skin : Json) : Sound (push_named_skin wide vcSlots vcSkins skin) := by
  unfold push_named_skin
  repeat' first
    | with_reducible exact sound_pure _
    | with_reducible exact sound_defined _
    | with_reducible exact sound_call_checked _ _ (by decide) (sound_parse_skin _ _ _)
    | with_reducible exact sound_push_string _ _
    | with_reducible apply sound_bind
    | intro _
    | split

theorem sound_push_event (wide : WideShift) (vcEvents : List EventData) (eventMap : Json) :
    Sound (push_event wide vcEvents eventMap) := by
  unfold push_event
  repeat' first
    | with_reducible exact sound_pure _
    | with_reducible exact sound_defined _
    | with_reducible exact sound_push_float _
    | with_reducible exact sound_push_varint _ _ _
    | with_reducible exact sound_push_string _ _
    | with_reducible apply sound_bind
    | intro _

theorem sound_require_items (node : Option Json) (code : Int) :
    Sound (require_items node code) := by
  unfold require_items
  repeat' first
    | with_reducible exact sound_pure _
    | with_reducible exact sound_ret _
    | split

theorem sound_push_skins (wide : WideShift) (vcSlots : List String) (skins : Json) :
    Sound (push_skins wide vcSlots skins) := by
  unfold push_skins
  repeat' first
    | with_reducible exact sound_pure _
    | with_reducible exact sound_defined _
    | with_reducible exact sound_call_checked _ _ (by decide) (sound_parse_skin _ _ _)
    | with_reducible exact sound_push_varint _ _ _
    | with_reducible exact sound_forAcc _ _ _ (fun _ _ => sound_push_named_skin _ _ _ _)
    | with_reducible apply sound_bind
    | intro _
    | split

theorem sound_push_animation (wide : WideShift) (vcSlots : List String)
    (vcBones : List BoneData) (vcIK vcTransform vcPaths vcSkins : List String)
    (vcEvents : List EventData) (aniMap : Json) :
    Sound (push_animation wide vcSlots vcBones vcIK vcTransform vcPaths vcSkins vcEvents
      aniMap) := by
  unfold push_animation
  exact sound_bind (sound_push_string _ _) fun _ =>
    sound_call_checked _ _ (by decide) (sound_parse_animation _ _ _ _ _ _ _ _ _)

theorem sound_convert_stages (wide : WideShift) (root skeleton : Json) :
    Sound (convert_stages wide root skeleton) := by
  unfold convert_stages
  repeat' first
    | with_reducible exact sound_pure _
    | with_reducible exact sound_ret _
    | with_reducible exact sound_defined _
    | with_reducible exact sound_require_items _ _
    | with_reducible exact sound_push_float _
    | with_reducible exact sound_push_boolen _
    | with_reducible exact sound_push_varint _ _ _
    | with_reducible exact sound_push_string _ _
    | with_reducible exact sound_push_bones _ _ _
    | with_reducible exact sound_push_skins _ _ _
    | with_reducible exact sound_forAcc _ _ _ (fun _ _ => sound_push_slot _ _ _ _)
    | with_reducible exact sound_forAcc _ _ _ (fun _ _ => sound_push_ik _ _ _ _)
    | with_reducible exact sound_forAcc _ _ _ (fun _ _ => sound_push_transform _ _ _ _)
    | with_reducible exact sound_forAcc _ _ _ (fun _ _ => sound_push_path _ _ _ _ _)
    | with_reducible exact sound_forAcc _ _ _ (fun _ _ => sound_push_event _ _ _)
    | with_reducible exact sound_forEach _ _ (fun _ => sound_push_animation _ _ _ _ _ _ _ _ _)
    | with_reducible apply sound_bind
    | intro _

theorem sound_convert_body (wide : WideShift) (root : Json) :
    Sound (convert_body wide root) := by
  unfold convert_body
  repeat' first
    | with_reducible exact sound_pure _
    | with_reducible exact sound_ret _
    | with_reducible exact sound_push_string _ _
    | with_reducible exact sound_convert_stages _ _ _
    | with_reducible apply sound_bind
    | intro _
    | split
    | dsimp only

/-! ## Bytes stored by a statement -/

theorem valid_loop_empty (attachments acc : List Json) :
    valid_loop [] attachments acc = some (acc ++ attachments) := by
  induction attachments generalizing acc with
  | nil => simp [valid_loop]
  | cons a rest ih => simp [valid_loop, ih]

theorem valid_loop_filter (all_atlas : List String) (h : all_atlas ≠ [])
    (attachments acc : List Json) :
    valid_loop all_atlas attachments acc =
      if attachments.all atlasReadable then some (acc ++ attachments.filter (atlasKeeps all_atlas))
      else none := by
  induction attachments generalizing acc with
  | nil => simp [valid_loop]
  | cons a rest ih =>
    unfold valid_loop
    rw [if_neg h]
    cases ht : Json_getString a "type" (some "region") with
    | none => simp [atlasReadable, attachmentType, ht]
    | some t =>
      by_cases hf : t = "region" ∨ t = "mesh" ∨ t = "linkedmesh"
      · cases hn : Json_getString a "name" a.name with
        | none =>
          simp [atlasReadable, attachmentType, atlasFiltered, actualName, ht, hf, hn]
        | some n =>
          by_cases hm : n ∈ all_atlas
          · simp [atlasReadable, atlasKeeps, attachmentType, atlasFiltered, actualName, ht, hf,
              hn, hm, ih]
          · simp [atlasReadable, atlasKeeps, attachmentType, atlasFiltered, actualName, ht, hf,
              hn, hm, ih]
      · simp [atlasReadable, atlasKeeps, attachmentType, atlasFiltered, ht, hf, ih]

theorem bind_ok_inv {α β : Type} {m : M α} {f : α → M β} {s s2 : State} {b : β}
    (h : (m >>= f) s = Res.ok b s2) : ∃ a s1, m s = Res.ok a s1 ∧ f a s1 = Res.ok b s2 := by
  rw [bind_run] at h
  cases hm : m s with
  | ok a s1 => rw [hm] at h; exact ⟨a, s1, rfl, h⟩
  | ret c s1 => rw [hm] at h; cases h
  | crash => rw [hm] at h; cases h

theorem sound_ok {α : Type} {m : M α} (hm : Sound m) {s s1 : State} {a : α}
    (h : m s = Res.ok a s1) :
    s1.buff_data = s.buff_data ++ written m s.all_atlas ∧ s1.all_atlas = s.all_atlas := by
  obtain ⟨e, he, _⟩ := hm.effect s.all_atlas
  have h0 := he ⟨[], s.all_atlas, []⟩ rfl
  have h1 := he s rfl
  rw [h] at h1
  cases e with
  | ok a2 bs ls =>
    simp only [State.apply, Res.ok.injEq] at h1
    simp only [written, h0, State.apply, State.extend, List.nil_append]
    rw [h1.2]
    exact ⟨rfl, rfl⟩
  | ret c bs ls => simp [State.apply] at h1
  | crash => simp [State.apply] at h1

theorem sound_ret_written {α : Type} {m : M α} (hm : Sound m) {s s1 : State} {c : Int}
    (h : m s = Res.ret c s1) :
    s1.buff_data = s.buff_data ++ written m s.all_atlas ∧ s1.all_atlas = s.all_atlas := by
  obtain ⟨e, he, _⟩ := hm.effect s.all_atlas
  have h0 := he ⟨[], s.all_atlas, []⟩ rfl
  have h1 := he s rfl
  rw [h] at h1
  cases e with
  | ok a2 bs ls => simp [State.apply] at h1
  | ret c bs ls =>
    simp only [State.apply, Res.ret.injEq] at h1
    simp only [written, h0, State.apply, State.extend, List.nil_append]
    rw [h1.2]
    exact ⟨rfl, rfl⟩
  | crash => simp [State.apply] at h1

theorem forEach_written {α : Type} (xs : List α) (body : α → M Unit)
    (hb : ∀ x, Sound (body x)) {s s1 : State} (h : forEach xs body s = Res.ok () s1) :
    s1.buff_data = s.buff_data ++ (xs.map fun x => written (body x) s.all_atlas).flatten ∧
      s1.all_atlas = s.all_atlas := by
  induction xs generalizing s with
  | nil =>
    simp only [forEach, pure_run, Res.ok.injEq, true_and] at h
    subst h
    simp
  | cons x rest ih =>
    unfold forEach at h
    obtain ⟨_, s2, h1, h2⟩ := bind_ok_inv h
    obtain ⟨e1, e2⟩ := sound_ok (hb x) h1
    obtain ⟨e3, e4⟩ := ih h2
    rw [e3, e1, e4, e2]
    simp [List.append_assoc]

theorem defined_ok {α : Type} {o : Option α} {s s1 : State} {a : α}
    (h : defined o s = Res.ok a s1) : o = some a ∧ s1 = s := by
  cases o with
  | none => cases h
  | some b =>
    simp only [defined, pure_run, Res.ok.injEq] at h
    exact ⟨by rw [h.1], h.2.symm⟩

theorem resolve_string_ok {vcStr : List String} {str : String} {code i : Int} {s s1 : State}
    (h : resolve_string vcStr str code s = Res.ok i s1) :
    i = find_string vcStr str ∧ i ≠ -1 ∧ s1.buff_data = s.buff_data ∧
      s1.all_atlas = s.all_atlas := by
  unfold resolve_string lookup_string at h
  simp only [bind_run, noted] at h
  by_cases hf : find_string vcStr str = -1
  · simp [hf, ret] at h
  · simp only [hf, if_false, pure_run, Res.ok.injEq] at h
    obtain ⟨h1, h2⟩ := h
    subst h2
    exact ⟨h1.symm, by rw [← h1]; exact hf, rfl, rfl⟩

theorem push_varint_ok {wide : WideShift} {v : Int} {s s1 : State}
    (h : push_varint wide v true s = Res.ok () s1) :
    s1.buff_data = s.buff_data ++ varint_loop wide (toU32 v) 5 0 ∧
      s1.all_atlas = s.all_atlas := by
  rw [push_varint_true] at h
  simp only [Res.ok.injEq, true_and] at h
  subst h
  exact ⟨rfl, rfl⟩

theorem read_atlas_ok {a : List String} {s s1 : State} (h : read_atlas s = Res.ok a s1) :
    a = s.all_atlas ∧ s1 = s := by
  simp only [read_atlas, Res.ok.injEq] at h
  exact ⟨h.1.symm, h.2.symm⟩

theorem push_skin_entry_bytes (wide : WideShift) (slots : List String) (attachments : Json)
    (s s1 : State) (h : push_skin_entry wide slots attachments s = Res.ok () s1) :
    ∃ name validAttachment, attachments.name = some name ∧
      valid_loop s.all_atlas attachments.child [] = some validAttachment ∧
      find_string slots name ≠ -1 ∧
      s1.buff_data = s.buff_data ++ varint_loop wide (toU32 (find_string slots name)) 5 0 ++
        varint_loop wide (toU32 validAttachment.length) 5 0 ++
        (validAttachment.map fun a => written (push_attachment wide slots a) s.all_atlas).flatten := by
  unfold push_skin_entry at h
  obtain ⟨name, s2, h1, k1⟩ := bind_ok_inv h
  obtain ⟨e1, e2⟩ := defined_ok h1
  obtain ⟨slot, s3, h2, k2⟩ := bind_ok_inv k1
  obtain ⟨e3, e4, e5, e6⟩ := resolve_string_ok h2
  obtain ⟨_, s4, h3, k3⟩ := bind_ok_inv k2
  obtain ⟨e7, e8⟩ := push_varint_ok h3
  obtain ⟨atlas, s5, h4, k4⟩ := bind_ok_inv k3
  obtain ⟨e9, e10⟩ := read_atlas_ok h4
  obtain ⟨valid, s6, h5, k5⟩ := bind_ok_inv k4
  obtain ⟨e11, e12⟩ := defined_ok h5
  obtain ⟨_, s7, h6, k6⟩ := bind_ok_inv k5
  obtain ⟨e13, e14⟩ := push_varint_ok h6
  obtain ⟨e15, _⟩ := forEach_written _ _ (fun a => sound_push_attachment wide slots a) k6
  have ha : s4.all_atlas = s.all_atlas := by rw [e8, e6, e2]
  have hb : s7.all_atlas = s.all_atlas := by rw [e14, e12, e10, ha]
  refine ⟨name, valid, e1, ?_, ?_, ?_⟩
  · rw [e9, ha] at e11; exact e11
  · rw [← e3]; exact e4
  · rw [e15, e13, e12, e10, e7, e5, e2, hb, ← e3]

/-! ## The lines of an atlas -/

theorem get_line_loop_some (cs line : List Char) :
    get_line_loop cs (some line) =
      (line ++ cs.takeWhile (fun c => !isBreak c), cs.dropWhile fun c => !isBreak c) := by
  induction cs generalizing line with
  | nil => simp [get_line_loop]
  | cons c rest ih =>
    unfold get_line_loop
    by_cases hc : c = '\r' ∨ c = '\n'
    · have hb : isBreak c = true := by simp [isBreak, hc]
      rw [if_pos hc, List.takeWhile_cons, List.dropWhile_cons]
      simp [hb]
    · have hb : isBreak c = false := by simp [isBreak, hc]
      rw [if_neg hc, ih, List.takeWhile_cons, List.dropWhile_cons]
      simp [hb]

theorem get_line_eq (cs : List Char) :
    get_line cs =
      ((cs.dropWhile isBreak).takeWhile (fun c => !isBreak c),
        (cs.dropWhile isBreak).dropWhile fun c => !isBreak c) := by
  unfold get_line
  induction cs with
  | nil => simp [get_line_loop]
  | cons c rest ih =>
    unfold get_line_loop
    by_cases hc : c = '\r' ∨ c = '\n'
    · have hb : isBreak c = true := by simp [isBreak, hc]
      rw [if_pos hc, ih, List.dropWhile_cons_of_pos hb]
    · have hb : isBreak c = false := by simp [isBreak, hc]
      have hb2 : ¬ isBreak c = true := by simp [hb]
      rw [if_neg hc, get_line_loop_some, List.dropWhile_cons_of_neg hb2, List.takeWhile_cons,
        List.dropWhile_cons]
      simp [hb]

theorem textLines_break (c : Char) (cs : List Char) (h : isBreak c = true) :
    textLines (c :: cs) = textLines cs := by
  simp [textLines, List.splitOnP_cons, h]

theorem textLines_dropWhile (cs : List Char) :
    textLines (cs.dropWhile isBreak) = textLines cs := by
  induction cs with
  | nil => rfl
  | cons c rest ih =>
    by_cases hc : isBreak c = true
    · rw [List.dropWhile_cons_of_pos hc, ih, textLines_break c rest hc]
    · rw [List.dropWhile_cons_of_neg hc]

theorem textLines_split (cs : List Char) :
    textLines cs =
      (if cs.takeWhile (fun c => !isBreak c) = [] then []
        else [cs.takeWhile fun c => !isBreak c]) ++
        textLines (cs.dropWhile fun c => !isBreak c) := by
  have hbody : ∀ x ∈ cs.takeWhile (fun c => !isBreak c), ¬ isBreak x = true := by
    intro x hx
    have := List.mem_takeWhile_imp hx
    simpa using this
  have hsplit := List.takeWhile_append_dropWhile (fun c => !isBreak c) cs
  cases hrest : cs.dropWhile (fun c => !isBreak c) with
  | nil =>
    rw [hrest, List.append_nil] at hsplit
    have h1 : textLines cs = if cs = [] then [] else [cs] := by
      unfold textLines
      rw [List.splitOnP_eq_single]
      · by_cases h : cs = [] <;> simp [h]
      · rw [← hsplit]; exact hbody
    rw [hsplit, h1]
    simp [textLines]
  | cons b r =>
    have hb : isBreak b = true := by
      have h := List.head?_dropWhile_not (fun c => !isBreak c) cs
      rw [hrest] at h
      simpa using h
    rw [hrest] at hsplit
    have h1 : textLines cs =
        (if cs.takeWhile (fun c => !isBreak c) = [] then []
          else [cs.takeWhile fun c => !isBreak c]) ++ textLines r := by
      conv_lhs => rw [← hsplit]
      unfold textLines
      rw [List.splitOnP_first isBreak _ hbody b hb]
      by_cases h : cs.takeWhile (fun c => !isBreak c) = [] <;> simp [h]
    rw [h1, textLines_break b r hb]

theorem get_line_rest_length (c : Char) (cs : List Char) :
    (get_line (c :: cs)).2.length ≤ cs.length := by
  rw [get_line_eq]
  have h1 : ∀ l : List Char, (l.dropWhile fun c => !isBreak c).length ≤ l.length :=
    fun l => (List.dropWhile_suffix _).length_le
  have h2 : ∀ l : List Char, (l.dropWhile isBreak).length ≤ l.length :=
    fun l => (List.dropWhile_suffix _).length_le
  by_cases hb : isBreak c = true
  · rw [List.dropWhile_cons_of_pos hb]
    exact le_trans (h1 _) (h2 _)
  · rw [List.dropWhile_cons_of_neg hb]
    have hn : (!isBreak c) = true := by simpa using hb
    show (List.dropWhile (fun c => !isBreak c) (c :: cs)).length ≤ cs.length
    rw [List.dropWhile_cons, if_pos hn]
    exact h1 _

theorem regionNames_step (t : List Char) :
    regionNames t =
      (if (get_line t).1.length > 0 ∧ ':' ∉ (get_line t).1 then [String.mk (get_line t).1]
        else []) ++ regionNames (get_line t).2 := by
  unfold regionNames
  rw [← textLines_dropWhile t, textLines_split, get_line_eq]
  simp only
  generalize List.takeWhile (fun c => !isBreak c) (List.dropWhile isBreak t) = line
  by_cases h1 : line = []
  · simp [h1]
  · have h2 : line.length > 0 := List.length_pos.2 h1
    by_cases h3 : ':' ∈ line <;> simp [h1, h2, h3]

theorem mem_atlas_insert (all_atlas : List String) (line : List Char) (x : String) :
    x ∈ atlas_insert all_atlas line ↔
      x ∈ all_atlas ∨
        x ∈ (if line.length > 0 ∧ ':' ∉ line then [String.mk line] else []) := by
  unfold atlas_insert
  by_cases h : line.length > 0 ∧ ':' ∉ line
  · rw [if_pos h, if_pos h]
    by_cases hm : String.mk line ∈ all_atlas
    · rw [if_pos hm]
      constructor
      · exact fun hx => Or.inl hx
      · rintro (hx | hx)
        · exact hx
        · rw [List.mem_singleton] at hx; rw [hx]; exact hm
    · rw [if_neg hm]; simp
  · rw [if_neg h, if_neg h]; simp

theorem parse_atlas_loop_spec (fuel : Nat) (t : List Char) (all_atlas : List String)
    (h : t.length < fuel) :
    ∃ res, parse_atlas_loop fuel t all_atlas = some res ∧
      ∀ x, x ∈ res ↔ x ∈ all_atlas ∨ x ∈ regionNames t := by
  induction fuel generalizing t all_atlas with
  | zero => omega
  | succ n ih =>
    unfold parse_atlas_loop
    simp only
    by_cases hr : (get_line t).2 = []
    · rw [if_pos hr]
      refine ⟨_, rfl, fun x => ?_⟩
      rw [mem_atlas_insert, regionNames_step t, hr]
      simp [regionNames, textLines]
    · rw [if_neg hr]
      have hlen : (get_line t).2.length < n := by
        cases t with
        | nil => exact absurd (by simp [get_line, get_line_loop]) hr
        | cons c cs =>
          have := get_line_rest_length c cs
          simp only [List.length_cons] at h
          omega
      obtain ⟨res, h1, h2⟩ := ih (get_line t).2 (atlas_insert all_atlas (get_line t).1) hlen
      refine ⟨res, h1, fun x => ?_⟩
      rw [h2, mem_atlas_insert, regionNames_step t, List.mem_append, or_assoc]

/-! ## Varints, strings and the atlas set -/

theorem push_varint_sound (wide : WideShift) (value : Int) (s : State) :
    ∃ bs, push_varint wide value true s = Res.ok () (s.append bs) ∧
      1 ≤ bs.length ∧ bs.length ≤ 5 ∧ (∀ b ∈ bs.dropLast, b &&& 128 = 128) ∧
      varint_value bs = toU32 value ∧
      (toU32 value < 268435456 → ∀ b ∈ bs.getLast?, b &&& 128 = 0) :=
  ⟨_, push_varint_true wide value s, (varint_loop_length wide _).1,
    (varint_loop_length wide _).2, varint_loop_continuation wide _,
    varint_value_loop wide _ (toU32_lt value), fun h => varint_loop_last_clear wide _ h⟩

/-- C1: the last byte of a positive varint does not always have its high bit
clear.  The fifth iteration of `push_varint` tests `v >> 35` on a 32-bit
unsigned, which has no defined result; where the shift count is taken modulo 32
the test is `v >> 3`, so for the values 268435456 and -1 (and every value of
2^28 or more) the fifth and last byte is stored with 0x80 set. -/
theorem push_varint_fifth_byte_masked (s : State) :
    push_varint wideMasked 268435456 true s =
        Res.ok () (s.append [128, 128, 128, 128, 129]) ∧
      push_varint wideMasked (-1) true s =
        Res.ok () (s.append [255, 255, 255, 255, 143]) := by
  constructor
  · rw [push_varint_true]; rfl
  · rw [push_varint_true]; rfl

/-- C2: for a 32-bit signed `value`, `push_varint(value, 0)` stores the bytes
of the positive varint of `(value << 1) ^ (value >> 31)`, the value a reader
decodes from them is that zig-zag code and its zig-zag inverse is `value`;
`push_varint(value, 1)` stores the varint of `value` itself, read as unsigned,
with no zig-zag. -/
theorem push_varint_zigzag (wide : WideShift) (value : Int)
    (h1 : -2147483648 ≤ value) (h2 : value ≤ 2147483647) (s : State) :
    push_varint wide value false s =
        push_varint wide (toI32 (zigzag32 (toU32 value))) true s ∧
      (∃ bs, push_varint wide value false s = Res.ok () (s.append bs) ∧
        varint_value bs = zigzag32 (toU32 value) ∧
        toI32 (unzigzag32 (varint_value bs)) = value) ∧
      (∃ bs, push_varint wide value true s = Res.ok () (s.append bs) ∧
        varint_value bs = toU32 value) := by
  have hz : zigzag32 (toU32 value) < 4294967296 := zigzag32_lt _ (toU32_lt value)
  refine ⟨?_, ⟨_, push_varint_false wide value s, varint_value_loop wide _ hz, ?_⟩,
    ⟨_, push_varint_true wide value s, varint_value_loop wide _ (toU32_lt value)⟩⟩
  · rw [push_varint_false, push_varint_true, toU32_toI32 _ hz]
  · rw [varint_value_loop wide _ hz, unzigzag32_zigzag32 _ (toU32_lt value)]
    exact toI32_toU32 value h1 h2

theorem push_varint_zigzag_witness :
    (-2147483648 : Int) ≤ -1 ∧ (-1 : Int) ≤ 2147483647 ∧
      push_varint wideZero (-1) false ⟨[], [], []⟩ =
        push_varint wideZero (toI32 (zigzag32 (toU32 (-1)))) true ⟨[], [], []⟩ :=
  ⟨by decide, by decide,
    (push_varint_zigzag wideZero (-1) (by decide) (by decide) ⟨[], [], []⟩).1⟩

/-- C3: `push_string` of a null string stores the single byte 0; of a string of
`n` bytes it stores the positive varint of `n + 1` and then those `n` bytes,
with no terminator; so the empty string is stored as the single byte 1, and a
null string and the empty string are stored differently. -/
theorem push_string_bytes (wide : WideShift) (s : State) :
    push_string wide none s = Res.ok () (s.append [0]) ∧
      (∀ str : String, ∃ bs,
        push_varint wide ((str.length : Int) + 1) true s = Res.ok () (s.append bs) ∧
        push_string wide (some str) s = Res.ok () (s.append (bs ++ strBytes str)) ∧
        (strBytes str).length = str.length) ∧
      push_string wide (some "") s = Res.ok () (s.append [1]) ∧
      push_string wide none s ≠ push_string wide (some "") s := by
  have h0 : varint_loop wide (toU32 0) 5 0 = [0] := by
    simp [varint_loop, shr32, toU32]
  have h1 : varint_loop wide (toU32 (((0 : Nat) : Int) + 1)) 5 0 = [1] := by
    simp [varint_loop, shr32, toU32]
  have hsome : ∀ str : String, push_string wide (some str) s =
      Res.ok () (s.append (varint_loop wide (toU32 ((str.length : Int) + 1)) 5 0 ++
        strBytes str)) := by
    intro str
    show (push_varint wide ((str.length : Int) + 1) true >>= fun _ => emit (strBytes str)) s = _
    rw [bind_run, push_varint_true]
    show emit (strBytes str) _ = _
    rw [emit_run, append_append]
  have hnone : push_string wide none s = Res.ok () (s.append [0]) := by
    show push_varint wide 0 true s = _
    rw [push_varint_true, h0]
  have hempty : push_string wide (some "") s = Res.ok () (s.append [1]) := by
    rw [hsome ""]
    show Res.ok () (s.append (varint_loop wide (toU32 (((0 : Nat) : Int) + 1)) 5 0 ++ [])) = _
    rw [h1]; rfl
  refine ⟨hnone, fun str => ⟨_, push_varint_true wide _ s, hsome str, ?_⟩, hempty, ?_⟩
  · unfold strBytes
    rw [List.length_map]
    cases str
    rfl
  · rw [hnone, hempty]
    intro h
    have h3 := append_inj s _ _ (Res.ok.inj h).2
    exact absurd h3 (by decide)

/-- C8: `parse_atlas` terminates on every atlas text, and a string is in the
atlas set afterwards exactly when it was there before or is a line of the text
(a maximal run of characters other than line breaks) that is non-empty and has
no `':'`; from the empty set, the set is exactly those lines.  A last line
without a line break after it is one of them. -/
theorem parse_atlas_lines (atlas : String) (s : State) :
    (∃ set, parse_atlas atlas s = Res.ok () { s with all_atlas := set } ∧
      ∀ x, x ∈ set ↔ x ∈ s.all_atlas ∨ x ∈ regionNames atlas.toList) ∧
      (∃ set, atlas_lines atlas [] = some set ∧
        ∀ x, x ∈ set ↔ x ∈ regionNames atlas.toList) ∧
      atlas_lines "a.png\nsize: 2,2\nhead\r\n  xy: 0, 0\n\ntorso" [] =
        some ["a.png", "head", "torso"] := by
  have hlen : atlas.toList.length < atlas.length + 1 := by
    cases atlas
    exact Nat.lt_succ_self _
  refine ⟨?_, ?_, by decide⟩
  · obtain ⟨res, h1, h2⟩ := parse_atlas_loop_spec _ atlas.toList s.all_atlas hlen
    refine ⟨res, ?_, h2⟩
    unfold parse_atlas atlas_lines
    rw [h1]
  · obtain ⟨res, h1, h2⟩ := parse_atlas_loop_spec _ atlas.toList [] hlen
    exact ⟨res, h1, fun x => by rw [h2]; simp⟩

/-! ## Colors -/

theorem resolve_bone_ok {bones : List BoneData} {name : String} {code i : Int} {s s1 : State}
    (h : resolve_bone bones name code s = Res.ok i s1) :
    i = find_bone bones name ∧ i ≠ -1 ∧ s1.buff_data = s.buff_data ∧
      s1.all_atlas = s.all_atlas := by
  unfold resolve_bone lookup_bone at h
  simp only [bind_run, noted] at h
  by_cases hf : find_bone bones name = -1
  · simp [hf, ret] at h
  · simp only [hf, if_false, pure_run, Res.ok.injEq] at h
    obtain ⟨h1, h2⟩ := h
    subst h2
    exact ⟨h1.symm, by rw [← h1]; exact hf, rfl, rfl⟩

theorem push_string_ok {wide : WideShift} {str : Option String} {s s1 : State}
    (h : push_string wide str s = Res.ok () s1) :
    s1.buff_data = s.buff_data ++ written (push_string wide str) [] ∧
      s1.all_atlas = s.all_atlas := by
  cases str with
  | none =>
    have h0 : ∀ t : State, push_string wide none t =
        Res.ok () (t.append (varint_loop wide (toU32 0) 5 0)) :=
      fun t => push_varint_true wide 0 t
    rw [h0] at h
    simp only [Res.ok.injEq, true_and] at h
    subst h
    simp [written, h0, State.append]
  | some str =>
    have h0 : ∀ t : State, push_string wide (some str) t =
        Res.ok () (t.append (varint_loop wide (toU32 ((str.length : Int) + 1)) 5 0 ++
          strBytes str)) := by
      intro t
      show (push_varint wide ((str.length : Int) + 1) true >>= fun _ => emit (strBytes str)) t
        = _
      rw [bind_run, push_varint_true]
      show emit (strBytes str) _ = _
      rw [emit_run, append_append]
    rw [h0] at h
    simp only [Res.ok.injEq, true_and] at h
    subst h
    simp [written, h0, State.append]

theorem push_slot_bytes (wide : WideShift) (vcBones : List BoneData) (vcSlots : List String)
    (slot : Json) (s s1 : State) (r : List String)
    (h : push_slot wide vcBones vcSlots slot s = Res.ok r s1) :
    ∃ boneName rest, Json_getString slot "bone" (some "") = some boneName ∧
      find_bone vcBones boneName ≠ -1 ∧
      s1.buff_data = s.buff_data ++
        written (push_string wide (Json_getString slot "name" (some ""))) [] ++
        varint_loop wide (toU32 (find_bone vcBones boneName)) 5 0 ++
        written (push_color (Json_getString slot "color" none)) s.all_atlas ++ rest := by
  unfold push_slot at h
  obtain ⟨_, s2, h1, k1⟩ := bind_ok_inv h
  obtain ⟨e1, a1⟩ := push_string_ok h1
  obtain ⟨name, s3, h2, k2⟩ := bind_ok_inv k1
  obtain ⟨_, e2⟩ := defined_ok h2
  obtain ⟨boneName, s4, h3, k3⟩ := bind_ok_inv k2
  obtain ⟨e3, e4⟩ := defined_ok h3
  obtain ⟨boneIndex, s5, h4, k4⟩ := bind_ok_inv k3
  obtain ⟨e5, n5, e6, a6⟩ := resolve_bone_ok h4
  obtain ⟨_, s6, h5, k5⟩ := bind_ok_inv k4
  obtain ⟨e7, a7⟩ := push_varint_ok h5
  obtain ⟨_, s7, h6, k6⟩ := bind_ok_inv k5
  obtain ⟨e8, _⟩ := sound_ok (sound_push_color _) h6
  obtain ⟨_, s8, h7, k7⟩ := bind_ok_inv k6
  obtain ⟨e10, _⟩ := sound_ok (sound_push_color _) h7
  obtain ⟨_, s9, h8, k8⟩ := bind_ok_inv k7
  obtain ⟨e11, _⟩ := push_string_ok h8
  obtain ⟨blendMode, s10, h9, k9⟩ := bind_ok_inv k8
  obtain ⟨e12, _⟩ := sound_ok (sound_blend_mode _) h9
  obtain ⟨_, s11, h10, k10⟩ := bind_ok_inv k9
  obtain ⟨e13, _⟩ := push_varint_ok h10
  simp only [pure_run, Res.ok.injEq] at k10
  have ha : s6.all_atlas = s.all_atlas := by rw [a7, a6, e4, e2, a1]
  have hrest : ∃ rest, s1.buff_data = s7.buff_data ++ rest :=
    ⟨_, by rw [← k10.2, e13, e12, e11, e10]; simp only [List.append_assoc]; rfl⟩
  obtain ⟨rest, e14⟩ := hrest
  refine ⟨boneName, rest, e3, by rw [← e5]; exact n5, ?_⟩
  rw [e14, e8, e7, e6, e4, e2, e1, ha, e5]

/-- C4: for a string of 8 hexadecimal digits, upper or lower case, `push_color`
stores 4 bytes and byte `k` is `16 * value(digit 2k) + value(digit 2k+1)`; for
a null color it stores the four bytes 0xFF; and a slot with no `color` field
that the driver writes has the four bytes 0xFF as its light color, right after
its name and the index of its bone. -/
theorem push_color_bytes (wide : WideShift) :
    (∀ (c0 c1 c2 c3 c4 c5 c6 c7 : Char) (v0 v1 v2 v3 v4 v5 v6 v7 : Nat),
      hexDigit c0 = some v0 → hexDigit c1 = some v1 → hexDigit c2 = some v2 →
      hexDigit c3 = some v3 → hexDigit c4 = some v4 → hexDigit c5 = some v5 →
      hexDigit c6 = some v6 → hexDigit c7 = some v7 → ∀ s : State,
      push_color (some (String.mk [c0, c1, c2, c3, c4, c5, c6, c7])) s =
        Res.ok () (s.append [16 * v0 + v1, 16 * v2 + v3, 16 * v4 + v5, 16 * v6 + v7])) ∧
      (∀ s : State, push_color none s = Res.ok () (s.append [255, 255, 255, 255])) ∧
      (∀ (vcBones : List BoneData) (vcSlots : List String) (slot : Json) (s s1 : State)
        (r : List String), Json_getItem slot "color" = none →
        push_slot wide vcBones vcSlots slot s = Res.ok r s1 →
        ∃ boneName rest, Json_getString slot "bone" (some "") = some boneName ∧
          s1.buff_data = s.buff_data ++
            written (push_string wide (Json_getString slot "name" (some ""))) [] ++
            varint_loop wide (toU32 (find_bone vcBones boneName)) 5 0 ++
            [255, 255, 255, 255] ++ rest) := by
  refine ⟨fun c0 c1 c2 c3 c4 c5 c6 c7 v0 v1 v2 v3 v4 v5 v6 v7 h0 h1 h2 h3 h4 h5 h6 h7 s =>
    push_color_hex c0 c1 c2 c3 c4 c5 c6 c7 v0 v1 v2 v3 v4 v5 v6 v7 h0 h1 h2 h3 h4 h5 h6 h7 s,
    push_color_none, ?_⟩
  intro vcBones vcSlots slot s s1 r hc h
  obtain ⟨boneName, rest, hb, _, hs⟩ := push_slot_bytes wide vcBones vcSlots slot s s1 r h
  have hn : Json_getString slot "color" none = none := by
    unfold Json_getString
    rw [hc]
  have hw : written (push_color none) s.all_atlas = [255, 255, 255, 255] := by
    simp [written, push_color_none, State.append]
  rw [hn, hw] at hs
  exact ⟨boneName, rest, hb, hs⟩

theorem push_color_bytes_witness :
    push_color (some "ff8000A9") ⟨[], [], []⟩ = Res.ok () ⟨[255, 128, 0, 169], [], []⟩ ∧
      ∃ boneName rest, Json_getString sampleSlot "bone" (some "") = some boneName ∧
        [2, 115, 0, 255, 255, 255, 255, 255, 255, 255, 255, 1, 0] =
          [] ++ written (push_string wideZero (Json_getString sampleSlot "name" (some ""))) [] ++
            varint_loop wideZero (toU32 (find_bone (sampleBones.getD []) boneName)) 5 0 ++
            [255, 255, 255, 255] ++ rest :=
  ⟨(push_color_bytes wideZero).1 'f' 'f' '8' '0' '0' '0' 'A' '9' 15 15 8 0 0 0 10 9
      rfl rfl rfl rfl rfl rfl rfl rfl ⟨[], [], []⟩,
    (push_color_bytes wideZero).2.2 (sampleBones.getD []) [] sampleSlot ⟨[], [], []⟩
      ⟨[2, 115, 0, 255, 255, 255, 255, 255, 255, 255, 255, 1, 0], [],
        [⟨["root"], "root", 0⟩]⟩ ["s"] rfl rfl⟩

/-! ## Indices -/

theorem bind_ret_inv {α β : Type} {m : M α} {f : α → M β} {s s2 : State} {c : Int}
    (h : (m >>= f) s = Res.ret c s2) :
    m s = Res.ret c s2 ∨ ∃ a s1, m s = Res.ok a s1 ∧ f a s1 = Res.ret c s2 := by
  rw [bind_run] at h
  cases hm : m s with
  | ok a s1 => rw [hm] at h; exact Or.inr ⟨a, s1, rfl, h⟩
  | ret c1 s1 =>
    rw [hm] at h
    exact Or.inl (by dsimp only at h; injection h with k1 k2; rw [k1, k2])
  | crash => rw [hm] at h; cases h

theorem preflight_ret {α : Type} (code : Int) (h : code < 0) : Preflight (ret code : M α) :=
  ⟨fun _ _ => h⟩

theorem preflight_pure {α : Type} (a : α) : Preflight (pure a : M α) :=
  ⟨fun _ hs => hs⟩

theorem preflight_defined {α : Type} (o : Option α) : Preflight (defined o) :=
  ⟨fun s hs => by cases o <;> simp [defined, pure_run, crash, hs]⟩

theorem preflight_parse_atlas (atlas : String) : Preflight (parse_atlas atlas) :=
  ⟨fun s hs => by
    unfold parse_atlas
    cases atlas_lines atlas s.all_atlas <;> simp [hs]⟩

theorem checked_bind {α : Type} {m : M α} {f : α → M Int} (hm : Preflight m)
    (hf : ∀ a, Checked (f a)) : Checked (m >>= f) := ⟨fun s s1 c hs h hc => by
  have h1 := hm.run s hs
  obtain h | ⟨a, s2, h2, h3⟩ := bind_ret_inv h
  · rw [h] at h1
    omega
  · rw [h2] at h1
    exact (hf a).run s2 s1 c h1 h3 hc⟩

theorem checked_ret (code : Int) (h : code < 0) : Checked (ret code) :=
  ⟨fun s s1 c _ hr hc => by
    simp only [ret, Res.ret.injEq] at hr
    omega⟩

theorem checked_convert_root (wide : WideShift) (root : Json) :
    Checked (convert_root wide root) := ⟨fun s s1 c hl h hc => by
  obtain ⟨e, he, hg⟩ := (sound_convert_body wide root).effect s.all_atlas
  have h1 := he s rfl
  unfold convert_root at h
  rw [bind_run, h1] at h
  cases e with
  | ok a bs ls =>
    simp only [State.apply, return_pos, Res.ret.injEq] at h
    rw [← h.2]
    simpa [State.extend, hl] using hg
  | ret c2 bs ls =>
    simp only [State.apply, Res.ret.injEq] at h
    rw [← h.2]
    have := hg (by rw [h.1]; exact hc)
    simpa [State.extend, hl] using this
  | crash => simp [State.apply] at h⟩

theorem checked_convert (wide : WideShift) (json : String) (len : Nat)
    (root : Option Json) (atlas : Option String) :
    ∀ (s s1 : State) (c : Int),
      convert_json_to_binary wide json len root atlas s = Res.ret c s1 → 0 ≤ c →
      ∀ l ∈ s1.lookups, l.Resolved := by
  have key : Checked (do
      if len < 16 then ret (-1)
      if (← defined (charAt json 0)) ≠ '{' then ret (-2)
      let head ← defined (read_chars json 18 0)
      if !contains_sub "\"skeleton\"".toList head then ret (-3)
      match root with
      | none => ret (-4)
      | some root => do
        (fun s => Res.ok () { s with all_atlas := [] } : M Unit)
        match atlas with
        | some atlas => parse_atlas atlas
        | none => pure ()
        convert_root wide root) := by
    repeat' first
      | with_reducible exact checked_convert_root _ _
      | with_reducible exact checked_ret _ (by decide)
      | with_reducible exact preflight_ret _ (by decide)
      | with_reducible exact preflight_pure _
      | with_reducible exact preflight_defined _
      | with_reducible exact preflight_parse_atlas _
      | with_reducible exact ⟨fun _ hs => hs⟩
      | with_reducible apply checked_bind
      | intro _
      | split
  intro s s1 c h hc
  exact key.run ⟨[], s.all_atlas, []⟩ s1 c rfl h hc

theorem find_string_absent (table : List String) (name : String) (h : name ∉ table) :
    find_string table name = -1 := by
  unfold find_string
  rcases find_string_loop_spec name table 0 with ⟨h1, _⟩ | ⟨i, _, _, h3, _⟩
  · exact h1
  · exact absurd (List.get?_mem h3) h

/-! ## Bones -/

theorem push_float_run (v : Nat) (s : State) :
    push_float v s = Res.ok () (s.append (float_bytes v)) := by
  simp only [push_float, bind_run, push_byte_run, append_append]
  rfl

theorem push_string_run (wide : WideShift) (str : String) (s : State) :
    push_string wide (some str) s = Res.ok () (s.append (string_bytes wide str)) := by
  show (push_varint wide ((str.length : Int) + 1) true >>= fun _ => emit (strBytes str)) s = _
  rw [bind_run, push_varint_true]
  show emit (strBytes str) _ = _
  rw [emit_run, append_append]
  rfl

theorem bind_ok {α β : Type} {m : M α} {f : α → M β} {s s1 : State} {a : α}
    (h : m s = Res.ok a s1) : (m >>= f) s = f a s1 := by
  rw [bind_run, h]

theorem push_bone_run (wide : WideShift) (i : Nat) (b : BoneData) (s : State) :
    push_bone wide i b s = Res.ok () (s.append (string_bytes wide b.name ++
      (if 0 < i then varint_loop wide (toU32 b.parent) 5 0 else []) ++
      (float_bytes b.rotation ++ float_bytes b.x ++ float_bytes b.y ++ float_bytes b.scaleX ++
        float_bytes b.scaleY ++ float_bytes b.shearX ++ float_bytes b.shearY ++
        float_bytes b.length ++ varint_loop wide (toU32 b.mode) 5 0))) := by
  have tail : ∀ t : State, (do
      push_float b.rotation
      push_float b.x
      push_float b.y
      push_float b.scaleX
      push_float b.scaleY
      push_float b.shearX
      push_float b.shearY
      push_float b.length
      push_varint wide b.mode true : M Unit) t =
      Res.ok () (t.append (float_bytes b.rotation ++ float_bytes b.x ++ float_bytes b.y ++
        float_bytes b.scaleX ++ float_bytes b.scaleY ++ float_bytes b.shearX ++
        float_bytes b.shearY ++ float_bytes b.length ++
        varint_loop wide (toU32 b.mode) 5 0)) := by
    intro t
    rw [bind_ok (push_float_run _ _), bind_ok (push_float_run _ _),
      bind_ok (push_float_run _ _), bind_ok (push_float_run _ _),
      bind_ok (push_float_run _ _), bind_ok (push_float_run _ _),
      bind_ok (push_float_run _ _), bind_ok (push_float_run _ _), push_varint_true]
    simp only [append_append, List.append_assoc]
  unfold push_bone
  rw [bind_ok (push_string_run wide b.name s)]
  dsimp only
  by_cases hi : 0 < i
  · have hi2 : i > 0 := hi
    rw [if_pos hi, if_pos hi2, bind_ok (push_varint_true wide b.parent _), tail]
    simp only [append_append, List.append_assoc]
  · have hi2 : ¬ i > 0 := hi
    rw [if_neg hi, if_neg hi2, bind_ok (pure_run _ _), tail]
    simp only [append_append, List.append_assoc, List.append_nil]

theorem scan_parent_eq (parent_name : String) (parent : Int) (l : List BoneData) (j : Int)
    (hj : 0 ≤ j) :
    scan_parent parent_name parent l j =
      if find_string_loop parent_name (boneNames l) j = -1 then parent
      else find_string_loop parent_name (boneNames l) j := by
  induction l generalizing j with
  | nil => simp [scan_parent, boneNames, find_string_loop]
  | cons b rest ih =>
    unfold scan_parent
    by_cases hb : parent_name = b.name
    · have hne : j ≠ -1 := by omega
      simp [boneNames, find_string_loop, hb, hne]
    · have hb2 : ¬ b.name = parent_name := fun h => hb h.symm
      rw [if_neg hb, ih (j + 1) (by omega)]
      simp [boneNames, find_string_loop, hb2]

theorem read_bones_parent (l : List Json) (res : List BoneData) (h : read_bones l = some res) :
    ∀ b ∈ res, b.parent = 0 := by
  induction l generalizing res with
  | nil =>
    simp only [read_bones, Option.some.injEq] at h
    subst h
    simp
  | cons x rest ih =>
    unfold read_bones at h
    cases hx : read_bone x with
    | none => simp [hx] at h
    | some bd =>
      cases hr : read_bones rest with
      | none => simp [hx, hr] at h
      | some res2 =>
        simp only [hx, hr, Option.bind_eq_bind, Option.some_bind, Option.pure_def,
          Option.some.injEq] at h
        subst h
        intro b hb
        rcases List.mem_cons.1 hb with hb | hb
        · subst hb
          unfold read_bone at hx
          cases h1 : Json_getString x "name" (some "") with
          | none => simp [h1] at hx
          | some n =>
            cases h2 : Json_getString x "parent" (some "") with
            | none => simp [h1, h2] at hx
            | some p =>
              cases h3 : Json_getString x "transform" (some "normal") with
              | none => simp [h1, h2, h3] at hx
              | some t =>
                simp only [h1, h2, h3, Option.bind_eq_bind, Option.some_bind, Option.pure_def,
                  Option.some.injEq] at hx
                rw [← hx]
        · exact ih res2 hr b hb

theorem resolve_parents_names (res : List BoneData) :
    boneNames (resolve_parents res) = boneNames res := by
  unfold boneNames resolve_parents
  rw [List.map_map]
  apply List.map_congr_left
  intro b _
  simp only [Function.comp]
  split <;> rfl
theorem bone_parent_cases (res : List BoneData) (h0 : ∀ b ∈ res, b.parent = 0) (i : Nat)
    (b : BoneData) (hb : (resolve_parents res).get? i = some b) :
    (b.parent = 0 ∧ (b.parent_name.length = 0 ∨ b.parent_name ∉ boneNames res)) ∨
      (0 < b.parent_name.length ∧
        Lookup.Resolved ⟨boneNames res, b.parent_name, b.parent⟩) := by
  unfold resolve_parents at hb
  rw [List.get?_eq_getElem?, List.getElem?_map] at hb
  cases hr : res[i]? with
  | none => rw [hr] at hb; cases hb
  | some b0 =>
    rw [hr] at hb
    simp only [Option.map_some', Option.some.injEq] at hb
    have hp0 : b0.parent = 0 := h0 b0 (List.getElem?_mem hr)
    by_cases hl : b0.parent_name.length > 0
    · rw [if_pos hl, scan_parent_eq _ _ _ _ (le_refl 0)] at hb
      rcases find_string_loop_spec b0.parent_name (boneNames res) 0 with
        ⟨h1, h2⟩ | ⟨k, h1, h2, h3, h4⟩
      · rw [if_pos h1] at hb
        left
        rw [← hb]
        exact ⟨hp0, Or.inr (h2 (le_refl 0))⟩
      · have hne : find_string_loop b0.parent_name (boneNames res) 0 ≠ -1 := by
          rw [h1]; omega
        rw [if_neg hne] at hb
        right
        rw [← hb]
        exact ⟨hl, k, by simpa using h1, h2, h3, h4⟩
    · rw [if_neg hl] at hb
      left
      rw [← hb]
      exact ⟨hp0, Or.inl (by omega)⟩

/-- C6: the bone table that `process_bones` produces for the bones `root`, `a`
with the parent `b`, and `b` has the parent index 2 at the bone of index 1, and
the driver writes that 2 after the name of the bone: the parent index written
is not smaller than the index of the bone. -/
theorem bone_parent_forward :
    ∃ vcBones b, process_bones sampleForward = some vcBones ∧ vcBones.get? 1 = some b ∧
      b.parent = 2 ∧ ¬ b.parent < 1 ∧
      ∃ rest, push_bone wideZero 1 b ⟨[], [], []⟩ =
        Res.ok () ⟨[2, 97] ++ [2] ++ rest, [], []⟩ :=
  ⟨_, _, rfl, rfl, rfl, by decide, _, rfl⟩

/-- C6: for the bone table that `process_bones` produces, the driver writes no
parent index for the bone at index 0 and, for a bone at an index `i > 0`, the
parent index of its record right after its name.  That index is 0 when the bone
names no parent or a parent that no bone has; otherwise it is the position of
the first bone that has the parent name.  It is below the size of the table,
and it is smaller than `i` when a bone with the parent name comes before the
bone, or when the bone names no parent. -/
theorem bone_parent_first (wide : WideShift) (bones : Json) (vcBones : List BoneData)
    (h : process_bones bones = some vcBones) (i : Nat) (b : BoneData)
    (hb : vcBones.get? i = some b) :
    (∀ s : State, push_bone wide i b s = Res.ok () (s.append (string_bytes wide b.name ++
      (if 0 < i then varint_loop wide (toU32 b.parent) 5 0 else []) ++
      (float_bytes b.rotation ++ float_bytes b.x ++ float_bytes b.y ++ float_bytes b.scaleX ++
        float_bytes b.scaleY ++ float_bytes b.shearX ++ float_bytes b.shearY ++
        float_bytes b.length ++ varint_loop wide (toU32 b.mode) 5 0)))) ∧
      (b.parent_name = "" ∨ b.parent_name ∉ boneNames vcBones → b.parent = 0) ∧
      (b.parent_name ≠ "" → b.parent_name ∈ boneNames vcBones →
        ∃ k : Nat, b.parent = (k : Int) ∧ (boneNames vcBones).get? k = some b.parent_name ∧
          ∀ j, j < k → (boneNames vcBones).get? j ≠ some b.parent_name) ∧
      (0 ≤ b.parent ∧ b.parent < vcBones.length) ∧
      ((b.parent_name = "" ∧ 0 < i ∨
        ∃ j, j < i ∧ (boneNames vcBones).get? j = some b.parent_name) → b.parent < i) := by
  unfold process_bones at h
  cases hr : read_bones bones.child with
  | none => rw [hr] at h; cases h
  | some res =>
    rw [hr] at h
    simp only [Option.map_some', Option.some.injEq] at h
    subst h
    have h0 := read_bones_parent _ _ hr
    have hn := resolve_parents_names res
    have hlen : i < (resolve_parents res).length := by
      by_contra hc
      rw [List.get?_eq_none.2 (by omega)] at hb
      cases hb
    have hempty : ∀ str : String, str.length = 0 ↔ str = "" := by
      intro str
      cases str with
      | mk data =>
        constructor
        · intro hz
          have : data = [] := List.length_eq_zero.1 hz
          subst this
          rfl
        · intro hz
          rw [hz]
          rfl
    rw [hn]
    refine ⟨push_bone_run wide i b, ?_, ?_, ?_, ?_⟩
    · intro hcase
      rcases bone_parent_cases res h0 i b hb with ⟨h1, _⟩ | ⟨h1, k, h2, h3, h4, h5⟩
      · exact h1
      · rcases hcase with hcase | hcase
        · rw [(hempty _).2 hcase] at h1
          omega
        · exact absurd (List.get?_mem h4) hcase
    · intro hne hmem
      rcases bone_parent_cases res h0 i b hb with ⟨_, h1 | h1⟩ | ⟨_, k, h2, h3, h4, h5⟩
      · exact absurd ((hempty _).1 h1) hne
      · exact absurd hmem h1
      · exact ⟨k, h2, h4, h5⟩
    · rcases bone_parent_cases res h0 i b hb with ⟨h1, _⟩ | ⟨_, k, h2, h3, h4, h5⟩
      · rw [h1]
        exact ⟨le_refl 0, by exact_mod_cast (by omega : 0 < (resolve_parents res).length)⟩
      · have h2 : b.parent = (k : Int) := h2
        have h3 : k < (boneNames res).length := h3
        rw [← hn] at h3
        unfold boneNames at h3
        rw [List.length_map] at h3
        rw [h2]
        exact ⟨by omega, by exact_mod_cast h3⟩
    · intro hcase
      rcases bone_parent_cases res h0 i b hb with ⟨h1, _⟩ | ⟨hl, k, h2, h3, h4, h5⟩
      · rw [h1]
        rcases hcase with ⟨_, hi⟩ | ⟨j, hj, _⟩
        · exact_mod_cast hi
        · exact_mod_cast (by omega : 0 < i)
      · have h2 : b.parent = (k : Int) := h2
        rcases hcase with ⟨he, _⟩ | ⟨j, hj, hj2⟩
        · rw [(hempty _).2 he] at hl
          omega
        · have : ¬ j < k := fun hjk => h5 j hjk hj2
          rw [h2]
          exact_mod_cast (by omega : k < i)

theorem bone_parent_first_witness :
    ∃ vcBones b, process_bones sampleForward = some vcBones ∧ vcBones.get? 2 = some b ∧
      (0 ≤ b.parent ∧ b.parent < vcBones.length) ∧
      ((b.parent_name = "" ∧ 0 < 2 ∨
        ∃ j, j < 2 ∧ (boneNames vcBones).get? j = some b.parent_name) → b.parent < (2 : Nat)) :=
  ⟨_, _, rfl, rfl,
    (bone_parent_first wideZero sampleForward _ rfl 2 _ rfl).2.2.2.1,
    (bone_parent_first wideZero sampleForward _ rfl 2 _ rfl).2.2.2.2⟩

/-! ## The atlas filter -/

/-- C7: a skin entry that `parse_skin` writes stores the index of its slot,
then the count of the attachments kept, then the attachments kept in input
order.  With an empty atlas set every attachment is kept; with a non-empty one
the attachments kept are exactly those whose type is not region, mesh or
linkedmesh (an absent type counts as region) or whose actual name (the `name`
field, else the key) is in the atlas set. -/
theorem skin_entry_filter (wide : WideShift) (slots : List String) (attachments : Json)
    (s s1 : State) (h : push_skin_entry wide slots attachments s = Res.ok () s1) :
    ∃ name kept, attachments.name = some name ∧
      kept = (if s.all_atlas = [] then attachments.child
        else attachments.child.filter (atlasKeeps s.all_atlas)) ∧
      s1.buff_data = s.buff_data ++ varint_loop wide (toU32 (find_string slots name)) 5 0 ++
        varint_loop wide (toU32 kept.length) 5 0 ++
        (kept.map fun a => written (push_attachment wide slots a) s.all_atlas).flatten := by
  obtain ⟨name, valid, h1, h2, _, h3⟩ := push_skin_entry_bytes wide slots attachments s s1 h
  refine ⟨name, valid, h1, ?_, h3⟩
  by_cases he : s.all_atlas = []
  · rw [if_pos he]
    rw [he, valid_loop_empty] at h2
    simpa using h2.symm
  · rw [if_neg he]
    rw [valid_loop_filter _ he] at h2
    split at h2
    · simpa using h2.symm
    · cases h2

theorem skin_entry_filter_witness :
    (sampleEntry.child.filter (atlasKeeps ["head"])).map Json.name =
        [some "head", some "pin"] ∧
      (sampleEntry.child.filter (atlasKeeps ["arm"])).map Json.name = [some "pin"] ∧
      ∃ s1, push_skin_entry wideZero ["s"] sampleEntry ⟨[], ["head"], []⟩ = Res.ok () s1 ∧
        ∃ name kept, sampleEntry.name = some name ∧
          kept = (if ["head"] = [] then sampleEntry.child
            else sampleEntry.child.filter (atlasKeeps ["head"])) ∧
          s1.buff_data = [] ++ varint_loop wideZero (toU32 (find_string ["s"] name)) 5 0 ++
            varint_loop wideZero (toU32 kept.length) 5 0 ++
            (kept.map fun a => written (push_attachment wideZero ["s"] a) ["head"]).flatten :=
  ⟨by decide, by decide, _, rfl,
    skin_entry_filter wideZero ["s"] sampleEntry ⟨[], ["head"], []⟩ _ rfl⟩

/-! ## Skins -/

theorem call_checked_ok {base : Int} {f : M Int} {s s1 : State}
    (h : call_checked base f s = Res.ok () s1) :
    f s = Res.ok 0 s1 ∨ f s = Res.ret 0 s1 := by
  unfold call_checked at h
  cases hf : f s with
  | ok rt s2 =>
    rw [hf] at h
    by_cases hr : rt ≠ 0
    · simp [hr] at h
    · simp only [hr, if_false, Res.ok.injEq, true_and] at h
      left
      rw [h, not_not.1 hr]
  | ret rt s2 =>
    rw [hf] at h
    by_cases hr : rt ≠ 0
    · simp [hr] at h
    · simp only [hr, if_false, Res.ok.injEq, true_and] at h
      right
      rw [h, not_not.1 hr]
  | crash => rw [hf] at h; cases h

theorem checked_skin_bytes {wide : WideShift} {base : Int} {skin : Json}
    {vcSlots : List String} {s s1 : State}
    (h : call_checked base (parse_skin wide skin vcSlots) s = Res.ok () s1) :
    s1.buff_data = s.buff_data ++ written (parse_skin wide skin vcSlots) s.all_atlas ∧
      s1.all_atlas = s.all_atlas := by
  rcases call_checked_ok h with h1 | h1
  · exact sound_ok (sound_parse_skin wide skin vcSlots) h1
  · exact sound_ret_written (sound_parse_skin wide skin vcSlots) h1

theorem push_named_skin_bytes (wide : WideShift) (vcSlots vcSkins vcSkins1 : List String)
    (skin : Json) (s s1 : State)
    (h : push_named_skin wide vcSlots vcSkins skin s = Res.ok vcSkins1 s1) :
    s1.all_atlas = s.all_atlas ∧
      s1.buff_data = s.buff_data ++
        (if isNamed skin then named_block wide vcSlots s.all_atlas skin else []) ∧
      vcSkins1 = vcSkins ++ (if isNamed skin then skin.name.toList else []) := by
  unfold push_named_skin at h
  obtain ⟨name, s2, h1, k1⟩ := bind_ok_inv h
  obtain ⟨e1, e2⟩ := defined_ok h1
  subst e2
  by_cases hn : name ≠ "default"
  · have hnamed : isNamed skin = true := by
      simp [isNamed, e1, hn]
    rw [if_pos hn] at k1
    obtain ⟨_, s3, h2, k2⟩ := bind_ok_inv k1
    obtain ⟨e3, e4⟩ := push_string_ok h2
    obtain ⟨_, s4, h3, k3⟩ := bind_ok_inv k2
    obtain ⟨e5, e6⟩ := checked_skin_bytes h3
    simp only [pure_run, Res.ok.injEq] at k3
    rw [hnamed, if_pos rfl, if_pos rfl, ← k3.2, ← k3.1, e1]
    refine ⟨by rw [e6, e4], ?_, rfl⟩
    rw [e5, e3, e4, named_block, e1, List.append_assoc]
  · have hnamed : isNamed skin = false := by
      simp [isNamed, e1, not_not.1 hn]
    rw [if_neg hn] at k1
    simp only [pure_run, Res.ok.injEq] at k1
    rw [hnamed, ← k1.2, ← k1.1]
    simp

theorem named_skins_bytes (wide : WideShift) (vcSlots : List String) (l : List Json)
    (acc r : List String) (s s1 : State)
    (h : forAcc l acc (push_named_skin wide vcSlots) s = Res.ok r s1) :
    s1.all_atlas = s.all_atlas ∧
      s1.buff_data = s.buff_data ++
        ((l.filter isNamed).map (named_block wide vcSlots s.all_atlas)).flatten ∧
      r = acc ++ (l.filter isNamed).filterMap Json.name := by
  induction l generalizing acc s with
  | nil =>
    simp only [forAcc, pure_run, Res.ok.injEq] at h
    rw [← h.1, ← h.2]
    simp
  | cons x rest ih =>
    unfold forAcc at h
    obtain ⟨acc1, s2, h1, k1⟩ := bind_ok_inv h
    obtain ⟨e1, e2, e3⟩ := push_named_skin_bytes wide vcSlots acc acc1 x s s2 h1
    obtain ⟨e4, e5, e6⟩ := ih acc1 s2 k1
    refine ⟨by rw [e4, e1], ?_, ?_⟩
    · rw [e5, e2, e1]
      by_cases hx : isNamed x = true
      · simp [hx, List.filter_cons]
      · simp [hx, List.filter_cons]
    · rw [e6, e3]
      by_cases hx : isNamed x = true
      · have hname : ∃ n, x.name = some n := by
          obtain ⟨n, s3, h2, _⟩ := bind_ok_inv (by unfold push_named_skin at h1; exact h1)
          exact ⟨n, (defined_ok h2).1⟩
        obtain ⟨n, hn⟩ := hname
        simp [hx, List.filter_cons, hn]
      · simp [hx, List.filter_cons]

theorem push_skins_bytes (wide : WideShift) (vcSlots : List String) (skins : Json)
    (vcSkins : List String) (s s1 : State)
    (h : push_skins wide vcSlots skins s = Res.ok vcSkins s1) :
    ∃ defaultSkin, find_default skins.child = some defaultSkin ∧
      s1.buff_data = s.buff_data ++
        (match defaultSkin with
          | some d => written (parse_skin wide d vcSlots) s.all_atlas
          | none => []) ++
        varint_loop wide (toU32 (skins.size - 1)) 5 0 ++
        ((skins.child.filter isNamed).map (named_block wide vcSlots s.all_atlas)).flatten ∧
      vcSkins = (match defaultSkin with
          | some _ => ["default"]
          | none => []) ++ (skins.child.filter isNamed).filterMap Json.name := by
  unfold push_skins at h
  obtain ⟨defaultSkin, s2, h1, k1⟩ := bind_ok_inv h
  obtain ⟨e1, e2⟩ := defined_ok h1
  subst e2
  dsimp only at k1
  refine ⟨defaultSkin, e1, ?_⟩
  cases defaultSkin with
  | none =>
    dsimp only at k1
    obtain ⟨vcSkins0, s3, h2, k2⟩ := bind_ok_inv k1
    simp only [pure_run, Res.ok.injEq] at h2
    obtain ⟨_, s4, h3, k3⟩ := bind_ok_inv k2
    obtain ⟨e3, e4⟩ := push_varint_ok h3
    obtain ⟨e5, e6, e7⟩ := named_skins_bytes wide vcSlots _ _ _ _ _ k3
    dsimp only
    rw [e6, e4, e3, e7, ← h2.1, ← h2.2]
    simp
  | some d =>
    dsimp only at k1
    obtain ⟨_, s5, h4, k4⟩ := bind_ok_inv k1
    obtain ⟨e8, e9⟩ := checked_skin_bytes h4
    obtain ⟨vcSkins0, s3, h2, k2⟩ := bind_ok_inv k4
    simp only [pure_run, Res.ok.injEq] at h2
    obtain ⟨_, s4, h3, k3⟩ := bind_ok_inv k2
    obtain ⟨e3, e4⟩ := push_varint_ok h3
    obtain ⟨e5, e6, e7⟩ := named_skins_bytes wide vcSlots _ _ _ _ _ k3
    dsimp only
    rw [e6, e4, e3, e7, ← h2.1, ← h2.2, e8, e9]
    exact ⟨rfl, rfl⟩
theorem find_default_none (l : List Json) (h : find_default l = some none) :
    l.filter isNamed = l := by
  induction l with
  | nil => rfl
  | cons x rest ih =>
    unfold find_default at h
    cases hx : x.name with
    | none => rw [hx] at h; cases h
    | some n =>
      rw [hx] at h
      by_cases hn : n = "default"
      · simp [hn] at h
      · simp only [hn, if_false] at h
        have hk : isNamed x = true := by simp [isNamed, hx, hn]
        rw [List.filter_cons, if_pos hk, ih h]

theorem filter_named_length (l : List Json) :
    (l.filter isNamed).length + (l.filter fun skin => !isNamed skin).length = l.length := by
  induction l with
  | nil => rfl
  | cons x rest ih =>
    by_cases hx : isNamed x = true
    · simp only [List.filter_cons, hx, if_true, Bool.not_true, List.length_cons]
      simp only [Bool.false_eq_true, if_false]
      omega
    · have hx2 : isNamed x = false := by simpa using hx
      simp only [List.filter_cons, hx2, Bool.not_false, if_true, List.length_cons]
      simp only [Bool.false_eq_true, if_false]
      omega

set_option maxRecDepth 8192

/-- C9: the conversion of a skeleton whose only skin is named `a`, so that no
skin is named `default`, is not rejected: it returns the count 123 of the bytes
written. -/
theorem no_default_accepted :
    find_default sampleNoDefault = some none ∧
      ∃ s1, convert_json_to_binary wideZero sampleText sampleText.length
        (some (sampleWithSkins sampleNoDefault)) none ⟨[], [], []⟩ = Res.ret 123 s1 ∧
        ¬ (123 : Int) < 0 :=
  ⟨rfl, _, rfl, by decide⟩

/-- C10: for the skins `{"default": {}, "default": {}}` the driver stores the
unnamed block of the first skin and then the count 1, and no named block
follows the count, since the loop over the named skins passes over every skin
named `default`; the conversion succeeds. -/
theorem two_defaults_count :
    find_default sampleTwoDefaults = some (some (sampleObject (some "default") [])) ∧
      (∃ s1, push_skins wideZero ["s"] (sampleObject (some "skins") sampleTwoDefaults)
          ⟨[], [], []⟩ = Res.ok ["default"] s1 ∧
        s1.buff_data = written (parse_skin wideZero (sampleObject (some "default") []) ["s"]) []
          ++ varint_loop wideZero (toU32 1) 5 0 ++ [] ∧
        varint_value (varint_loop wideZero (toU32 1) 5 0) = 1) ∧
      (sampleTwoDefaults.filter isNamed).length = 0 ∧
      ∃ s2, convert_json_to_binary wideZero sampleText sampleText.length
        (some (sampleWithSkins sampleTwoDefaults)) none ⟨[], [], []⟩ = Res.ret 75 s2 :=
  ⟨rfl, ⟨_, rfl, rfl, rfl⟩, rfl, _, rfl⟩

/-- C10: when the skins block is written for skins of which exactly one is
named `default`, the body of the default skin is stored first, with no name
before it; then the positive varint of the number of skins minus one; then the
named blocks (the name and then the body) of the other skins in input order,
and their number is the count written.  The skin table holds `default` and
then the names of the other skins. -/
theorem default_skin_first (wide : WideShift) (vcSlots : List String) (skins d : Json)
    (vcSkins : List String) (s s1 : State)
    (hd : find_default skins.child = some (some d))
    (hone : (skins.child.filter fun skin => !isNamed skin).length = 1)
    (hsize : skins.size ≤ 2147483647)
    (h : push_skins wide vcSlots skins s = Res.ok vcSkins s1) :
    s1.buff_data = s.buff_data ++ written (parse_skin wide d vcSlots) s.all_atlas ++
        varint_loop wide (toU32 (skins.size - 1)) 5 0 ++
        ((skins.child.filter isNamed).map (named_block wide vcSlots s.all_atlas)).flatten ∧
      ((skins.child.filter isNamed).length : Int) = skins.size - 1 ∧
      varint_value (varint_loop wide (toU32 (skins.size - 1)) 5 0) =
        (skins.child.filter isNamed).length ∧
      vcSkins = "default" :: (skins.child.filter isNamed).filterMap Json.name := by
  obtain ⟨d2, h1, h2, h3⟩ := push_skins_bytes wide vcSlots skins vcSkins s s1 h
  rw [hd] at h1
  have hd2 : d2 = some d := (Option.some.inj h1).symm
  subst hd2
  have hlen := filter_named_length skins.child
  unfold Json.size at hsize
  have hcount : ((skins.child.filter isNamed).length : Int) = skins.size - 1 := by
    unfold Json.size
    omega
  have hlt : (skins.child.filter isNamed).length < 4294967296 := by omega
  refine ⟨h2, hcount, ?_, by simpa using h3⟩
  rw [varint_value_loop wide _ (toU32_lt _), ← hcount, toU32_of_nat _ hlt]

theorem default_skin_first_witness :
    find_default (sampleObject (some "skins") sampleTwoSkins).child =
        some (some (sampleObject (some "default") [])) ∧
      ∃ s1, push_skins wideZero ["s"] (sampleObject (some "skins") sampleTwoSkins)
          ⟨[], [], []⟩ = Res.ok ["default", "a"] s1 ∧
        (((sampleObject (some "skins") sampleTwoSkins).child.filter isNamed).length : Int) =
          (sampleObject (some "skins") sampleTwoSkins).size - 1 :=
  ⟨rfl, _, rfl,
    (default_skin_first wideZero ["s"] (sampleObject (some "skins") sampleTwoSkins)
      (sampleObject (some "default") []) ["default", "a"] ⟨[], [], []⟩ _ rfl rfl (by decide)
      rfl).2.1⟩

/-! ## Return codes -/

theorem returns_mono {α : Type} {P Q : Int → Prop} {m : M α} (h : Returns P m)
    (hpq : ∀ c, P c → Q c) : Returns Q m :=
  ⟨fun s s1 c hr => hpq c (h.code s s1 c hr)⟩

theorem returns_pure {α : Type} (P : Int → Prop) (a : α) : Returns P (pure a : M α) :=
  ⟨fun _ _ _ h => by cases h⟩

theorem returns_crash {α : Type} (P : Int → Prop) : Returns P (crash : M α) :=
  ⟨fun _ _ _ h => by cases h⟩

theorem returns_ret {α : Type} (P : Int → Prop) (code : Int) (h : P code) :
    Returns P (ret code : M α) :=
  ⟨fun _ _ c hr => by
    simp only [ret, Res.ret.injEq] at hr
    rw [← hr.1]
    exact h⟩

theorem returns_emit (P : Int → Prop) (bs : List Nat) : Returns P (emit bs) :=
  ⟨fun _ _ _ h => by cases h⟩

theorem returns_defined {α : Type} (P : Int → Prop) (o : Option α) : Returns P (defined o) :=
  ⟨fun _ _ _ h => by cases o <;> cases h⟩

theorem returns_bind {α β : Type} {P : Int → Prop} {m : M α} {f : α → M β}
    (hm : Returns P m) (hf : ∀ a, Returns P (f a)) : Returns P (m >>= f) :=
  ⟨fun s s1 c h => by
    rcases bind_ret_inv h with h1 | ⟨a, s2, _, h2⟩
    · exact hm.code s s1 c h1
    · exact (hf a).code s2 s1 c h2⟩

theorem returns_push_byte (P : Int → Prop) (c : Int) : Returns P (push_byte c) :=
  returns_emit P _

theorem returns_push_boolen (P : Int → Prop) (c : Int) : Returns P (push_boolen c) :=
  returns_emit P _

theorem returns_push_varint (P : Int → Prop) (wide : WideShift) (v : Int) (o : Bool) :
    Returns P (push_varint wide v o) :=
  returns_emit P _

theorem returns_of_sound_never {α : Type} (P : Int → Prop) {m : M α}
    (h : ∀ s, (∃ a s1, m s = Res.ok a s1) ∨ m s = Res.crash) : Returns P m :=
  ⟨fun s s1 c hr => by
    rcases h s with ⟨a, s2, h1⟩ | h1
    · rw [h1] at hr; cases hr
    · rw [h1] at hr; cases hr⟩

theorem returns_push_float (P : Int → Prop) (v : Nat) : Returns P (push_float v) :=
  returns_of_sound_never P fun s => Or.inl ⟨(), _, push_float_run v s⟩

theorem returns_push_string (P : Int → Prop) (wide : WideShift) (str : Option String) :
    Returns P (push_string wide str) := by
  cases str with
  | none => exact returns_push_varint P wide 0 true
  | some str => exact returns_of_sound_never P fun s => Or.inl ⟨(), _, push_string_run wide str s⟩

theorem returns_color_byte (P : Int → Prop) (color : String) (i : Nat) :
    Returns P (color_byte color i) := by
  unfold color_byte
  repeat' first
    | with_reducible exact returns_pure _ _
    | with_reducible exact returns_defined _ _
    | with_reducible apply returns_bind
    | intro _

theorem returns_push_color (P : Int → Prop) (color : Option String) :
    Returns P (push_color color) := by
  unfold push_color
  repeat' first
    | with_reducible exact returns_push_byte _ _
    | with_reducible exact returns_color_byte _ _ _
    | with_reducible apply returns_bind
    | intro _
    | split

theorem returns_resolve_string (P : Int → Prop) (vcStr : List String) (str : String)
    (code : Int) (h : P code) : Returns P (resolve_string vcStr str code) :=
  ⟨fun s s1 c hr => by
    unfold resolve_string lookup_string at hr
    simp only [bind_run, noted] at hr
    split at hr
    · simp only [ret, Res.ret.injEq] at hr
      rw [← hr.1]
      exact h
    · cases hr⟩

theorem returns_resolve_bone (P : Int → Prop) (bones : List BoneData) (name : String)
    (code : Int) (h : P code) : Returns P (resolve_bone bones name code) :=
  ⟨fun s s1 c hr => by
    unfold resolve_bone lookup_bone at hr
    simp only [bind_run, noted] at hr
    split at hr
    · simp only [ret, Res.ret.injEq] at hr
      rw [← hr.1]
      exact h
    · cases hr⟩

theorem returns_resolve_event (P : Int → Prop) (events : List EventData) (name : String)
    (code : Int) (h : P code) : Returns P (resolve_event events name code) :=
  ⟨fun s s1 c hr => by
    unfold resolve_event lookup_event at hr
    simp only [bind_run, noted] at hr
    split at hr
    · simp only [ret, Res.ret.injEq] at hr
      rw [← hr.1]
      exact h
    · cases hr⟩

theorem returns_forEach {α : Type} (P : Int → Prop) (xs : List α) (body : α → M Unit)
    (h : ∀ x, Returns P (body x)) : Returns P (forEach xs body) := by
  induction xs with
  | nil => exact returns_pure _ _
  | cons x rest ih =>
    unfold forEach
    exact returns_bind (h x) fun _ => ih

theorem returns_forFrames (P : Int → Prop) (xs : List Json) (body : Json → Bool → M Unit)
    (h : ∀ x b, Returns P (body x b)) : Returns P (forFrames xs body) := by
  induction xs with
  | nil => exact returns_pure _ _
  | cons x rest ih =>
    unfold forFrames
    exact returns_bind (h x _) fun _ => ih

theorem returns_forAcc {α β : Type} (P : Int → Prop) (xs : List α) (acc : β)
    (body : β → α → M β) (h : ∀ a x, Returns P (body a x)) :
    Returns P (forAcc xs acc body) := by
  induction xs generalizing acc with
  | nil => exact returns_pure _ _
  | cons x rest ih =>
    unfold forAcc
    exact returns_bind (h acc x) fun a => ih a

theorem returns_read_atlas (P : Int → Prop) : Returns P read_atlas :=
  ⟨fun _ _ _ h => by cases h⟩

theorem exits_ret {α : Type} (code : Int) : Exits (ret code : M α) :=
  ⟨fun _ _ _ h => by cases h⟩

theorem exits_crash {α : Type} : Exits (crash : M α) :=
  ⟨fun _ _ _ h => by cases h⟩

theorem exits_bind {α β : Type} {m : M α} {f : α → M β} (hf : ∀ a, Exits (f a)) :
    Exits (m >>= f) :=
  ⟨fun s s1 b h => by
    obtain ⟨a, s2, _, h2⟩ := bind_ok_inv h
    exact (hf a).never s2 s1 b h2⟩

theorem returns_call_checked {P Q : Int → Prop} (base : Int) (f : M Int)
    (hf : Returns Q f) (he : Exits f) (h : ∀ rt, Q rt → rt ≠ 0 → P (base + rt)) :
    Returns P (call_checked base f) :=
  ⟨fun s s1 c hr => by
    unfold call_checked at hr
    cases hfs : f s with
    | ok rt s2 => exact absurd hfs (he.never s s2 rt)
    | ret rt s2 =>
      rw [hfs] at hr
      dsimp only at hr
      by_cases h0 : rt ≠ 0
      · rw [if_pos h0] at hr
        simp only [Res.ret.injEq] at hr
        rw [← hr.1]
        exact h rt (hf.code s s2 rt hfs) h0
      · rw [if_neg h0] at hr
        cases hr
    | crash => rw [hfs] at hr; cases hr⟩
theorem returns_vertAt (P : Int → Prop) (vert : List Nat) (i : Nat) :
    Returns P (vertAt vert i) := by
  unfold vertAt
  split
  · exact returns_pure _ _
  · exact returns_crash _

theorem returns_weighted_bones (P : Int → Prop) (wide : WideShift) (vert : List Nat)
    (count i : Nat) : Returns P (weighted_bones wide vert count i) := by
  induction count generalizing i with
  | zero => exact returns_pure _ _
  | succ n ih =>
    unfold weighted_bones
    repeat' first
      | with_reducible exact ih _
      | with_reducible exact returns_vertAt _ _ _
      | with_reducible exact returns_defined _ _
      | with_reducible exact returns_push_float _ _
      | with_reducible exact returns_push_varint _ _ _ _
      | with_reducible apply returns_bind
      | intro _

theorem returns_weighted_loop (P : Int → Prop) (wide : WideShift) (vert : List Nat)
    (fuel i : Nat) : Returns P (weighted_loop wide vert fuel i) := by
  induction fuel generalizing i with
  | zero => exact returns_pure _ _
  | succ n ih =>
    unfold weighted_loop
    repeat' first
      | with_reducible exact ih _
      | with_reducible exact returns_pure _ _
      | with_reducible exact returns_crash _
      | with_reducible exact returns_vertAt _ _ _
      | with_reducible exact returns_defined _ _
      | with_reducible exact returns_weighted_bones _ _ _ _ _
      | with_reducible exact returns_push_varint _ _ _ _
      | with_reducible apply returns_bind
      | intro _
      | split

theorem returns_push_vertices (P : Int → Prop) (wide : WideShift) (vertices : Option Json)
    (n : Int) : Returns P (push_vertices wide vertices n) := by
  unfold push_vertices
  repeat' first
    | with_reducible exact returns_pure _ _
    | with_reducible exact returns_defined _ _
    | with_reducible exact returns_push_boolen _ _
    | with_reducible exact returns_weighted_loop _ _ _ _ _
    | with_reducible exact returns_forEach _ _ _ (fun _ => returns_push_float _ _)
    | with_reducible apply returns_bind
    | intro _
    | split
    | dsimp only

theorem returns_push_string_or_zero (P : Int → Prop) (wide : WideShift)
    (str : Option String) : Returns P (push_string_or_zero wide str) := by
  unfold push_string_or_zero
  split
  · exact returns_push_string _ _ _
  · exact returns_push_varint _ _ _ _

theorem returns_push_payload (P : Int → Prop) (wide : WideShift) (slots : List String)
    (attachment : Json) (attachmentPath : Option String) (spAttachmentType : Int) :
    Returns P (push_payload wide slots attachment attachmentPath spAttachmentType) := by
  unfold push_payload
  repeat' first
    | with_reducible exact returns_pure _ _
    | with_reducible exact returns_defined _ _
    | with_reducible exact returns_push_byte _ _
    | with_reducible exact returns_push_boolen _ _
    | with_reducible exact returns_push_float _ _
    | with_reducible exact returns_push_varint _ _ _ _
    | with_reducible exact returns_push_string _ _ _
    | with_reducible exact returns_push_string_or_zero _ _ _
    | with_reducible exact returns_push_color _ _
    | with_reducible exact returns_push_vertices _ _ _ _
    | with_reducible apply returns_forEach
    | with_reducible apply returns_bind
    | intro _
    | split
    | dsimp only

theorem returns_push_attachment (P : Int → Prop) (wide : WideShift) (slots : List String)
    (attachment : Json) : Returns P (push_attachment wide slots attachment) := by
  unfold push_attachment
  repeat' first
    | with_reducible exact returns_defined _ _
    | with_reducible exact returns_push_byte _ _
    | with_reducible exact returns_push_string _ _ _
    | with_reducible exact returns_push_payload _ _ _ _ _ _
    | with_reducible apply returns_bind
    | intro _

theorem returns_push_skin_entry (wide : WideShift) (slots : List String) (attachments : Json) :
    Returns (fun c => c = -1) (push_skin_entry wide slots attachments) := by
  unfold push_skin_entry
  repeat' first
    | with_reducible exact returns_defined _ _
    | with_reducible exact returns_read_atlas _
    | with_reducible exact returns_resolve_string _ _ _ _ rfl
    | with_reducible exact returns_push_varint _ _ _ _
    | with_reducible exact returns_forEach _ _ _ (fun _ => returns_push_attachment _ _ _ _)
    | with_reducible apply returns_bind
    | intro _

theorem returns_parse_skin (wide : WideShift) (skin : Json) (slots : List String) :
    Returns (fun c => c = 0 ∨ skinInner c) (parse_skin wide skin slots) := by
  have entry : ∀ a, Returns (fun c => c = 0 ∨ skinInner c) (push_skin_entry wide slots a) :=
    fun a => returns_mono (returns_push_skin_entry wide slots a) fun _ h => Or.inr h
  unfold parse_skin
  repeat' first
    | with_reducible exact returns_pure _ _
    | with_reducible exact returns_ret _ _ (Or.inl rfl)
    | with_reducible exact returns_push_varint _ _ _ _
    | with_reducible exact returns_forEach _ _ _ entry
    | with_reducible apply returns_bind
    | intro _
    | split

theorem exits_parse_skin (wide : WideShift) (skin : Json) (slots : List String) :
    Exits (parse_skin wide skin slots) := by
  unfold parse_skin
  repeat' first
    | with_reducible exact exits_ret _
    | with_reducible apply exits_bind
    | intro _
    | split

theorem returns_push_curve (P : Int → Prop) (curve : Option Json) :
    Returns P (push_curve curve) := by
  unfold push_curve
  repeat' first
    | with_reducible exact returns_pure _ _
    | with_reducible exact returns_crash _
    | with_reducible exact returns_defined _ _
    | with_reducible exact returns_push_byte _ _
    | with_reducible exact returns_push_float _ _
    | with_reducible apply returns_bind
    | intro _
    | split
    | dsimp only

theorem returns_curve_if_next (P : Int → Prop) (valueMap : Json) (next : Bool) :
    Returns P (curve_if_next valueMap next) := by
  unfold curve_if_next
  split
  · exact returns_push_curve _ _
  · exact returns_pure _ _
theorem returns_frames (P : Int → Prop) (v : Json) (next : Bool) :
    Returns P (color_frame v next) ∧ Returns P (two_color_frame v next) ∧
      Returns P (rotate_frame v next) ∧ Returns P (translate_frame v next) ∧
      (∀ name, Returns P (path_value_frame name v next)) ∧ Returns P (path_mix_frame v next) ∧
      Returns P (ik_frame v next) ∧ Returns P (transform_frame v next) := by
  refine ⟨?_, ?_, ?_, ?_, fun name => ?_, ?_, ?_, ?_⟩
  all_goals
    first
      | unfold color_frame
      | unfold two_color_frame
      | unfold rotate_frame
      | unfold translate_frame
      | unfold path_value_frame
      | unfold path_mix_frame
      | unfold ik_frame
      | unfold transform_frame
  all_goals
    repeat' first
      | with_reducible exact returns_push_byte _ _
      | with_reducible exact returns_push_float _ _
      | with_reducible exact returns_push_color _ _
      | with_reducible exact returns_curve_if_next _ _ _
      | with_reducible apply returns_bind
      | intro _

theorem returns_offset_entry (wide : WideShift) (vcSlots : List String) (offsetMap : Json) :
    Returns (fun c => c = -11) (offset_entry wide vcSlots offsetMap) := by
  unfold offset_entry
  repeat' first
    | with_reducible exact returns_defined _ _
    | with_reducible exact returns_resolve_string _ _ _ _ rfl
    | with_reducible exact returns_push_varint _ _ _ _
    | with_reducible apply returns_bind
    | intro _

theorem returns_slot_timeline (wide : WideShift) (timelineMap : Json) :
    Returns (fun c => c = -2) (slot_timeline wide timelineMap) := by
  unfold slot_timeline
  repeat' first
    | with_reducible exact (returns_frames _ _ _).1
    | with_reducible exact (returns_frames _ _ _).2.1
    | with_reducible exact (returns_frames _ _ _).2.2.1
    | with_reducible exact (returns_frames _ _ _).2.2.2.1
    | with_reducible exact (returns_frames _ _ _).2.2.2.2.1 _
    | with_reducible exact (returns_frames _ _ _).2.2.2.2.2.1
    | with_reducible exact (returns_frames _ _ _).2.2.2.2.2.2.1
    | with_reducible exact (returns_frames _ _ _).2.2.2.2.2.2.2
    | with_reducible exact returns_ret _ _ rfl
    | with_reducible exact returns_defined _ _
    | with_reducible exact returns_push_byte _ _
    | with_reducible exact returns_push_float _ _
    | with_reducible exact returns_push_varint _ _ _ _
    | with_reducible exact returns_push_string _ _ _
    | with_reducible exact returns_push_color _ _
    | with_reducible exact returns_curve_if_next _ _ _
    | with_reducible apply returns_forEach
    | with_reducible apply returns_forFrames
    | with_reducible apply returns_bind
    | intro _
    | split

theorem returns_bone_timeline (wide : WideShift) (timelineMap : Json) :
    Returns (fun c => c = -4) (bone_timeline wide timelineMap) := by
  unfold bone_timeline
  repeat' first
    | with_reducible exact (returns_frames _ _ _).1
    | with_reducible exact (returns_frames _ _ _).2.1
    | with_reducible exact (returns_frames _ _ _).2.2.1
    | with_reducible exact (returns_frames _ _ _).2.2.2.1
    | with_reducible exact (returns_frames _ _ _).2.2.2.2.1 _
    | with_reducible exact (returns_frames _ _ _).2.2.2.2.2.1
    | with_reducible exact (returns_frames _ _ _).2.2.2.2.2.2.1
    | with_reducible exact (returns_frames _ _ _).2.2.2.2.2.2.2
    | with_reducible exact returns_ret _ _ rfl
    | with_reducible exact returns_defined _ _
    | with_reducible exact returns_push_byte _ _
    | with_reducible exact returns_push_float _ _
    | with_reducible exact returns_push_varint _ _ _ _
    | with_reducible exact returns_curve_if_next _ _ _
    | with_reducible apply returns_forFrames
    | with_reducible apply returns_bind
    | intro _
    | split

theorem returns_path_timeline (wide : WideShift) (timelineMap : Json) :
    Returns (fun c => c = -8) (path_timeline wide timelineMap) := by
  unfold path_timeline
  repeat' first
    | with_reducible exact (returns_frames _ _ _).1
    | with_reducible exact (returns_frames _ _ _).2.1
    | with_reducible exact (returns_frames _ _ _).2.2.1
    | with_reducible exact (returns_frames _ _ _).2.2.2.1
    | with_reducible exact (returns_frames _ _ _).2.2.2.2.1 _
    | with_reducible exact (returns_frames _ _ _).2.2.2.2.2.1
    | with_reducible exact (returns_frames _ _ _).2.2.2.2.2.2.1
    | with_reducible exact (returns_frames _ _ _).2.2.2.2.2.2.2
    | with_reducible exact returns_ret _ _ rfl
    | with_reducible exact returns_defined _ _
    | with_reducible exact returns_push_byte _ _
    | with_reducible exact returns_push_float _ _
    | with_reducible exact returns_push_varint _ _ _ _
    | with_reducible exact returns_curve_if_next _ _ _
    | with_reducible apply returns_forFrames
    | with_reducible apply returns_bind
    | intro _
    | split

theorem returns_deform_frame (P : Int → Prop) (wide : WideShift) (valueMap : Json)
    (next : Bool) : Returns P (deform_frame wide valueMap next) := by
  unfold deform_frame
  repeat' first
    | with_reducible exact returns_push_float _ _
    | with_reducible exact returns_push_varint _ _ _ _
    | with_reducible exact returns_curve_if_next _ _ _
    | with_reducible apply returns_forEach
    | with_reducible apply returns_bind
    | intro _
    | split
    | dsimp only

theorem returns_event_frame (wide : WideShift) (vcEvents : List EventData) (valueMap : Json) :
    Returns (fun c => c = -12 ∨ c = -13) (event_frame wide vcEvents valueMap) := by
  unfold event_frame
  repeat' first
    | with_reducible exact returns_ret _ _ (Or.inl rfl)
    | with_reducible exact returns_pure _ _
    | with_reducible exact returns_defined _ _
    | with_reducible exact returns_resolve_event _ _ _ _ (Or.inr rfl)
    | with_reducible exact returns_push_boolen _ _
    | with_reducible exact returns_push_float _ _
    | with_reducible exact returns_push_varint _ _ _ _
    | with_reducible exact returns_push_string _ _ _
    | with_reducible apply returns_bind
    | intro _
    | split
    | dsimp only

theorem returns_parse_animation (wide : WideShift) (animation : Json) (vcSlots : List String)
    (vcBones : List BoneData) (vcIK vcTransform vcPaths vcSkins : List String)
    (vcEvents : List EventData) :
    Returns (fun c => c = 0 ∨ animationInner c)
      (parse_animation wide animation vcSlots vcBones vcIK vcTransform vcPaths vcSkins
        vcEvents) := by
  have inner : ∀ code : Int, -13 ≤ code → code ≤ -1 →
      (fun c => c = 0 ∨ animationInner c) code := fun code h1 h2 => Or.inr ⟨h1, h2⟩
  have slot : ∀ t, Returns (fun c => c = 0 ∨ animationInner c) (slot_timeline wide t) :=
    fun t => returns_mono (returns_slot_timeline wide t)
      fun c h => inner c (by subst h; decide) (by subst h; decide)
  have bone : ∀ t, Returns (fun c => c = 0 ∨ animationInner c) (bone_timeline wide t) :=
    fun t => returns_mono (returns_bone_timeline wide t)
      fun c h => inner c (by subst h; decide) (by subst h; decide)
  have path : ∀ t, Returns (fun c => c = 0 ∨ animationInner c) (path_timeline wide t) :=
    fun t => returns_mono (returns_path_timeline wide t)
      fun c h => inner c (by subst h; decide) (by subst h; decide)
  have event : ∀ t,
      Returns (fun c => c = 0 ∨ animationInner c) (event_frame wide vcEvents t) :=
    fun t => returns_mono (returns_event_frame wide vcEvents t)
      fun c h => inner c (by rcases h with h | h <;> (subst h; decide))
        (by rcases h with h | h <;> (subst h; decide))
  have offset : ∀ t,
      Returns (fun c => c = 0 ∨ animationInner c) (offset_entry wide vcSlots t) :=
    fun t => returns_mono (returns_offset_entry wide vcSlots t)
      fun c h => inner c (by subst h; decide) (by subst h; decide)
  unfold parse_animation
  repeat' first
    | with_reducible exact (returns_frames _ _ _).1
    | with_reducible exact (returns_frames _ _ _).2.1
    | with_reducible exact (returns_frames _ _ _).2.2.1
    | with_reducible exact (returns_frames _ _ _).2.2.2.1
    | with_reducible exact (returns_frames _ _ _).2.2.2.2.1 _
    | with_reducible exact (returns_frames _ _ _).2.2.2.2.2.1
    | with_reducible exact (returns_frames _ _ _).2.2.2.2.2.2.1
    | with_reducible exact (returns_frames _ _ _).2.2.2.2.2.2.2
    | with_reducible exact offset _
    | with_reducible exact returns_forEach _ _ _ offset
    | with_reducible exact returns_defined _ _
    | with_reducible exact returns_ret _ _ (Or.inl rfl)
    | with_reducible exact returns_resolve_string _ _ _ _ (inner _ (by decide) (by decide))
    | with_reducible exact returns_resolve_bone _ _ _ _ (inner _ (by decide) (by decide))
    | with_reducible exact returns_push_byte _ _
    | with_reducible exact returns_push_float _ _
    | with_reducible exact returns_push_varint _ _ _ _
    | with_reducible exact returns_push_string _ _ _
    | with_reducible exact returns_curve_if_next _ _ _
    | with_reducible exact slot _
    | with_reducible exact bone _
    | with_reducible exact path _
    | with_reducible exact event _
    | with_reducible exact returns_deform_frame _ _ _ _
    | with_reducible exact returns_forEach _ _ _ slot
    | with_reducible exact returns_forEach _ _ _ bone
    | with_reducible exact returns_forEach _ _ _ path
    | with_reducible exact returns_forEach _ _ _ event
    | with_reducible exact returns_forFrames _ _ _ (returns_deform_frame _ _)
    | with_reducible apply returns_forEach
    | with_reducible apply returns_forFrames
    | with_reducible apply returns_bind
    | intro _

theorem exits_parse_animation (wide : WideShift) (animation : Json) (vcSlots : List String)
    (vcBones : List BoneData) (vcIK vcTransform vcPaths vcSkins : List String)
    (vcEvents : List EventData) :
    Exits (parse_animation wide animation vcSlots vcBones vcIK vcTransform vcPaths vcSkins
      vcEvents) := by
  unfold parse_animation
  repeat' first
    | with_reducible exact exits_ret _
    | with_reducible apply exits_bind
    | intro _

theorem returns_push_bone (P : Int → Prop) (wide : WideShift) (i : Nat) (bone : BoneData) :
    Returns P (push_bone wide i bone) :=
  returns_of_sound_never P fun s => Or.inl ⟨(), _, push_bone_run wide i bone s⟩

theorem returns_push_bones (P : Int → Prop) (wide : WideShift) (bones : List BoneData)
    (i : Nat) : Returns P (push_bones wide bones i) := by
  induction bones generalizing i with
  | nil => exact returns_pure _ _
  | cons b rest ih =>
    unfold push_bones
    exact returns_bind (returns_push_bone _ _ _ _) fun _ => ih _

theorem returns_blend_mode (P : Int → Prop) (blend : Option Json) :
    Returns P (blend_mode blend) := by
  unfold blend_mode
  repeat' first
    | with_reducible exact returns_pure _ _
    | with_reducible exact returns_defined _ _
    | with_reducible apply returns_bind
    | intro _
    | split

theorem returns_push_slot (wide : WideShift) (vcBones : List BoneData)
    (vcSlots : List String) (slot : Json) :
    Returns (fun c => c = -10) (push_slot wide vcBones vcSlots slot) := by
  unfold push_slot
  repeat' first
    | with_reducible exact returns_pure _ _
    | with_reducible exact returns_defined _ _
    | with_reducible exact returns_resolve_bone _ _ _ _ rfl
    | with_reducible exact returns_blend_mode _ _
    | with_reducible exact returns_push_varint _ _ _ _
    | with_reducible exact returns_push_string _ _ _
    | with_reducible exact returns_push_color _ _
    | with_reducible apply returns_bind
    | intro _

theorem returns_push_constraint_bones (P : Int → Prop) (wide : WideShift)
    (vcBones : List BoneData) (code : Int) (bones : Json) (h : P code) :
    Returns P (push_constraint_bones wide vcBones code bones) := by
  unfold push_constraint_bones
  repeat' first
    | with_reducible exact returns_defined _ _
    | with_reducible exact returns_resolve_bone _ _ _ _ h
    | with_reducible exact returns_push_varint _ _ _ _
    | with_reducible apply returns_forEach
    | with_reducible apply returns_bind
    | intro _

theorem returns_push_ik (wide : WideShift) (vcBones : List BoneData) (vcIK : List String)
    (ikMap : Json) :
    Returns (fun c => -13 ≤ c ∧ c ≤ -11) (push_ik wide vcBones vcIK ikMap) := by
  unfold push_ik
  repeat' first
    | with_reducible exact returns_pure _ _
    | with_reducible exact returns_ret _ _ (by decide)
    | with_reducible exact returns_defined _ _
    | with_reducible exact returns_resolve_bone _ _ _ _ (by decide)
    | with_reducible exact returns_push_constraint_bones _ _ _ _ _ (by decide)
    | with_reducible exact returns_push_float _ _
    | with_reducible exact returns_push_varint _ _ _ _
    | with_reducible exact returns_push_string _ _ _
    | with_reducible apply returns_bind
    | intro _
    | split
    | dsimp only

theorem returns_push_transform (wide : WideShift) (vcBones : List BoneData)
    (vcTransform : List String) (transformMap : Json) :
    Returns (fun c => -16 ≤ c ∧ c ≤ -15)
      (push_transform wide vcBones vcTransform transformMap) := by
  unfold push_transform
  repeat' first
    | with_reducible exact returns_pure _ _
    | with_reducible exact returns_ret _ _ (by decide)
    | with_reducible exact returns_defined _ _
    | with_reducible exact returns_resolve_bone _ _ _ _ (by decide)
    | with_reducible exact returns_push_constraint_bones _ _ _ _ _ (by decide)
    | with_reducible exact returns_push_float _ _
    | with_reducible exact returns_push_boolen _ _
    | with_reducible exact returns_push_varint _ _ _ _
    | with_reducible exact returns_push_string _ _ _
    | with_reducible apply returns_bind
    | intro _
    | split
    | dsimp only

theorem returns_push_path (wide : WideShift) (vcBones : List BoneData)
    (vcSlots vcPaths : List String) (pathMap : Json) :
    Returns (fun c => -19 ≤ c ∧ c ≤ -17) (push_path wide vcBones vcSlots vcPaths pathMap) := by
  unfold push_path
  repeat' first
    | with_reducible exact returns_pure _ _
    | with_reducible exact returns_ret _ _ (by decide)
    | with_reducible exact returns_defined _ _
    | with_reducible exact returns_resolve_bone _ _ _ _ (by decide)
    | with_reducible exact returns_resolve_string _ _ _ _ (by decide)
    | with_reducible exact returns_push_constraint_bones _ _ _ _ _ (by decide)
    | with_reducible exact returns_push_float _ _
    | with_reducible exact returns_push_varint _ _ _ _
    | with_reducible exact returns_push_string _ _ _
    | with_reducible apply returns_bind
    | intro _
    | split
    | dsimp only

theorem returns_push_named_skin (wide : WideShift) (vcSlots vcSkins : List String)
    (skin : Json) :
    Returns (fun c => ∃ inner, skinInner inner ∧ c = -200 + inner)
      (push_named_skin wide vcSlots vcSkins skin) := by
  have body : Returns (fun c => ∃ inner, skinInner inner ∧ c = -200 + inner)
      (call_checked (-200) (parse_skin wide skin vcSlots)) :=
    returns_call_checked (-200) _ (returns_parse_skin wide skin vcSlots)
      (exits_parse_skin wide skin vcSlots) (fun rt h h0 => ⟨rt, h.resolve_left h0, rfl⟩)
  unfold push_named_skin
  repeat' first
    | with_reducible exact returns_pure _ _
    | with_reducible exact returns_defined _ _
    | with_reducible exact returns_push_string _ _ _
    | with_reducible exact body
    | with_reducible apply returns_bind
    | intro _
    | split

theorem returns_push_skins (wide : WideShift) (vcSlots : List String) (skins : Json) :
    Returns (fun c => ∃ inner, skinInner inner ∧ (c = -100 + inner ∨ c = -200 + inner))
      (push_skins wide vcSlots skins) := by
  have body : ∀ d, Returns
      (fun c => ∃ inner, skinInner inner ∧ (c = -100 + inner ∨ c = -200 + inner))
      (call_checked (-100) (parse_skin wide d vcSlots)) :=
    fun d => returns_call_checked (-100) _ (returns_parse_skin wide d vcSlots)
      (exits_parse_skin wide d vcSlots) (fun rt h h0 => ⟨rt, h.resolve_left h0, Or.inl rfl⟩)
  have named : ∀ a x, Returns
      (fun c => ∃ inner, skinInner inner ∧ (c = -100 + inner ∨ c = -200 + inner))
      (push_named_skin wide vcSlots a x) :=
    fun a x => returns_mono (returns_push_named_skin wide vcSlots a x)
      fun _ ⟨i, h1, h2⟩ => ⟨i, h1, Or.inr h2⟩
  unfold push_skins
  repeat' first
    | with_reducible exact returns_pure _ _
    | with_reducible exact returns_defined _ _
    | with_reducible exact returns_push_varint _ _ _ _
    | with_reducible exact body _
    | with_reducible exact returns_forAcc _ _ _ _ named
    | with_reducible apply returns_bind
    | intro _
    | split

theorem returns_push_event (P : Int → Prop) (wide : WideShift) (vcEvents : List EventData)
    (eventMap : Json) : Returns P (push_event wide vcEvents eventMap) := by
  unfold push_event
  repeat' first
    | with_reducible exact returns_pure _ _
    | with_reducible exact returns_defined _ _
    | with_reducible exact returns_push_float _ _
    | with_reducible exact returns_push_varint _ _ _ _
    | with_reducible exact returns_push_string _ _ _
    | with_reducible apply returns_bind
    | intro _

theorem returns_push_animation (wide : WideShift) (vcSlots : List String)
    (vcBones : List BoneData) (vcIK vcTransform vcPaths vcSkins : List String)
    (vcEvents : List EventData) (aniMap : Json) :
    Returns animationCode
      (push_animation wide vcSlots vcBones vcIK vcTransform vcPaths vcSkins vcEvents
        aniMap) := by
  have body : Returns animationCode (call_checked (-300)
      (parse_animation wide aniMap vcSlots vcBones vcIK vcTransform vcPaths vcSkins
        vcEvents)) :=
    returns_call_checked (-300) _
      (returns_parse_animation wide aniMap vcSlots vcBones vcIK vcTransform vcPaths vcSkins
        vcEvents)
      (exits_parse_animation wide aniMap vcSlots vcBones vcIK vcTransform vcPaths vcSkins
        vcEvents)
      (fun rt h h0 => ⟨rt, h.resolve_left h0, rfl⟩)
  unfold push_animation
  repeat' first
    | with_reducible exact returns_push_string _ _ _
    | with_reducible exact body
    | with_reducible apply returns_bind
    | intro _

theorem returns_require_items (P : Int → Prop) (node : Option Json) (code : Int)
    (h : P code) : Returns P (require_items node code) := by
  unfold require_items
  repeat' first
    | with_reducible exact returns_pure _ _
    | with_reducible exact returns_ret _ _ h
    | split

theorem stage_header (c : Int) (h1 : -10 ≤ c) (h2 : c ≤ -5) : stageCode c :=
  Or.inl ⟨h1, h2⟩

theorem stage_constraint (c : Int) (h1 : -19 ≤ c) (h2 : c ≤ -11) : stageCode c :=
  Or.inr (Or.inl ⟨h1, h2⟩)

theorem returns_convert_stages (wide : WideShift) (root skeleton : Json) :
    Returns (fun c => (-10 ≤ c ∧ c ≤ -8) ∨ constraintCode c ∨ skinCode c ∨ animationCode c)
      (convert_stages wide root skeleton) := by
  have skins : ∀ a b, Returns
      (fun c => (-10 ≤ c ∧ c ≤ -8) ∨ constraintCode c ∨ skinCode c ∨ animationCode c)
      (push_skins wide a b) := fun a b =>
    returns_mono (returns_push_skins wide a b) fun _ h => Or.inr (Or.inr (Or.inl (Or.inr h)))
  have slot : ∀ a b c, Returns
      (fun c => (-10 ≤ c ∧ c ≤ -8) ∨ constraintCode c ∨ skinCode c ∨ animationCode c)
      (push_slot wide a b c) := fun a b c =>
    returns_mono (returns_push_slot wide a b c)
      fun c h => Or.inl ⟨by subst h; decide, by subst h; decide⟩
  have ik : ∀ a b c, Returns
      (fun c => (-10 ≤ c ∧ c ≤ -8) ∨ constraintCode c ∨ skinCode c ∨ animationCode c)
      (push_ik wide a b c) := fun a b c =>
    returns_mono (returns_push_ik wide a b c)
      fun c h => Or.inr (Or.inl ⟨by omega, by omega⟩)
  have transform : ∀ a b c, Returns
      (fun c => (-10 ≤ c ∧ c ≤ -8) ∨ constraintCode c ∨ skinCode c ∨ animationCode c)
      (push_transform wide a b c) := fun a b c =>
    returns_mono (returns_push_transform wide a b c)
      fun c h => Or.inr (Or.inl ⟨by omega, by omega⟩)
  have path : ∀ a b c d, Returns
      (fun c => (-10 ≤ c ∧ c ≤ -8) ∨ constraintCode c ∨ skinCode c ∨ animationCode c)
      (push_path wide a b c d) := fun a b c d =>
    returns_mono (returns_push_path wide a b c d)
      fun c h => Or.inr (Or.inl ⟨by omega, by omega⟩)
  have animation : ∀ a b c d e f g h, Returns
      (fun c => (-10 ≤ c ∧ c ≤ -8) ∨ constraintCode c ∨ skinCode c ∨ animationCode c)
      (push_animation wide a b c d e f g h) := fun a b c d e f g h =>
    returns_mono (returns_push_animation wide a b c d e f g h)
      fun _ h => Or.inr (Or.inr (Or.inr h))
  have bonesAbsent : (fun c : Int =>
      (-10 ≤ c ∧ c ≤ -8) ∨ constraintCode c ∨ skinCode c ∨ animationCode c) (-8) :=
    Or.inl (by decide)
  have slotsAbsent : (fun c : Int =>
      (-10 ≤ c ∧ c ≤ -8) ∨ constraintCode c ∨ skinCode c ∨ animationCode c) (-9) :=
    Or.inl (by decide)
  have skinsAbsent : (fun c : Int =>
      (-10 ≤ c ∧ c ≤ -8) ∨ constraintCode c ∨ skinCode c ∨ animationCode c) (-20) :=
    Or.inr (Or.inr (Or.inl (Or.inl rfl)))
  unfold convert_stages
  repeat' first
    | with_reducible exact returns_pure _ _
    | with_reducible exact returns_defined _ _
    | with_reducible exact returns_require_items _ _ _ bonesAbsent
    | with_reducible exact returns_require_items _ _ _ slotsAbsent
    | with_reducible exact returns_require_items _ _ _ skinsAbsent
    | with_reducible exact returns_push_float _ _
    | with_reducible exact returns_push_boolen _ _
    | with_reducible exact returns_push_varint _ _ _ _
    | with_reducible exact returns_push_bones _ _ _ _
    | with_reducible exact skins _ _
    | with_reducible exact returns_forAcc _ _ _ _ (slot _)
    | with_reducible exact returns_forAcc _ _ _ _ (ik _)
    | with_reducible exact returns_forAcc _ _ _ _ (transform _)
    | with_reducible exact returns_forAcc _ _ _ _ (path _ _)
    | with_reducible exact returns_forAcc _ _ _ _ (returns_push_event _ _)
    | with_reducible exact returns_forEach _ _ _ (animation _ _ _ _ _ _ _)
    | with_reducible apply returns_bind
    | intro _

theorem convert_body_run (wide : WideShift) (root : Json) (s : State) :
    convert_body wide root s =
      match Json_getItem root "skeleton" with
      | none => Res.ret (-5) s
      | some skeleton =>
        match Json_getString skeleton "hash" (some "") with
        | none => Res.ret (-6) s
        | some hash =>
          match Json_getString skeleton "spine" (some "") with
          | none => Res.ret (-7) (s.append (string_bytes wide hash))
          | some version =>
            convert_stages wide root skeleton
              (s.append (string_bytes wide hash ++ string_bytes wide version)) := by
  unfold convert_body
  cases Json_getItem root "skeleton" with
  | none => rfl
  | some skeleton =>
    dsimp only
    cases Json_getString skeleton "hash" (some "") with
    | none => rfl
    | some hash =>
      dsimp only
      rw [if_neg (by simp), bind_ok (pure_run _ _), bind_ok (push_string_run wide hash s)]
      cases Json_getString skeleton "spine" (some "") with
      | none => rfl
      | some version =>
        dsimp only
        rw [if_neg (by simp), bind_ok (pure_run _ _),
          bind_ok (push_string_run wide version _), append_append]

theorem returns_convert_body (wide : WideShift) (root : Json) :
    Returns stageCode (convert_body wide root) :=
  ⟨fun s s1 c h => by
    rw [convert_body_run] at h
    split at h
    · simp only [Res.ret.injEq] at h
      exact stage_header c (by omega) (by omega)
    · split at h
      · simp only [Res.ret.injEq] at h
        exact stage_header c (by omega) (by omega)
      · split at h
        · simp only [Res.ret.injEq] at h
          exact stage_header c (by omega) (by omega)
        · rcases (returns_convert_stages wide root _).code _ s1 c h with h1 | h1 | h1 | h1
          · exact stage_header c (by omega) (by omega)
          · exact Or.inr (Or.inl h1)
          · exact Or.inr (Or.inr (Or.inl h1))
          · exact Or.inr (Or.inr (Or.inr h1))⟩

/-! ## The header and the codes of the driver -/

theorem getString_stringKey (object : Json) (key value : String)
    (h : stringKey object key value) : Json_getString object key (some "") = some value := by
  unfold Json_getString
  rcases h with ⟨h1, h2⟩ | ⟨item, h1, h2⟩
  · rw [h1, h2]
  · rw [h1]
    exact h2

theorem getString_nonStringKey (object : Json) (key : String) (h : nonStringKey object key) :
    Json_getString object key (some "") = none := by
  unfold Json_getString
  obtain ⟨item, h1, h2⟩ := h
  rw [h1]
  exact h2

/-- C11: the conversion of a skeleton whose `skeleton` object has neither a
`hash` nor a `spine` key does not fail: it returns the count 71 of the bytes
written, which start with the byte 1 of an empty string for each of the two. -/
theorem missing_hash_accepted :
    Json_getItem (sampleObject (some "skeleton") []) "hash" = none ∧
      Json_getItem (sampleObject (some "skeleton") []) "spine" = none ∧
      ∃ s1, convert_json_to_binary wideZero sampleText sampleText.length (some sampleBare)
          none ⟨[], [], []⟩ = Res.ret 71 s1 ∧ ¬ (71 : Int) < 0 ∧
        s1.buff_data.take 2 = [1, 1] :=
  ⟨rfl, rfl, _, rfl, by decide, rfl⟩

theorem convert_run (wide : WideShift) (json : String) (len : Nat) (root : Option Json)
    (atlas : Option String) (s : State) :
    convert_json_to_binary wide json len root atlas s =
      if len < 16 then Res.ret (-1) ⟨[], s.all_atlas, []⟩
      else
        match charAt json 0 with
        | none => Res.crash
        | some ch =>
          if ch ≠ '{' then Res.ret (-2) ⟨[], s.all_atlas, []⟩
          else
            match read_chars json 18 0 with
            | none => Res.crash
            | some head =>
              if contains_sub "\"skeleton\"".toList head = false then
                Res.ret (-3) ⟨[], s.all_atlas, []⟩
              else
                match root with
                | none => Res.ret (-4) ⟨[], s.all_atlas, []⟩
                | some r =>
                  match atlas with
                  | none => convert_root wide r ⟨[], [], []⟩
                  | some a => (parse_atlas a >>= fun _ => convert_root wide r) ⟨[], [], []⟩ := by
  unfold convert_json_to_binary
  rw [bind_run]
  dsimp only
  by_cases h1 : len < 16
  · rw [if_pos h1, if_pos h1]
    rfl
  rw [if_neg h1, if_neg h1, bind_ok (pure_run _ _)]
  cases charAt json 0 with
  | none => rfl
  | some ch =>
    rw [bind_ok (rfl : defined (some ch) _ = Res.ok ch _)]
    dsimp only
    by_cases h2 : ch ≠ '{'
    · rw [if_pos h2, if_pos h2]
      rfl
    rw [if_neg h2, if_neg h2, bind_ok (pure_run _ _)]
    cases read_chars json 18 0 with
    | none => rfl
    | some head =>
      rw [bind_ok (rfl : defined (some head) _ = Res.ok head _)]
      dsimp only
      by_cases h3 : contains_sub "\"skeleton\"".toList head = false
      · rw [if_pos h3, if_pos (by rw [h3]; rfl)]
        rfl
      rw [if_neg h3, if_neg (by simpa using h3), bind_ok (pure_run _ _)]
      cases root with
      | none => rfl
      | some r =>
        dsimp only
        cases atlas with
        | none => rfl
        | some a => rfl
theorem stageCode_neg (c : Int) (h : stageCode c) : c < 0 := by
  simp only [stageCode, headerCode, constraintCode, skinCode, skinInner, animationCode,
    animationInner] at h
  rcases h with h | h | h | h
  · omega
  · omega
  · rcases h with h | ⟨i, hi, h | h⟩ <;> omega
  · obtain ⟨i, hi, h⟩ := h
    omega

theorem convert_root_codes (wide : WideShift) (r : Json) (s s1 : State) (c : Int)
    (h : convert_root wide r s = Res.ret c s1) :
    stageCode c ∨ (convert_body wide r s = Res.ok () s1 ∧ c = toI32 s1.buff_pos) := by
  unfold convert_root at h
  rcases bind_ret_inv h with h1 | ⟨_, s2, h1, h2⟩
  · exact Or.inl ((returns_convert_body wide r).code s s1 c h1)
  · simp only [return_pos, Res.ret.injEq] at h2
    right
    rw [← h2.2, ← h2.1]
    exact ⟨h1, rfl⟩

theorem codes_in_range (wide : WideShift) (json : String) (len : Nat) (root : Option Json)
    (atlas : Option String) (s : State) :
    (len < 16 → ∃ s1, convert_json_to_binary wide json len root atlas s = Res.ret (-1) s1) ∧
      (16 ≤ len → ∀ ch, charAt json 0 = some ch → ch ≠ '{' →
        ∃ s1, convert_json_to_binary wide json len root atlas s = Res.ret (-2) s1) ∧
      (16 ≤ len → charAt json 0 = some '{' → ∀ head, read_chars json 18 0 = some head →
        (contains_sub "\"skeleton\"".toList head = false →
          ∃ s1, convert_json_to_binary wide json len root atlas s = Res.ret (-3) s1) ∧
        (contains_sub "\"skeleton\"".toList head = true → root = none →
          ∃ s1, convert_json_to_binary wide json len root atlas s = Res.ret (-4) s1)) ∧
      (∀ c s1, convert_json_to_binary wide json len root atlas s = Res.ret c s1 →
        (c = -1 ∨ c = -2 ∨ c = -3 ∨ c = -4 ∨ stageCode c) ∧ c < 0 ∨
        ∃ r s0, root = some r ∧ convert_body wide r s0 = Res.ok () s1 ∧
          c = toI32 s1.buff_pos ∧ (s1.buff_pos < 2147483648 → 0 ≤ c)) ∧
      (∀ r, Returns stageCode (convert_body wide r)) ∧
      (∀ r skeleton, Returns
        (fun c => (-10 ≤ c ∧ c ≤ -8) ∨ constraintCode c ∨ skinCode c ∨ animationCode c)
        (convert_stages wide r skeleton)) ∧
      (∀ vcBones vcSlots slot, Returns headerCode (push_slot wide vcBones vcSlots slot)) ∧
      (∀ vcBones vcIK ikMap, Returns constraintCode (push_ik wide vcBones vcIK ikMap)) ∧
      (∀ vcBones vcTransform transformMap,
        Returns constraintCode (push_transform wide vcBones vcTransform transformMap)) ∧
      (∀ vcBones vcSlots vcPaths pathMap,
        Returns constraintCode (push_path wide vcBones vcSlots vcPaths pathMap)) ∧
      (∀ vcSlots skins, Returns skinCode (push_skins wide vcSlots skins)) ∧
      (∀ vcSlots vcBones vcIK vcTransform vcPaths vcSkins vcEvents aniMap,
        Returns animationCode
          (push_animation wide vcSlots vcBones vcIK vcTransform vcPaths vcSkins vcEvents
            aniMap)) ∧
      (∀ skin slots, Returns (fun c => c = 0 ∨ skinInner c) (parse_skin wide skin slots)) ∧
      (∀ animation vcSlots vcBones vcIK vcTransform vcPaths vcSkins vcEvents,
        Returns (fun c => c = 0 ∨ animationInner c)
          (parse_animation wide animation vcSlots vcBones vcIK vcTransform vcPaths vcSkins
            vcEvents)) := by
  refine ⟨fun h => ?_, fun h ch hc hne => ?_, fun h hc head hh => ⟨fun hn => ?_, fun hy hr => ?_⟩,
    fun c s1 h => ?_, returns_convert_body wide, returns_convert_stages wide,
    fun a b c => returns_mono (returns_push_slot wide a b c)
      (fun c h => ⟨by subst h; decide, by subst h; decide⟩),
    fun a b c => returns_mono (returns_push_ik wide a b c)
      (fun c h => ⟨by omega, by omega⟩),
    fun a b c => returns_mono (returns_push_transform wide a b c)
      (fun c h => ⟨by omega, by omega⟩),
    fun a b c d => returns_mono (returns_push_path wide a b c d)
      (fun c h => ⟨by omega, by omega⟩),
    fun a b => returns_mono (returns_push_skins wide a b) (fun _ h => Or.inr h),
    returns_push_animation wide, returns_parse_skin wide, returns_parse_animation wide⟩
  · rw [convert_run, if_pos h]
    exact ⟨_, rfl⟩
  · rw [convert_run, if_neg (by omega), hc]
    dsimp only
    rw [if_pos hne]
    exact ⟨_, rfl⟩
  · rw [convert_run, if_neg (by omega), hc]
    dsimp only
    rw [if_neg (by simp), hh]
    dsimp only
    rw [if_pos hn]
    exact ⟨_, rfl⟩
  · rw [convert_run, if_neg (by omega), hc]
    dsimp only
    rw [if_neg (by simp), hh]
    dsimp only
    rw [if_neg (by rw [hy]; simp), hr]
    exact ⟨_, rfl⟩
  · have neg : ∀ k : Int,
        (Res.ret k ⟨[], s.all_atlas, []⟩ : Res Int) = Res.ret c s1 → k = c :=
      fun k hk => (Res.ret.inj hk).1
    have root_case : ∀ (r : Json) (s0 : State), convert_root wide r s0 = Res.ret c s1 →
        (c = -1 ∨ c = -2 ∨ c = -3 ∨ c = -4 ∨ stageCode c) ∧ c < 0 ∨
        ∃ r2 s2, some r = some r2 ∧ convert_body wide r2 s2 = Res.ok () s1 ∧
          c = toI32 s1.buff_pos ∧ (s1.buff_pos < 2147483648 → 0 ≤ c) := by
      intro r s0 hr
      rcases convert_root_codes wide r s0 s1 c hr with h1 | ⟨h1, h2⟩
      · exact Or.inl ⟨Or.inr (Or.inr (Or.inr (Or.inr h1))), stageCode_neg c h1⟩
      · refine Or.inr ⟨r, s0, rfl, h1, h2, fun hlt => ?_⟩
        rw [h2]
        unfold toI32
        split_ifs <;> omega
    rw [convert_run] at h
    split at h
    · exact Or.inl ⟨Or.inl (neg _ h).symm, by have := neg _ h; omega⟩
    · split at h
      · cases h
      · split at h
        · exact Or.inl ⟨Or.inr (Or.inl (neg _ h).symm), by have := neg _ h; omega⟩
        · split at h
          · cases h
          · split at h
            · exact Or.inl ⟨Or.inr (Or.inr (Or.inl (neg _ h).symm)),
                by have := neg _ h; omega⟩
            · split at h
              · exact Or.inl ⟨Or.inr (Or.inr (Or.inr (Or.inl (neg _ h).symm))),
                  by have := neg _ h; omega⟩
              · split at h
                · exact root_case _ _ h
                · rcases bind_ret_inv h with h1 | ⟨_, s2, _, h2⟩
                  · unfold parse_atlas at h1
                    split at h1 <;> cases h1
                  · exact root_case _ _ h2

/-! ## Attachments -/

theorem varint_zero (wide : WideShift) : varint_loop wide (toU32 0) 5 0 = [0] := by
  simp [varint_loop, shr32, toU32]

theorem string_bytes_empty (wide : WideShift) : string_bytes wide "" = [1] := by
  have h1 : varint_loop wide (toU32 (((0 : Nat) : Int) + 1)) 5 0 = [1] := by
    simp [varint_loop, shr32, toU32]
  show varint_loop wide (toU32 (((0 : Nat) : Int) + 1)) 5 0 ++ [] = [1]
  rw [h1]
  rfl

theorem push_string_opt_run (wide : WideShift) (str : Option String) (s : State) :
    push_string wide str s = Res.ok () (s.append (opt_string_bytes wide str)) := by
  cases str with
  | none =>
    show push_varint wide 0 true s = _
    rw [push_varint_true, varint_zero]
    rfl
  | some str => exact push_string_run wide str s

theorem push_string_or_zero_run (wide : WideShift) (str : Option String) (s : State) :
    push_string_or_zero wide str s = Res.ok () (s.append (opt_string_bytes wide str)) := by
  cases str with
  | none =>
    show push_varint wide 0 true s = _
    rw [push_varint_true, varint_zero]
    rfl
  | some str => exact push_string_run wide str s

theorem push_attachment_run (wide : WideShift) (slots : List String) (attachment : Json)
    (t : String) (ht : Json_getString attachment "type" (some "region") = some t) (s : State) :
    push_attachment wide slots attachment s =
      push_payload wide slots attachment (Json_getString attachment "path" none)
        (attachment_type t)
        (s.append (opt_string_bytes wide attachment.name ++
          opt_string_bytes wide (Json_getString attachment "name" attachment.name) ++
          [toU8 (attachment_type t)])) := by
  unfold push_attachment
  dsimp only
  rw [bind_ok (push_string_opt_run wide _ s), bind_ok (push_string_opt_run wide _ _), ht,
    bind_ok (rfl : defined (some t) _ = Res.ok t _), bind_ok (push_byte_run _ _),
    append_append, append_append, List.append_assoc]

theorem getString_absent (object : Json) (key : String) (d : Option String)
    (h : Json_getItem object key = none) : Json_getString object key d = d := by
  unfold Json_getString
  rw [h]

theorem getString_present (object item : Json) (key : String) (d : Option String)
    (h : Json_getItem object key = some item) :
    Json_getString object key d = item.valueString := by
  unfold Json_getString
  rw [h]

/-- C13: an attachment whose type string is there is written as its placeholder
name, its actual name, the byte of its type and then its payload; the type
string is `region` when the `type` key is absent, and the byte is 0 for
`region`, 1 for `boundingbox`, 2 for `mesh`, 3 for `linkedmesh`, 4 for `path`
and 6 for `clipping`. -/
theorem attachment_type_byte (wide : WideShift) (slots : List String) (attachment : Json)
    (s : State) :
    (∀ t, Json_getString attachment "type" (some "region") = some t →
      push_attachment wide slots attachment s =
        push_payload wide slots attachment (Json_getString attachment "path" none)
          (attachment_type t)
          (s.append (opt_string_bytes wide attachment.name ++
            opt_string_bytes wide (Json_getString attachment "name" attachment.name) ++
            [toU8 (attachment_type t)]))) ∧
      (Json_getItem attachment "type" = none →
        Json_getString attachment "type" (some "region") = some "region") ∧
      toU8 (attachment_type "region") = 0 ∧ toU8 (attachment_type "boundingbox") = 1 ∧
      toU8 (attachment_type "mesh") = 2 ∧ toU8 (attachment_type "linkedmesh") = 3 ∧
      toU8 (attachment_type "path") = 4 ∧ toU8 (attachment_type "clipping") = 6 :=
  ⟨fun t ht => push_attachment_run wide slots attachment t ht s,
    fun h => getString_absent attachment "type" _ h,
    by decide, by decide, by decide, by decide, by decide, by decide⟩

theorem attachment_type_byte_witness :
    Json_getString sampleLinked "type" (some "region") = some "linkedmesh" ∧
      push_attachment wideZero [] sampleLinked ⟨[], [], []⟩ =
        push_payload wideZero [] sampleLinked (Json_getString sampleLinked "path" none)
          (attachment_type "linkedmesh")
          ((⟨[], [], []⟩ : State).append (opt_string_bytes wideZero sampleLinked.name ++
            opt_string_bytes wideZero (Json_getString sampleLinked "name" sampleLinked.name) ++
            [toU8 (attachment_type "linkedmesh")])) :=
  ⟨rfl, (attachment_type_byte wideZero [] sampleLinked ⟨[], [], []⟩).1 "linkedmesh" rfl⟩

/-- C14: no type string gives the type 5, and `point` gives 0: the point
attachment `pin` with x = 1, y = 2 and rotation = 90 is written with the type
byte 0 and the payload of a region (null path, rotation, x, y, scaleX, scaleY,
width, height and color), 33 bytes, instead of the type byte 5 and the three
floats x, y, rotation. -/
theorem point_written_as_region :
    (∀ t, attachment_type t ≠ 5) ∧ attachment_type "point" = 0 ∧
      push_attachment wideZero [] samplePoint ⟨[], [], []⟩ =
        Res.ok () ⟨[4, 112, 105, 110] ++ [4, 112, 105, 110] ++ [0] ++ [0] ++
          [66, 180, 0, 0] ++ [63, 128, 0, 0] ++ [64, 0, 0, 0] ++ [63, 128, 0, 0] ++
          [63, 128, 0, 0] ++ [66, 0, 0, 0] ++ [66, 0, 0, 0] ++ [255, 255, 255, 255],
          [], []⟩ := by
  refine ⟨fun t => ?_, by decide, rfl⟩
  unfold attachment_type
  split_ifs <;> decide
theorem run_ok {α : Type} {m : M α} {a b : α} {bs : List Nat} {s s1 : State}
    (hrun : m s = Res.ok a (s.append bs)) (h : m s = Res.ok b s1) :
    s1.buff_data = s.buff_data ++ bs ∧ s1.all_atlas = s.all_atlas ∧ b = a := by
  rw [hrun] at h
  simp only [Res.ok.injEq] at h
  rw [← h.1, ← h.2]
  exact ⟨rfl, rfl, rfl⟩

theorem linked_payload_bytes (wide : WideShift) (slots : List String) (attachment : Json)
    (path : Option String) (s s1 : State)
    (h : push_payload wide slots attachment path 3 s = Res.ok () s1) :
    s1.buff_data = s.buff_data ++ opt_string_bytes wide path ++
      written (push_color (Json_getString attachment "color" none)) s.all_atlas ++
      opt_string_bytes wide (Json_getString attachment "skin" none) ++
      opt_string_bytes wide attachment.valueString ++
      [toU8 (Json_getInt attachment "deform" 1)] := by
  unfold push_payload at h
  rw [if_neg (by decide), if_neg (by decide), if_neg (by decide), if_pos rfl] at h
  obtain ⟨_, s2, h1, k1⟩ := bind_ok_inv h
  obtain ⟨e1, a1, _⟩ := run_ok (push_string_or_zero_run wide path s) h1
  obtain ⟨_, s3, h2, k2⟩ := bind_ok_inv k1
  obtain ⟨e2, a2⟩ := sound_ok (sound_push_color _) h2
  obtain ⟨_, s4, h3, k3⟩ := bind_ok_inv k2
  obtain ⟨e3, a3, _⟩ := run_ok (push_string_or_zero_run wide _ s3) h3
  obtain ⟨_, s5, h4, k4⟩ := bind_ok_inv k3
  obtain ⟨e4, a4, _⟩ := run_ok (push_string_opt_run wide _ s4) h4
  obtain ⟨e5, _, _⟩ := run_ok (rfl : push_boolen _ s5 = Res.ok () (s5.append _)) k4
  rw [e5, e4, e3, e2, e1, a1]

/-- C15: the linked mesh `m` that names the parent mesh `head` is written, after
the type byte 3, as the null path, the color, the skin name `default`, the
single byte 0 of a null string, and the deform flag: the string written in the
place of the parent mesh name is the field `valueString` of the attachment
object, which is null, and the `parent` key is not read. -/
theorem linked_mesh_parent_null :
    Json_getString sampleLinked "parent" none = some "head" ∧
      sampleLinked.valueString = none ∧
      push_attachment wideZero [] sampleLinked ⟨[], [], []⟩ =
        Res.ok () ⟨[2, 109] ++ [2, 109] ++ [3] ++ [0] ++ [255, 255, 255, 255] ++
          [8, 100, 101, 102, 97, 117, 108, 116] ++ [0] ++ [1], [], []⟩ :=
  ⟨rfl, rfl, rfl⟩

theorem path_payload_bytes (wide : WideShift) (slots : List String) (attachment : Json)
    (path : Option String) (k : Int) (hk : k = 0 ∨ k = 2 ∨ k = 3) (s s1 : State)
    (h : push_payload wide slots attachment path k s = Res.ok () s1) :
    ∃ rest, s1.buff_data = s.buff_data ++ opt_string_bytes wide path ++ rest := by
  have key : ∀ (f : M Unit), Sound f →
      (push_string_or_zero wide path >>= fun _ => f) s = Res.ok () s1 →
      ∃ rest, s1.buff_data = s.buff_data ++ opt_string_bytes wide path ++ rest := by
    intro f hf hrun
    obtain ⟨_, s2, h1, k1⟩ := bind_ok_inv hrun
    obtain ⟨e1, _, _⟩ := run_ok (push_string_or_zero_run wide path s) h1
    obtain ⟨e2, _⟩ := sound_ok hf k1
    exact ⟨_, by rw [e2, e1]⟩
  unfold push_payload at h
  rcases hk with hk | hk | hk
  · subst hk
    rw [if_pos rfl] at h
    refine key _ ?_ h
    repeat' first
      | with_reducible exact sound_push_float _
      | with_reducible exact sound_push_color _
      | with_reducible apply sound_bind
      | intro _
  · subst hk
    rw [if_neg (by decide), if_neg (by decide), if_pos rfl] at h
    refine key _ ?_ h
    repeat' first
      | with_reducible exact sound_defined _
      | with_reducible exact sound_push_byte _
      | with_reducible exact sound_push_float _
      | with_reducible exact sound_push_color _
      | with_reducible exact sound_push_varint _ _ _
      | with_reducible exact sound_push_vertices _ _ _
      | with_reducible apply sound_forEach
      | with_reducible apply sound_bind
      | intro _
  · subst hk
    rw [if_neg (by decide), if_neg (by decide), if_neg (by decide), if_pos rfl] at h
    refine key _ ?_ h
    repeat' first
      | with_reducible exact sound_push_boolen _
      | with_reducible exact sound_push_color _
      | with_reducible exact sound_push_string _ _
      | with_reducible exact sound_push_string_or_zero _ _
      | with_reducible apply sound_bind
      | intro _

theorem push_slot_fields (wide : WideShift) (vcBones : List BoneData) (vcSlots : List String)
    (slot : Json) (s s1 : State) (r : List String)
    (h : push_slot wide vcBones vcSlots slot s = Res.ok r s1) :
    ∃ boneName blendMode, Json_getString slot "bone" (some "") = some boneName ∧
      s1.buff_data = s.buff_data ++
        opt_string_bytes wide (Json_getString slot "name" (some "")) ++
        varint_loop wide (toU32 (find_bone vcBones boneName)) 5 0 ++
        written (push_color (Json_getString slot "color" none)) s.all_atlas ++
        written (push_color (Json_getString slot "dark" none)) s.all_atlas ++
        opt_string_bytes wide (Json_getString slot "attachment" (some "")) ++
        varint_loop wide (toU32 blendMode) 5 0 := by
  unfold push_slot at h
  obtain ⟨_, s2, h1, k1⟩ := bind_ok_inv h
  obtain ⟨e1, a1, _⟩ := run_ok (push_string_opt_run wide _ s) h1
  obtain ⟨name, s3, h2, k2⟩ := bind_ok_inv k1
  obtain ⟨_, e2⟩ := defined_ok h2
  obtain ⟨boneName, s4, h3, k3⟩ := bind_ok_inv k2
  obtain ⟨e3, e4⟩ := defined_ok h3
  obtain ⟨boneIndex, s5, h4, k4⟩ := bind_ok_inv k3
  obtain ⟨e5, n5, e6, a6⟩ := resolve_bone_ok h4
  obtain ⟨_, s6, h5, k5⟩ := bind_ok_inv k4
  obtain ⟨e7, a7⟩ := push_varint_ok h5
  obtain ⟨_, s7, h6, k6⟩ := bind_ok_inv k5
  obtain ⟨e8, a8⟩ := sound_ok (sound_push_color _) h6
  obtain ⟨_, s8, h7, k7⟩ := bind_ok_inv k6
  obtain ⟨e9, a9⟩ := sound_ok (sound_push_color _) h7
  obtain ⟨_, s9, h8, k8⟩ := bind_ok_inv k7
  obtain ⟨e10, a10, _⟩ := run_ok (push_string_opt_run wide _ s8) h8
  obtain ⟨blendMode, s10, h9, k9⟩ := bind_ok_inv k8
  have e11 : s10 = s9 := by
    generalize Json_getItem slot "blend" = blend at h9
    unfold blend_mode at h9
    cases blend with
    | none =>
      simp only [pure_run, Res.ok.injEq] at h9
      exact h9.2.symm
    | some b =>
      obtain ⟨v, s11, h10, k10⟩ := bind_ok_inv h9
      obtain ⟨_, e12⟩ := defined_ok h10
      subst e12
      split_ifs at k10 <;> simp only [pure_run, Res.ok.injEq] at k10 <;> exact k10.2.symm
  obtain ⟨_, s11, h10, k10⟩ := bind_ok_inv k9
  obtain ⟨e13, _⟩ := push_varint_ok h10
  simp only [pure_run, Res.ok.injEq] at k10
  have ha6 : s6.all_atlas = s.all_atlas := by rw [a7, a6, e4, e2, a1]
  have ha7 : s7.all_atlas = s.all_atlas := by rw [a8, ha6]
  refine ⟨boneName, blendMode, e3, ?_⟩
  rw [← k10.2, e13, e11, e10, e9, e8, e7, e6, e4, e2, e1, ha6, ha7, e5]

theorem push_event_run (wide : WideShift) (vcEvents : List EventData) (eventMap : Json)
    (name str : String) (hn : eventMap.name = some name)
    (hs : Json_getString eventMap "string" none = some str) (s : State) :
    ∃ vcEvents1, push_event wide vcEvents eventMap s = Res.ok vcEvents1 (s.append
      (string_bytes wide name ++
        varint_loop wide (zigzag32 (toU32 (Json_getInt eventMap "int" 0))) 5 0 ++
        float_bytes (Json_getFloat eventMap "float" 0) ++ string_bytes wide str)) := by
  unfold push_event
  rw [hn, bind_ok (rfl : defined (some name) _ = Res.ok name _)]
  dsimp only
  rw [hs, bind_ok (rfl : defined (some str) _ = Res.ok str _),
    bind_ok (push_string_run wide name s), bind_ok (push_varint_false wide _ _),
    bind_ok (push_float_run _ _), bind_ok (push_string_run wide str _)]
  simp only [append_append, List.append_assoc]
  exact ⟨_, rfl⟩

/-- C19: the slot `s`, which has no `attachment` key, is written with the
single byte 1 of an empty string in the place of its attachment name, between
the dark color and the blend mode, and not with the byte 0 of a null string. -/
theorem missing_attachment_empty :
    Json_getItem sampleSlot "attachment" = none ∧
      ∃ s1, push_slot wideZero (sampleBones.getD []) [] sampleSlot ⟨[], [], []⟩ =
          Res.ok ["s"] s1 ∧
        s1.buff_data = [2, 115] ++ [0] ++ [255, 255, 255, 255] ++ [255, 255, 255, 255] ++
          [1] ++ [0] :=
  ⟨rfl, _, rfl, rfl⟩

/-- C19: a string read from a key that is absent is the default of the read,
and a null string is written as the single byte 0, the empty string as the
single byte 1.  The `path` of an attachment and the `skin` of a linked mesh are
read with a null default and written first in the payload, resp. after the
color: absent they are the byte 0, empty the byte 1.  The `attachment` of a
slot is read with the default `""` and written after the dark color: absent or
empty it is the byte 1.  The `string` of an event that is present is written
last in the record of the event: empty it is the byte 1. -/
theorem optional_strings (wide : WideShift) :
    (∀ (object : Json) (key : String), Json_getItem object key = none →
      opt_string_bytes wide (Json_getString object key none) = [0] ∧
      opt_string_bytes wide (Json_getString object key (some "")) = [1]) ∧
      (∀ (object item : Json) (key : String) (d : Option String),
        Json_getItem object key = some item → item.valueString = some "" →
        opt_string_bytes wide (Json_getString object key d) = [1]) ∧
      (∀ (slots : List String) (attachment : Json) (k : Int) (s s1 : State),
        k = 0 ∨ k = 2 ∨ k = 3 →
        push_payload wide slots attachment (Json_getString attachment "path" none) k s =
          Res.ok () s1 →
        ∃ rest, s1.buff_data = s.buff_data ++
          opt_string_bytes wide (Json_getString attachment "path" none) ++ rest) ∧
      (∀ (slots : List String) (attachment : Json) (s s1 : State),
        push_payload wide slots attachment (Json_getString attachment "path" none) 3 s =
          Res.ok () s1 →
        s1.buff_data = s.buff_data ++
          opt_string_bytes wide (Json_getString attachment "path" none) ++
          written (push_color (Json_getString attachment "color" none)) s.all_atlas ++
          opt_string_bytes wide (Json_getString attachment "skin" none) ++
          opt_string_bytes wide attachment.valueString ++
          [toU8 (Json_getInt attachment "deform" 1)]) ∧
      (∀ (vcBones : List BoneData) (vcSlots : List String) (slot : Json) (s s1 : State)
        (r : List String), push_slot wide vcBones vcSlots slot s = Res.ok r s1 →
        ∃ boneName blendMode, Json_getString slot "bone" (some "") = some boneName ∧
          s1.buff_data = s.buff_data ++
            opt_string_bytes wide (Json_getString slot "name" (some "")) ++
            varint_loop wide (toU32 (find_bone vcBones boneName)) 5 0 ++
            written (push_color (Json_getString slot "color" none)) s.all_atlas ++
            written (push_color (Json_getString slot "dark" none)) s.all_atlas ++
            opt_string_bytes wide (Json_getString slot "attachment" (some "")) ++
            varint_loop wide (toU32 blendMode) 5 0) ∧
      (∀ (vcEvents : List EventData) (eventMap : Json) (name str : String) (s : State),
        eventMap.name = some name → Json_getString eventMap "string" none = some str →
        ∃ vcEvents1, push_event wide vcEvents eventMap s = Res.ok vcEvents1 (s.append
          (string_bytes wide name ++
            varint_loop wide (zigzag32 (toU32 (Json_getInt eventMap "int" 0))) 5 0 ++
            float_bytes (Json_getFloat eventMap "float" 0) ++
            opt_string_bytes wide (some str)))) := by
  refine ⟨fun object key h => ?_, fun object item key d h hv => ?_,
    fun slots a k s s1 hk h => path_payload_bytes wide slots a _ k hk s s1 h,
    fun slots a s s1 h => linked_payload_bytes wide slots a _ s s1 h,
    fun vcBones vcSlots slot s s1 r h => push_slot_fields wide vcBones vcSlots slot s s1 r h,
    fun vcEvents eventMap name str s hn hs => push_event_run wide vcEvents eventMap name str hn hs s⟩
  · rw [getString_absent _ _ _ h, getString_absent _ _ _ h]
    exact ⟨rfl, string_bytes_empty wide⟩
  · rw [getString_present _ _ _ _ h, hv]
    exact string_bytes_empty wide

theorem optional_strings_witness :
    Json_getItem sampleSlot "attachment" = none ∧
      opt_string_bytes wideZero (Json_getString sampleSlot "attachment" (some "")) = [1] ∧
      Json_getItem sampleLinked "path" = none ∧
      opt_string_bytes wideZero (Json_getString sampleLinked "path" none) = [0] ∧
      ∃ s1, push_slot wideZero (sampleBones.getD []) [] sampleSlot ⟨[], [], []⟩ =
          Res.ok ["s"] s1 ∧
        ∃ boneName blendMode, Json_getString sampleSlot "bone" (some "") = some boneName ∧
          s1.buff_data = [] ++
            opt_string_bytes wideZero (Json_getString sampleSlot "name" (some "")) ++
            varint_loop wideZero (toU32 (find_bone (sampleBones.getD []) boneName)) 5 0 ++
            written (push_color (Json_getString sampleSlot "color" none)) [] ++
            written (push_color (Json_getString sampleSlot "dark" none)) [] ++
            opt_string_bytes wideZero (Json_getString sampleSlot "attachment" (some "")) ++
            varint_loop wideZero (toU32 blendMode) 5 0 :=
  ⟨rfl, ((optional_strings wideZero).1 sampleSlot "attachment" rfl).2, rfl,
    ((optional_strings wideZero).1 sampleLinked "path" rfl).1, _, rfl,
    (optional_strings wideZero).2.2.2.2.1 (sampleBones.getD []) [] sampleSlot ⟨[], [], []⟩ _
      ["s"] rfl⟩

/-! ## Timelines -/

theorem bind_assoc_run {α β γ : Type} (m : M α) (f : α → M β) (g : β → M γ) :
    (m >>= f) >>= g = m >>= fun a => f a >>= g := by
  funext s
  simp only [bind_run]
  cases m s <;> rfl

theorem pure_bind_run {α β : Type} (a : α) (f : α → M β) : (pure a : M α) >>= f = f a := rfl

theorem bind_pure_unit (m : M Unit) : (m >>= fun _ => (pure () : M Unit)) = m := by
  funext s
  simp only [bind_run]
  cases m s <;> rfl

theorem curve_if_next_false (v : Json) : curve_if_next v false = pure () := rfl

theorem curve_frame_split (wide : WideShift) (body : Json → Bool → M Unit)
    (hb : isCurveFrame wide body) (v : Json) (next : Bool) :
    body v next = body v false >>= fun _ => curve_if_next v next := by
  rcases hb with h | h | h | h | h | h | ⟨name, h⟩ | h | h <;> subst h
  · simp only [color_frame, bind_assoc_run, curve_if_next_false, pure_bind_run]
  · simp only [two_color_frame, bind_assoc_run, curve_if_next_false, pure_bind_run]
  · simp only [rotate_frame, bind_assoc_run, curve_if_next_false, pure_bind_run]
  · simp only [translate_frame, bind_assoc_run, curve_if_next_false, pure_bind_run]
  · simp only [ik_frame, bind_assoc_run, curve_if_next_false, pure_bind_run]
  · simp only [transform_frame, bind_assoc_run, curve_if_next_false, pure_bind_run]
  · simp only [path_value_frame, bind_assoc_run, curve_if_next_false, pure_bind_run]
  · simp only [path_mix_frame, bind_assoc_run, curve_if_next_false, pure_bind_run]
  · unfold deform_frame
    cases Json_getItem v "vertices" <;>
      simp only [bind_assoc_run, curve_if_next_false, pure_bind_run]

theorem sound_curve_frame (wide : WideShift) (body : Json → Bool → M Unit)
    (hb : isCurveFrame wide body) (v : Json) (next : Bool) : Sound (body v next) := by
  rcases hb with h | h | h | h | h | h | ⟨name, h⟩ | h | h <;> subst h
  · exact (sound_frames v next).1
  · exact (sound_frames v next).2.1
  · exact (sound_frames v next).2.2.1
  · exact (sound_frames v next).2.2.2.1
  · exact (sound_frames v next).2.2.2.2.2.2.1
  · exact (sound_frames v next).2.2.2.2.2.2.2
  · exact (sound_frames v next).2.2.2.2.1 name
  · exact (sound_frames v next).2.2.2.2.2.1
  · exact sound_deform_frame wide v next

theorem push_curve_record (curve : Option Json) (s s1 : State)
    (h : push_curve curve s = Res.ok () s1) :
    isCurveRecord (written (push_curve curve) s.all_atlas) := by
  have hw := (sound_ok (sound_push_curve curve) h).1
  have key : ∀ record, s1.buff_data = s.buff_data ++ record → isCurveRecord record →
      isCurveRecord (written (push_curve curve) s.all_atlas) := by
    intro record hr hrec
    rw [hw] at hr
    rw [List.append_cancel_left hr]
    exact hrec
  unfold push_curve at h
  cases curve with
  | none =>
    dsimp only at h
    exact key _ (run_ok (push_byte_run _ s) h).1 (Or.inl rfl)
  | some c =>
    dsimp only at h
    by_cases hS : c.type = JsonType.String
    · rw [if_pos hS] at h
      obtain ⟨v, s2, h1, k⟩ := bind_ok_inv h
      obtain ⟨_, e1⟩ := defined_ok h1
      subst e1
      obtain ⟨y, s3, hy, k3⟩ := bind_ok_inv k
      simp only [pure_run, Res.ok.injEq] at hy
      obtain ⟨_, e3⟩ := hy
      subst e3
      split_ifs at k3
      · exact key _ (run_ok (push_byte_run _ _) k3).1 (Or.inr (Or.inl rfl))
      · obtain ⟨_, s4, h2, k2⟩ := bind_ok_inv k3
        obtain ⟨e2, _, _⟩ := run_ok (push_byte_run _ _) h2
        rcases hc : c.child with _ | ⟨c0, _ | ⟨c1, _ | ⟨c2, _ | ⟨c3, tl⟩⟩⟩⟩ <;> rw [hc] at k2
        · cases k2
        · cases k2
        · cases k2
        · cases k2
        · dsimp only at k2
          rw [bind_ok (push_float_run _ _), bind_ok (push_float_run _ _),
            bind_ok (push_float_run _ _), push_float_run] at k2
          simp only [Res.ok.injEq, true_and] at k2
          refine key _ ?_ (Or.inr (Or.inr ⟨c0.valueFloat, c1.valueFloat, c2.valueFloat,
            c3.valueFloat, rfl⟩))
          rw [← k2]
          simp only [State.append, e2, List.append_assoc]
          rfl
      · exact key _ (run_ok (push_byte_run _ _) k3).1 (Or.inl rfl)
    · rw [if_neg hS] at h
      obtain ⟨y, s3, hy, k3⟩ := bind_ok_inv h
      simp only [pure_run, Res.ok.injEq] at hy
      obtain ⟨_, e3⟩ := hy
      subst e3
      split_ifs at k3
      · exact key _ (run_ok (push_byte_run _ _) k3).1 (Or.inr (Or.inl rfl))
      · obtain ⟨_, s4, h2, k2⟩ := bind_ok_inv k3
        obtain ⟨e2, _, _⟩ := run_ok (push_byte_run _ _) h2
        rcases hc : c.child with _ | ⟨c0, _ | ⟨c1, _ | ⟨c2, _ | ⟨c3, tl⟩⟩⟩⟩ <;> rw [hc] at k2
        · cases k2
        · cases k2
        · cases k2
        · cases k2
        · dsimp only at k2
          rw [bind_ok (push_float_run _ _), bind_ok (push_float_run _ _),
            bind_ok (push_float_run _ _), push_float_run] at k2
          simp only [Res.ok.injEq, true_and] at k2
          refine key _ ?_ (Or.inr (Or.inr ⟨c0.valueFloat, c1.valueFloat, c2.valueFloat,
            c3.valueFloat, rfl⟩))
          rw [← k2]
          simp only [State.append, e2, List.append_assoc]
          rfl
      · exact key _ (run_ok (push_byte_run _ _) k3).1 (Or.inl rfl)
theorem frames_bytes (wide : WideShift) (body : Json → Bool → M Unit)
    (hb : isCurveFrame wide body) (frames : List Json) (s s1 : State)
    (h : forFrames frames body s = Res.ok () s1) :
    s1.all_atlas = s.all_atlas ∧
      (∀ v ∈ frames.dropLast,
        isCurveRecord (written (push_curve (Json_getItem v "curve")) s.all_atlas)) ∧
      s1.buff_data = s.buff_data ++
        timeline_bytes (frames.map fun v => written (body v false) s.all_atlas)
          (frames.dropLast.map fun v =>
            written (push_curve (Json_getItem v "curve")) s.all_atlas) := by
  induction frames generalizing s with
  | nil =>
    simp only [forFrames, pure_run, Res.ok.injEq, true_and] at h
    subst h
    simp [timeline_bytes]
  | cons v rest ih =>
    unfold forFrames at h
    obtain ⟨_, s2, h1, k1⟩ := bind_ok_inv h
    obtain ⟨e1, e2, e3⟩ := ih s2 k1
    rw [curve_frame_split wide body hb] at h1
    obtain ⟨_, s3, h2, k2⟩ := bind_ok_inv h1
    obtain ⟨e4, a4⟩ := sound_ok (sound_curve_frame wide body hb v false) h2
    cases rest with
    | nil =>
      simp only [List.isEmpty_nil, Bool.not_true, curve_if_next_false, pure_run,
        Res.ok.injEq, true_and] at k2
      subst k2
      simp only [forFrames, pure_run, Res.ok.injEq, true_and] at k1
      subst k1
      refine ⟨a4, ?_, ?_⟩
      · simp
      · rw [e4]
        simp [timeline_bytes]
    | cons w rest2 =>
      have hnext : curve_if_next v (!(w :: rest2).isEmpty) =
          push_curve (Json_getItem v "curve") := rfl
      rw [hnext] at k2
      obtain ⟨e5, a5⟩ := sound_ok (sound_push_curve _) k2
      have hrec := push_curve_record _ _ _ k2
      have ha : s2.all_atlas = s.all_atlas := by rw [a5, a4]
      rw [a4] at e5 hrec
      rw [ha] at e2 e3
      refine ⟨by rw [e1, ha], ?_, ?_⟩
      · intro x hx
        rw [List.dropLast_cons₂] at hx
        rcases List.mem_cons.1 hx with hx | hx
        · rw [hx]
          exact hrec
        · exact e2 x hx
      · rw [e3, e5, e4]
        simp only [timeline_bytes, List.dropLast_cons₂, List.map_cons, List.cons_append,
          List.zipWith_cons_cons, List.flatten_cons, List.append_assoc]

/-- C18: the offset entry `{"slot": "s", "offset": -1}` of a draw order frame
is written as the slot index 0 and the five bytes of the positive varint of -1
read as unsigned, not as the single byte 1 of its zig-zag varint. -/
theorem offset_not_zigzag :
    (∃ s1, offset_entry wideZero ["s"] sampleOffset ⟨[], [], []⟩ = Res.ok () s1 ∧
        s1.buff_data = [0] ++ [255, 255, 255, 255, 15]) ∧
      push_varint wideZero (-1) false ⟨[], [], []⟩ = Res.ok () ⟨[1], [], []⟩ ∧
      push_varint wideZero (-1) true ⟨[], [], []⟩ =
        Res.ok () ⟨[255, 255, 255, 255, 15], [], []⟩ :=
  ⟨⟨_, rfl, rfl⟩, rfl, rfl⟩

/-- C18: an offset entry of a draw order frame that is written is the slot
index, the position of the first slot with the name of the entry, as a
positive varint, followed by the `offset` of the entry as a positive varint,
the bytes that `push_varint(offset, 1)` stores: the value read as unsigned,
with no zig-zag. -/
theorem offset_positive_varint (wide : WideShift) (vcSlots : List String) (offsetMap : Json)
    (s s1 : State) (h : offset_entry wide vcSlots offsetMap s = Res.ok () s1) :
    ∃ slot, Json_getString offsetMap "slot" none = some slot ∧
      find_string vcSlots slot ≠ -1 ∧
      s1.buff_data = s.buff_data ++ varint_loop wide (toU32 (find_string vcSlots slot)) 5 0 ++
        varint_loop wide (toU32 (Json_getInt offsetMap "offset" 0)) 5 0 ∧
      (∀ t : State, push_varint wide (Json_getInt offsetMap "offset" 0) true t =
        Res.ok () (t.append (varint_loop wide (toU32 (Json_getInt offsetMap "offset" 0)) 5 0))) ∧
      varint_value (varint_loop wide (toU32 (Json_getInt offsetMap "offset" 0)) 5 0) =
        toU32 (Json_getInt offsetMap "offset" 0) := by
  unfold offset_entry at h
  obtain ⟨slot, s2, h1, k1⟩ := bind_ok_inv h
  obtain ⟨e1, e2⟩ := defined_ok h1
  subst e2
  obtain ⟨slotIndex, s3, h2, k2⟩ := bind_ok_inv k1
  obtain ⟨e3, e4, e5, _⟩ := resolve_string_ok h2
  obtain ⟨_, s4, h3, k3⟩ := bind_ok_inv k2
  obtain ⟨e6, _⟩ := push_varint_ok h3
  obtain ⟨e7, _⟩ := push_varint_ok k3
  refine ⟨slot, e1, by rw [← e3]; exact e4, by rw [e7, e6, e5, e3],
    fun t => push_varint_true wide _ t, varint_value_loop wide _ (toU32_lt _)⟩

theorem offset_positive_varint_witness :
    ∃ s1, offset_entry wideZero ["s"] sampleOffset ⟨[], [], []⟩ = Res.ok () s1 ∧
      ∃ slot, Json_getString sampleOffset "slot" none = some slot ∧
        s1.buff_data = [] ++ varint_loop wideZero (toU32 (find_string ["s"] slot)) 5 0 ++
          varint_loop wideZero (toU32 (Json_getInt sampleOffset "offset" 0)) 5 0 :=
  ⟨_, rfl,
    (let ⟨slot, h1, _, h3, _⟩ :=
      offset_positive_varint wideZero ["s"] sampleOffset ⟨[], [], []⟩ _ rfl
    ⟨slot, h1, h3⟩)⟩

/-! ## Vertices -/

theorem vertAt_run (vert : List Nat) (i : Nat) (h : i < vert.length) (s : State) :
    vertAt vert i s = Res.ok (vert.getD i 0) s := by
  unfold vertAt
  rw [if_pos h]
  rfl

theorem getD_append_at (pre post : List Nat) (k : Nat) :
    (pre ++ post).getD (pre.length + k) 0 = post.getD k 0 := by
  simp [List.getD_eq_getElem?_getD, List.getElem?_append_right]

theorem forEach_float_run (values : List Nat) (s : State) :
    forEach values push_float s = Res.ok () (s.append (values.map float_bytes).flatten) := by
  induction values generalizing s with
  | nil => simp [forEach, pure_run, State.append]
  | cons v rest ih =>
    unfold forEach
    rw [bind_ok (push_float_run v s), ih, append_append]
    simp

theorem weighted_bones_run (wide : WideShift) (groups : List (Nat × Nat × Nat × Nat))
    (hg : ∀ g ∈ groups, (f32_to_int g.1).isSome = true) (pre post : List Nat) (s : State) :
    weighted_bones wide (pre ++ ((groups.map group_stream).flatten ++ post)) groups.length
        pre.length s =
      Res.ok (pre.length + 4 * groups.length)
        (s.append (groups.map (group_bytes wide)).flatten) := by
  induction groups generalizing pre s with
  | nil =>
    simp [weighted_bones, pure_run, State.append]
  | cons g rest ih =>
    obtain ⟨b, hb⟩ := Option.isSome_iff_exists.mp (hg g (List.mem_cons_self _ _))
    have hlen : ∀ k, k < 4 → pre.length + k <
        (pre ++ (((g :: rest).map group_stream).flatten ++ post)).length := by
      intro k hk
      simp [group_stream]
      omega
    have hget : ∀ k, (pre ++ (((g :: rest).map group_stream).flatten ++ post)).getD
        (pre.length + k) 0 = (group_stream g ++ ((rest.map group_stream).flatten ++ post)).getD
          k 0 := by
      intro k
      rw [getD_append_at]
      simp
    have h0 := hget 0
    have h1 := hget 1
    have h2 := hget 2
    have h3 := hget 3
    simp only [group_stream, List.cons_append, List.getD_cons_zero, List.getD_cons_succ,
      List.nil_append, Nat.add_zero] at h0 h1 h2 h3
    have l0 := hlen 0 (by decide)
    rw [Nat.add_zero] at l0
    show weighted_bones wide _ (rest.length + 1) pre.length s = _
    unfold weighted_bones
    rw [bind_ok (vertAt_run _ _ l0 s), h0, hb,
      bind_ok (rfl : defined (some b) s = Res.ok b s), bind_ok (push_varint_true wide b s),
      bind_ok (vertAt_run _ _ (hlen 1 (by decide)) _), h1, bind_ok (push_float_run _ _),
      bind_ok (vertAt_run _ _ (hlen 2 (by decide)) _), h2, bind_ok (push_float_run _ _),
      bind_ok (vertAt_run _ _ (hlen 3 (by decide)) _), h3, bind_ok (push_float_run _ _)]
    have hpre : pre ++ (((g :: rest).map group_stream).flatten ++ post) =
        (pre ++ group_stream g) ++ ((rest.map group_stream).flatten ++ post) := by
      simp
    have hi : pre.length + 4 = (pre ++ group_stream g).length := by
      simp [group_stream]
    rw [hpre, hi, ih (fun g hg2 => hg g (List.mem_cons_of_mem _ hg2))]
    simp only [append_append, List.length_append, group_stream, List.length_cons,
      List.length_nil, List.map_cons, List.flatten_cons, group_bytes, hb, Option.getD_some,
      List.append_assoc]
    congr 1
    omega

theorem length_le_stream (vs : List (Nat × List (Nat × Nat × Nat × Nat))) :
    vs.length ≤ ((vs.map vertex_stream).flatten).length := by
  induction vs with
  | nil => simp
  | cons v rest ih =>
    simp only [List.map_cons, List.flatten_cons, List.length_append, List.length_cons,
      vertex_stream]
    omega

theorem stream_length (groups : List (Nat × Nat × Nat × Nat)) :
    ((groups.map group_stream).flatten).length = 4 * groups.length := by
  induction groups with
  | nil => simp
  | cons g rest ih =>
    simp only [List.map_cons, List.flatten_cons, List.length_append, List.length_cons, ih,
      group_stream, List.length_nil]
    omega

theorem weighted_loop_run (wide : WideShift) (vs : List (Nat × List (Nat × Nat × Nat × Nat)))
    (hw : ∀ v ∈ vs, wellFormedVertex v) (pre : List Nat) (fuel : Nat) (hf : vs.length ≤ fuel)
    (hsize : (pre ++ (vs.map vertex_stream).flatten).length ≤ 2147483647) (s : State) :
    weighted_loop wide (pre ++ (vs.map vertex_stream).flatten) fuel pre.length s =
      Res.ok () (s.append (vs.map (vertex_bytes wide)).flatten) := by
  induction vs generalizing pre fuel s with
  | nil =>
    cases fuel with
    | zero => simp [weighted_loop, pure_run, State.append]
    | succ n =>
      unfold weighted_loop
      rw [if_neg (by simp)]
      simp [pure_run, State.append]
  | cons v rest ih =>
    obtain ⟨hcount, hgroups⟩ := hw v (List.mem_cons_self _ _)
    cases fuel with
    | zero => simp at hf
    | succ n =>
      have hlt : pre.length < (pre ++ ((v :: rest).map vertex_stream).flatten).length := by
        simp [vertex_stream]
      have hget : (pre ++ ((v :: rest).map vertex_stream).flatten).getD pre.length 0 = v.1 := by
        have h := getD_append_at pre (((v :: rest).map vertex_stream).flatten) 0
        rw [Nat.add_zero] at h
        rw [h]
        simp [vertex_stream]
      have hlen : (pre ++ ((v :: rest).map vertex_stream).flatten).length =
          pre.length + 1 + 4 * v.2.length + ((rest.map vertex_stream).flatten).length := by
        simp only [List.map_cons, List.flatten_cons, List.length_append, vertex_stream,
          List.length_cons, stream_length]
        omega
      have hfit : (!fitsInt ((v.2.length : Int) * 4) ||
          !fitsInt ((pre.length : Int) + 1 + (v.2.length : Int) * 4)) = false := by
        have h1 : fitsInt ((v.2.length : Int) * 4) = true := by
          simp only [fitsInt, decide_eq_true_eq]
          omega
        have h2 : fitsInt ((pre.length : Int) + 1 + (v.2.length : Int) * 4) = true := by
          simp only [fitsInt, decide_eq_true_eq]
          omega
        rw [h1, h2]
        rfl
      have hpre : pre ++ ((v :: rest).map vertex_stream).flatten =
          (pre ++ [v.1]) ++ ((v.2.map group_stream).flatten ++
            (rest.map vertex_stream).flatten) := by
        simp [vertex_stream]
      have hbones := weighted_bones_run wide v.2 hgroups (pre ++ [v.1])
        ((rest.map vertex_stream).flatten)
        (s.append (varint_loop wide (toU32 (v.2.length : Int)) 5 0))
      rw [← hpre] at hbones
      have hi : (pre ++ [v.1]).length = pre.length + 1 := by simp
      rw [hi] at hbones
      unfold weighted_loop
      rw [if_pos hlt, bind_ok (vertAt_run _ _ hlt s), hget, hcount,
        bind_ok (rfl : defined (some (v.2.length : Int)) s = Res.ok (v.2.length : Int) s),
        bind_ok (push_varint_true wide _ s)]
      simp only [hfit, Int.toNat_ofNat, Bool.false_eq_true, if_false]
      rw [bind_ok (pure_run _ _)]
      rw [bind_ok hbones]
      have hpre2 : pre ++ ((v :: rest).map vertex_stream).flatten =
          (pre ++ vertex_stream v) ++ (rest.map vertex_stream).flatten := by
        simp
      have hi2 : pre.length + 1 + 4 * v.2.length = (pre ++ vertex_stream v).length := by
        simp only [List.length_append, vertex_stream, List.length_cons, stream_length]
        omega
      rw [hpre2] at hsize ⊢
      rw [hi2, ih (fun w hw2 => hw w (List.mem_cons_of_mem _ hw2)) _ n
        (by simpa using hf) hsize]
      simp only [append_append, List.map_cons, List.flatten_cons, vertex_bytes,
        List.append_assoc]

theorem push_boolen_run (v : Int) (s : State) :
    push_boolen v s = Res.ok () (s.append [toU8 v]) := rfl

theorem push_vertices_plain (wide : WideShift) (vertices : Json) (s : State)
    (hne : vertices.child ≠ []) :
    push_vertices wide (some vertices) vertices.size s =
      Res.ok () (s.append (0 :: ((vertices.child.map Json.valueFloat).map float_bytes).flatten))
    := by
  have hsz : ¬ vertices.size ≤ 0 := by
    unfold Json.size
    cases hc : vertices.child with
    | nil => exact absurd hc hne
    | cons c rest =>
      simp only [List.length_cons]
      omega
  unfold push_vertices
  rw [bind_ok (rfl : defined (some vertices) s = Res.ok vertices s)]
  simp only [if_neg hsz, if_true]
  rw [bind_ok (push_boolen_run 0 s), forEach_float_run, append_append]
  rfl

theorem push_vertices_weighted (wide : WideShift) (vertices : Json) (L : Int)
    (vs : List (Nat × List (Nat × Nat × Nat × Nat))) (s : State)
    (hne : vertices.child ≠ []) (hL : L ≠ vertices.size)
    (hstream : vertices.child.map Json.valueFloat = (vs.map vertex_stream).flatten)
    (hw : ∀ v ∈ vs, wellFormedVertex v) (hsize : vertices.child.length ≤ 2147483647) :
    push_vertices wide (some vertices) L s =
      Res.ok () (s.append (1 :: (vs.map (vertex_bytes wide)).flatten)) := by
  have hsz : ¬ vertices.size ≤ 0 := by
    unfold Json.size
    cases hc : vertices.child with
    | nil => exact absurd hc hne
    | cons c rest =>
      simp only [List.length_cons]
      omega
  have hlen : ((vs.map vertex_stream).flatten).length = vertices.child.length := by
    rw [← hstream, List.length_map]
  have hrun := weighted_loop_run wide vs hw [] ((vs.map vertex_stream).flatten).length
    (length_le_stream vs) (by rw [List.nil_append, hlen]; exact hsize) (s.append [toU8 1])
  rw [List.nil_append] at hrun
  unfold push_vertices
  rw [bind_ok (rfl : defined (some vertices) s = Res.ok vertices s)]
  simp only [if_neg hsz, if_neg hL]
  rw [bind_ok (push_boolen_run 1 s), hstream]
  show weighted_loop wide _ _ ([] : List Nat).length _ = _
  rw [hrun, append_append]
  rfl

/-- C16: for a non-empty vertices array of n elements, `push_vertices` with the
expected length n writes the flag byte 0 and the n floats in order; with another
expected length, and the array a well-formed weighted stream (each vertex is its
bone count and then that many groups of bone index, x, y, weight) of less than
2^31 elements, it writes the flag byte 1 and then, per vertex, the positive
varint of the bone count and, per group, the positive varint of the bone index
and the three floats.  Both runs end normally: the weighted loop takes exactly
the n elements and reads none past the end of the array. -/
theorem push_vertices_bytes (wide : WideShift) (vertices : Json) (L : Int) (s : State)
    (hne : vertices.child ≠ []) :
    (L = vertices.size →
      push_vertices wide (some vertices) L s =
        Res.ok () (s.append
          (0 :: ((vertices.child.map Json.valueFloat).map float_bytes).flatten))) ∧
      (L ≠ vertices.size →
        ∀ vs : List (Nat × List (Nat × Nat × Nat × Nat)),
          vertices.child.map Json.valueFloat = (vs.map vertex_stream).flatten →
          (∀ v ∈ vs, wellFormedVertex v) → vertices.child.length ≤ 2147483647 →
          push_vertices wide (some vertices) L s =
            Res.ok () (s.append (1 :: (vs.map (vertex_bytes wide)).flatten))) := by
  constructor
  · intro hL
    rw [hL]
    exact push_vertices_plain wide vertices s hne
  · intro hL vs hstream hw hsize
    exact push_vertices_weighted wide vertices L vs s hne hL hstream hw hsize

/-- The example of C16: with 4 uvs (expected length 4) and the ten values of two
one-bone vertices the weighted form is written, 29 bytes in all. -/
theorem push_vertices_bytes_witness :
    sampleVertices.child ≠ [] ∧ (4 : Int) ≠ sampleVertices.size ∧
      sampleVertices.child.map Json.valueFloat = (sampleWeighted.map vertex_stream).flatten ∧
      (∀ v ∈ sampleWeighted, wellFormedVertex v) ∧
      push_vertices wideZero (some sampleVertices) 4 ⟨[], [], []⟩ =
        Res.ok () ⟨[1, 1, 0, 0x3F, 0x80, 0, 0, 0x40, 0, 0, 0, 0x3F, 0x80, 0, 0,
          1, 1, 0x40, 0, 0, 0, 0x3F, 0x80, 0, 0, 0x3F, 0x80, 0, 0], [], []⟩ :=
  ⟨fun h => absurd (congrArg List.length h) (by decide), by decide, rfl, by decide,
    (push_vertices_bytes wideZero sampleVertices 4 ⟨[], [], []⟩
      (fun h => absurd (congrArg List.length h) (by decide))).2 (by decide)
      sampleWeighted rfl (by decide) (by decide)⟩

/-! ## The write position -/

theorem extends_nil (b : Buffer) : b.Extends b [] :=
  ⟨rfl, fun _ _ => rfl, fun _ h => absurd h (Nat.not_lt_zero _)⟩

theorem extends_trans {b b1 b2 : Buffer} {bs cs : List Nat} (h1 : b.Extends b1 bs)
    (h2 : b1.Extends b2 cs) : b.Extends b2 (bs ++ cs) := by
  refine ⟨?_, fun i hi => ?_, fun k hk => ?_⟩
  · rw [h2.pos, h1.pos, List.length_append, Nat.add_assoc]
  · rw [h2.below i (by rw [h1.pos]; omega), h1.below i hi]
  · by_cases hlt : k < bs.length
    · rw [h2.below _ (by rw [h1.pos]; omega), h1.stored k hlt]
      simp [List.getD_eq_getElem?_getD, List.getElem?_append_left hlt]
    · have hk2 : k - bs.length < cs.length := by
        rw [List.length_append] at hk
        omega
      have hidx : b.pos + k = b1.pos + (k - bs.length) := by
        rw [h1.pos]
        omega
      rw [hidx, h2.stored _ hk2]
      simp [List.getD_eq_getElem?_getD, List.getElem?_append_right (Nat.le_of_not_lt hlt)]

theorem extends_put (b : Buffer) (c : Nat) (h : b.pos + 1 < 4294967296) :
    b.Extends (b.put c) [c] := by
  refine ⟨?_, fun i hi => ?_, fun k hk => ?_⟩
  · show (b.pos + 1) % 4294967296 = b.pos + 1
    exact Nat.mod_eq_of_lt h
  · show (if i = b.pos then c else b.data i) = b.data i
    rw [if_neg (by omega)]
  · have hk0 : k = 0 := by
      simp only [List.length_cons, List.length_nil] at hk
      omega
    subst hk0
    show (if b.pos + 0 = b.pos then c else b.data (b.pos + 0)) = c
    rw [if_pos (Nat.add_zero _)]

theorem extends_put_marked (b : Buffer) (c : Nat) (h : b.pos + 1 < 4294967296) :
    b.Extends
      ((b.put c).store (((b.put c).pos + 4294967295) % 4294967296)
        ((b.put c).data (((b.put c).pos + 4294967295) % 4294967296) ||| 0x80))
      [c ||| 0x80] := by
  have hpos : (b.put c).pos = b.pos + 1 := Nat.mod_eq_of_lt h
  have hlast : ((b.put c).pos + 4294967295) % 4294967296 = b.pos := by
    rw [hpos]
    omega
  rw [hlast]
  have hat : (b.put c).data b.pos = c := by
    show (if b.pos = b.pos then c else b.data b.pos) = c
    rw [if_pos rfl]
  rw [hat]
  refine ⟨hpos, fun i hi => ?_, fun k hk => ?_⟩
  · show (if i = b.pos then c ||| 0x80 else (b.put c).data i) = b.data i
    rw [if_neg (by omega)]
    show (if i = b.pos then c else b.data i) = b.data i
    rw [if_neg (by omega)]
  · have hk0 : k = 0 := by
      simp only [List.length_cons, List.length_nil] at hk
      omega
    subst hk0
    show (if b.pos + 0 = b.pos then c ||| 0x80 else (b.put c).data (b.pos + 0)) = c ||| 0x80
    rw [if_pos (Nat.add_zero _)]

theorem extends_copy (b : Buffer) (bytes : List Nat)
    (h : b.pos + bytes.length < 4294967296) : b.Extends (b.copy bytes) bytes := by
  refine ⟨Nat.mod_eq_of_lt h, fun i hi => ?_, fun k hk => ?_⟩
  · show (if b.pos ≤ i ∧ i < b.pos + bytes.length then bytes.getD (i - b.pos) 0
      else b.data i) = b.data i
    rw [if_neg (by omega)]
  · show (if b.pos ≤ b.pos + k ∧ b.pos + k < b.pos + bytes.length then
      bytes.getD (b.pos + k - b.pos) 0 else b.data (b.pos + k)) = bytes.getD k 0
    rw [if_pos (by omega), Nat.add_sub_cancel_left]

theorem extends_varint_loop (wide : WideShift) (v fuel i : Nat) (b : Buffer)
    (h : b.pos + fuel < 4294967296) :
    b.Extends (Raw.varint_loop wide v fuel i b) (varint_loop wide v fuel i) := by
  induction fuel generalizing i b with
  | zero => exact extends_nil b
  | succ n ih =>
    unfold Raw.varint_loop varint_loop
    dsimp only
    split
    · have h1 := extends_put_marked b (shr32 wide v (i * 7) &&& 0x7F) (by omega)
      have h2 := ih (i + 1) _ (by rw [h1.pos]; simp only [List.length_cons, List.length_nil]; omega)
      exact extends_trans h1 h2
    · exact extends_put b _ (by omega)

theorem extends_holds {b b1 : Buffer} {bs : List Nat} {s : State} (h : b.Extends b1 bs)
    (hs : b.Holds s) : b1.Holds (s.append bs) := by
  obtain ⟨hp, hd⟩ := hs
  refine ⟨?_, fun i hi => ?_⟩
  · rw [h.pos, hp]
    simp [State.append]
  · show b1.data i = (s.buff_data ++ bs).getD i 0
    by_cases hlt : i < s.buff_data.length
    · rw [h.below i (by omega), hd i hlt]
      simp [List.getD_eq_getElem?_getD, List.getElem?_append_left hlt]
    · have hi2 : i < s.buff_data.length + bs.length := by
        simpa [State.append] using hi
      have hidx : i = b.pos + (i - s.buff_data.length) := by omega
      rw [hidx, h.stored _ (by omega), hp]
      simp [List.getD_eq_getElem?_getD, List.getElem?_append_right]

theorem refines_of_extends {raw : Buffer → Buffer} {m : M Unit} {bs : List Nat} {n : Nat}
    (hm : ∀ s, m s = Res.ok () (s.append bs)) (hn : bs.length ≤ n)
    (hraw : ∀ b : Buffer, b.pos + n < 4294967296 → b.Extends (raw b) bs) :
    Refines (fun b => some (raw b)) m n := by
  intro b s hb hs
  have h := hraw b hb
  exact Or.inr ⟨raw b, s.append bs, rfl, hm s, extends_holds h hs, by rw [h.pos]; omega,
    by rw [h.pos]; omega, h.below⟩

theorem refines_push_byte (c : Int) :
    Refines (fun b => some (Raw.push_byte c b)) (push_byte c) 1 :=
  refines_of_extends (push_byte_run c) (Nat.le_refl _) (fun b hb => extends_put b _ hb)

theorem refines_push_boolen (v : Int) :
    Refines (fun b => some (Raw.push_boolen v b)) (push_boolen v) 1 :=
  refines_of_extends (push_boolen_run v) (Nat.le_refl _) (fun b hb => extends_put b _ hb)

theorem extends_push_float (v : Nat) (b : Buffer) (hb : b.pos + 4 < 4294967296) :
    b.Extends (Raw.push_float v b) (float_bytes v) := by
  have h1 := extends_put b (toU8 (((v >>> 24) &&& 255 : Nat) : Int)) (by omega)
  have h2 := extends_put (b.put (toU8 (((v >>> 24) &&& 255 : Nat) : Int)))
    (toU8 (((v >>> 16) &&& 255 : Nat) : Int)) (by rw [h1.pos]; simp; omega)
  have h12 := extends_trans h1 h2
  have h3 := extends_put _ (toU8 (((v >>> 8) &&& 255 : Nat) : Int))
    (by rw [h12.pos]; simp; omega)
  have h123 := extends_trans h12 h3
  have h4 := extends_put _ (toU8 ((v &&& 255 : Nat) : Int)) (by rw [h123.pos]; simp; omega)
  exact extends_trans h123 h4

theorem refines_push_float (v : Nat) :
    Refines (fun b => some (Raw.push_float v b)) (push_float v) 4 :=
  refines_of_extends (push_float_run v) (by simp [float_bytes]) (extends_push_float v)

theorem refines_push_varint (wide : WideShift) (value : Int) (optimizePositive : Bool) :
    Refines (fun b => some (Raw.push_varint wide value optimizePositive b))
      (push_varint wide value optimizePositive) 5 :=
  refines_of_extends (fun _ => rfl) (varint_loop_length wide _).2
    (fun b hb => extends_varint_loop wide _ 5 0 b hb)

theorem refines_push_string (wide : WideShift) (str : Option String) :
    Refines (fun b => some (Raw.push_string wide str b)) (push_string wide str)
      (5 + (strBytes (str.getD "")).length) := by
  cases str with
  | none =>
    have hraw : ∀ b : Buffer, b.pos + (5 + (strBytes "").length) < 4294967296 →
        b.Extends (Raw.push_string wide none b) (varint_loop wide (toU32 0) 5 0) :=
      fun b hb => extends_varint_loop wide (toU32 0) 5 0 b (by omega)
    have hn : (varint_loop wide (toU32 0) 5 0).length ≤ 5 + (strBytes "").length :=
      Nat.le_trans (varint_loop_length wide (toU32 0)).2 (Nat.le_add_right _ _)
    exact refines_of_extends (fun _ => rfl) hn hraw
  | some str =>
    have hlen := (varint_loop_length wide (toU32 ((str.length : Int) + 1))).2
    have hraw : ∀ b : Buffer, b.pos + (5 + (strBytes str).length) < 4294967296 →
        b.Extends (Raw.push_string wide (some str) b) (string_bytes wide str) := by
      intro b hb
      have h1 := extends_varint_loop wide (toU32 ((str.length : Int) + 1)) 5 0 b (by omega)
      exact extends_trans h1 (extends_copy _ _ (by rw [h1.pos]; omega))
    have hn : (string_bytes wide str).length ≤ 5 + (strBytes str).length := by
      simp only [string_bytes, List.length_append]
      omega
    exact refines_of_extends (push_string_run wide str) hn hraw

theorem extends_four (b : Buffer) (c0 c1 c2 c3 : Int) (hb : b.pos + 4 < 4294967296) :
    b.Extends (Raw.push_byte c3 (Raw.push_byte c2 (Raw.push_byte c1 (Raw.push_byte c0 b))))
      [toU8 c0, toU8 c1, toU8 c2, toU8 c3] := by
  have h1 := extends_put b (toU8 c0) (by omega)
  have h2 := extends_put (b.put (toU8 c0)) (toU8 c1) (by rw [h1.pos]; simp; omega)
  have h12 := extends_trans h1 h2
  have h3 := extends_put _ (toU8 c2) (by rw [h12.pos]; simp; omega)
  have h123 := extends_trans h12 h3
  have h4 := extends_put _ (toU8 c3) (by rw [h123.pos]; simp; omega)
  exact extends_trans h123 h4

theorem color_byte_value (color : String) (i : Nat) (s : State) :
    color_byte color i s =
      match Raw.color_value color i with
      | some v => Res.ok v s
      | none => Res.crash := by
  unfold color_byte Raw.color_value
  cases charAt color i <;> cases charAt color (i + 1) <;> rfl

theorem refines_push_color (color : Option String) :
    Refines (Raw.push_color color) (push_color color) 4 := by
  intro b s hb hs
  cases color with
  | none =>
    exact refines_of_extends push_color_none (Nat.le_refl _)
      (fun b hb => extends_four b 255 255 255 255 hb) b s hb hs
  | some c =>
    have k0 := color_byte_value c 0
    have k2 := color_byte_value c 2
    have k4 := color_byte_value c 4
    have k6 := color_byte_value c 6
    cases h0 : Raw.color_value c 0 with
    | none =>
      rw [h0] at k0
      exact Or.inl ⟨by simp [Raw.push_color, h0], by simp [push_color, bind_run, k0]⟩
    | some v0 =>
      rw [h0] at k0
      cases h2 : Raw.color_value c 2 with
      | none =>
        rw [h2] at k2
        exact Or.inl ⟨by simp [Raw.push_color, h0, h2],
          by simp [push_color, bind_run, k0, k2, push_byte_run]⟩
      | some v2 =>
        rw [h2] at k2
        cases h4 : Raw.color_value c 4 with
        | none =>
          rw [h4] at k4
          exact Or.inl ⟨by simp [Raw.push_color, h0, h2, h4],
            by simp [push_color, bind_run, k0, k2, k4, push_byte_run]⟩
        | some v4 =>
          rw [h4] at k4
          cases h6 : Raw.color_value c 6 with
          | none =>
            rw [h6] at k6
            exact Or.inl ⟨by simp [Raw.push_color, h0, h2, h4, h6],
              by simp [push_color, bind_run, k0, k2, k4, k6, push_byte_run]⟩
          | some v6 =>
            rw [h6] at k6
            have hm : push_color (some c) s =
                Res.ok () (s.append [toU8 v0, toU8 v2, toU8 v4, toU8 v6]) := by
              simp only [push_color, bind_run, k0, k2, k4, k6, push_byte_run, append_append]
              rfl
            have hraw : Raw.push_color (some c) b = some (Raw.push_byte v6
                (Raw.push_byte v4 (Raw.push_byte v2 (Raw.push_byte v0 b)))) := by
              simp [Raw.push_color, h0, h2, h4, h6]
            have h := extends_four b v0 v2 v4 v6 hb
            exact Or.inr ⟨_, _, hraw, hm, extends_holds h hs, by rw [h.pos]; omega,
              by rw [h.pos]; simp, h.below⟩

theorem convert_root_success (wide : WideShift) (r : Json) (s0 s1 : State) (c : Int)
    (h0 : s0.buff_data = []) (h : convert_root wide r s0 = Res.ret c s1) (hc : 0 ≤ c) :
    c = toI32 s1.buff_pos ∧ s1.buff_data = written (convert_body wide r) s1.all_atlas := by
  rcases convert_root_codes wide r s0 s1 c h with h1 | ⟨h1, h2⟩
  · exact absurd (stageCode_neg c h1) (by omega)
  · obtain ⟨e1, e2⟩ := sound_ok (sound_convert_body wide r) h1
    rw [h0, List.nil_append, ← e2] at e1
    exact ⟨h2, e1⟩

theorem convert_success (wide : WideShift) (json : String) (len : Nat) (root : Option Json)
    (atlas : Option String) (s s1 : State) (c : Int)
    (h : convert_json_to_binary wide json len root atlas s = Res.ret c s1) (hc : 0 ≤ c) :
    c = toI32 s1.buff_pos ∧
      ∃ r, root = some r ∧ s1.buff_data = written (convert_body wide r) s1.all_atlas := by
  have neg : ∀ k : Int,
      (Res.ret k ⟨[], s.all_atlas, []⟩ : Res Int) = Res.ret c s1 → k = c :=
    fun k hk => (Res.ret.inj hk).1
  rw [convert_run] at h
  split at h
  · have := neg _ h
    omega
  · split at h
    · cases h
    · split at h
      · have := neg _ h
        omega
      · split at h
        · cases h
        · split at h
          · have := neg _ h
            omega
          · split at h
            · have := neg _ h
              omega
            · split at h
              · obtain ⟨e1, e2⟩ := convert_root_success wide _ _ s1 c rfl h hc
                exact ⟨e1, _, rfl, e2⟩
              · rcases bind_ret_inv h with h1 | ⟨_, s2, h1, h2⟩
                · unfold parse_atlas at h1
                  split at h1 <;> cases h1
                · have hs2 : s2.buff_data = [] := by
                    unfold parse_atlas at h1
                    split at h1
                    · simp only [Res.ok.injEq, true_and] at h1
                      rw [← h1]
                    · cases h1
                  obtain ⟨e1, e2⟩ := convert_root_success wide _ s2 s1 c hs2 h2 hc
                  exact ⟨e1, _, rfl, e2⟩

/-- C20: a call of the driver that returns a value that is not negative returns
the final write position (as `int`); the output is then what the stages write
from the position 0 that the entry sets, and for an output of less than 2^32
bytes the value is the number of its bytes.  Each primitive writer, on the
memory of the buffer and for a write position that stays below 2^32, does what
its statement does on the output: it leaves every byte below the position it
started from unchanged, does not decrease the position, and stores from that
position on the bytes that the statement appends. -/
theorem write_position (wide : WideShift) (json : String) (len : Nat) (root : Option Json)
    (atlas : Option String) (s : State) :
    (∀ c s1, convert_json_to_binary wide json len root atlas s = Res.ret c s1 → 0 ≤ c →
      c = toI32 s1.buff_pos ∧
        (∃ r, root = some r ∧ s1.buff_data = written (convert_body wide r) s1.all_atlas) ∧
        (s1.buff_pos < 4294967296 → c = (s1.buff_data.length : Int))) ∧
      (∀ c, Refines (fun b => some (Raw.push_byte c b)) (push_byte c) 1) ∧
      (∀ v, Refines (fun b => some (Raw.push_float v b)) (push_float v) 4) ∧
      (∀ value optimizePositive,
        Refines (fun b => some (Raw.push_varint wide value optimizePositive b))
          (push_varint wide value optimizePositive) 5) ∧
      (∀ v, Refines (fun b => some (Raw.push_boolen v b)) (push_boolen v) 1) ∧
      (∀ str, Refines (fun b => some (Raw.push_string wide str b)) (push_string wide str)
        (5 + (strBytes (str.getD "")).length)) ∧
      (∀ color, Refines (Raw.push_color color) (push_color color) 4) := by
  refine ⟨fun c s1 h hc => ?_, refines_push_byte, refines_push_float,
    refines_push_varint wide, refines_push_boolen, refines_push_string wide,
    refines_push_color⟩
  obtain ⟨e1, e2⟩ := convert_success wide json len root atlas s s1 c h hc
  refine ⟨e1, e2, fun hlt => ?_⟩
  rw [e1]
  unfold toI32
  rw [e1] at hc
  unfold toI32 at hc
  have hmod : s1.buff_pos % 4294967296 = s1.buff_pos := Nat.mod_eq_of_lt hlt
  rw [hmod] at hc ⊢
  split_ifs at hc ⊢
  · rfl
  · have : (s1.buff_pos : Int) < 4294967296 := by exact_mod_cast hlt
    omega

/-- The example of C20: the conversion of `sampleText` returns 75, the number of
the bytes of its output, whatever the output held before the call; and
`push_string` of `abc` on `sampleBuffer` keeps the two bytes below the position
2, stores the four bytes of the string from the position 2 on, and moves the
position to 6. -/
theorem write_position_witness :
    (∃ s1, convert_json_to_binary wideZero sampleText sampleText.length
        (some sampleSkeleton) none ⟨[9, 9], [], []⟩ = Res.ret 75 s1 ∧ (0 : Int) ≤ 75 ∧
      s1.buff_pos < 4294967296 ∧ (75 : Int) = (s1.buff_data.length : Int)) ∧
      sampleBuffer.pos + (5 + (strBytes ((some "abc").getD "")).length) < 4294967296 ∧
      sampleBuffer.Holds ⟨[254, 0], [], []⟩ ∧
      (Raw.push_string wideZero (some "abc") sampleBuffer).pos = 6 ∧
      (List.range 8).map (Raw.push_string wideZero (some "abc") sampleBuffer).data =
        [254, 0, 4, 97, 98, 99, 0, 0] ∧
      ((some (Raw.push_string wideZero (some "abc") sampleBuffer) = none ∧
          push_string wideZero (some "abc") ⟨[254, 0], [], []⟩ = Res.crash) ∨
        ∃ b1 s1, some (Raw.push_string wideZero (some "abc") sampleBuffer) = some b1 ∧
          push_string wideZero (some "abc") ⟨[254, 0], [], []⟩ = Res.ok () s1 ∧
          b1.Holds s1 ∧ sampleBuffer.pos ≤ b1.pos ∧
          b1.pos ≤ sampleBuffer.pos + (5 + (strBytes ((some "abc").getD "")).length) ∧
          ∀ i, i < sampleBuffer.pos → b1.data i = sampleBuffer.data i) :=
  ⟨⟨_, rfl, by decide, by decide,
      ((write_position wideZero sampleText sampleText.length (some sampleSkeleton) none
        ⟨[9, 9], [], []⟩).1 75 _ rfl (by decide)).2.2 (by decide)⟩,
    by decide, ⟨rfl, by decide⟩, rfl, rfl,
    (write_position wideZero sampleText sampleText.length (some sampleSkeleton) none
      ⟨[9, 9], [], []⟩).2.2.2.2.2.1 (some "abc") sampleBuffer ⟨[254, 0], [], []⟩ (by decide)
      ⟨rfl, by decide⟩⟩

/-! ## The length of a varint -/

theorem varint_loop_minimal (wide : WideShift) (v : Nat) (hv : v < 2147483648) :
    v < 2 ^ (7 * (varint_loop wide v 5 0).length) ∧
      ∀ j, 1 ≤ j → v < 2 ^ (7 * j) → (varint_loop wide v 5 0).length ≤ j := by
  have mono : ∀ j k : Nat, j ≤ k → 2 ^ (7 * j) ≤ 2 ^ (7 * k) :=
    fun j k h => Nat.pow_le_pow_right (by decide) (Nat.mul_le_mul_left 7 h)
  have low : ∀ (k j : Nat), 2 ^ (7 * k) ≤ v → v < 2 ^ (7 * j) → k + 1 ≤ j := by
    intro k j h1 h2
    by_contra hc
    have := mono j k (by omega)
    omega
  rw [varint_loop_unfold]
  split_ifs with h1 h2 h3 h4 h5
  · refine ⟨?_, fun j hj _ => hj⟩
    simp only [List.length_cons, List.length_nil]
    norm_num
    omega
  · refine ⟨?_, fun j _ h => low 1 j ?_ h⟩
    · simp only [List.length_cons, List.length_nil]
      norm_num
      omega
    · norm_num
      omega
  · refine ⟨?_, fun j _ h => low 2 j ?_ h⟩
    · simp only [List.length_cons, List.length_nil]
      norm_num
      omega
    · norm_num
      omega
  · refine ⟨?_, fun j _ h => low 3 j ?_ h⟩
    · simp only [List.length_cons, List.length_nil]
      norm_num
      omega
    · norm_num
      omega
  · refine ⟨?_, fun j _ h => low 4 j ?_ h⟩
    · simp only [List.length_cons, List.length_nil]
      norm_num
      omega
    · norm_num
      omega
  · refine ⟨?_, fun j _ h => low 4 j ?_ h⟩
    · simp only [List.length_cons, List.length_nil]
      norm_num
      omega
    · norm_num
      omega

/-- C23: for `0 <= v < 2^31`, `push_varint(v, 1)` stores exactly `k` bytes, where
`k` is the smallest positive integer with `v < 2^(7k)`; 127 is stored as the
byte 0x7F, 128 as the bytes 0x80 0x01, and `push_varint(-1, 0)` stores the byte
0x01. -/
theorem push_varint_shortest (wide : WideShift) (s : State) :
    (∀ v : Int, 0 ≤ v → v < 2147483648 →
      ∃ bs, push_varint wide v true s = Res.ok () (s.append bs) ∧ 1 ≤ bs.length ∧
        v < 2 ^ (7 * bs.length) ∧ ∀ j : Nat, 1 ≤ j → v < 2 ^ (7 * j) → bs.length ≤ j) ∧
      push_varint wide 127 true s = Res.ok () (s.append [0x7F]) ∧
      push_varint wide 128 true s = Res.ok () (s.append [0x80, 0x01]) ∧
      push_varint wide (-1) false s = Res.ok () (s.append [0x01]) := by
  refine ⟨fun v h0 h1 => ?_, ?_, ?_, ?_⟩
  · obtain ⟨n, rfl⟩ := Int.eq_ofNat_of_zero_le h0
    have hn : n < 2147483648 := by exact_mod_cast h1
    have hu : toU32 (n : Int) = n := toU32_of_nat n (by omega)
    obtain ⟨m1, m2⟩ := varint_loop_minimal wide n hn
    refine ⟨_, push_varint_true wide _ s, ?_, ?_, fun j hj hlt => ?_⟩
    · rw [hu]
      exact (varint_loop_length wide n).1
    · rw [hu]
      exact_mod_cast m1
    · rw [hu]
      exact m2 j hj (by exact_mod_cast hlt)
  · rw [push_varint_true, varint_loop_unfold]
    rfl
  · rw [push_varint_true, varint_loop_unfold]
    rfl
  · rw [push_varint_false, varint_loop_unfold]
    rfl

/-- The examples of C23: 300 takes two bytes, the least `k` with `300 < 2^(7k)`,
and 2^28 takes five bytes whatever the shift by 35 yields. -/
theorem push_varint_shortest_witness :
    (0 : Int) ≤ 300 ∧ (300 : Int) < 2147483648 ∧
      push_varint wideMasked 300 true ⟨[], [], []⟩ = Res.ok () ⟨[0xAC, 0x02], [], []⟩ ∧
      (∃ bs, push_varint wideMasked 300 true ⟨[], [], []⟩ =
          Res.ok () ((⟨[], [], []⟩ : State).append bs) ∧ 1 ≤ bs.length ∧
        (300 : Int) < 2 ^ (7 * bs.length) ∧
        ∀ j : Nat, 1 ≤ j → (300 : Int) < 2 ^ (7 * j) → bs.length ≤ j) ∧
      (push_varint wideMasked 268435456 true ⟨[], [], []⟩ =
          Res.ok () ⟨[128, 128, 128, 128, 129], [], []⟩ ∧
        push_varint wideZero 268435456 true ⟨[], [], []⟩ =
          Res.ok () ⟨[128, 128, 128, 128, 1], [], []⟩) :=
  ⟨by decide, by decide, rfl,
    (push_varint_shortest wideMasked ⟨[], [], []⟩).1 300 (by decide) (by decide), rfl, rfl⟩

/-! ## Empty vertices -/

theorem push_vertices_empty (wide : WideShift) (vertices : Json) (L : Int) (s : State)
    (he : vertices.child = []) : push_vertices wide (some vertices) L s = Res.ok () s := by
  have hsz : vertices.size ≤ 0 := by
    unfold Json.size
    rw [he]
    exact Int.le_refl _
  unfold push_vertices
  rw [bind_ok (rfl : defined (some vertices) s = Res.ok vertices s)]
  simp only [if_pos hsz]
  rfl

theorem forEach_child_floats (items : List Json) (s : State) :
    forEach items (fun item => push_float item.valueFloat) s =
      Res.ok () (s.append (items.map fun item => float_bytes item.valueFloat).flatten) := by
  induction items generalizing s with
  | nil => simp [forEach, pure_run, State.append]
  | cons v rest ih =>
    unfold forEach
    rw [bind_ok (push_float_run _ s), ih, append_append]
    simp

theorem forEach_triangles (items : List Json) (s : State) :
    forEach items (fun triangle => do
        let v := toU16 triangle.valueInt
        push_byte ((v >>> 8 : Nat) : Int)
        push_byte ((v &&& 0xff : Nat) : Int)) s =
      Res.ok () (s.append (items.map fun triangle =>
        [toU8 ((toU16 triangle.valueInt >>> 8 : Nat) : Int),
          toU8 ((toU16 triangle.valueInt &&& 0xff : Nat) : Int)]).flatten) := by
  induction items generalizing s with
  | nil => simp [forEach, pure_run, State.append]
  | cons v rest ih =>
    have h2 : (do
        push_byte ((toU16 v.valueInt >>> 8 : Nat) : Int)
        push_byte ((toU16 v.valueInt &&& 0xff : Nat) : Int) : M Unit) s =
        Res.ok () (s.append [toU8 ((toU16 v.valueInt >>> 8 : Nat) : Int),
          toU8 ((toU16 v.valueInt &&& 0xff : Nat) : Int)]) := by
      rw [bind_ok (push_byte_run _ s), push_byte_run, append_append]
      rfl
    unfold forEach
    dsimp only
    rw [bind_ok h2, ih, append_append]
    simp

theorem box_empty_vertices (wide : WideShift) (slots : List String) (attachment vertices : Json)
    (path : Option String) (s : State)
    (hv : Json_getItem attachment "vertices" = some vertices) (he : vertices.child = []) :
    push_payload wide slots attachment path 1 s =
      Res.ok () (s.append
        (varint_loop wide (toU32 (shl1 (Json_getInt attachment "vertexCount" 0))) 5 0)) := by
  unfold push_payload
  rw [if_neg (by decide), if_pos rfl]
  dsimp only
  rw [bind_ok (push_varint_true wide _ s), hv, push_vertices_empty wide vertices _ _ he]

theorem path_empty_vertices (wide : WideShift) (slots : List String)
    (attachment vertices lengths : Json) (path : Option String) (s : State)
    (hv : Json_getItem attachment "vertices" = some vertices) (he : vertices.child = [])
    (hl : Json_getItem attachment "lengths" = some lengths) :
    push_payload wide slots attachment path 4 s =
      Res.ok () (s.append
        ([toU8 (Json_getInt attachment "closed" 0),
            toU8 (Json_getInt attachment "constantSpeed" 0)] ++
          varint_loop wide (toU32 (Json_getInt attachment "vertexCount" 0)) 5 0 ++
          child_floats lengths)) := by
  unfold push_payload
  rw [if_neg (by decide), if_neg (by decide), if_neg (by decide), if_neg (by decide),
    if_pos rfl]
  dsimp only
  rw [bind_ok (push_boolen_run _ s), bind_ok (push_boolen_run _ _),
    bind_ok (push_varint_true wide _ _), hv,
    bind_ok (push_vertices_empty wide vertices _ _ he), hl,
    bind_ok (rfl : defined (some lengths) _ = Res.ok lengths _), forEach_child_floats]
  simp only [append_append, child_floats, List.append_assoc, List.cons_append,
    List.nil_append]

theorem clip_empty_vertices (wide : WideShift) (slots : List String)
    (attachment vertices : Json) (path : Option String) (s : State)
    (hv : Json_getItem attachment "vertices" = some vertices) (he : vertices.child = []) :
    push_payload wide slots attachment path 6 s =
      Res.ok () (s.append
        (varint_loop wide (toU32 (clip_end slots attachment)) 5 0 ++
          varint_loop wide (toU32 (Json_getInt attachment "vertexCount" 0)) 5 0)) := by
  have tail : ∀ (e : Int) (t : State),
      (do
        push_varint wide e true
        push_varint wide (Json_getInt attachment "vertexCount" 0) true
        push_vertices wide (Json_getItem attachment "vertices")
          (shl1 (Json_getInt attachment "vertexCount" 0)) : M Unit) t =
      Res.ok () (t.append (varint_loop wide (toU32 e) 5 0 ++
        varint_loop wide (toU32 (Json_getInt attachment "vertexCount" 0)) 5 0)) := by
    intro e t
    rw [bind_ok (push_varint_true wide _ t), bind_ok (push_varint_true wide _ _), hv,
      push_vertices_empty wide vertices _ _ he, append_append]
  unfold push_payload
  rw [if_neg (by decide), if_neg (by decide), if_neg (by decide), if_neg (by decide),
    if_neg (by decide), if_neg (by decide), if_pos rfl]
  dsimp only
  unfold clip_end
  cases Json_getString attachment "end" none with
  | none => exact tail 0 s
  | some e =>
    dsimp only
    by_cases hf : find_string slots e ≠ -1
    · rw [if_pos hf, if_pos hf]
      exact tail _ s
    · rw [if_neg hf, if_neg hf]
      exact tail 0 s

theorem mesh_empty_vertices (wide : WideShift) (slots : List String)
    (attachment vertices uvs triangles : Json) (path : Option String) (cb : List Nat)
    (s : State)
    (hv : Json_getItem attachment "vertices" = some vertices) (he : vertices.child = [])
    (hu : Json_getItem attachment "uvs" = some uvs)
    (ht : Json_getItem attachment "triangles" = some triangles)
    (hc : ∀ t : State, push_color (Json_getString attachment "color" none) t =
      Res.ok () (t.append cb)) :
    push_payload wide slots attachment path 2 s =
      Res.ok () (s.append
        (opt_string_bytes wide path ++ cb ++ varint_loop wide (toU32 (uvs.size / 2)) 5 0 ++
          child_floats uvs ++ varint_loop wide (toU32 triangles.size) 5 0 ++
          triangle_bytes triangles ++
          varint_loop wide (toU32 (Json_getInt attachment "hull" 0 / 2)) 5 0)) := by
  unfold push_payload
  rw [if_neg (by decide), if_neg (by decide), if_pos rfl]
  dsimp only
  rw [bind_ok (push_string_or_zero_run wide path s), bind_ok (hc _), hu,
    bind_ok (rfl : defined (some uvs) _ = Res.ok uvs _),
    bind_ok (push_varint_true wide _ _), bind_ok (forEach_child_floats _ _), ht,
    bind_ok (rfl : defined (some triangles) _ = Res.ok triangles _),
    bind_ok (push_varint_true wide _ _), bind_ok (forEach_triangles _ _), hv,
    bind_ok (push_vertices_empty wide vertices _ _ he), push_varint_true]
  simp only [append_append, child_floats, triangle_bytes, List.append_assoc]

/-- C27: for a `vertices` array of size 0, `push_vertices` stores no byte,
whatever the expected length.  So an attachment whose `vertices` array is empty
is written without a vertices flag: a bounding box ends with its vertex count, a
path has its lengths right after the vertex count, a clipping attachment ends
with its vertex count, and a mesh has the hull right after its triangles. -/
theorem empty_vertices_no_flag (wide : WideShift) (slots : List String)
    (attachment vertices : Json) (path : Option String) (s : State)
    (hv : Json_getItem attachment "vertices" = some vertices) (he : vertices.child = []) :
    (∀ (L : Int) (t : State), push_vertices wide (some vertices) L t = Res.ok () t) ∧
      push_payload wide slots attachment path 1 s =
        Res.ok () (s.append
          (varint_loop wide (toU32 (shl1 (Json_getInt attachment "vertexCount" 0))) 5 0)) ∧
      (∀ lengths, Json_getItem attachment "lengths" = some lengths →
        push_payload wide slots attachment path 4 s =
          Res.ok () (s.append
            ([toU8 (Json_getInt attachment "closed" 0),
                toU8 (Json_getInt attachment "constantSpeed" 0)] ++
              varint_loop wide (toU32 (Json_getInt attachment "vertexCount" 0)) 5 0 ++
              child_floats lengths))) ∧
      push_payload wide slots attachment path 6 s =
        Res.ok () (s.append
          (varint_loop wide (toU32 (clip_end slots attachment)) 5 0 ++
            varint_loop wide (toU32 (Json_getInt attachment "vertexCount" 0)) 5 0)) ∧
      (∀ uvs triangles cb, Json_getItem attachment "uvs" = some uvs →
        Json_getItem attachment "triangles" = some triangles →
        (∀ t : State, push_color (Json_getString attachment "color" none) t =
          Res.ok () (t.append cb)) →
        push_payload wide slots attachment path 2 s =
          Res.ok () (s.append
            (opt_string_bytes wide path ++ cb ++
              varint_loop wide (toU32 (uvs.size / 2)) 5 0 ++ child_floats uvs ++
              varint_loop wide (toU32 triangles.size) 5 0 ++ triangle_bytes triangles ++
              varint_loop wide (toU32 (Json_getInt attachment "hull" 0 / 2)) 5 0))) :=
  ⟨fun L t => push_vertices_empty wide vertices L t he,
    box_empty_vertices wide slots attachment vertices path s hv he,
    fun lengths hl => path_empty_vertices wide slots attachment vertices lengths path s hv he hl,
    clip_empty_vertices wide slots attachment vertices path s hv he,
    fun uvs triangles cb hu ht hc =>
      mesh_empty_vertices wide slots attachment vertices uvs triangles path cb s hv he hu ht
        hc⟩

/-- The example of C27: the bounding box `sampleBox`, with the vertex count 3 and
an empty `vertices` array, is written as its two names, the type byte 1 and the
count 6, with no flag byte after it. -/
theorem empty_vertices_no_flag_witness :
    Json_getItem sampleBox "vertices" = some (sampleArray (some "vertices") []) ∧
      (sampleArray (some "vertices") []).child = [] ∧
      push_payload wideZero [] sampleBox none 1 ⟨[], [], []⟩ = Res.ok () ⟨[6], [], []⟩ ∧
      push_attachment wideZero [] sampleBox ⟨[], [], []⟩ =
        Res.ok () ⟨[4, 98, 111, 120, 4, 98, 111, 120, 1, 6], [], []⟩ :=
  ⟨rfl, rfl,
    (empty_vertices_no_flag wideZero [] sampleBox (sampleArray (some "vertices") []) none
      ⟨[], [], []⟩ rfl rfl).2.1, rfl⟩

/-! ## Bones without a parent in the table -/

theorem read_bones_get (l : List Json) (res : List BoneData) (h : read_bones l = some res)
    (i : Nat) (bone : Json) (hi : l.get? i = some bone) :
    ∃ b0, res.get? i = some b0 ∧ read_bone bone = some b0 := by
  induction l generalizing res i with
  | nil => simp at hi
  | cons x rest ih =>
    unfold read_bones at h
    cases hx : read_bone x with
    | none => simp [hx] at h
    | some bd =>
      cases hr : read_bones rest with
      | none => simp [hx, hr] at h
      | some tl =>
        simp only [hx, hr, Option.bind_eq_bind, Option.some_bind, Option.pure_def,
          Option.some.injEq] at h
        subst h
        cases i with
        | zero =>
          simp only [List.get?_cons_zero, Option.some.injEq] at hi
          subst hi
          exact ⟨bd, rfl, hx⟩
        | succ n =>
          simp only [List.get?_cons_succ] at hi
          exact ih tl hr n hi

theorem read_bone_parent_name (bone : Json) (b0 : BoneData) (h : read_bone bone = some b0) :
    Json_getString bone "parent" (some "") = some b0.parent_name := by
  unfold read_bone at h
  cases h1 : Json_getString bone "name" (some "") with
  | none => simp [h1] at h
  | some name =>
    cases h2 : Json_getString bone "parent" (some "") with
    | none => simp [h1, h2] at h
    | some parent_name =>
      cases h3 : Json_getString bone "transform" (some "normal") with
      | none => simp [h1, h2, h3] at h
      | some transform =>
        simp only [h1, h2, h3, Option.bind_eq_bind, Option.some_bind, Option.pure_def,
          Option.some.injEq] at h
        rw [← h]

theorem resolve_parents_get (res : List BoneData) (i : Nat) (b : BoneData)
    (h : (resolve_parents res).get? i = some b) :
    ∃ b0, res.get? i = some b0 ∧ b.parent_name = b0.parent_name := by
  unfold resolve_parents at h
  rw [List.get?_eq_getElem?, List.getElem?_map] at h
  cases h0 : res[i]? with
  | none => simp [h0] at h
  | some b0 =>
    simp only [h0, Option.map_some', Option.some.injEq] at h
    refine ⟨b0, by rw [List.get?_eq_getElem?, h0], ?_⟩
    rw [← h]
    split <;> rfl

theorem push_bones_run (wide : WideShift) (l : List BoneData) (i : Nat) (s : State) :
    ∃ bs, push_bones wide l i s = Res.ok () (s.append bs) := by
  induction l generalizing i s with
  | nil => exact ⟨[], by simp [push_bones, pure_run, State.append]⟩
  | cons b rest ih =>
    obtain ⟨bs, hbs⟩ := ih (i + 1) (s.append (string_bytes wide b.name ++
      (if 0 < i then varint_loop wide (toU32 b.parent) 5 0 else []) ++
      (float_bytes b.rotation ++ float_bytes b.x ++ float_bytes b.y ++ float_bytes b.scaleX ++
        float_bytes b.scaleY ++ float_bytes b.shearX ++ float_bytes b.shearY ++
        float_bytes b.length ++ varint_loop wide (toU32 b.mode) 5 0)))
    refine ⟨(string_bytes wide b.name ++
      (if 0 < i then varint_loop wide (toU32 b.parent) 5 0 else []) ++
      (float_bytes b.rotation ++ float_bytes b.x ++ float_bytes b.y ++ float_bytes b.scaleX ++
        float_bytes b.scaleY ++ float_bytes b.shearX ++ float_bytes b.shearY ++
        float_bytes b.length ++ varint_loop wide (toU32 b.mode) 5 0)) ++ bs, ?_⟩
    unfold push_bones
    rw [bind_ok (push_bone_run wide i b s), hbs, append_append]

theorem orphan_parent (res : List BoneData) (h0 : ∀ b ∈ res, b.parent = 0) (i : Nat)
    (b : BoneData) (hb : (resolve_parents res).get? i = some b)
    (hp : b.parent_name = "" ∨ b.parent_name ∉ boneNames res) : b.parent = 0 := by
  rcases bone_parent_cases res h0 i b hb with ⟨h1, _⟩ | ⟨h1, k, _, hk, hget, _⟩
  · exact h1
  · rcases hp with hp | hp
    · rw [hp] at h1
      exact absurd h1 (by decide)
    · rw [List.get?_eq_getElem?] at hget
      exact absurd (List.getElem?_mem hget) hp

/-- C26: a bone at an index `i > 0` whose `parent` key is absent or empty, or
names no bone of the table, has the parent 0 in the table of `process_bones`,
and the driver writes the parent index 0 right after its name; the loop of the
driver over the bones completes for every table, so no error is reported. -/
theorem orphan_bone_parent_zero (wide : WideShift) (bones : Json) (vcBones : List BoneData)
    (h : process_bones bones = some vcBones) (i : Nat) (hi : 0 < i) (bone : Json)
    (hj : bones.child.get? i = some bone)
    (hp : Json_getItem bone "parent" = none ∨
      Json_getString bone "parent" (some "") = some "" ∨
      ∃ p, Json_getString bone "parent" (some "") = some p ∧ p ∉ boneNames vcBones) :
    ∃ b, vcBones.get? i = some b ∧ b.parent = 0 ∧
      (∀ s : State, push_bone wide i b s = Res.ok () (s.append (string_bytes wide b.name ++
        [0] ++
        (float_bytes b.rotation ++ float_bytes b.x ++ float_bytes b.y ++
          float_bytes b.scaleX ++ float_bytes b.scaleY ++ float_bytes b.shearX ++
          float_bytes b.shearY ++ float_bytes b.length ++
          varint_loop wide (toU32 b.mode) 5 0)))) ∧
      ∀ s : State, ∃ bs, push_bones wide vcBones 0 s = Res.ok () (s.append bs) := by
  unfold process_bones at h
  cases hr : read_bones bones.child with
  | none => rw [hr] at h; cases h
  | some res =>
    rw [hr] at h
    simp only [Option.map_some', Option.some.injEq] at h
    subst h
    obtain ⟨b0, hb0, hread⟩ := read_bones_get _ _ hr i bone hj
    have hname := read_bone_parent_name bone b0 hread
    have hget : (resolve_parents res).get? i =
        some (if b0.parent_name.length > 0 then
          { b0 with parent := scan_parent b0.parent_name b0.parent res 0 } else b0) := by
      rw [List.get?_eq_getElem?] at hb0 ⊢
      unfold resolve_parents
      rw [List.getElem?_map, hb0]
      rfl
    obtain ⟨b1, hb1, hpn⟩ := resolve_parents_get res i _ hget
    rw [hb0] at hb1
    cases hb1
    have horphan : b0.parent_name = "" ∨ b0.parent_name ∉ boneNames res := by
      rcases hp with hp | hp | ⟨p, hp1, hp2⟩
      · rw [getString_absent bone "parent" _ hp] at hname
        exact Or.inl (Option.some.inj hname).symm
      · rw [hp] at hname
        exact Or.inl (Option.some.inj hname).symm
      · rw [hp1] at hname
        rw [resolve_parents_names] at hp2
        rw [← Option.some.inj hname]
        exact Or.inr hp2
    rw [← hpn] at horphan
    have hzero := orphan_parent res (read_bones_parent _ _ hr) i _ hget horphan
    refine ⟨_, hget, hzero, fun s => ?_, fun s => push_bones_run wide _ 0 s⟩
    rw [push_bone_run, if_pos hi, hzero, varint_zero]

/-- The example of C26: in `sampleOrphans` the bones `a` (no `parent` key), `b`
(empty `parent`) and `c` (the parent `nobody`) all get the parent 0, and the
record of `c` has the byte 0 after its name. -/
theorem orphan_bone_parent_zero_witness :
    ∃ vcBones bone, process_bones sampleOrphans = some vcBones ∧ 0 < 3 ∧
      sampleOrphans.child.get? 3 = some bone ∧
      (Json_getItem bone "parent" = none ∨
        Json_getString bone "parent" (some "") = some "" ∨
        ∃ p, Json_getString bone "parent" (some "") = some p ∧ p ∉ boneNames vcBones) ∧
      vcBones.map (fun b => b.parent) = [0, 0, 0, 0] ∧
      ∃ b, vcBones.get? 3 = some b ∧ b.parent = 0 ∧
        (∀ s : State, push_bone wideZero 3 b s = Res.ok () (s.append
          (string_bytes wideZero b.name ++ [0] ++
          (float_bytes b.rotation ++ float_bytes b.x ++ float_bytes b.y ++
            float_bytes b.scaleX ++ float_bytes b.scaleY ++ float_bytes b.shearX ++
            float_bytes b.shearY ++ float_bytes b.length ++
            varint_loop wideZero (toU32 b.mode) 5 0)))) ∧
        ∀ s : State, ∃ bs, push_bones wideZero vcBones 0 s = Res.ok () (s.append bs) :=
  ⟨_, _, rfl, by decide, rfl, Or.inr (Or.inr ⟨"nobody", rfl, by decide⟩), rfl,
    orphan_bone_parent_zero wideZero sampleOrphans _ rfl 3 (by decide) _ rfl
      (Or.inr (Or.inr ⟨"nobody", rfl, by decide⟩))⟩

/-! ## Independence of the state left by earlier calls -/

theorem convert_observed (wide : WideShift) (json : String) (len : Nat) (root : Option Json)
    (atlas : Option String) (s t : State) :
    observed (convert_json_to_binary wide json len root atlas s) =
      observed (convert_json_to_binary wide json len root atlas t) := by
  rw [convert_run, convert_run]
  split
  · rfl
  · split
    · rfl
    · split
      · rfl
      · split
        · rfl
        · split
          · rfl
          · cases root <;> rfl

theorem convert_no_atlas (wide : WideShift) (json : String) (len : Nat) (root : Option Json)
    (s s1 : State) (c : Int)
    (h : convert_json_to_binary wide json len root none s = Res.ret c s1) (hc : 0 ≤ c) :
    s1.all_atlas = [] ∧
      ∃ r, root = some r ∧ convert_root wide r ⟨[], [], []⟩ = Res.ret c s1 := by
  have neg : ∀ k : Int,
      (Res.ret k ⟨[], s.all_atlas, []⟩ : Res Int) = Res.ret c s1 → k = c :=
    fun k hk => (Res.ret.inj hk).1
  rw [convert_run] at h
  split at h
  · have := neg _ h
    omega
  · split at h
    · cases h
    · split at h
      · have := neg _ h
        omega
      · split at h
        · cases h
        · split at h
          · have := neg _ h
            omega
          · split at h
            · have := neg _ h
              omega
            · rcases convert_root_codes wide _ _ s1 c h with h1 | ⟨h1, _⟩
              · exact absurd (stageCode_neg c h1) (by omega)
              · exact ⟨(sound_ok (sound_convert_body wide _) h1).2, _, rfl, h⟩

/-- C21: the value that a call of the driver returns and the bytes it leaves in
the output buffer are the same from every state of the file-scope variables, so
two calls with the same arguments agree whatever earlier calls have left behind.
In particular a call without an atlas that gets to the stages runs them from the
empty atlas set, which it still has at the end, and with the empty set the
filter of `parse_skin` keeps every attachment. -/
theorem convert_deterministic (wide : WideShift) (json : String) (len : Nat)
    (root : Option Json) (atlas : Option String) (s t : State) :
    observed (convert_json_to_binary wide json len root atlas s) =
        observed (convert_json_to_binary wide json len root atlas t) ∧
      (∀ c s1, convert_json_to_binary wide json len root none s = Res.ret c s1 → 0 ≤ c →
        s1.all_atlas = [] ∧
          ∃ r, root = some r ∧ convert_root wide r ⟨[], [], []⟩ = Res.ret c s1) ∧
      ∀ attachments, valid_loop [] attachments [] = some attachments :=
  ⟨convert_observed wide json len root atlas s t,
    fun c s1 h hc => convert_no_atlas wide json len root s s1 c h hc,
    fun attachments => by rw [valid_loop_empty]; rfl⟩

/-- The example of C21: the conversion of `sampleFiltered` with the atlas `head`
returns 163 and leaves the atlas set `head` behind; a call without an atlas from
a state with that atlas set returns 209 (the region `torso` is written too) and
ends with the empty set, as it does from the initial state. -/
theorem convert_deterministic_witness :
    (∃ s1, convert_json_to_binary wideZero sampleText sampleText.length (some sampleFiltered)
        (some "head\n") ⟨[], [], []⟩ = Res.ret 163 s1 ∧ s1.all_atlas = ["head"]) ∧
      (∃ s2, convert_json_to_binary wideZero sampleText sampleText.length
          (some sampleFiltered) none ⟨[7, 7], ["head"], []⟩ = Res.ret 209 s2 ∧
        (0 : Int) ≤ 209 ∧ s2.all_atlas = []) ∧
      observed (convert_json_to_binary wideZero sampleText sampleText.length
          (some sampleFiltered) none ⟨[7, 7], ["head"], []⟩) =
        observed (convert_json_to_binary wideZero sampleText sampleText.length
          (some sampleFiltered) none ⟨[], [], []⟩) :=
  ⟨⟨_, rfl, rfl⟩,
    ⟨_, rfl, by decide,
      ((convert_deterministic wideZero sampleText sampleText.length (some sampleFiltered) none
        ⟨[7, 7], ["head"], []⟩ ⟨[], [], []⟩).2.1 209 _ rfl (by decide)).1⟩,
    (convert_deterministic wideZero sampleText sampleText.length (some sampleFiltered) none
      ⟨[7, 7], ["head"], []⟩ ⟨[], [], []⟩).1⟩

/-! ## The minimal skeleton -/

theorem varint_small (wide : WideShift) (n : Nat) (h : n < 128) :
    varint_loop wide n 5 0 = [n] := by
  rw [varint_loop_unfold, if_pos (by omega)]
  congr 1
  omega

theorem push_varint_small (wide : WideShift) (v : Int) (n : Nat) (hv : v = (n : Int))
    (h : n < 128) (s : State) : push_varint wide v true s = Res.ok () (s.append [n]) := by
  rw [push_varint_true, hv, toU32_of_nat n (by omega), varint_small wide n h]

theorem string_bytes_root (wide : WideShift) :
    string_bytes wide "root" = [5, 114, 111, 111, 116] := by
  show varint_loop wide 5 5 0 ++ _ = _
  rw [varint_small wide 5 (by decide)]
  rfl

theorem string_bytes_s (wide : WideShift) : string_bytes wide "s" = [2, 115] := by
  show varint_loop wide 2 5 0 ++ _ = _
  rw [varint_small wide 2 (by decide)]
  rfl

theorem minimal_bones (wide : WideShift) (s : State) :
    push_bones wide [rootBone] 0 s =
      Res.ok () (s.append ([5, 114, 111, 111, 116] ++
        [0, 0, 0, 0, 0, 0, 0, 0, 0, 0, 0, 0, 0x3F, 0x80, 0, 0, 0x3F, 0x80, 0, 0,
          0, 0, 0, 0, 0, 0, 0, 0, 0, 0, 0, 0] ++ [0])) := by
  unfold push_bones
  rw [bind_ok (push_bone_run wide 0 _ s)]
  unfold push_bones
  rw [pure_run]
  show Res.ok () (s.append (string_bytes wide "root" ++ (if 0 < 0 then _ else []) ++
    (_ ++ varint_loop wide (toU32 0) 5 0))) = _
  rw [string_bytes_root, if_neg (by decide), varint_zero]
  rfl

theorem minimal_slot (wide : WideShift) (s : State) :
    push_slot wide [rootBone] [] sampleSlot s =
      Res.ok ["s"] (s.extend
        ([2, 115] ++ [0] ++ [255, 255, 255, 255] ++ [255, 255, 255, 255] ++ [1] ++ [0])
        [⟨["root"], "root", 0⟩]) := by
  have hname : Json_getString sampleSlot "name" (some "") = some "s" := rfl
  have hres : ∀ t : State,
      resolve_bone [rootBone] "root" (-10) t =
        Res.ok 0 (t.extend [] [⟨["root"], "root", 0⟩]) := by
    intro t
    show Res.ok 0 _ = Res.ok 0 _
    simp [State.extend]
    exact ⟨rfl, rfl⟩
  unfold push_slot
  dsimp only
  rw [hname, bind_ok (push_string_run wide "s" s),
    bind_ok (rfl : defined (some "s") _ = Res.ok "s" _)]
  rw [bind_ok (rfl : defined (Json_getString sampleSlot "bone" (some "")) _ = Res.ok "root" _),
    bind_ok (hres _), bind_ok (push_varint_small wide 0 0 rfl (by decide) _)]
  rw [show Json_getString sampleSlot "color" none = none from rfl,
    show Json_getString sampleSlot "dark" none = none from rfl,
    bind_ok (push_color_none _), bind_ok (push_color_none _),
    show Json_getString sampleSlot "attachment" (some "") = some "" from rfl,
    bind_ok (push_string_run wide "" _),
    bind_ok (rfl : blend_mode (Json_getItem sampleSlot "blend") _ = Res.ok 0 _),
    bind_ok (push_varint_small wide 0 0 rfl (by decide) _), pure_run, string_bytes_s,
    string_bytes_empty]
  simp [State.extend, State.append]

theorem minimal_skin (wide : WideShift) (slots : List String) (s : State) :
    parse_skin wide (sampleObject (some "default") []) slots s = Res.ret 0 (s.append [0]) := by
  unfold parse_skin
  rw [bind_ok (push_varint_small wide (sampleObject (some "default") []).size 0 rfl
    (by decide) s)]
  rfl

theorem minimal_skins (wide : WideShift) (s : State) :
    push_skins wide ["s"] (sampleObject (some "skins") [sampleObject (some "default") []]) s =
      Res.ok ["default"] (s.append ([0] ++ [0])) := by
  unfold push_skins
  rw [bind_ok (rfl : defined (find_default
    (sampleObject (some "skins") [sampleObject (some "default") []]).child) s =
    Res.ok (some (sampleObject (some "default") [])) s)]
  dsimp only
  have hc : call_checked (-100) (parse_skin wide (sampleObject (some "default") []) ["s"]) s =
      Res.ok () (s.append [0]) := by
    unfold call_checked
    rw [minimal_skin]
    rfl
  rw [bind_ok hc, bind_ok (pure_run _ _),
    bind_ok (push_varint_small wide
      ((sampleObject (some "skins") [sampleObject (some "default") []]).size - 1) 0
      (by decide) (by decide) _), append_append]
  rfl

theorem minimal_stages (wide : WideShift) (members : List Json) (s : State) :
    convert_stages wide (minimalSkeleton members) (sampleObject (some "skeleton") members) s =
      Res.ok () (s.extend
        (float_bytes (Json_getFloat (sampleObject (some "skeleton") members) "width" 0) ++
        float_bytes (Json_getFloat (sampleObject (some "skeleton") members) "height" 0) ++
        [0] ++
        ([1] ++ ([5, 114, 111, 111, 116] ++
          [0, 0, 0, 0, 0, 0, 0, 0, 0, 0, 0, 0, 0x3F, 0x80, 0, 0, 0x3F, 0x80, 0, 0,
            0, 0, 0, 0, 0, 0, 0, 0, 0, 0, 0, 0] ++ [0])) ++
        ([1] ++ ([2, 115] ++ [0] ++ [255, 255, 255, 255] ++ [255, 255, 255, 255] ++ [1] ++
          [0])) ++
        [0, 0, 0] ++ [0] ++ [0] ++ [0] ++ [0]) [⟨["root"], "root", 0⟩]) := by
  have hB : ∀ t : State, require_items (Json_getItem (minimalSkeleton members) "bones") (-8) t =
      Res.ok (sampleArray (some "bones") [sampleObject none [sampleString "name" "root"]]) t :=
    fun _ => rfl
  have hP : ∀ t : State, defined (process_bones
      (sampleArray (some "bones") [sampleObject none [sampleString "name" "root"]])) t =
      Res.ok [rootBone] t := fun _ => rfl
  have hS : ∀ t : State, require_items (Json_getItem (minimalSkeleton members) "slots") (-9) t =
      Res.ok (sampleArray (some "slots") [sampleSlot]) t := fun _ => rfl
  have hSl : ∀ t : State, forAcc (sampleArray (some "slots") [sampleSlot]).child []
      (push_slot wide [rootBone]) t =
      Res.ok ["s"] (t.extend
        ([2, 115] ++ [0] ++ [255, 255, 255, 255] ++ [255, 255, 255, 255] ++ [1] ++ [0])
        [⟨["root"], "root", 0⟩]) := by
    intro t
    show forAcc [sampleSlot] [] _ t = _
    unfold forAcc
    rw [bind_ok (minimal_slot wide t)]
    rfl
  have hK : ∀ t : State, require_items (Json_getItem (minimalSkeleton members) "skins") (-20) t =
      Res.ok (sampleObject (some "skins") [sampleObject (some "default") []]) t := fun _ => rfl
  have hz : ∀ (key : String) (t : State),
      sizeOrZero (Json_getItem (minimalSkeleton members) key) = ((0 : Nat) : Int) →
      push_varint wide (sizeOrZero (Json_getItem (minimalSkeleton members) key)) true t =
        Res.ok () (t.append [0]) :=
    fun key t h => push_varint_small wide _ 0 h (by decide) t
  unfold convert_stages
  dsimp only
  rw [bind_ok (push_float_run _ s), bind_ok (push_float_run _ _), bind_ok (push_boolen_run 0 _),
    bind_ok (hB _), bind_ok (hP _),
    bind_ok (push_varint_small wide (([rootBone].length : Nat) : Int) 1 rfl (by decide) _),
    bind_ok (minimal_bones wide _), bind_ok (hS _),
    bind_ok (push_varint_small wide (sampleArray (some "slots") [sampleSlot]).size 1 rfl
      (by decide) _),
    bind_ok (hSl _)]
  rw [bind_ok (hz "ik" _ rfl),
    bind_ok (rfl : forAcc (children (Json_getItem (minimalSkeleton members) "ik")) []
      (push_ik wide _) _ = Res.ok [] _),
    bind_ok (hz "transform" _ rfl),
    bind_ok (rfl : forAcc (children (Json_getItem (minimalSkeleton members) "transform")) []
      (push_transform wide _) _ = Res.ok [] _),
    bind_ok (hz "path" _ rfl),
    bind_ok (rfl : forAcc (children (Json_getItem (minimalSkeleton members) "path")) []
      (push_path wide _ _) _ = Res.ok [] _),
    bind_ok (hK _), bind_ok (minimal_skins wide _),
    bind_ok (hz "events" _ rfl),
    bind_ok (rfl : forAcc (children (Json_getItem (minimalSkeleton members) "events")) []
      (push_event wide) _ = Res.ok [] _),
    bind_ok (hz "animations" _ rfl)]
  show Res.ok () _ = _
  simp [State.extend, State.append, toU8]

theorem minimal_root (wide : WideShift) (members : List Json) (hash version : String)
    (hhash : Json_getString (sampleObject (some "skeleton") members) "hash" (some "") =
      some hash)
    (hver : Json_getString (sampleObject (some "skeleton") members) "spine" (some "") =
      some version)
    (s : State) (hs : s.buff_data = []) :
    ∃ s1, convert_root wide (minimalSkeleton members) s =
        Res.ret (toI32 (minimal_bytes wide hash version
          (Json_getFloat (sampleObject (some "skeleton") members) "width" 0)
          (Json_getFloat (sampleObject (some "skeleton") members) "height" 0)).length) s1 ∧
      s1.buff_data = minimal_bytes wide hash version
        (Json_getFloat (sampleObject (some "skeleton") members) "width" 0)
        (Json_getFloat (sampleObject (some "skeleton") members) "height" 0) := by
  have hbody : convert_body wide (minimalSkeleton members) s =
      convert_stages wide (minimalSkeleton members) (sampleObject (some "skeleton") members)
        (s.append (string_bytes wide hash ++ string_bytes wide version)) := by
    rw [convert_body_run,
      show Json_getItem (minimalSkeleton members) "skeleton" =
        some (sampleObject (some "skeleton") members) from rfl]
    dsimp only
    rw [hhash]
    dsimp only
    rw [hver]
  have hdata : ((s.append (string_bytes wide hash ++ string_bytes wide version)).extend
      (float_bytes (Json_getFloat (sampleObject (some "skeleton") members) "width" 0) ++
        float_bytes (Json_getFloat (sampleObject (some "skeleton") members) "height" 0) ++
        [0] ++
        ([1] ++ ([5, 114, 111, 111, 116] ++
          [0, 0, 0, 0, 0, 0, 0, 0, 0, 0, 0, 0, 0x3F, 0x80, 0, 0, 0x3F, 0x80, 0, 0,
            0, 0, 0, 0, 0, 0, 0, 0, 0, 0, 0, 0] ++ [0])) ++
        ([1] ++ ([2, 115] ++ [0] ++ [255, 255, 255, 255] ++ [255, 255, 255, 255] ++ [1] ++
          [0])) ++
        [0, 0, 0] ++ [0] ++ [0] ++ [0] ++ [0]) [⟨["root"], "root", 0⟩]).buff_data =
      minimal_bytes wide hash version
        (Json_getFloat (sampleObject (some "skeleton") members) "width" 0)
        (Json_getFloat (sampleObject (some "skeleton") members) "height" 0) := by
    simp only [State.extend, State.append, hs, minimal_bytes, List.nil_append,
      List.append_assoc]
  refine ⟨_, ?_, hdata⟩
  unfold convert_root
  rw [bind_ok (hbody.trans (minimal_stages wide members _))]
  show Res.ret (toI32 (State.buff_pos _)) _ = _
  unfold State.buff_pos
  rw [hdata]

/-- C22: for the minimal skeleton (a `skeleton` object with a hash and a spine
version, the bone `root`, the slot `s` on it, an empty `default` skin, nothing
else) and a text that passes the tests on the text, the conversion returns the
final write position, and the output is exactly `minimal_bytes`: the header,
the bone count 1 and the record of `root` without a parent index, the slot
count 1 and the record of `s` with the bone index 0 and both colors ff ff ff ff,
the three constraint counts 0, the default skin size 0, the named skin count 0
and the counts 0 of the events and animations.  The value returned is the
length of that output when it is less than 2^31. -/
theorem minimal_skeleton_bytes (wide : WideShift) (json : String) (len : Nat)
    (members : List Json) (hash version : String) (atlas : Option String) (s : State)
    (head : List Char) (hlen : 16 ≤ len) (h0 : charAt json 0 = some '{')
    (hh : read_chars json 18 0 = some head)
    (hk : contains_sub "\"skeleton\"".toList head = true)
    (hhash : Json_getString (sampleObject (some "skeleton") members) "hash" (some "") =
      some hash)
    (hver : Json_getString (sampleObject (some "skeleton") members) "spine" (some "") =
      some version) :
    ∃ (c : Int) (s1 : State),
      convert_json_to_binary wide json len (some (minimalSkeleton members)) atlas s =
        Res.ret c s1 ∧
      s1.buff_data = minimal_bytes wide hash version
        (Json_getFloat (sampleObject (some "skeleton") members) "width" 0)
        (Json_getFloat (sampleObject (some "skeleton") members) "height" 0) ∧
      c = toI32 s1.buff_data.length ∧
      (s1.buff_data.length < 2147483648 → c = (s1.buff_data.length : Int)) := by
  have hpos : ∀ n : Nat, n < 2147483648 → toI32 n = (n : Int) := by
    intro n hn
    unfold toI32
    rw [Nat.mod_eq_of_lt (by omega), if_pos hn]
  have hrun : convert_json_to_binary wide json len (some (minimalSkeleton members)) atlas s =
      match atlas with
      | none => convert_root wide (minimalSkeleton members) ⟨[], [], []⟩
      | some a => (parse_atlas a >>= fun _ => convert_root wide (minimalSkeleton members))
          ⟨[], [], []⟩ := by
    rw [convert_run, if_neg (by omega), h0]
    dsimp only
    rw [if_neg (by simp), hh]
    dsimp only
    rw [if_neg (by rw [hk]; simp)]
  rw [hrun]
  cases atlas with
  | none =>
    obtain ⟨s1, h1, h2⟩ := minimal_root wide members hash version hhash hver ⟨[], [], []⟩ rfl
    refine ⟨_, s1, h1, h2, by rw [h2], fun hlt => ?_⟩
    rw [h2] at hlt ⊢
    exact hpos _ hlt
  | some a =>
    have hlen2 : a.toList.length < a.length + 1 := by
      cases a
      exact Nat.lt_succ_self _
    obtain ⟨set, hset, _⟩ := parse_atlas_loop_spec _ a.toList [] hlen2
    have hp : parse_atlas a ⟨[], [], []⟩ = Res.ok () ⟨[], set, []⟩ := by
      unfold parse_atlas atlas_lines
      rw [hset]
    obtain ⟨s1, h1, h2⟩ := minimal_root wide members hash version hhash hver ⟨[], set, []⟩ rfl
    dsimp only
    rw [bind_ok hp]
    refine ⟨_, s1, h1, h2, by rw [h2], fun hlt => ?_⟩
    rw [h2] at hlt ⊢
    exact hpos _ hlt

/-- The example of C22: with the hash `h` and the version `3.8` the conversion
returns 75, the length of the output. -/
theorem minimal_skeleton_bytes_witness :
    16 ≤ sampleText.length ∧ charAt sampleText 0 = some '{' ∧
      read_chars sampleText 18 0 = some ("\x7b\"skeleton\":\x7b\"hash".toList) ∧
      contains_sub "\"skeleton\"".toList ("\x7b\"skeleton\":\x7b\"hash".toList) = true ∧
      minimal_bytes wideZero "h" "3.8" 0 0 =
        [2, 104, 4, 51, 46, 56, 0, 0, 0, 0, 0, 0, 0, 0, 0,
          1, 5, 114, 111, 111, 116, 0, 0, 0, 0, 0, 0, 0, 0, 0, 0, 0, 0, 63, 128, 0, 0,
          63, 128, 0, 0, 0, 0, 0, 0, 0, 0, 0, 0, 0, 0, 0, 0, 0,
          1, 2, 115, 0, 255, 255, 255, 255, 255, 255, 255, 255, 1, 0,
          0, 0, 0, 0, 0, 0, 0] ∧
      convert_json_to_binary wideZero sampleText sampleText.length
          (some (minimalSkeleton [sampleString "hash" "h", sampleString "spine" "3.8"])) none
          ⟨[], [], []⟩ =
        Res.ret 75 ⟨minimal_bytes wideZero "h" "3.8" 0 0, [], [⟨["root"], "root", 0⟩]⟩ ∧
      ∃ (c : Int) (s1 : State),
        convert_json_to_binary wideZero sampleText sampleText.length
            (some (minimalSkeleton [sampleString "hash" "h", sampleString "spine" "3.8"])) none
            ⟨[], [], []⟩ = Res.ret c s1 ∧
        s1.buff_data = minimal_bytes wideZero "h" "3.8"
          (Json_getFloat (sampleObject (some "skeleton")
            [sampleString "hash" "h", sampleString "spine" "3.8"]) "width" 0)
          (Json_getFloat (sampleObject (some "skeleton")
            [sampleString "hash" "h", sampleString "spine" "3.8"]) "height" 0) ∧
        c = toI32 s1.buff_data.length ∧
        (s1.buff_data.length < 2147483648 → c = (s1.buff_data.length : Int)) :=
  ⟨by decide, rfl, rfl, by decide, rfl, rfl,
    minimal_skeleton_bytes wideZero sampleText sampleText.length
      [sampleString "hash" "h", sampleString "spine" "3.8"] "h" "3.8" none ⟨[], [], []⟩
      ("\x7b\"skeleton\":\x7b\"hash".toList) (by decide) rfl rfl (by decide) rfl rfl⟩

/-! ## Deform frames -/

theorem deform_frame_absent (wide : WideShift) (valueMap : Json) (next : Bool) (s : State)
    (hv : Json_getItem valueMap "vertices" = none) :
    deform_frame wide valueMap next s =
      curve_if_next valueMap next
        (s.append (float_bytes (Json_getFloat valueMap "time" 0) ++ [0])) := by
  unfold deform_frame
  rw [bind_ok (push_float_run _ s), hv]
  dsimp only
  rw [bind_ok (push_varint_true wide 0 _), varint_zero, append_append]

theorem deform_frame_present (wide : WideShift) (valueMap vertices : Json) (next : Bool)
    (s : State) (hv : Json_getItem valueMap "vertices" = some vertices) :
    deform_frame wide valueMap next s =
      curve_if_next valueMap next
        (s.append (float_bytes (Json_getFloat valueMap "time" 0) ++
          varint_loop wide (toU32 vertices.size) 5 0 ++
          varint_loop wide (toU32 (Json_getInt valueMap "offset" 0)) 5 0 ++
          child_floats vertices)) := by
  unfold deform_frame
  rw [bind_ok (push_float_run _ s), hv]
  dsimp only
  rw [bind_ok (push_varint_true wide _ _), bind_ok (push_varint_true wide _ _),
    bind_ok (forEach_child_floats _ _)]
  simp only [append_append, child_floats, List.append_assoc]

/-- C25: the deform frame `sampleDeformEmpty` has an empty `vertices` array, so
its count is 0, and the block written after the time is the two bytes 0 and 5,
the count and the offset, where a count of 0 is to be followed by nothing. -/
theorem empty_vertices_offset :
    (Json_getItem sampleDeformEmpty "vertices").map Json.size = some 0 ∧
      deform_frame wideZero sampleDeformEmpty false ⟨[], [], []⟩ =
        Res.ok () ⟨[0x3F, 0x80, 0, 0] ++ [0, 5], [], []⟩ :=
  ⟨rfl, rfl⟩

/-- A deform frame is written as its time and then its vertices block; the
curve record follows when a next frame exists.  Without a `vertices` key the
block is the single count byte 0.  With the key it is the positive varint of the
count of the vertices, the positive varint of `offset` and the floats of the
vertices: the test of the code is on the key, not on the count. -/
theorem deform_block (wide : WideShift) (valueMap : Json) (next : Bool) (s : State) :
    (Json_getItem valueMap "vertices" = none →
      deform_frame wide valueMap next s =
        curve_if_next valueMap next
          (s.append (float_bytes (Json_getFloat valueMap "time" 0) ++ [0]))) ∧
      (∀ vertices, Json_getItem valueMap "vertices" = some vertices →
        deform_frame wide valueMap next s =
          curve_if_next valueMap next
            (s.append (float_bytes (Json_getFloat valueMap "time" 0) ++
              varint_loop wide (toU32 vertices.size) 5 0 ++
              varint_loop wide (toU32 (Json_getInt valueMap "offset" 0)) 5 0 ++
              child_floats vertices))) ∧
      ∀ t : State, curve_if_next valueMap false t = Res.ok () t :=
  ⟨deform_frame_absent wide valueMap next s,
    fun vertices hv => deform_frame_present wide valueMap vertices next s hv,
    fun _ => rfl⟩

/-- The last frame `sampleDeform` of a timeline is written as its time, the
count 2, the offset 5 and the two floats. -/
theorem deform_block_witness :
    Json_getItem sampleDeform "vertices" =
        some (sampleFloats "vertices" [0x3F800000, 0x40000000]) ∧
      deform_frame wideZero sampleDeform false ⟨[], [], []⟩ =
        Res.ok () ⟨[0x3F, 0x80, 0, 0] ++ [2] ++ [5] ++ [0x3F, 0x80, 0, 0, 0x40, 0, 0, 0],
          [], []⟩ ∧
      deform_frame wideZero sampleDeform false ⟨[], [], []⟩ =
        curve_if_next sampleDeform false
          ((⟨[], [], []⟩ : State).append (float_bytes (Json_getFloat sampleDeform "time" 0) ++
            varint_loop wideZero
              (toU32 (sampleFloats "vertices" [0x3F800000, 0x40000000]).size) 5 0 ++
            varint_loop wideZero (toU32 (Json_getInt sampleDeform "offset" 0)) 5 0 ++
            child_floats (sampleFloats "vertices" [0x3F800000, 0x40000000]))) :=
  ⟨rfl, rfl,
    (deform_block wideZero sampleDeform false ⟨[], [], []⟩).2.1
      (sampleFloats "vertices" [0x3F800000, 0x40000000]) rfl⟩

/-! ## Boolean fields -/

theorem step_grows {α β : Type} {m : M α} {f : α → M β} (hm : Sound m) {s s2 : State} {b : β}
    (h : (m >>= f) s = Res.ok b s2) :
    ∃ a s1 bs, s1.buff_data = s.buff_data ++ bs ∧ f a s1 = Res.ok b s2 := by
  obtain ⟨a, s1, h1, h2⟩ := bind_ok_inv h
  exact ⟨a, s1, _, (sound_ok hm h1).1, h2⟩

theorem tail_grows {α : Type} {m : M α} (hm : Sound m) {s s1 : State} {a : α}
    (h : m s = Res.ok a s1) : ∃ bs, s1.buff_data = s.buff_data ++ bs :=
  ⟨_, (sound_ok hm h).1⟩

theorem nonessential_byte (wide : WideShift) (root skeleton : Json) (s s1 : State)
    (h : convert_stages wide root skeleton s = Res.ok () s1) :
    ∃ tail, s1.buff_data = s.buff_data ++ float_bytes (Json_getFloat skeleton "width" 0) ++
      float_bytes (Json_getFloat skeleton "height" 0) ++ [0] ++ tail := by
  unfold convert_stages at h
  dsimp only at h
  rw [bind_ok (push_float_run _ s), bind_ok (push_float_run _ _),
    bind_ok (push_boolen_run 0 _)] at h
  have step : ∃ tail, s1.buff_data =
      (((s.append (float_bytes (Json_getFloat skeleton "width" 0))).append
        (float_bytes (Json_getFloat skeleton "height" 0))).append [toU8 0]).buff_data ++
        tail := by
    refine tail_grows ?_ h
    repeat' first
      | with_reducible exact sound_pure _
      | with_reducible exact sound_ret _
      | with_reducible exact sound_defined _
      | with_reducible exact sound_require_items _ _
      | with_reducible exact sound_push_varint _ _ _
      | with_reducible exact sound_push_bones _ _ _
      | with_reducible exact sound_push_skins _ _ _
      | with_reducible exact sound_forAcc _ _ _ (fun _ _ => sound_push_slot _ _ _ _)
      | with_reducible exact sound_forAcc _ _ _ (fun _ _ => sound_push_ik _ _ _ _)
      | with_reducible exact sound_forAcc _ _ _ (fun _ _ => sound_push_transform _ _ _ _)
      | with_reducible exact sound_forAcc _ _ _ (fun _ _ => sound_push_path _ _ _ _ _)
      | with_reducible exact sound_forAcc _ _ _ (fun _ _ => sound_push_event _ _ _)
      | with_reducible exact sound_forEach _ _ (fun _ => sound_push_animation _ _ _ _ _ _ _ _ _)
      | with_reducible apply sound_bind
      | intro _
  obtain ⟨tail, ht⟩ := step
  exact ⟨tail, by rw [ht]; rfl⟩

theorem weighted_flag (wide : WideShift) (vertices : Json) (L : Int) (s s1 : State)
    (hne : vertices.child ≠ [])
    (h : push_vertices wide (some vertices) L s = Res.ok () s1) :
    ∃ tail, s1.buff_data = s.buff_data ++ [if L = vertices.size then 0 else 1] ++ tail := by
  have hsz : ¬ vertices.size ≤ 0 := by
    unfold Json.size
    cases hc : vertices.child with
    | nil => exact absurd hc hne
    | cons c rest =>
      simp only [List.length_cons]
      omega
  unfold push_vertices at h
  rw [bind_ok (rfl : defined (some vertices) s = Res.ok vertices s)] at h
  simp only [if_neg hsz] at h
  by_cases hL : L = vertices.size
  · rw [if_pos hL, bind_ok (push_boolen_run 0 s)] at h
    obtain ⟨tail, ht⟩ := tail_grows (sound_forEach _ _ (fun _ => sound_push_float _)) h
    exact ⟨tail, by rw [ht, if_pos hL]; rfl⟩
  · rw [if_neg hL, bind_ok (push_boolen_run 1 s)] at h
    obtain ⟨tail, ht⟩ := tail_grows (sound_weighted_loop _ _ _ _) h
    exact ⟨tail, by rw [ht, if_neg hL]; rfl⟩

theorem event_string_flag (wide : WideShift) (vcEvents : List EventData) (valueMap : Json)
    (s s1 : State) (h : event_frame wide vcEvents valueMap s = Res.ok () s1) :
    ∃ pre, s1.buff_data = s.buff_data ++ pre ++
      [if (Json_getString valueMap "string" none).isSome then 1 else 0] ++
      (match Json_getString valueMap "string" none with
        | some str => string_bytes wide str
        | none => []) := by
  unfold event_frame at h
  cases hn : Json_getString valueMap "name" none with
  | none =>
    rw [hn] at h
    cases h
  | some name =>
    rw [hn] at h
    dsimp only at h
    obtain ⟨_, t1, b1, e1, k1⟩ := step_grows (sound_push_float _) h
    obtain ⟨_, t2, b2, e2, k2⟩ := step_grows (sound_resolve_event _ _ _ (by decide)) k1
    obtain ⟨_, t3, b3, e3, k3⟩ := step_grows (sound_push_varint _ _ _) k2
    obtain ⟨_, t4, b4, e4, k4⟩ := step_grows (sound_defined _) k3
    obtain ⟨_, t5, b5, e5, k5⟩ := step_grows (sound_push_varint _ _ _) k4
    obtain ⟨_, t6, b6, e6, k6⟩ := step_grows (sound_push_float _) k5
    rw [bind_ok (push_boolen_run _ t6)] at k6
    refine ⟨b1 ++ b2 ++ b3 ++ b4 ++ b5 ++ b6, ?_⟩
    cases hstr : Json_getString valueMap "string" none with
    | none =>
      rw [hstr] at k6
      have e7 : s1 = t6.append [toU8 (if (none : Option String).isSome then 1 else 0)] :=
        (Res.ok.inj k6).2.symm
      rw [e7]
      show t6.buff_data ++ _ = _
      rw [e6, e5, e4, e3, e2, e1]
      simp [toU8]
    | some str =>
      rw [hstr] at k6
      dsimp only at k6
      rw [push_string_run] at k6
      have e7 : s1 = (t6.append [toU8 (if (some str).isSome then 1 else 0)]).append
          (string_bytes wide str) := (Res.ok.inj k6).2.symm
      rw [e7]
      show (t6.buff_data ++ _) ++ _ = _
      rw [e6, e5, e4, e3, e2, e1]
      simp [toU8]

theorem transform_flags (wide : WideShift) (vcBones : List BoneData)
    (vcTransform : List String) (transformMap : Json) (s s1 : State) (r : List String)
    (h : push_transform wide vcBones vcTransform transformMap s = Res.ok r s1) :
    ∃ pre, s1.buff_data = s.buff_data ++ pre ++
      [toU8 (Json_getInt transformMap "local" 0),
        toU8 (Json_getInt transformMap "relative" 0)] ++
      (float_bytes (Json_getFloat transformMap "rotation" 0) ++
        float_bytes (Json_getFloat transformMap "x" 0) ++
        float_bytes (Json_getFloat transformMap "y" 0) ++
        float_bytes (Json_getFloat transformMap "scaleX" 0) ++
        float_bytes (Json_getFloat transformMap "scaleY" 0) ++
        float_bytes (Json_getFloat transformMap "shearY" 0) ++
        float_bytes (Json_getFloat transformMap "rotateMix" f32_one) ++
        float_bytes (Json_getFloat transformMap "translateMix" f32_one) ++
        float_bytes (Json_getFloat transformMap "scaleMix" f32_one) ++
        float_bytes (Json_getFloat transformMap "shearMix" f32_one)) := by
  unfold push_transform at h
  obtain ⟨_, t1, b1, e1, k1⟩ := step_grows (sound_push_string _ _) h
  obtain ⟨_, t2, b2, e2, k2⟩ := step_grows (sound_defined _) k1
  obtain ⟨_, t3, b3, e3, k3⟩ := step_grows (sound_push_varint _ _ _) k2
  dsimp only at k3
  cases hb : Json_getItem transformMap "bones" with
  | none =>
    rw [hb] at k3
    cases k3
  | some bones =>
    rw [hb] at k3
    dsimp only at k3
    obtain ⟨_, t4, b4, e4, k4⟩ := step_grows (sound_push_varint _ _ _) k3
    obtain ⟨_, t5, b5, e5, k5⟩ :=
      step_grows (sound_push_constraint_bones _ _ _ (by decide) _) k4
    obtain ⟨_, t6, b6, e6, k6⟩ := step_grows (sound_defined _) k5
    obtain ⟨_, t7, b7, e7, k7⟩ := step_grows (sound_resolve_bone _ _ _ (by decide)) k6
    obtain ⟨_, t8, b8, e8, k8⟩ := step_grows (sound_push_varint _ _ _) k7
    rw [bind_ok (push_boolen_run _ t8), bind_ok (push_boolen_run _ _),
      bind_ok (push_float_run _ _), bind_ok (push_float_run _ _),
      bind_ok (push_float_run _ _), bind_ok (push_float_run _ _),
      bind_ok (push_float_run _ _), bind_ok (push_float_run _ _),
      bind_ok (push_float_run _ _), bind_ok (push_float_run _ _),
      bind_ok (push_float_run _ _), bind_ok (push_float_run _ _), pure_run] at k8
    refine ⟨b1 ++ b2 ++ b3 ++ b4 ++ b5 ++ b6 ++ b7 ++ b8, ?_⟩
    rw [← (Res.ok.inj k8).2]
    simp only [State.append, e8, e7, e6, e5, e4, e3, e2, e1, List.append_assoc,
      List.cons_append, List.nil_append]

theorem path_flags (wide : WideShift) (slots : List String) (attachment : Json)
    (path : Option String) (s s1 : State)
    (h : push_payload wide slots attachment path 4 s = Res.ok () s1) :
    ∃ tail, s1.buff_data = s.buff_data ++
      [toU8 (Json_getInt attachment "closed" 0),
        toU8 (Json_getInt attachment "constantSpeed" 0)] ++ tail := by
  unfold push_payload at h
  rw [if_neg (by decide), if_neg (by decide), if_neg (by decide), if_neg (by decide),
    if_pos rfl] at h
  dsimp only at h
  rw [bind_ok (push_boolen_run _ s), bind_ok (push_boolen_run _ _)] at h
  obtain ⟨_, t1, b1, e1, k1⟩ := step_grows (sound_push_varint _ _ _) h
  obtain ⟨_, t2, b2, e2, k2⟩ := step_grows (sound_push_vertices _ _ _) k1
  obtain ⟨_, t3, b3, e3, k3⟩ := step_grows (sound_defined _) k2
  obtain ⟨b4, e4⟩ := tail_grows (sound_forEach _ _ (fun _ => sound_push_float _)) k3
  refine ⟨b1 ++ b2 ++ b3 ++ b4, ?_⟩
  rw [e4, e3, e2, e1]
  simp only [State.append, List.append_assoc, List.cons_append, List.nil_append]


/-- C24: the linked mesh `sampleDeformTwo` has the `deform` value 2, and the
byte written for its deform flag, the last of the payload, is 2: neither 0 nor
1. -/
theorem deform_flag_two :
    Json_getInt sampleDeformTwo "deform" 1 = 2 ∧
      push_payload wideZero [] sampleDeformTwo none 3 ⟨[], [], []⟩ =
        Res.ok () ⟨[0] ++ [255, 255, 255, 255] ++ [0] ++ [0] ++ [2], [], []⟩ :=
  ⟨rfl, rfl⟩

/-- C24: `push_boolen` stores exactly one byte, the value of its `unsigned char`
argument, which is 0 or 1 exactly when the `int` handed to it is 0 or 1 modulo
256.  The nonessential flag is the byte 0 after the width and height; the
weighted flag of `push_vertices` is 0 or 1; the has-string flag of an event
frame is 1 when the frame has a `string` and 0 otherwise.  The `local` and
`relative` flags of a transform constraint, the `closed` and `constantSpeed`
flags of a path attachment and the `deform` flag of a linked mesh are each one
byte, the low 8 bits of the integer value of the field. -/
theorem boolean_bytes (wide : WideShift) :
    (∀ (v : Int) (s : State), push_boolen v s = Res.ok () (s.append [toU8 v])) ∧
      (∀ v : Int, (toU8 v = 0 ∨ toU8 v = 1) ↔ (v % 256 = 0 ∨ v % 256 = 1)) ∧
      (∀ (root skeleton : Json) (s s1 : State),
        convert_stages wide root skeleton s = Res.ok () s1 →
        ∃ tail, s1.buff_data = s.buff_data ++
          float_bytes (Json_getFloat skeleton "width" 0) ++
          float_bytes (Json_getFloat skeleton "height" 0) ++ [0] ++ tail) ∧
      (∀ (vertices : Json) (L : Int) (s s1 : State), vertices.child ≠ [] →
        push_vertices wide (some vertices) L s = Res.ok () s1 →
        ∃ tail, s1.buff_data =
          s.buff_data ++ [if L = vertices.size then 0 else 1] ++ tail) ∧
      (∀ (vcEvents : List EventData) (valueMap : Json) (s s1 : State),
        event_frame wide vcEvents valueMap s = Res.ok () s1 →
        ∃ pre, s1.buff_data = s.buff_data ++ pre ++
          [if (Json_getString valueMap "string" none).isSome then 1 else 0] ++
          (match Json_getString valueMap "string" none with
            | some str => string_bytes wide str
            | none => [])) ∧
      (∀ (vcBones : List BoneData) (vcTransform : List String) (transformMap : Json)
        (s s1 : State) (r : List String),
        push_transform wide vcBones vcTransform transformMap s = Res.ok r s1 →
        ∃ pre, s1.buff_data = s.buff_data ++ pre ++
          [toU8 (Json_getInt transformMap "local" 0),
            toU8 (Json_getInt transformMap "relative" 0)] ++
          (float_bytes (Json_getFloat transformMap "rotation" 0) ++
            float_bytes (Json_getFloat transformMap "x" 0) ++
            float_bytes (Json_getFloat transformMap "y" 0) ++
            float_bytes (Json_getFloat transformMap "scaleX" 0) ++
            float_bytes (Json_getFloat transformMap "scaleY" 0) ++
            float_bytes (Json_getFloat transformMap "shearY" 0) ++
            float_bytes (Json_getFloat transformMap "rotateMix" f32_one) ++
            float_bytes (Json_getFloat transformMap "translateMix" f32_one) ++
            float_bytes (Json_getFloat transformMap "scaleMix" f32_one) ++
            float_bytes (Json_getFloat transformMap "shearMix" f32_one))) ∧
      (∀ (slots : List String) (attachment : Json) (path : Option String) (s s1 : State),
        push_payload wide slots attachment path 4 s = Res.ok () s1 →
        ∃ tail, s1.buff_data = s.buff_data ++
          [toU8 (Json_getInt attachment "closed" 0),
            toU8 (Json_getInt attachment "constantSpeed" 0)] ++ tail) ∧
      (∀ (slots : List String) (attachment : Json) (path : Option String) (s s1 : State),
        push_payload wide slots attachment path 3 s = Res.ok () s1 →
        ∃ pre, s1.buff_data = s.buff_data ++ pre ++
          [toU8 (Json_getInt attachment "deform" 1)]) := by
  refine ⟨push_boolen_run, fun v => ?_, nonessential_byte wide,
    fun vertices L s s1 hne h => weighted_flag wide vertices L s s1 hne h,
    event_string_flag wide, transform_flags wide, path_flags wide,
    fun slots attachment path s s1 h => ?_⟩
  · unfold toU8
    have h0 : 0 ≤ v % 256 := Int.emod_nonneg v (by decide)
    omega
  · have hb := linked_payload_bytes wide slots attachment path s s1 h
    exact ⟨opt_string_bytes wide path ++
      written (push_color (Json_getString attachment "color" none)) s.all_atlas ++
      opt_string_bytes wide (Json_getString attachment "skin" none) ++
      opt_string_bytes wide attachment.valueString, by rw [hb]; simp only [List.append_assoc]⟩

/-- The example of C24: a linked mesh without a `deform` key has the flag byte 1
of the default, and an event frame with the string `x` has the flag byte 1
before the string. -/
theorem boolean_bytes_witness :
    (∃ s1, push_payload wideZero [] sampleLinked none 3 ⟨[], [], []⟩ = Res.ok () s1 ∧
      s1.buff_data = [0] ++ [255, 255, 255, 255] ++ [8, 100, 101, 102, 97, 117, 108, 116] ++
        [0] ++ [1] ∧
      ∃ pre, s1.buff_data = [] ++ pre ++ [toU8 (Json_getInt sampleLinked "deform" 1)]) ∧
      ((toU8 256 = 0 ∨ toU8 256 = 1) ↔ ((256 : Int) % 256 = 0 ∨ (256 : Int) % 256 = 1)) :=
  ⟨⟨_, rfl, rfl,
      (boolean_bytes wideZero).2.2.2.2.2.2.2 [] sampleLinked none ⟨[], [], []⟩ _ rfl⟩,
    (boolean_bytes wideZero).2.1 256⟩

/-! ## Where a return code comes from -/

theorem require_items_ret {node : Option Json} {code c : Int} {s s1 : State}
    (h : require_items node code s = Res.ret c s1) : c = code ∧ missing node ∧ s1 = s := by
  unfold require_items at h
  cases node with
  | none =>
    simp only [ret, Res.ret.injEq] at h
    exact ⟨h.1.symm, (show missing none from fun j hj => nomatch hj), h.2.symm⟩
  | some j =>
    dsimp only at h
    by_cases hj : j.size ≤ 0
    · rw [if_pos hj] at h
      simp only [ret, Res.ret.injEq] at h
      exact ⟨h.1.symm, (show missing (some j) from fun k hk => Option.some.inj hk ▸ hj), h.2.symm⟩
    · rw [if_neg hj] at h
      cases h

theorem require_items_ok {node : Option Json} {code : Int} {j : Json} {s s1 : State}
    (h : require_items node code s = Res.ok j s1) : node = some j ∧ 0 < j.size ∧ s1 = s := by
  unfold require_items at h
  cases node with
  | none => cases h
  | some k =>
    dsimp only at h
    by_cases hk : k.size ≤ 0
    · rw [if_pos hk] at h
      cases h
    · rw [if_neg hk] at h
      simp only [pure_run, Res.ok.injEq] at h
      rw [← h.1]
      exact ⟨rfl, by omega, h.2.symm⟩

theorem require_items_missing (node : Option Json) (code : Int) (s : State)
    (h : missing node) : require_items node code s = Res.ret code s := by
  unfold require_items
  cases node with
  | none => rfl
  | some j =>
    dsimp only
    rw [if_pos (h j rfl)]
    rfl

theorem forAcc_ret_inv {α β : Type} (xs : List α) (body : β → α → M β) {acc : β}
    {s s1 : State} {c : Int} (h : forAcc xs acc body s = Res.ret c s1) :
    ∃ x ∈ xs, ∃ a t, body a x t = Res.ret c s1 := by
  induction xs generalizing acc s with
  | nil => cases h
  | cons x rest ih =>
    unfold forAcc at h
    rcases bind_ret_inv h with h1 | ⟨a, t, _, h2⟩
    · exact ⟨x, List.mem_cons_self _ _, acc, s, h1⟩
    · obtain ⟨y, hy, r⟩ := ih h2
      exact ⟨y, List.mem_cons_of_mem _ hy, r⟩

theorem forEach_ret_inv {α : Type} (xs : List α) (body : α → M Unit)
    {s s1 : State} {c : Int} (h : forEach xs body s = Res.ret c s1) :
    ∃ x ∈ xs, ∃ t, body x t = Res.ret c s1 := by
  induction xs generalizing s with
  | nil => cases h
  | cons x rest ih =>
    unfold forEach at h
    rcases bind_ret_inv h with h1 | ⟨_, t, _, h2⟩
    · exact ⟨x, List.mem_cons_self _ _, s, h1⟩
    · obtain ⟨y, hy, r⟩ := ih h2
      exact ⟨y, List.mem_cons_of_mem _ hy, r⟩

theorem call_checked_ret {base : Int} {f : M Int} (hf : Exits f) {s s1 : State} {c : Int}
    (h : call_checked base f s = Res.ret c s1) :
    ∃ rt, rt ≠ 0 ∧ c = base + rt ∧ f s = Res.ret rt s1 := by
  unfold call_checked at h
  cases hr : f s with
  | ok rt s2 => exact absurd hr (hf.never s s2 rt)
  | ret rt s2 =>
    rw [hr] at h
    dsimp only at h
    by_cases hz : rt ≠ 0
    · rw [if_pos hz] at h
      simp only [Res.ret.injEq] at h
      exact ⟨rt, hz, h.1.symm, by rw [h.2]⟩
    · rw [if_neg hz] at h
      cases h
  | crash =>
    rw [hr] at h
    cases h

theorem push_named_skin_origin (wide : WideShift) (vcSlots acc : List String) (skin : Json)
    {s s1 : State} {c : Int} (h : push_named_skin wide vcSlots acc skin s = Res.ret c s1) :
    ∃ inner t, skinInner inner ∧ c = -200 + inner ∧ skin.name ≠ some "default" ∧
      parse_skin wide skin vcSlots t = Res.ret inner s1 := by
  unfold push_named_skin at h
  rcases bind_ret_inv h with h1 | ⟨name, t1, h1, h⟩
  · exact ((returns_defined (fun _ => False) _).code _ _ _ h1).elim
  obtain ⟨hn, _⟩ := defined_ok h1
  by_cases hd : name ≠ "default"
  · rw [if_pos hd] at h
    rcases bind_ret_inv h with h1 | ⟨_, t2, h1, h⟩
    · exact ((returns_push_string (fun _ => False) _ _).code _ _ _ h1).elim
    rcases bind_ret_inv h with h1 | ⟨_, t3, h1, h⟩
    · obtain ⟨rt, hz, hc, hr⟩ := call_checked_ret (exits_parse_skin wide skin vcSlots) h1
      rcases (returns_parse_skin wide skin vcSlots).code _ _ _ hr with h0 | h0
      · exact absurd h0 hz
      · refine ⟨rt, _, h0, hc, ?_, hr⟩
        rw [hn]
        intro he
        exact hd (Option.some.inj he)
    · cases h
  · rw [if_neg hd] at h
    cases h

theorem push_skins_origin (wide : WideShift) (vcSlots : List String) (skins : Json)
    {s s1 : State} {c : Int} (h : push_skins wide vcSlots skins s = Res.ret c s1) :
    (∃ inner skin t, skinInner inner ∧ c = -100 + inner ∧
        find_default skins.child = some (some skin) ∧
        parse_skin wide skin vcSlots t = Res.ret inner s1) ∨
      ∃ inner skin t, skinInner inner ∧ c = -200 + inner ∧ skin ∈ skins.child ∧
        skin.name ≠ some "default" ∧ parse_skin wide skin vcSlots t = Res.ret inner s1 := by
  unfold push_skins at h
  rcases bind_ret_inv h with h1 | ⟨d, t1, h1, h⟩
  · exact ((returns_defined (fun _ => False) _).code _ _ _ h1).elim
  obtain ⟨hd, _⟩ := defined_ok h1
  have named : ∀ (acc : List String) (t : State),
      (push_varint wide (skins.size - 1) true >>= fun _ =>
        forAcc skins.child acc (push_named_skin wide vcSlots)) t = Res.ret c s1 →
      ∃ inner skin t, skinInner inner ∧ c = -200 + inner ∧ skin ∈ skins.child ∧
        skin.name ≠ some "default" ∧ parse_skin wide skin vcSlots t = Res.ret inner s1 := by
    intro acc t ht
    rcases bind_ret_inv ht with h2 | ⟨_, t2, _, h2⟩
    · exact ((returns_push_varint (fun _ => False) _ _ _).code _ _ _ h2).elim
    obtain ⟨skin, hm, a, u, hu⟩ := forAcc_ret_inv _ _ h2
    obtain ⟨inner, v, hi, hc, hne, hv⟩ := push_named_skin_origin wide vcSlots a skin hu
    exact ⟨inner, skin, v, hi, hc, hm, hne, hv⟩
  cases d with
  | none =>
    dsimp only at h
    rcases bind_ret_inv h with h2 | ⟨acc, t2, h2, h⟩
    · cases h2
    · exact Or.inr (named _ _ h)
  | some skin =>
    dsimp only at h
    rcases bind_ret_inv h with h3 | ⟨_, t3, _, h⟩
    · left
      obtain ⟨rt, hz, hc, hr⟩ := call_checked_ret (exits_parse_skin wide skin vcSlots) h3
      rcases (returns_parse_skin wide skin vcSlots).code _ _ _ hr with h0 | h0
      · exact absurd h0 hz
      · exact ⟨rt, skin, _, h0, hc, hd, hr⟩
    rcases bind_ret_inv h with h2 | ⟨acc, t2, h2, h⟩
    · cases h2
    · exact Or.inr (named _ _ h)

theorem push_animation_origin (wide : WideShift) (vcSlots : List String)
    (vcBones : List BoneData) (vcIK vcTransform vcPaths vcSkins : List String)
    (vcEvents : List EventData) (aniMap : Json) {s s1 : State} {c : Int}
    (h : push_animation wide vcSlots vcBones vcIK vcTransform vcPaths vcSkins vcEvents aniMap s =
      Res.ret c s1) :
    ∃ inner t, animationInner inner ∧ c = -300 + inner ∧
      parse_animation wide aniMap vcSlots vcBones vcIK vcTransform vcPaths vcSkins vcEvents t =
        Res.ret inner s1 := by
  unfold push_animation at h
  rcases bind_ret_inv h with h1 | ⟨_, t1, _, h⟩
  · exact ((returns_push_string (fun _ => False) _ _).code _ _ _ h1).elim
  obtain ⟨rt, hz, hc, hr⟩ := call_checked_ret (exits_parse_animation wide aniMap vcSlots vcBones
    vcIK vcTransform vcPaths vcSkins vcEvents) h
  rcases (returns_parse_animation wide aniMap vcSlots vcBones vcIK vcTransform vcPaths vcSkins
    vcEvents).code _ _ _ hr with h0 | h0
  · exact absurd h0 hz
  · exact ⟨rt, _, h0, hc, hr⟩

theorem stages_origin (wide : WideShift) (root skeleton : Json) (s s1 : State) (c : Int)
    (h : convert_stages wide root skeleton s = Res.ret c s1) : stagesOrigin wide root c s1 := by
  have no : ∀ {α : Type} {m : M α} {t : State},
      Returns (fun _ => False) m → m t = Res.ret c s1 → False :=
    fun hm ht => hm.code _ _ _ ht
  unfold convert_stages at h
  dsimp only at h
  rw [bind_ok (push_float_run _ s), bind_ok (push_float_run _ _),
    bind_ok (push_boolen_run 0 _)] at h
  rcases bind_ret_inv h with h1 | ⟨bones, t1, h1, h⟩
  · exact Or.inl ⟨(require_items_ret h1).1, (require_items_ret h1).2.1⟩
  obtain ⟨hb1, hb2, _⟩ := require_items_ok h1
  rcases bind_ret_inv h with h1 | ⟨vcBones, t2, h1, h⟩
  · exact (no (returns_defined _ _) h1).elim
  obtain ⟨hv, _⟩ := defined_ok h1
  refine Or.inr ⟨bones, vcBones, hb1, hb2, hv, ?_⟩
  rcases bind_ret_inv h with h1 | ⟨_, t3, h1, h⟩
  · exact (no (returns_push_varint _ _ _ _) h1).elim
  rcases bind_ret_inv h with h1 | ⟨_, t4, h1, h⟩
  · exact (no (returns_push_bones _ _ _ _) h1).elim
  rcases bind_ret_inv h with h1 | ⟨slots, t5, h1, h⟩
  · exact Or.inl ⟨(require_items_ret h1).1, (require_items_ret h1).2.1⟩
  obtain ⟨hs1, hs2, _⟩ := require_items_ok h1
  refine Or.inr ⟨slots, hs1, hs2, ?_⟩
  rcases bind_ret_inv h with h1 | ⟨_, t6, h1, h⟩
  · exact (no (returns_push_varint _ _ _ _) h1).elim
  rcases bind_ret_inv h with h1 | ⟨vcSlots, t7, hslots, h⟩
  · obtain ⟨slot, hm, acc, t, ht⟩ := forAcc_ret_inv _ _ h1
    have hc := (returns_push_slot wide vcBones acc slot).code _ _ _ ht
    exact Or.inl ⟨hc, slot, hm, acc, t, ht⟩
  refine Or.inr ⟨vcSlots, ⟨_, _, hslots⟩, ?_⟩
  rcases bind_ret_inv h with h1 | ⟨_, t8, h1, h⟩
  · exact (no (returns_push_varint _ _ _ _) h1).elim
  rcases bind_ret_inv h with h1 | ⟨vcIK, t9, h1, h⟩
  · obtain ⟨x, hm, acc, t, ht⟩ := forAcc_ret_inv _ _ h1
    have hc := (returns_push_ik wide vcBones acc x).code _ _ _ ht
    exact Or.inl ⟨hc.1, hc.2, x, hm, acc, t, ht⟩
  rcases bind_ret_inv h with h1 | ⟨_, t10, h1, h⟩
  · exact (no (returns_push_varint _ _ _ _) h1).elim
  rcases bind_ret_inv h with h1 | ⟨vcTransform, t11, h1, h⟩
  · obtain ⟨x, hm, acc, t, ht⟩ := forAcc_ret_inv _ _ h1
    have hc := (returns_push_transform wide vcBones acc x).code _ _ _ ht
    exact Or.inr (Or.inl ⟨hc.1, hc.2, x, hm, acc, t, ht⟩)
  rcases bind_ret_inv h with h1 | ⟨_, t12, h1, h⟩
  · exact (no (returns_push_varint _ _ _ _) h1).elim
  rcases bind_ret_inv h with h1 | ⟨vcPaths, t13, h1, h⟩
  · obtain ⟨x, hm, acc, t, ht⟩ := forAcc_ret_inv _ _ h1
    have hc := (returns_push_path wide vcBones vcSlots acc x).code _ _ _ ht
    exact Or.inr (Or.inr (Or.inl ⟨hc.1, hc.2, x, hm, acc, t, ht⟩))
  rcases bind_ret_inv h with h1 | ⟨skins, t14, h1, h⟩
  · exact Or.inr (Or.inr (Or.inr (Or.inl
      ⟨(require_items_ret h1).1, (require_items_ret h1).2.1⟩)))
  obtain ⟨hk1, hk2, _⟩ := require_items_ok h1
  refine Or.inr (Or.inr (Or.inr (Or.inr ⟨skins, hk1, hk2, ?_⟩)))
  rcases bind_ret_inv h with h1 | ⟨vcSkins, t15, h1, h⟩
  · rcases push_skins_origin wide vcSlots skins h1 with h2 | h2
    · exact Or.inl h2
    · exact Or.inr (Or.inl h2)
  rcases bind_ret_inv h with h1 | ⟨_, t16, h1, h⟩
  · exact (no (returns_push_varint _ _ _ _) h1).elim
  rcases bind_ret_inv h with h1 | ⟨vcEvents, t17, h1, h⟩
  · exact (no (returns_forAcc _ _ _ _ fun a x => returns_push_event _ wide a x) h1).elim
  rcases bind_ret_inv h with h1 | ⟨_, t18, h1, h⟩
  · exact (no (returns_push_varint _ _ _ _) h1).elim
  obtain ⟨aniMap, hm, t, ht⟩ := forEach_ret_inv _ _ h
  obtain ⟨inner, u, hi, hc, hu⟩ := push_animation_origin wide vcSlots vcBones vcIK vcTransform
    vcPaths vcSkins vcEvents aniMap ht
  exact Or.inr (Or.inr ⟨inner, aniMap, vcIK, vcTransform, vcPaths, vcSkins, vcEvents, u, hi, hc,
    hm, hu⟩)

theorem body_origin (wide : WideShift) (root : Json) (s s1 : State) (c : Int)
    (h : convert_body wide root s = Res.ret c s1) : bodyOrigin wide root c s1 := by
  rw [convert_body_run] at h
  cases hs : Json_getItem root "skeleton" with
  | none =>
    rw [hs] at h
    exact Or.inl ⟨(Res.ret.inj h).1.symm, hs⟩
  | some skeleton =>
    rw [hs] at h
    dsimp only at h
    refine Or.inr ⟨skeleton, hs, ?_⟩
    cases hh : Json_getString skeleton "hash" (some "") with
    | none =>
      rw [hh] at h
      exact Or.inl ⟨(Res.ret.inj h).1.symm, rfl⟩
    | some hash =>
      rw [hh] at h
      dsimp only at h
      refine Or.inr ⟨hash, rfl, ?_⟩
      cases hv : Json_getString skeleton "spine" (some "") with
      | none =>
        rw [hv] at h
        exact Or.inl ⟨(Res.ret.inj h).1.symm, rfl⟩
      | some version =>
        rw [hv] at h
        exact Or.inr ⟨version, rfl, stages_origin wide root skeleton _ s1 c h⟩

theorem convert_past (wide : WideShift) (json : String) (len : Nat) (r : Json)
    (atlas : Option String) (s : State) (hp : passes json len) :
    ∃ set, (atlas = none → set = []) ∧
      convert_json_to_binary wide json len (some r) atlas s =
        convert_root wide r ⟨[], set, []⟩ := by
  obtain ⟨hlen, h0, head, hh, hk⟩ := hp
  cases atlas with
  | none =>
    refine ⟨[], fun _ => rfl, ?_⟩
    rw [convert_run, if_neg (by omega), h0]
    dsimp only
    rw [if_neg (by simp), hh]
    dsimp only
    rw [if_neg (by rw [hk]; simp)]
  | some a =>
    have hlen2 : a.toList.length < a.length + 1 := by
      cases a
      exact Nat.lt_succ_self _
    obtain ⟨set, hset, _⟩ := parse_atlas_loop_spec _ a.toList [] hlen2
    have hp : parse_atlas a ⟨[], [], []⟩ = Res.ok () ⟨[], set, []⟩ := by
      unfold parse_atlas atlas_lines
      rw [hset]
    refine ⟨set, fun hn => Option.noConfusion hn, ?_⟩
    rw [convert_run, if_neg (by omega), h0]
    dsimp only
    rw [if_neg (by simp), hh]
    dsimp only
    rw [if_neg (by rw [hk]; simp)]
    exact bind_ok hp

theorem convert_origin (wide : WideShift) (json : String) (len : Nat) (root : Option Json)
    (atlas : Option String) (s s1 : State) (c : Int)
    (h : convert_json_to_binary wide json len root atlas s = Res.ret c s1) :
    convertOrigin wide json len root c s1 ∨
      ∃ r s0, root = some r ∧ passes json len ∧ s0.buff_data = [] ∧
        convert_body wide r s0 = Res.ok () s1 ∧ c = toI32 s1.buff_pos := by
  have neg : ∀ k : Int,
      (Res.ret k ⟨[], s.all_atlas, []⟩ : Res Int) = Res.ret c s1 → c = k :=
    fun k hk => (Res.ret.inj hk).1.symm
  have root_case : ∀ (r : Json) (s0 : State), s0.buff_data = [] → passes json len →
      root = some r → convert_root wide r s0 = Res.ret c s1 →
      convertOrigin wide json len root c s1 ∨
        ∃ r s0, root = some r ∧ passes json len ∧ s0.buff_data = [] ∧
          convert_body wide r s0 = Res.ok () s1 ∧ c = toI32 s1.buff_pos := by
    intro r s0 hs0 hp hr hrun
    unfold convert_root at hrun
    rcases bind_ret_inv hrun with h1 | ⟨_, s2, h1, h2⟩
    · exact Or.inl (Or.inr (Or.inr (Or.inr (Or.inr
        ⟨r, hr, hp, body_origin wide r s0 s1 c h1⟩))))
    · simp only [return_pos, Res.ret.injEq] at h2
      refine Or.inr ⟨r, s0, hr, hp, hs0, ?_, ?_⟩
      · rw [← h2.2]
        exact h1
      · rw [← h2.2, ← h2.1]
  rw [convert_run] at h
  by_cases h1 : len < 16
  · rw [if_pos h1] at h
    exact Or.inl (Or.inl ⟨neg _ h, h1⟩)
  rw [if_neg h1] at h
  cases h0 : charAt json 0 with
  | none =>
    rw [h0] at h
    cases h
  | some ch =>
    rw [h0] at h
    dsimp only at h
    by_cases h2 : ch ≠ '{'
    · rw [if_pos h2] at h
      exact Or.inl (Or.inr (Or.inl ⟨neg _ h, by omega, ch, h0, h2⟩))
    rw [if_neg h2] at h
    have hch : ch = '{' := not_not.1 h2
    subst hch
    cases hh : read_chars json 18 0 with
    | none =>
      rw [hh] at h
      cases h
    | some head =>
      rw [hh] at h
      dsimp only at h
      by_cases h3 : contains_sub "\"skeleton\"".toList head = false
      · rw [if_pos h3] at h
        exact Or.inl (Or.inr (Or.inr (Or.inl ⟨neg _ h, by omega, h0, head, hh, h3⟩)))
      rw [if_neg h3] at h
      have hp : passes json len := ⟨by omega, h0, head, hh, by simpa using h3⟩
      cases root with
      | none =>
        exact Or.inl (Or.inr (Or.inr (Or.inr (Or.inl ⟨neg _ h, hp, rfl⟩))))
      | some r =>
        dsimp only at h
        cases atlas with
        | none => exact root_case r _ rfl hp rfl h
        | some a =>
          dsimp only at h
          rcases bind_ret_inv h with h4 | ⟨_, s2, h5, h4⟩
          · unfold parse_atlas at h4
            split at h4 <;> cases h4
          · have hs2 : s2.buff_data = [] := by
              unfold parse_atlas at h5
              split at h5
              · simp only [Res.ok.injEq, true_and] at h5
                rw [← h5]
              · cases h5
            exact root_case r _ hs2 hp rfl h4

theorem body_origin_neg (wide : WideShift) (root : Json) (c : Int) (s1 : State)
    (h : bodyOrigin wide root c s1) : c < 0 := by
  simp only [bodyOrigin, stagesOrigin, skinInner, animationInner] at h
  rcases h with h | ⟨_, _, h | ⟨_, _, h | ⟨_, _, h⟩⟩⟩
  · omega
  · omega
  · omega
  · rcases h with h | ⟨_, _, _, _, _, h | ⟨_, _, _, h | ⟨_, _, h | h | h | h | h⟩⟩⟩
    · omega
    · omega
    · omega
    · omega
    · omega
    · omega
    · omega
    · obtain ⟨_, _, _, h | h | h⟩ := h
      · obtain ⟨_, _, _, h1, h2, _⟩ := h
        omega
      · obtain ⟨_, _, _, h1, h2, _⟩ := h
        omega
      · obtain ⟨_, _, _, _, _, _, _, _, h1, h2, _⟩ := h
        omega

theorem passes_sampleText : passes sampleText sampleText.length :=
  ⟨by decide, rfl, "\x7b\"skeleton\":\x7b\"hash".toList, rfl, by decide⟩

/-! ## Statements executed in the course of a run -/

theorem grows_refl (s : State) : Grows s s := ⟨rfl, [], (List.append_nil _).symm⟩

theorem grows_trans {s t u : State} (h1 : Grows s t) (h2 : Grows t u) : Grows s u := by
  obtain ⟨a1, b1, e1⟩ := h1
  obtain ⟨a2, b2, e2⟩ := h2
  exact ⟨by rw [a2, a1], b1 ++ b2, by rw [e2, e1, List.append_assoc]⟩

theorem grows_ok {α : Type} {m : M α} (hm : Sound m) {s s1 : State} {a : α}
    (h : m s = Res.ok a s1) : Grows s s1 :=
  ⟨(sound_ok hm h).2, _, (sound_ok hm h).1⟩

theorem grows_ret {α : Type} {m : M α} (hm : Sound m) {s s1 : State} {c : Int}
    (h : m s = Res.ret c s1) : Grows s s1 :=
  ⟨(sound_ret_written hm h).2, _, (sound_ret_written hm h).1⟩

theorem grows_append (s : State) (bs : List Nat) : Grows s (s.append bs) :=
  ⟨rfl, bs, rfl⟩

theorem step_ok {α β : Type} {m : M α} {f : α → M β} (hm : Sound m) {s s2 : State} {b : β}
    (h : (m >>= f) s = Res.ok b s2) :
    ∃ a s1, m s = Res.ok a s1 ∧ Grows s s1 ∧ f a s1 = Res.ok b s2 := by
  obtain ⟨a, s1, h1, h2⟩ := bind_ok_inv h
  exact ⟨a, s1, h1, grows_ok hm h1, h2⟩

theorem step_ret {α β : Type} {m : M α} {f : α → M β} (hm : Sound m) {s s2 : State} {c : Int}
    (h : (m >>= f) s = Res.ret c s2) :
    m s = Res.ret c s2 ∨ ∃ a s1, m s = Res.ok a s1 ∧ Grows s s1 ∧ f a s1 = Res.ret c s2 := by
  rcases bind_ret_inv h with h1 | ⟨a, s1, h1, h2⟩
  · exact Or.inl h1
  · exact Or.inr ⟨a, s1, h1, grows_ok hm h1, h2⟩

theorem ran_self {α : Type} {m : M α} {a : α} {s s1 : State} (h : m s = Res.ok a s1) :
    Ran m a s s1 := ⟨s, s1, h, grows_refl s, grows_refl s1⟩

theorem ran_mono {α : Type} {m : M α} {a : α} {s t t1 s1 : State} (h : Ran m a t t1)
    (h1 : Grows s t) (h2 : Grows t1 s1) : Ran m a s s1 := by
  obtain ⟨u, u1, hu, g1, g2⟩ := h
  exact ⟨u, u1, hu, grows_trans h1 g1, grows_trans g2 h2⟩

theorem called_mono {f : M Int} {s t t1 s1 : State} (h : Called f t t1)
    (h1 : Grows s t) (h2 : Grows t1 s1) : Called f s s1 := by
  obtain ⟨u, u1, hu, g1, g2⟩ := h
  exact ⟨u, u1, hu, grows_trans h1 g1, grows_trans g2 h2⟩

theorem forEach_ran {α : Type} (xs : List α) (body : α → M Unit)
    (hb : ∀ x, Sound (body x)) {s s1 : State} (h : forEach xs body s = Res.ok () s1) :
    ∀ x ∈ xs, Ran (body x) () s s1 := by
  induction xs generalizing s with
  | nil => intro x hx; cases hx
  | cons y rest ih =>
    unfold forEach at h
    obtain ⟨_, t, h1, g1, h2⟩ := step_ok (hb y) h
    have g2 : Grows t s1 := grows_ok (sound_forEach rest body hb) h2
    intro x hx
    rcases List.mem_cons.1 hx with hx | hx
    · rw [hx]
      exact ⟨s, t, h1, grows_refl s, g2⟩
    · exact ran_mono (ih h2 x hx) g1 (grows_refl s1)

theorem forAcc_ran {α β : Type} (xs : List α) (body : β → α → M β)
    (hb : ∀ a x, Sound (body a x)) {acc r : β} {s s1 : State}
    (h : forAcc xs acc body s = Res.ok r s1) :
    ∀ x ∈ xs, ∃ a a1, Ran (body a x) a1 s s1 := by
  induction xs generalizing acc s with
  | nil => intro x hx; cases hx
  | cons y rest ih =>
    unfold forAcc at h
    obtain ⟨acc1, t, h1, g1, h2⟩ := step_ok (hb acc y) h
    have g2 : Grows t s1 := grows_ok (sound_forAcc rest acc1 body hb) h2
    intro x hx
    rcases List.mem_cons.1 hx with hx | hx
    · rw [hx]
      exact ⟨acc, acc1, s, t, h1, grows_refl s, g2⟩
    · obtain ⟨a, a1, hr⟩ := ih h2 x hx
      exact ⟨a, a1, ran_mono hr g1 (grows_refl s1)⟩

theorem stages_ok (wide : WideShift) (root skeleton : Json) (s s1 : State)
    (h : convert_stages wide root skeleton s = Res.ok () s1) :
    ∃ bones vcBones slots vcSlots vcIK vcTransform vcPaths skins vcSkins vcEvents,
      Json_getItem root "bones" = some bones ∧ 0 < bones.size ∧
      process_bones bones = some vcBones ∧
      Json_getItem root "slots" = some slots ∧ 0 < slots.size ∧
      Json_getItem root "skins" = some skins ∧ 0 < skins.size ∧
      Ran (push_bones wide vcBones 0) () s s1 ∧
      Ran (forAcc slots.child [] (push_slot wide vcBones)) vcSlots s s1 ∧
      Ran (forAcc (children (Json_getItem root "ik")) [] (push_ik wide vcBones)) vcIK s s1 ∧
      Ran (forAcc (children (Json_getItem root "transform")) [] (push_transform wide vcBones))
        vcTransform s s1 ∧
      Ran (forAcc (children (Json_getItem root "path")) [] (push_path wide vcBones vcSlots))
        vcPaths s s1 ∧
      Ran (push_skins wide vcSlots skins) vcSkins s s1 ∧
      Ran (forAcc (children (Json_getItem root "events")) [] (push_event wide)) vcEvents
        s s1 ∧
      Ran (forEach (children (Json_getItem root "animations"))
        (push_animation wide vcSlots vcBones vcIK vcTransform vcPaths vcSkins vcEvents)) ()
        s s1 := by
  unfold convert_stages at h
  dsimp only at h
  obtain ⟨_, t1, _, g1, h⟩ := step_ok (sound_push_float _) h
  obtain ⟨_, t2, _, g2, h⟩ := step_ok (sound_push_float _) h
  obtain ⟨_, t3, _, g3, h⟩ := step_ok (sound_push_boolen _) h
  obtain ⟨bones, t4, r4, g4, h⟩ := step_ok (sound_require_items _ _) h
  obtain ⟨hb1, hb2, _⟩ := require_items_ok r4
  obtain ⟨vcBones, t5, r5, g5, h⟩ := step_ok (sound_defined _) h
  obtain ⟨hv, _⟩ := defined_ok r5
  obtain ⟨_, t6, _, g6, h⟩ := step_ok (sound_push_varint _ _ _) h
  obtain ⟨_, t7, r7, g7, h⟩ := step_ok (sound_push_bones _ _ _) h
  obtain ⟨slots, t8, r8, g8, h⟩ := step_ok (sound_require_items _ _) h
  obtain ⟨hs1, hs2, _⟩ := require_items_ok r8
  obtain ⟨_, t9, _, g9, h⟩ := step_ok (sound_push_varint _ _ _) h
  obtain ⟨vcSlots, t10, r10, g10, h⟩ :=
    step_ok (sound_forAcc _ _ _ fun a x => sound_push_slot wide vcBones a x) h
  obtain ⟨_, t11, _, g11, h⟩ := step_ok (sound_push_varint _ _ _) h
  obtain ⟨vcIK, t12, r12, g12, h⟩ :=
    step_ok (sound_forAcc _ _ _ fun a x => sound_push_ik wide vcBones a x) h
  obtain ⟨_, t13, _, g13, h⟩ := step_ok (sound_push_varint _ _ _) h
  obtain ⟨vcTransform, t14, r14, g14, h⟩ :=
    step_ok (sound_forAcc _ _ _ fun a x => sound_push_transform wide vcBones a x) h
  obtain ⟨_, t15, _, g15, h⟩ := step_ok (sound_push_varint _ _ _) h
  obtain ⟨vcPaths, t16, r16, g16, h⟩ :=
    step_ok (sound_forAcc _ _ _ fun a x => sound_push_path wide vcBones vcSlots a x) h
  obtain ⟨skins, t17, r17, g17, h⟩ := step_ok (sound_require_items _ _) h
  obtain ⟨hk1, hk2, _⟩ := require_items_ok r17
  obtain ⟨vcSkins, t18, r18, g18, h⟩ := step_ok (sound_push_skins wide vcSlots skins) h
  obtain ⟨_, t19, _, g19, h⟩ := step_ok (sound_push_varint _ _ _) h
  obtain ⟨vcEvents, t20, r20, g20, h⟩ :=
    step_ok (sound_forAcc _ _ _ fun a x => sound_push_event wide a x) h
  obtain ⟨_, t21, _, g21, h⟩ := step_ok (sound_push_varint _ _ _) h
  have g22 : Grows t21 s1 := grows_ok (sound_forEach _ _ fun x =>
    sound_push_animation wide vcSlots vcBones vcIK vcTransform vcPaths vcSkins vcEvents x) h
  have p6 : Grows s t6 :=
    grows_trans (grows_trans (grows_trans (grows_trans (grows_trans g1 g2) g3) g4) g5) g6
  have p9 : Grows s t9 := grows_trans (grows_trans (grows_trans p6 g7) g8) g9
  have p11 : Grows s t11 := grows_trans (grows_trans p9 g10) g11
  have p13 : Grows s t13 := grows_trans (grows_trans p11 g12) g13
  have p15 : Grows s t15 := grows_trans (grows_trans p13 g14) g15
  have p17 : Grows s t17 := grows_trans (grows_trans p15 g16) g17
  have p19 : Grows s t19 := grows_trans (grows_trans p17 g18) g19
  have p21 : Grows s t21 := grows_trans (grows_trans p19 g20) g21
  have q20 : Grows t20 s1 := grows_trans g21 g22
  have q18 : Grows t18 s1 := grows_trans (grows_trans g19 g20) q20
  have q16 : Grows t16 s1 := grows_trans (grows_trans g17 g18) q18
  have q14 : Grows t14 s1 := grows_trans (grows_trans g15 g16) q16
  have q12 : Grows t12 s1 := grows_trans (grows_trans g13 g14) q14
  have q10 : Grows t10 s1 := grows_trans (grows_trans g11 g12) q12
  have q7 : Grows t7 s1 := grows_trans (grows_trans (grows_trans g8 g9) g10) q10
  exact ⟨bones, vcBones, slots, vcSlots, vcIK, vcTransform, vcPaths, skins, vcSkins, vcEvents,
    hb1, hb2, hv, hs1, hs2, hk1, hk2, ⟨t6, t7, r7, p6, q7⟩, ⟨t9, t10, r10, p9, q10⟩,
    ⟨t11, t12, r12, p11, q12⟩, ⟨t13, t14, r14, p13, q14⟩, ⟨t15, t16, r16, p15, q16⟩,
    ⟨t17, t18, r18, p17, q18⟩, ⟨t19, t20, r20, p19, q20⟩, ⟨t21, s1, h, p21, grows_refl s1⟩⟩

theorem parse_animation_eq (wide : WideShift) (animation : Json) (vcSlots : List String)
    (vcBones : List BoneData) (vcIK vcTransform vcPaths vcSkins : List String)
    (vcEvents : List EventData) :
    parse_animation wide animation vcSlots vcBones vcIK vcTransform vcPaths vcSkins vcEvents =
      (do
        push_varint wide (sizeOrZero (Json_getItem animation "slots")) true
        forEach (children (Json_getItem animation "slots")) (slot_entry wide vcSlots)
        push_varint wide (sizeOrZero (Json_getItem animation "bones")) true
        forEach (children (Json_getItem animation "bones")) (bone_entry wide vcBones)
        push_varint wide (sizeOrZero (Json_getItem animation "ik")) true
        forEach (children (Json_getItem animation "ik")) (ik_entry wide vcIK)
        push_varint wide (sizeOrZero (Json_getItem animation "transform")) true
        forEach (children (Json_getItem animation "transform"))
          (transform_entry wide vcTransform)
        push_varint wide (sizeOrZero (Json_getItem animation "paths")) true
        forEach (children (Json_getItem animation "paths")) (path_entry wide vcPaths)
        push_varint wide (sizeOrZero (Json_getItem animation "deform")) true
        forEach (children (Json_getItem animation "deform"))
          (deform_entry wide vcSkins vcSlots)
        push_varint wide (sizeOrZero (Json_getItem animation "drawOrder")) true
        forEach (children (Json_getItem animation "drawOrder"))
          (draw_order_frame wide vcSlots)
        push_varint wide (sizeOrZero (Json_getItem animation "events")) true
        forEach (children (Json_getItem animation "events")) (event_frame wide vcEvents)
        ret 0) := rfl

theorem sound_ik_frame (v : Json) (next : Bool) : Sound (ik_frame v next) :=
  (sound_frames v next).2.2.2.2.2.2.1

theorem sound_transform_frame (v : Json) (next : Bool) : Sound (transform_frame v next) :=
  (sound_frames v next).2.2.2.2.2.2.2

theorem sound_slot_entry (wide : WideShift) (vcSlots : List String) (slotMap : Json) :
    Sound (slot_entry wide vcSlots slotMap) := by
  unfold slot_entry
  repeat' first
    | with_reducible exact sound_defined _
    | with_reducible exact sound_resolve_string _ _ _ (by decide)
    | with_reducible exact sound_push_varint _ _ _
    | with_reducible exact sound_forEach _ _ (sound_slot_timeline wide)
    | with_reducible apply sound_bind
    | intro _

theorem sound_bone_entry (wide : WideShift) (vcBones : List BoneData) (boneMap : Json) :
    Sound (bone_entry wide vcBones boneMap) := by
  unfold bone_entry
  repeat' first
    | with_reducible exact sound_defined _
    | with_reducible exact sound_resolve_bone _ _ _ (by decide)
    | with_reducible exact sound_push_varint _ _ _
    | with_reducible exact sound_forEach _ _ (sound_bone_timeline wide)
    | with_reducible apply sound_bind
    | intro _

theorem sound_ik_entry (wide : WideShift) (vcIK : List String) (ikMap : Json) :
    Sound (ik_entry wide vcIK ikMap) := by
  unfold ik_entry
  repeat' first
    | with_reducible exact sound_defined _
    | with_reducible exact sound_resolve_string _ _ _ (by decide)
    | with_reducible exact sound_push_varint _ _ _
    | with_reducible exact sound_forFrames _ _ sound_ik_frame
    | with_reducible apply sound_bind
    | intro _

theorem sound_transform_entry (wide : WideShift) (vcTransform : List String)
    (transMap : Json) : Sound (transform_entry wide vcTransform transMap) := by
  unfold transform_entry
  repeat' first
    | with_reducible exact sound_defined _
    | with_reducible exact sound_resolve_string _ _ _ (by decide)
    | with_reducible exact sound_push_varint _ _ _
    | with_reducible exact sound_forFrames _ _ sound_transform_frame
    | with_reducible apply sound_bind
    | intro _

theorem sound_path_entry (wide : WideShift) (vcPaths : List String) (pathMap : Json) :
    Sound (path_entry wide vcPaths pathMap) := by
  unfold path_entry
  repeat' first
    | with_reducible exact sound_defined _
    | with_reducible exact sound_resolve_string _ _ _ (by decide)
    | with_reducible exact sound_push_varint _ _ _
    | with_reducible exact sound_forEach _ _ (sound_path_timeline wide)
    | with_reducible apply sound_bind
    | intro _

theorem sound_deform_timeline (wide : WideShift) (timelineMap : Json) :
    Sound (deform_timeline wide timelineMap) := by
  unfold deform_timeline
  repeat' first
    | with_reducible exact sound_push_string _ _
    | with_reducible exact sound_push_varint _ _ _
    | with_reducible exact sound_forFrames _ _ (sound_deform_frame wide)
    | with_reducible apply sound_bind
    | intro _

theorem sound_deform_slot_entry (wide : WideShift) (vcSlots : List String) (slotMap : Json) :
    Sound (deform_slot_entry wide vcSlots slotMap) := by
  unfold deform_slot_entry
  repeat' first
    | with_reducible exact sound_defined _
    | with_reducible exact sound_resolve_string _ _ _ (by decide)
    | with_reducible exact sound_push_varint _ _ _
    | with_reducible exact sound_forEach _ _ (sound_deform_timeline wide)
    | with_reducible apply sound_bind
    | intro _

theorem sound_deform_entry (wide : WideShift) (vcSkins vcSlots : List String)
    (deformMap : Json) : Sound (deform_entry wide vcSkins vcSlots deformMap) := by
  unfold deform_entry
  repeat' first
    | with_reducible exact sound_defined _
    | with_reducible exact sound_resolve_string _ _ _ (by decide)
    | with_reducible exact sound_push_varint _ _ _
    | with_reducible exact sound_forEach _ _ (sound_deform_slot_entry wide vcSlots)
    | with_reducible apply sound_bind
    | intro _

theorem sound_draw_order_frame (wide : WideShift) (vcSlots : List String) (valueMap : Json) :
    Sound (draw_order_frame wide vcSlots valueMap) := by
  unfold draw_order_frame
  repeat' first
    | with_reducible exact sound_push_float _
    | with_reducible exact sound_push_varint _ _ _
    | with_reducible exact sound_forEach _ _ (sound_offset_entry wide vcSlots)
    | with_reducible apply sound_bind
    | intro _

theorem ret_zero_run {s s1 : State} {c : Int} (h : (ret 0 : M Int) s = Res.ret c s1) :
    c = 0 ∧ s1 = s := by
  simp only [ret, Res.ret.injEq] at h
  exact ⟨h.1.symm, h.2.symm⟩

theorem returns_timelines (wide : WideShift) (timelineMap : Json) :
    Returns (fun c => c < 0) (slot_timeline wide timelineMap) ∧
      Returns (fun c => c < 0) (bone_timeline wide timelineMap) ∧
      Returns (fun c => c < 0) (path_timeline wide timelineMap) :=
  ⟨returns_mono (returns_slot_timeline wide timelineMap) fun c h => by subst h; decide,
    returns_mono (returns_bone_timeline wide timelineMap) fun c h => by subst h; decide,
    returns_mono (returns_path_timeline wide timelineMap) fun c h => by subst h; decide⟩

theorem returns_slot_entry (wide : WideShift) (vcSlots : List String) (slotMap : Json) :
    Returns (fun c => c < 0) (slot_entry wide vcSlots slotMap) := by
  unfold slot_entry
  repeat' first
    | with_reducible exact returns_defined _ _
    | with_reducible exact returns_resolve_string _ _ _ _ (by decide)
    | with_reducible exact returns_push_varint _ _ _ _
    | with_reducible exact returns_forEach _ _ _ fun t => (returns_timelines wide t).1
    | with_reducible apply returns_bind
    | intro _

theorem returns_bone_entry (wide : WideShift) (vcBones : List BoneData) (boneMap : Json) :
    Returns (fun c => c < 0) (bone_entry wide vcBones boneMap) := by
  unfold bone_entry
  repeat' first
    | with_reducible exact returns_defined _ _
    | with_reducible exact returns_resolve_bone _ _ _ _ (by decide)
    | with_reducible exact returns_push_varint _ _ _ _
    | with_reducible exact returns_forEach _ _ _ fun t => (returns_timelines wide t).2.1
    | with_reducible apply returns_bind
    | intro _

theorem returns_ik_entry (wide : WideShift) (vcIK : List String) (ikMap : Json) :
    Returns (fun c => c < 0) (ik_entry wide vcIK ikMap) := by
  unfold ik_entry
  repeat' first
    | with_reducible exact returns_defined _ _
    | with_reducible exact returns_resolve_string _ _ _ _ (by decide)
    | with_reducible exact returns_push_varint _ _ _ _
    | with_reducible exact returns_forFrames _ _ _ fun v b => (returns_frames _ v b).2.2.2.2.2.2.1
    | with_reducible apply returns_bind
    | intro _

theorem returns_transform_entry (wide : WideShift) (vcTransform : List String)
    (transMap : Json) : Returns (fun c => c < 0) (transform_entry wide vcTransform transMap) := by
  unfold transform_entry
  repeat' first
    | with_reducible exact returns_defined _ _
    | with_reducible exact returns_resolve_string _ _ _ _ (by decide)
    | with_reducible exact returns_push_varint _ _ _ _
    | with_reducible exact returns_forFrames _ _ _ fun v b => (returns_frames _ v b).2.2.2.2.2.2.2
    | with_reducible apply returns_bind
    | intro _

theorem returns_path_entry (wide : WideShift) (vcPaths : List String) (pathMap : Json) :
    Returns (fun c => c < 0) (path_entry wide vcPaths pathMap) := by
  unfold path_entry
  repeat' first
    | with_reducible exact returns_defined _ _
    | with_reducible exact returns_resolve_string _ _ _ _ (by decide)
    | with_reducible exact returns_push_varint _ _ _ _
    | with_reducible exact returns_forEach _ _ _ fun t => (returns_timelines wide t).2.2
    | with_reducible apply returns_bind
    | intro _

theorem returns_deform_timeline (P : Int → Prop) (wide : WideShift) (timelineMap : Json) :
    Returns P (deform_timeline wide timelineMap) := by
  unfold deform_timeline
  repeat' first
    | with_reducible exact returns_push_string _ _ _
    | with_reducible exact returns_push_varint _ _ _ _
    | with_reducible exact returns_forFrames _ _ _ (returns_deform_frame _ _)
    | with_reducible apply returns_bind
    | intro _

theorem returns_deform_slot_entry (wide : WideShift) (vcSlots : List String)
    (slotMap : Json) : Returns (fun c => c < 0) (deform_slot_entry wide vcSlots slotMap) := by
  unfold deform_slot_entry
  repeat' first
    | with_reducible exact returns_defined _ _
    | with_reducible exact returns_resolve_string _ _ _ _ (by decide)
    | with_reducible exact returns_push_varint _ _ _ _
    | with_reducible exact returns_forEach _ _ _ (returns_deform_timeline _ wide)
    | with_reducible apply returns_bind
    | intro _

theorem returns_deform_entry (wide : WideShift) (vcSkins vcSlots : List String)
    (deformMap : Json) :
    Returns (fun c => c < 0) (deform_entry wide vcSkins vcSlots deformMap) := by
  unfold deform_entry
  repeat' first
    | with_reducible exact returns_defined _ _
    | with_reducible exact returns_resolve_string _ _ _ _ (by decide)
    | with_reducible exact returns_push_varint _ _ _ _
    | with_reducible exact returns_forEach _ _ _ (returns_deform_slot_entry wide vcSlots)
    | with_reducible apply returns_bind
    | intro _

theorem returns_draw_order_frame (wide : WideShift) (vcSlots : List String)
    (valueMap : Json) : Returns (fun c => c < 0) (draw_order_frame wide vcSlots valueMap) := by
  unfold draw_order_frame
  repeat' first
    | with_reducible exact returns_push_float _ _
    | with_reducible exact returns_push_varint _ _ _ _
    | with_reducible exact returns_forEach _ _ _ fun t => returns_mono (returns_offset_entry wide vcSlots t) fun c h => by subst h; decide
    | with_reducible apply returns_bind
    | intro _

theorem returns_event_neg (wide : WideShift) (vcEvents : List EventData) (valueMap : Json) :
    Returns (fun c => c < 0) (event_frame wide vcEvents valueMap) :=
  returns_mono (returns_event_frame wide vcEvents valueMap)
    fun c h => by rcases h with h | h <;> (subst h; decide)

theorem parse_animation_ran (wide : WideShift) (animation : Json) (vcSlots : List String)
    (vcBones : List BoneData) (vcIK vcTransform vcPaths vcSkins : List String)
    (vcEvents : List EventData) (s s1 : State)
    (h : parse_animation wide animation vcSlots vcBones vcIK vcTransform vcPaths vcSkins
      vcEvents s = Res.ret 0 s1) :
    (∀ x ∈ children (Json_getItem animation "slots"), Ran (slot_entry wide vcSlots x) () s s1) ∧
    (∀ x ∈ children (Json_getItem animation "bones"), Ran (bone_entry wide vcBones x) () s s1) ∧
    (∀ x ∈ children (Json_getItem animation "ik"), Ran (ik_entry wide vcIK x) () s s1) ∧
    (∀ x ∈ children (Json_getItem animation "transform"),
      Ran (transform_entry wide vcTransform x) () s s1) ∧
    (∀ x ∈ children (Json_getItem animation "paths"), Ran (path_entry wide vcPaths x) () s s1) ∧
    (∀ x ∈ children (Json_getItem animation "deform"),
      Ran (deform_entry wide vcSkins vcSlots x) () s s1) ∧
    (∀ x ∈ children (Json_getItem animation "drawOrder"),
      Ran (draw_order_frame wide vcSlots x) () s s1) ∧
    (∀ x ∈ children (Json_getItem animation "events"),
      Ran (event_frame wide vcEvents x) () s s1) := by
  have neg : ∀ {α : Type} {m : M α} {t : State}, Returns (fun c => c < 0) m →
      m t = Res.ret 0 s1 → False :=
    fun hm ht => absurd (hm.code _ _ _ ht) (by decide)
  have no : ∀ {α : Type} {m : M α} {t : State},
      Returns (fun _ => False) m → m t = Res.ret 0 s1 → False :=
    fun hm ht => hm.code _ _ _ ht
  rw [parse_animation_eq] at h
  rcases step_ret (sound_push_varint _ _ _) h with h1 | ⟨_, t1, _, g1, h⟩
  · exact (no (returns_push_varint _ _ _ _) h1).elim
  rcases step_ret (sound_forEach _ _ (sound_slot_entry wide vcSlots)) h with
    h1 | ⟨_, t2, r2, g2, h⟩
  · exact (neg (returns_forEach _ _ _ (returns_slot_entry wide vcSlots)) h1).elim
  rcases step_ret (sound_push_varint _ _ _) h with h1 | ⟨_, t3, _, g3, h⟩
  · exact (no (returns_push_varint _ _ _ _) h1).elim
  rcases step_ret (sound_forEach _ _ (sound_bone_entry wide vcBones)) h with
    h1 | ⟨_, t4, r4, g4, h⟩
  · exact (neg (returns_forEach _ _ _ (returns_bone_entry wide vcBones)) h1).elim
  rcases step_ret (sound_push_varint _ _ _) h with h1 | ⟨_, t5, _, g5, h⟩
  · exact (no (returns_push_varint _ _ _ _) h1).elim
  rcases step_ret (sound_forEach _ _ (sound_ik_entry wide vcIK)) h with
    h1 | ⟨_, t6, r6, g6, h⟩
  · exact (neg (returns_forEach _ _ _ (returns_ik_entry wide vcIK)) h1).elim
  rcases step_ret (sound_push_varint _ _ _) h with h1 | ⟨_, t7, _, g7, h⟩
  · exact (no (returns_push_varint _ _ _ _) h1).elim
  rcases step_ret (sound_forEach _ _ (sound_transform_entry wide vcTransform)) h with
    h1 | ⟨_, t8, r8, g8, h⟩
  · exact (neg (returns_forEach _ _ _ (returns_transform_entry wide vcTransform)) h1).elim
  rcases step_ret (sound_push_varint _ _ _) h with h1 | ⟨_, t9, _, g9, h⟩
  · exact (no (returns_push_varint _ _ _ _) h1).elim
  rcases step_ret (sound_forEach _ _ (sound_path_entry wide vcPaths)) h with
    h1 | ⟨_, t10, r10, g10, h⟩
  · exact (neg (returns_forEach _ _ _ (returns_path_entry wide vcPaths)) h1).elim
  rcases step_ret (sound_push_varint _ _ _) h with h1 | ⟨_, t11, _, g11, h⟩
  · exact (no (returns_push_varint _ _ _ _) h1).elim
  rcases step_ret (sound_forEach _ _ (sound_deform_entry wide vcSkins vcSlots)) h with
    h1 | ⟨_, t12, r12, g12, h⟩
  · exact (neg (returns_forEach _ _ _ (returns_deform_entry wide vcSkins vcSlots)) h1).elim
  rcases step_ret (sound_push_varint _ _ _) h with h1 | ⟨_, t13, _, g13, h⟩
  · exact (no (returns_push_varint _ _ _ _) h1).elim
  rcases step_ret (sound_forEach _ _ (sound_draw_order_frame wide vcSlots)) h with
    h1 | ⟨_, t14, r14, g14, h⟩
  · exact (neg (returns_forEach _ _ _ (returns_draw_order_frame wide vcSlots)) h1).elim
  rcases step_ret (sound_push_varint _ _ _) h with h1 | ⟨_, t15, _, g15, h⟩
  · exact (no (returns_push_varint _ _ _ _) h1).elim
  rcases step_ret (sound_forEach _ _ (sound_event_frame wide vcEvents)) h with
    h1 | ⟨_, t16, r16, g16, h⟩
  · exact (neg (returns_forEach _ _ _ (returns_event_neg wide vcEvents)) h1).elim
  obtain ⟨_, he⟩ := ret_zero_run h
  subst he
  have p3 : Grows s t3 := grows_trans (grows_trans g1 g2) g3
  have p5 : Grows s t5 := grows_trans (grows_trans p3 g4) g5
  have p7 : Grows s t7 := grows_trans (grows_trans p5 g6) g7
  have p9 : Grows s t9 := grows_trans (grows_trans p7 g8) g9
  have p11 : Grows s t11 := grows_trans (grows_trans p9 g10) g11
  have p13 : Grows s t13 := grows_trans (grows_trans p11 g12) g13
  have p15 : Grows s t15 := grows_trans (grows_trans p13 g14) g15
  have q14 : Grows t14 s1 := grows_trans g15 g16
  have q12 : Grows t12 s1 := grows_trans (grows_trans g13 g14) q14
  have q10 : Grows t10 s1 := grows_trans (grows_trans g11 g12) q12
  have q8 : Grows t8 s1 := grows_trans (grows_trans g9 g10) q10
  have q6 : Grows t6 s1 := grows_trans (grows_trans g7 g8) q8
  have q4 : Grows t4 s1 := grows_trans (grows_trans g5 g6) q6
  have q2 : Grows t2 s1 := grows_trans (grows_trans g3 g4) q4
  exact ⟨fun x hx => ran_mono (forEach_ran _ _ (sound_slot_entry wide vcSlots) r2 x hx) g1 q2,
    fun x hx => ran_mono (forEach_ran _ _ (sound_bone_entry wide vcBones) r4 x hx) p3 q4,
    fun x hx => ran_mono (forEach_ran _ _ (sound_ik_entry wide vcIK) r6 x hx) p5 q6,
    fun x hx => ran_mono (forEach_ran _ _ (sound_transform_entry wide vcTransform) r8 x hx)
      p7 q8,
    fun x hx => ran_mono (forEach_ran _ _ (sound_path_entry wide vcPaths) r10 x hx) p9 q10,
    fun x hx => ran_mono (forEach_ran _ _ (sound_deform_entry wide vcSkins vcSlots) r12 x hx)
      p11 q12,
    fun x hx => ran_mono (forEach_ran _ _ (sound_draw_order_frame wide vcSlots) r14 x hx)
      p13 q14,
    fun x hx => ran_mono (forEach_ran _ _ (sound_event_frame wide vcEvents) r16 x hx)
      p15 (grows_refl _)⟩

theorem push_constraint_bones_eq (wide : WideShift) (vcBones : List BoneData) (code : Int)
    (bones : Json) :
    push_constraint_bones wide vcBones code bones =
      forEach bones.child (constraint_bone wide vcBones code) := rfl

theorem resolved_bone (vcBones : List BoneData) (name : String)
    (h : find_bone vcBones name ≠ -1) :
    Lookup.Resolved ⟨boneNames vcBones, name, find_bone vcBones name⟩ := by
  have he : find_bone vcBones name = find_string (boneNames vcBones) name :=
    find_bone_loop_eq name vcBones 0
  rw [he] at h ⊢
  exact resolved_find _ name h

theorem resolved_event (vcEvents : List EventData) (name : String)
    (h : find_event_loop name vcEvents 0 ≠ -1) :
    Lookup.Resolved ⟨vcEvents.map fun e => e.name, name, find_event_loop name vcEvents 0⟩ := by
  have he : find_event_loop name vcEvents 0 =
      find_string (vcEvents.map fun e => e.name) name := find_event_loop_eq name vcEvents 0
  rw [he] at h ⊢
  exact resolved_find _ name h

theorem site_of_ran {α : Type} {wide : WideShift} {m : M α} {table : List String}
    {name : Option String} {find : String → Int} {pre : List Nat} {a : α} {s s1 : State}
    (hr : Ran m a s s1)
    (hs : ∀ t t1, m t = Res.ok a t1 → ∃ n post, name = some n ∧
      Lookup.Resolved ⟨table, n, find n⟩ ∧
      t1.buff_data = t.buff_data ++ pre ++ varint_loop wide (toU32 (find n)) 5 0 ++ post) :
    Site wide m table name find pre s s1 := by
  obtain ⟨t, t1, hrun, g1, g2⟩ := hr
  obtain ⟨n, post, h1, h2, h3⟩ := hs t t1 hrun
  exact ⟨n, t, a, t1, post, h1, h2, hrun, g1, g2, h3⟩

theorem site_mono {α : Type} {wide : WideShift} {m : M α} {table : List String}
    {name : Option String} {find : String → Int} {pre : List Nat} {s t t1 s1 : State}
    (h : Site wide m table name find pre t t1) (h1 : Grows s t) (h2 : Grows t1 s1) :
    Site wide m table name find pre s s1 := by
  obtain ⟨n, u, a, u1, post, e1, e2, e3, g1, g2, e4⟩ := h
  exact ⟨n, u, a, u1, post, e1, e2, e3, grows_trans h1 g1, grows_trans g2 h2, e4⟩

theorem indexed_ok (wide : WideShift) (table : List String) (name : Option String)
    (code size : Int) (rest : M Unit) {s s1 : State}
    (h : (do
      let i ← resolve_string table (← defined name) code
      push_varint wide i true
      push_varint wide size true
      rest : M Unit) s = Res.ok () s1) :
    ∃ n u, name = some n ∧ find_string table n ≠ -1 ∧ u.all_atlas = s.all_atlas ∧
      u.buff_data = s.buff_data ++ varint_loop wide (toU32 (find_string table n)) 5 0 ++
        varint_loop wide (toU32 size) 5 0 ∧
      rest u = Res.ok () s1 := by
  obtain ⟨n, s2, h1, k1⟩ := bind_ok_inv h
  obtain ⟨e1, e2⟩ := defined_ok h1
  subst e2
  obtain ⟨i, s3, h2, k2⟩ := bind_ok_inv k1
  obtain ⟨e3, e4, e5, e6⟩ := resolve_string_ok h2
  obtain ⟨_, s4, h3, k3⟩ := bind_ok_inv k2
  obtain ⟨e7, e8⟩ := push_varint_ok h3
  obtain ⟨_, s5, h4, k4⟩ := bind_ok_inv k3
  obtain ⟨e9, e10⟩ := push_varint_ok h4
  refine ⟨n, s5, e1, by rw [← e3]; exact e4, by rw [e10, e8, e6], ?_, k4⟩
  rw [e9, e7, e5, e3]

theorem indexed_bone_ok (wide : WideShift) (vcBones : List BoneData) (name : Option String)
    (code size : Int) (rest : M Unit) {s s1 : State}
    (h : (do
      let i ← resolve_bone vcBones (← defined name) code
      push_varint wide i true
      push_varint wide size true
      rest : M Unit) s = Res.ok () s1) :
    ∃ n u, name = some n ∧ find_bone vcBones n ≠ -1 ∧ u.all_atlas = s.all_atlas ∧
      u.buff_data = s.buff_data ++ varint_loop wide (toU32 (find_bone vcBones n)) 5 0 ++
        varint_loop wide (toU32 size) 5 0 ∧
      rest u = Res.ok () s1 := by
  obtain ⟨n, s2, h1, k1⟩ := bind_ok_inv h
  obtain ⟨e1, e2⟩ := defined_ok h1
  subst e2
  obtain ⟨i, s3, h2, k2⟩ := bind_ok_inv k1
  obtain ⟨e3, e4, e5, e6⟩ := resolve_bone_ok h2
  obtain ⟨_, s4, h3, k3⟩ := bind_ok_inv k2
  obtain ⟨e7, e8⟩ := push_varint_ok h3
  obtain ⟨_, s5, h4, k4⟩ := bind_ok_inv k3
  obtain ⟨e9, e10⟩ := push_varint_ok h4
  refine ⟨n, s5, e1, by rw [← e3]; exact e4, by rw [e10, e8, e6], ?_, k4⟩
  rw [e9, e7, e5, e3]

theorem grows_of {s u : State} {bs : List Nat} (h1 : u.all_atlas = s.all_atlas)
    (h2 : u.buff_data = s.buff_data ++ bs) : Grows s u := ⟨h1, bs, h2⟩

theorem slot_entry_ok (wide : WideShift) (vcSlots : List String) (slotMap : Json)
    {s s1 : State} (h : slot_entry wide vcSlots slotMap s = Res.ok () s1) :
    ∃ n u, slotMap.name = some n ∧ find_string vcSlots n ≠ -1 ∧ u.all_atlas = s.all_atlas ∧
      u.buff_data = s.buff_data ++ varint_loop wide (toU32 (find_string vcSlots n)) 5 0 ++
        varint_loop wide (toU32 slotMap.size) 5 0 ∧
      forEach slotMap.child (slot_timeline wide) u = Res.ok () s1 :=
  indexed_ok wide vcSlots slotMap.name (-1) slotMap.size _ h

theorem bone_entry_ok (wide : WideShift) (vcBones : List BoneData) (boneMap : Json)
    {s s1 : State} (h : bone_entry wide vcBones boneMap s = Res.ok () s1) :
    ∃ n u, boneMap.name = some n ∧ find_bone vcBones n ≠ -1 ∧ u.all_atlas = s.all_atlas ∧
      u.buff_data = s.buff_data ++ varint_loop wide (toU32 (find_bone vcBones n)) 5 0 ++
        varint_loop wide (toU32 boneMap.size) 5 0 ∧
      forEach boneMap.child (bone_timeline wide) u = Res.ok () s1 :=
  indexed_bone_ok wide vcBones boneMap.name (-3) boneMap.size _ h

theorem ik_entry_ok (wide : WideShift) (vcIK : List String) (ikMap : Json)
    {s s1 : State} (h : ik_entry wide vcIK ikMap s = Res.ok () s1) :
    ∃ n u, ikMap.name = some n ∧ find_string vcIK n ≠ -1 ∧ u.all_atlas = s.all_atlas ∧
      u.buff_data = s.buff_data ++ varint_loop wide (toU32 (find_string vcIK n)) 5 0 ++
        varint_loop wide (toU32 ikMap.size) 5 0 ∧
      forFrames ikMap.child ik_frame u = Res.ok () s1 :=
  indexed_ok wide vcIK ikMap.name (-5) ikMap.size _ h

theorem transform_entry_ok (wide : WideShift) (vcTransform : List String) (transMap : Json)
    {s s1 : State} (h : transform_entry wide vcTransform transMap s = Res.ok () s1) :
    ∃ n u, transMap.name = some n ∧ find_string vcTransform n ≠ -1 ∧
      u.all_atlas = s.all_atlas ∧
      u.buff_data = s.buff_data ++
        varint_loop wide (toU32 (find_string vcTransform n)) 5 0 ++
        varint_loop wide (toU32 transMap.size) 5 0 ∧
      forFrames transMap.child transform_frame u = Res.ok () s1 :=
  indexed_ok wide vcTransform transMap.name (-6) transMap.size _ h

theorem path_entry_ok (wide : WideShift) (vcPaths : List String) (pathMap : Json)
    {s s1 : State} (h : path_entry wide vcPaths pathMap s = Res.ok () s1) :
    ∃ n u, pathMap.name = some n ∧ find_string vcPaths n ≠ -1 ∧ u.all_atlas = s.all_atlas ∧
      u.buff_data = s.buff_data ++ varint_loop wide (toU32 (find_string vcPaths n)) 5 0 ++
        varint_loop wide (toU32 pathMap.size) 5 0 ∧
      forEach pathMap.child (path_timeline wide) u = Res.ok () s1 :=
  indexed_ok wide vcPaths pathMap.name (-7) pathMap.size _ h

theorem deform_entry_ok (wide : WideShift) (vcSkins vcSlots : List String) (deformMap : Json)
    {s s1 : State} (h : deform_entry wide vcSkins vcSlots deformMap s = Res.ok () s1) :
    ∃ n u, deformMap.name = some n ∧ find_string vcSkins n ≠ -1 ∧ u.all_atlas = s.all_atlas ∧
      u.buff_data = s.buff_data ++ varint_loop wide (toU32 (find_string vcSkins n)) 5 0 ++
        varint_loop wide (toU32 deformMap.size) 5 0 ∧
      forEach deformMap.child (deform_slot_entry wide vcSlots) u = Res.ok () s1 :=
  indexed_ok wide vcSkins deformMap.name (-9) deformMap.size _ h

theorem deform_slot_entry_ok (wide : WideShift) (vcSlots : List String) (slotMap : Json)
    {s s1 : State} (h : deform_slot_entry wide vcSlots slotMap s = Res.ok () s1) :
    ∃ n u, slotMap.name = some n ∧ find_string vcSlots n ≠ -1 ∧ u.all_atlas = s.all_atlas ∧
      u.buff_data = s.buff_data ++ varint_loop wide (toU32 (find_string vcSlots n)) 5 0 ++
        varint_loop wide (toU32 slotMap.size) 5 0 ∧
      forEach slotMap.child (deform_timeline wide) u = Res.ok () s1 :=
  indexed_ok wide vcSlots slotMap.name (-10) slotMap.size _ h

theorem curves_of_ran (wide : WideShift) (frames : List Json) (body : Json → Bool → M Unit)
    (hb : isCurveFrame wide body) {s s1 : State} (h : Ran (forFrames frames body) () s s1) :
    Curves frames body s s1 := by
  obtain ⟨t, t1, hrun, g1, g2⟩ := h
  obtain ⟨_, h2, h3⟩ := frames_bytes wide body hb frames t t1 hrun
  refine ⟨t, t1, _, g1, g2, hrun, ?_, ?_, rfl, h3⟩
  · rw [List.length_map, List.length_dropLast]
  · intro curve hc
    obtain ⟨v, hv, hvc⟩ := List.mem_map.1 hc
    rw [← hvc]
    exact h2 v hv

theorem slot_timeline_color (wide : WideShift) (timelineMap : Json) (s : State)
    (hn : timelineMap.name = some "color") :
    slot_timeline wide timelineMap s = forFrames timelineMap.child color_frame
      (s.append ([1] ++ varint_loop wide (toU32 timelineMap.size) 5 0)) := by
  unfold slot_timeline
  rw [hn, bind_ok (rfl : defined (some "color") s = Res.ok "color" s), if_neg (by decide),
    if_pos rfl, bind_ok (push_byte_run _ s), bind_ok (push_varint_true wide _ _),
    append_append]
  rfl

theorem slot_timeline_two_color (wide : WideShift) (timelineMap : Json) (s : State)
    (hn : timelineMap.name = some "twoColor") :
    slot_timeline wide timelineMap s = forFrames timelineMap.child two_color_frame
      (s.append ([2] ++ varint_loop wide (toU32 timelineMap.size) 5 0)) := by
  unfold slot_timeline
  rw [hn, bind_ok (rfl : defined (some "twoColor") s = Res.ok "twoColor" s),
    if_neg (by decide), if_neg (by decide), if_pos rfl, bind_ok (push_byte_run _ s),
    bind_ok (push_varint_true wide _ _), append_append]
  rfl

theorem bone_timeline_rotate (wide : WideShift) (timelineMap : Json) (s : State)
    (hn : timelineMap.name = some "rotate") :
    bone_timeline wide timelineMap s = forFrames timelineMap.child rotate_frame
      (s.append ([0] ++ varint_loop wide (toU32 timelineMap.size) 5 0)) := by
  unfold bone_timeline
  rw [hn, bind_ok (rfl : defined (some "rotate") s = Res.ok "rotate" s), if_pos rfl,
    bind_ok (push_byte_run _ s), bind_ok (push_varint_true wide _ _), append_append]
  rfl

theorem bone_timeline_translate (wide : WideShift) (timelineMap : Json) (s : State)
    (hn : timelineMap.name = some "translate") :
    bone_timeline wide timelineMap s = forFrames timelineMap.child translate_frame
      (s.append ([1] ++ varint_loop wide (toU32 timelineMap.size) 5 0)) := by
  unfold bone_timeline
  rw [hn, bind_ok (rfl : defined (some "translate") s = Res.ok "translate" s),
    if_neg (by decide), if_neg (by decide), if_pos rfl, bind_ok (push_byte_run _ s)]
  dsimp only
  rw [bind_ok (push_varint_true wide _ _), append_append]
  rfl

theorem bone_timeline_scale (wide : WideShift) (timelineMap : Json) (s : State)
    (hn : timelineMap.name = some "scale") :
    bone_timeline wide timelineMap s = forFrames timelineMap.child translate_frame
      (s.append ([2] ++ varint_loop wide (toU32 timelineMap.size) 5 0)) := by
  unfold bone_timeline
  rw [hn, bind_ok (rfl : defined (some "scale") s = Res.ok "scale" s),
    if_neg (by decide), if_pos rfl, bind_ok (push_byte_run _ s)]
  dsimp only
  rw [bind_ok (push_varint_true wide _ _), append_append]
  rfl

theorem bone_timeline_shear (wide : WideShift) (timelineMap : Json) (s : State)
    (hn : timelineMap.name = some "shear") :
    bone_timeline wide timelineMap s = forFrames timelineMap.child translate_frame
      (s.append ([3] ++ varint_loop wide (toU32 timelineMap.size) 5 0)) := by
  unfold bone_timeline
  rw [hn, bind_ok (rfl : defined (some "shear") s = Res.ok "shear" s),
    if_neg (by decide), if_neg (by decide), if_neg (by decide), if_pos rfl,
    bind_ok (push_byte_run _ s)]
  dsimp only
  rw [bind_ok (push_varint_true wide _ _), append_append]
  rfl

theorem path_timeline_position (wide : WideShift) (timelineMap : Json) (s : State)
    (hn : timelineMap.name = some "position") :
    path_timeline wide timelineMap s =
      forFrames timelineMap.child (path_value_frame "position")
        (s.append ([0] ++ varint_loop wide (toU32 timelineMap.size) 5 0)) := by
  unfold path_timeline
  rw [hn, bind_ok (rfl : defined (some "position") s = Res.ok "position" s),
    if_pos (Or.inl rfl), if_pos rfl, bind_ok (push_byte_run _ s)]
  dsimp only
  rw [bind_ok (push_varint_true wide _ _), append_append]
  rfl

theorem path_timeline_spacing (wide : WideShift) (timelineMap : Json) (s : State)
    (hn : timelineMap.name = some "spacing") :
    path_timeline wide timelineMap s =
      forFrames timelineMap.child (path_value_frame "spacing")
        (s.append ([1] ++ varint_loop wide (toU32 timelineMap.size) 5 0)) := by
  unfold path_timeline
  rw [hn, bind_ok (rfl : defined (some "spacing") s = Res.ok "spacing" s),
    if_pos (Or.inr rfl), if_neg (by decide), bind_ok (push_byte_run _ s)]
  dsimp only
  rw [bind_ok (push_varint_true wide _ _), append_append]
  rfl

theorem path_timeline_mix (wide : WideShift) (timelineMap : Json) (s : State)
    (hn : timelineMap.name = some "mix") :
    path_timeline wide timelineMap s = forFrames timelineMap.child path_mix_frame
      (s.append ([2] ++ varint_loop wide (toU32 timelineMap.size) 5 0)) := by
  unfold path_timeline
  rw [hn, bind_ok (rfl : defined (some "mix") s = Res.ok "mix" s),
    if_neg (by decide), if_pos rfl, bind_ok (push_byte_run _ s),
    bind_ok (push_varint_true wide _ _), append_append]
  rfl

theorem deform_timeline_run (wide : WideShift) (timelineMap : Json) (s : State) :
    deform_timeline wide timelineMap s = forFrames timelineMap.child (deform_frame wide)
      (s.append (opt_string_bytes wide timelineMap.name ++
        varint_loop wide (toU32 timelineMap.size) 5 0)) := by
  unfold deform_timeline
  rw [bind_ok (push_string_opt_run wide _ s), bind_ok (push_varint_true wide _ _),
    append_append]

theorem ran_at {α : Type} {m : M α} {a : α} {s t t1 s1 : State} (h : m t = Res.ok a t1)
    (h1 : Grows s t) (h2 : Grows t1 s1) : Ran m a s s1 := ⟨t, t1, h, h1, h2⟩

theorem ran_after {α β : Type} {m : M α} {n : M β} {a : α} {b : β} {bs : List Nat}
    {s s1 : State} (hm : Ran m a s s1)
    (he : ∀ t t1, m t = Res.ok a t1 → n (t.append bs) = Res.ok b t1) : Ran n b s s1 := by
  obtain ⟨t, t1, hrun, g1, g2⟩ := hm
  exact ⟨t.append bs, t1, he t t1 hrun, grows_trans g1 (grows_append t bs), g2⟩

theorem ran_inside {α β : Type} {m : M α} {a : α} {s s1 : State} {P : β → State → State → Prop}
    (hm : Ran m a s s1)
    (he : ∀ t t1, m t = Res.ok a t1 → ∃ b u u1, P b u u1 ∧ Grows t u ∧ Grows u1 t1) :
    ∃ b u u1, P b u u1 ∧ Grows s u ∧ Grows u1 s1 := by
  obtain ⟨t, t1, hrun, g1, g2⟩ := hm
  obtain ⟨b, u, u1, hp, k1, k2⟩ := he t t1 hrun
  exact ⟨b, u, u1, hp, grows_trans g1 k1, grows_trans k2 g2⟩

theorem ran_trans {α β : Type} {m : M α} {n : M β} {a : α} {b : β} {s s1 : State}
    (hm : Ran m a s s1) (he : ∀ t t1, m t = Res.ok a t1 → Ran n b t t1) : Ran n b s s1 := by
  obtain ⟨t, t1, hrun, g1, g2⟩ := hm
  exact ran_mono (he t t1 hrun) g1 g2

theorem slot_entry_timelines (wide : WideShift) (vcSlots : List String) (slotMap : Json)
    {s s1 : State} (h : slot_entry wide vcSlots slotMap s = Res.ok () s1) :
    ∀ tl ∈ slotMap.child, Ran (slot_timeline wide tl) () s s1 := by
  obtain ⟨n, u, _, _, e1, e2, hrest⟩ := slot_entry_ok wide vcSlots slotMap h
  intro tl htl
  exact ran_mono (forEach_ran _ _ (sound_slot_timeline wide) hrest tl htl)
    (grows_of e1 (by rw [e2, List.append_assoc])) (grows_refl s1)

theorem bone_entry_timelines (wide : WideShift) (vcBones : List BoneData) (boneMap : Json)
    {s s1 : State} (h : bone_entry wide vcBones boneMap s = Res.ok () s1) :
    ∀ tl ∈ boneMap.child, Ran (bone_timeline wide tl) () s s1 := by
  obtain ⟨n, u, _, _, e1, e2, hrest⟩ := bone_entry_ok wide vcBones boneMap h
  intro tl htl
  exact ran_mono (forEach_ran _ _ (sound_bone_timeline wide) hrest tl htl)
    (grows_of e1 (by rw [e2, List.append_assoc])) (grows_refl s1)

theorem path_entry_timelines (wide : WideShift) (vcPaths : List String) (pathMap : Json)
    {s s1 : State} (h : path_entry wide vcPaths pathMap s = Res.ok () s1) :
    ∀ tl ∈ pathMap.child, Ran (path_timeline wide tl) () s s1 := by
  obtain ⟨n, u, _, _, e1, e2, hrest⟩ := path_entry_ok wide vcPaths pathMap h
  intro tl htl
  exact ran_mono (forEach_ran _ _ (sound_path_timeline wide) hrest tl htl)
    (grows_of e1 (by rw [e2, List.append_assoc])) (grows_refl s1)

theorem ik_entry_frames (wide : WideShift) (vcIK : List String) (ikMap : Json)
    {s s1 : State} (h : ik_entry wide vcIK ikMap s = Res.ok () s1) :
    Ran (forFrames ikMap.child ik_frame) () s s1 := by
  obtain ⟨n, u, _, _, e1, e2, hrest⟩ := ik_entry_ok wide vcIK ikMap h
  exact ran_at hrest (grows_of e1 (by rw [e2, List.append_assoc])) (grows_refl s1)

theorem transform_entry_frames (wide : WideShift) (vcTransform : List String)
    (transMap : Json) {s s1 : State}
    (h : transform_entry wide vcTransform transMap s = Res.ok () s1) :
    Ran (forFrames transMap.child transform_frame) () s s1 := by
  obtain ⟨n, u, _, _, e1, e2, hrest⟩ := transform_entry_ok wide vcTransform transMap h
  exact ran_at hrest (grows_of e1 (by rw [e2, List.append_assoc])) (grows_refl s1)

theorem deform_entry_slots (wide : WideShift) (vcSkins vcSlots : List String)
    (deformMap : Json) {s s1 : State}
    (h : deform_entry wide vcSkins vcSlots deformMap s = Res.ok () s1) :
    ∀ slotMap ∈ deformMap.child, Ran (deform_slot_entry wide vcSlots slotMap) () s s1 := by
  obtain ⟨n, u, _, _, e1, e2, hrest⟩ := deform_entry_ok wide vcSkins vcSlots deformMap h
  intro x hx
  exact ran_mono (forEach_ran _ _ (sound_deform_slot_entry wide vcSlots) hrest x hx)
    (grows_of e1 (by rw [e2, List.append_assoc])) (grows_refl s1)

theorem deform_slot_entry_timelines (wide : WideShift) (vcSlots : List String)
    (slotMap : Json) {s s1 : State}
    (h : deform_slot_entry wide vcSlots slotMap s = Res.ok () s1) :
    ∀ tl ∈ slotMap.child, Ran (deform_timeline wide tl) () s s1 := by
  obtain ⟨n, u, _, _, e1, e2, hrest⟩ := deform_slot_entry_ok wide vcSlots slotMap h
  intro x hx
  exact ran_mono (forEach_ran _ _ (sound_deform_timeline wide) hrest x hx)
    (grows_of e1 (by rw [e2, List.append_assoc])) (grows_refl s1)

theorem timeline_frames {m : M Unit} {frames : List Json} {body : Json → Bool → M Unit}
    {bs : List Nat} {s s1 : State} (hm : Ran m () s s1)
    (he : ∀ t, m t = forFrames frames body (t.append bs)) :
    Ran (forFrames frames body) () s s1 :=
  ran_after hm fun t t1 ht => by rw [← he t]; exact ht

theorem resolve_event_ok {vcEvents : List EventData} {name : String} {code i : Int}
    {s s1 : State} (h : resolve_event vcEvents name code s = Res.ok i s1) :
    i = find_event_loop name vcEvents 0 ∧ i ≠ -1 ∧ s1.buff_data = s.buff_data ∧
      s1.all_atlas = s.all_atlas := by
  unfold resolve_event lookup_event at h
  simp only [bind_run, noted] at h
  by_cases hf : find_event_loop name vcEvents 0 = -1
  · simp [hf, ret] at h
  · simp only [hf, if_false, pure_run, Res.ok.injEq] at h
    obtain ⟨h1, h2⟩ := h
    subst h2
    exact ⟨h1.symm, by rw [← h1]; exact hf, rfl, rfl⟩

theorem sound_constraint_bone (wide : WideShift) (vcBones : List BoneData) (code : Int)
    (hc : code < 0) (bone : Json) : Sound (constraint_bone wide vcBones code bone) := by
  unfold constraint_bone
  repeat' first
    | with_reducible exact sound_defined _
    | with_reducible exact sound_resolve_bone _ _ _ hc
    | with_reducible exact sound_push_varint _ _ _
    | with_reducible apply sound_bind
    | intro _

theorem push_slot_writes (wide : WideShift) (vcBones : List BoneData) (acc : List String)
    (slot : Json) (r : List String) (s s1 : State)
    (h : push_slot wide vcBones acc slot s = Res.ok r s1) :
    ∃ n post, Json_getString slot "bone" (some "") = some n ∧
      Lookup.Resolved ⟨boneNames vcBones, n, find_bone vcBones n⟩ ∧
      s1.buff_data = s.buff_data ++
        opt_string_bytes wide (Json_getString slot "name" (some "")) ++
        varint_loop wide (toU32 (find_bone vcBones n)) 5 0 ++ post := by
  obtain ⟨n, blendMode, h1, h2⟩ := push_slot_fields wide vcBones acc slot s s1 r h
  obtain ⟨n2, _, k1, k2, _⟩ := push_slot_bytes wide vcBones acc slot s s1 r h
  rw [h1] at k1
  cases k1
  refine ⟨n, written (push_color (Json_getString slot "color" none)) s.all_atlas ++
    written (push_color (Json_getString slot "dark" none)) s.all_atlas ++
    opt_string_bytes wide (Json_getString slot "attachment" (some "")) ++
    varint_loop wide (toU32 blendMode) 5 0, h1, resolved_bone vcBones n k2, ?_⟩
  rw [h2]
  simp only [List.append_assoc]

theorem constraint_bone_writes (wide : WideShift) (vcBones : List BoneData) (code : Int)
    (bone : Json) (s s1 : State) (h : constraint_bone wide vcBones code bone s = Res.ok () s1) :
    ∃ n post, bone.valueString = some n ∧
      Lookup.Resolved ⟨boneNames vcBones, n, find_bone vcBones n⟩ ∧
      s1.buff_data = s.buff_data ++ [] ++
        varint_loop wide (toU32 (find_bone vcBones n)) 5 0 ++ post := by
  unfold constraint_bone at h
  obtain ⟨n, s2, h1, k1⟩ := bind_ok_inv h
  obtain ⟨e1, e2⟩ := defined_ok h1
  subst e2
  obtain ⟨i, s3, h2, k2⟩ := bind_ok_inv k1
  obtain ⟨e3, e4, e5, _⟩ := resolve_bone_ok h2
  obtain ⟨e7, _⟩ := push_varint_ok k2
  refine ⟨n, [], e1, resolved_bone vcBones n (by rw [← e3]; exact e4), ?_⟩
  rw [e7, e5, e3]
  simp

theorem constraint_bones_ran (wide : WideShift) (vcBones : List BoneData) (code : Int)
    (hc : code < 0) (bones : Json) {s s1 : State}
    (h : push_constraint_bones wide vcBones code bones s = Res.ok () s1) :
    ∀ bone ∈ bones.child, Ran (constraint_bone wide vcBones code bone) () s s1 := by
  rw [push_constraint_bones_eq] at h
  exact forEach_ran _ _ (sound_constraint_bone wide vcBones code hc) h

theorem push_ik_ok (wide : WideShift) (vcBones : List BoneData) (acc : List String)
    (ikMap : Json) (r : List String) (s s1 : State)
    (h : push_ik wide vcBones acc ikMap s = Res.ok r s1) :
    ∃ bones, Json_getItem ikMap "bones" = some bones ∧
      Ran (push_constraint_bones wide vcBones (-12) bones) () s s1 ∧
      ∃ pre n post, Json_getString ikMap "target" (some "") = some n ∧
        Lookup.Resolved ⟨boneNames vcBones, n, find_bone vcBones n⟩ ∧
        s1.buff_data = s.buff_data ++ pre ++
          varint_loop wide (toU32 (find_bone vcBones n)) 5 0 ++ post := by
  unfold push_ik at h
  obtain ⟨_, t1, _, g1, h⟩ := step_ok (sound_push_string _ _) h
  obtain ⟨_, t2, _, g2, h⟩ := step_ok (sound_defined _) h
  obtain ⟨_, t3, _, g3, h⟩ := step_ok (sound_push_varint _ _ _) h
  dsimp only at h
  cases hb : Json_getItem ikMap "bones" with
  | none =>
    rw [hb] at h
    cases h
  | some bones =>
    rw [hb] at h
    dsimp only at h
    obtain ⟨_, t4, _, g4, h⟩ := step_ok (sound_push_varint _ _ _) h
    obtain ⟨_, t5, r5, g5, h⟩ :=
      step_ok (sound_push_constraint_bones wide vcBones (-12) (by decide) bones) h
    obtain ⟨n, t6, r6, g6, h⟩ := step_ok (sound_defined _) h
    obtain ⟨e1, _⟩ := defined_ok r6
    obtain ⟨i, t7, r7, g7, h⟩ := step_ok (sound_resolve_bone _ _ _ (by decide)) h
    obtain ⟨e3, e4, e5, _⟩ := resolve_bone_ok r7
    obtain ⟨_, t8, r8, g8, h⟩ := step_ok (sound_push_varint _ _ _) h
    obtain ⟨e7, _⟩ := push_varint_ok r8
    obtain ⟨_, t9, _, g9, h⟩ := step_ok (sound_push_float _) h
    obtain ⟨_, t10, _, g10, h⟩ := step_ok (sound_push_float _) h
    simp only [pure_run, Res.ok.injEq] at h
    obtain ⟨_, he⟩ := h
    subst he
    have p4 : Grows s t4 := grows_trans (grows_trans (grows_trans g1 g2) g3) g4
    have p7 : Grows s t7 := grows_trans (grows_trans (grows_trans p4 g5) g6) g7
    have q8 : Grows t8 t10 := grows_trans g9 g10
    obtain ⟨_, pre, hpre⟩ := p7
    obtain ⟨_, post, hpost⟩ := q8
    refine ⟨bones, rfl, ⟨t4, t5, r5, p4, grows_trans (grows_trans (grows_trans g6 g7) g8)
      (grows_trans g9 g10)⟩, pre, n, post, e1,
      resolved_bone vcBones n (by rw [← e3]; exact e4), ?_⟩
    rw [hpost, e7, hpre, e3]

theorem push_transform_ok (wide : WideShift) (vcBones : List BoneData) (acc : List String)
    (transformMap : Json) (r : List String) (s s1 : State)
    (h : push_transform wide vcBones acc transformMap s = Res.ok r s1) :
    ∃ bones, Json_getItem transformMap "bones" = some bones ∧
      Ran (push_constraint_bones wide vcBones (-15) bones) () s s1 ∧
      ∃ pre n post, Json_getString transformMap "target" (some "") = some n ∧
        Lookup.Resolved ⟨boneNames vcBones, n, find_bone vcBones n⟩ ∧
        s1.buff_data = s.buff_data ++ pre ++
          varint_loop wide (toU32 (find_bone vcBones n)) 5 0 ++ post := by
  unfold push_transform at h
  obtain ⟨_, t1, _, g1, h⟩ := step_ok (sound_push_string _ _) h
  obtain ⟨_, t2, _, g2, h⟩ := step_ok (sound_defined _) h
  obtain ⟨_, t3, _, g3, h⟩ := step_ok (sound_push_varint _ _ _) h
  dsimp only at h
  cases hb : Json_getItem transformMap "bones" with
  | none =>
    rw [hb] at h
    cases h
  | some bones =>
    rw [hb] at h
    dsimp only at h
    obtain ⟨_, t4, _, g4, h⟩ := step_ok (sound_push_varint _ _ _) h
    obtain ⟨_, t5, r5, g5, h⟩ :=
      step_ok (sound_push_constraint_bones wide vcBones (-15) (by decide) bones) h
    obtain ⟨n, t6, r6, g6, h⟩ := step_ok (sound_defined _) h
    obtain ⟨e1, _⟩ := defined_ok r6
    obtain ⟨i, t7, r7, g7, h⟩ := step_ok (sound_resolve_bone _ _ _ (by decide)) h
    obtain ⟨e3, e4, e5, _⟩ := resolve_bone_ok r7
    obtain ⟨_, t8, r8, g8, h⟩ := step_ok (sound_push_varint _ _ _) h
    obtain ⟨e7, _⟩ := push_varint_ok r8
    have q8 : Grows t8 s1 := by
      refine grows_ok ?_ h
      repeat' first
        | with_reducible exact sound_pure _
        | with_reducible exact sound_push_float _
        | with_reducible exact sound_push_boolen _
        | with_reducible apply sound_bind
        | intro _
    have p4 : Grows s t4 := grows_trans (grows_trans (grows_trans g1 g2) g3) g4
    have p7 : Grows s t7 := grows_trans (grows_trans (grows_trans p4 g5) g6) g7
    obtain ⟨_, pre, hpre⟩ := p7
    obtain ⟨_, post, hpost⟩ := q8
    refine ⟨bones, rfl, ⟨t4, t5, r5, p4, grows_trans (grows_trans (grows_trans g6 g7) g8)
      ⟨by assumption, post, hpost⟩⟩, pre, n, post, e1,
      resolved_bone vcBones n (by rw [← e3]; exact e4), ?_⟩
    rw [hpost, e7, hpre, e3]

theorem push_path_ok (wide : WideShift) (vcBones : List BoneData)
    (vcSlots acc : List String) (pathMap : Json) (r : List String) (s s1 : State)
    (h : push_path wide vcBones vcSlots acc pathMap s = Res.ok r s1) :
    ∃ bones, Json_getItem pathMap "bones" = some bones ∧
      Ran (push_constraint_bones wide vcBones (-18) bones) () s s1 ∧
      ∃ pre n post, Json_getString pathMap "target" (some "") = some n ∧
        Lookup.Resolved ⟨vcSlots, n, find_string vcSlots n⟩ ∧
        s1.buff_data = s.buff_data ++ pre ++
          varint_loop wide (toU32 (find_string vcSlots n)) 5 0 ++ post := by
  unfold push_path at h
  obtain ⟨_, t1, _, g1, h⟩ := step_ok (sound_push_string _ _) h
  obtain ⟨_, t2, _, g2, h⟩ := step_ok (sound_defined _) h
  obtain ⟨_, t3, _, g3, h⟩ := step_ok (sound_push_varint _ _ _) h
  dsimp only at h
  cases hb : Json_getItem pathMap "bones" with
  | none =>
    rw [hb] at h
    cases h
  | some bones =>
    rw [hb] at h
    dsimp only at h
    obtain ⟨_, t4, _, g4, h⟩ := step_ok (sound_push_varint _ _ _) h
    obtain ⟨_, t5, r5, g5, h⟩ :=
      step_ok (sound_push_constraint_bones wide vcBones (-18) (by decide) bones) h
    obtain ⟨n, t6, r6, g6, h⟩ := step_ok (sound_defined _) h
    obtain ⟨e1, _⟩ := defined_ok r6
    obtain ⟨i, t7, r7, g7, h⟩ := step_ok (sound_resolve_string _ _ _ (by decide)) h
    obtain ⟨e3, e4, e5, _⟩ := resolve_string_ok r7
    obtain ⟨_, t8, r8, g8, h⟩ := step_ok (sound_push_varint _ _ _) h
    obtain ⟨e7, _⟩ := push_varint_ok r8
    have q8 : Grows t8 s1 := by
      refine grows_ok ?_ h
      repeat' first
        | with_reducible exact sound_pure _
        | with_reducible exact sound_defined _
        | with_reducible exact sound_push_float _
        | with_reducible exact sound_push_varint _ _ _
        | with_reducible apply sound_bind
        | intro _
        | split
    have p4 : Grows s t4 := grows_trans (grows_trans (grows_trans g1 g2) g3) g4
    have p7 : Grows s t7 := grows_trans (grows_trans (grows_trans p4 g5) g6) g7
    obtain ⟨_, pre, hpre⟩ := p7
    obtain ⟨_, post, hpost⟩ := q8
    refine ⟨bones, rfl, ⟨t4, t5, r5, p4, grows_trans (grows_trans (grows_trans g6 g7) g8)
      ⟨by assumption, post, hpost⟩⟩, pre, n, post, e1,
      resolved_find vcSlots n (by rw [← e3]; exact e4), ?_⟩
    rw [hpost, e7, hpre, e3]

theorem push_skin_entry_writes (wide : WideShift) (slots : List String) (attachments : Json)
    (s s1 : State) (h : push_skin_entry wide slots attachments s = Res.ok () s1) :
    ∃ n post, attachments.name = some n ∧
      Lookup.Resolved ⟨slots, n, find_string slots n⟩ ∧
      s1.buff_data = s.buff_data ++ [] ++
        varint_loop wide (toU32 (find_string slots n)) 5 0 ++ post := by
  obtain ⟨n, valid, h1, _, h3, h4⟩ := push_skin_entry_bytes wide slots attachments s s1 h
  refine ⟨n, varint_loop wide (toU32 valid.length) 5 0 ++
    (valid.map fun a => written (push_attachment wide slots a) s.all_atlas).flatten,
    h1, resolved_find slots n h3, ?_⟩
  rw [h4]
  simp only [List.append_assoc, List.append_nil, List.nil_append]

theorem entry_writes {table : List String} {name : Option String} {wide : WideShift}
    {size : Int} {rest : M Unit} {s s1 : State} (hr : Sound rest)
    (h : ∃ n u, name = some n ∧ find_string table n ≠ -1 ∧ u.all_atlas = s.all_atlas ∧
      u.buff_data = s.buff_data ++ varint_loop wide (toU32 (find_string table n)) 5 0 ++
        varint_loop wide (toU32 size) 5 0 ∧
      rest u = Res.ok () s1) :
    ∃ n post, name = some n ∧ Lookup.Resolved ⟨table, n, find_string table n⟩ ∧
      s1.buff_data = s.buff_data ++ [] ++
        varint_loop wide (toU32 (find_string table n)) 5 0 ++ post := by
  obtain ⟨n, u, h1, h2, _, h4, h5⟩ := h
  obtain ⟨_, post, hpost⟩ := grows_ok hr h5
  refine ⟨n, varint_loop wide (toU32 size) 5 0 ++ post, h1, resolved_find table n h2, ?_⟩
  rw [hpost, h4]
  simp only [List.append_assoc, List.append_nil, List.nil_append]

theorem bone_entry_writes (wide : WideShift) (vcBones : List BoneData) (boneMap : Json)
    (s s1 : State) (h : bone_entry wide vcBones boneMap s = Res.ok () s1) :
    ∃ n post, boneMap.name = some n ∧
      Lookup.Resolved ⟨boneNames vcBones, n, find_bone vcBones n⟩ ∧
      s1.buff_data = s.buff_data ++ [] ++
        varint_loop wide (toU32 (find_bone vcBones n)) 5 0 ++ post := by
  obtain ⟨n, u, h1, h2, _, h4, h5⟩ := bone_entry_ok wide vcBones boneMap h
  obtain ⟨_, post, hpost⟩ := grows_ok (sound_forEach _ _ (sound_bone_timeline wide)) h5
  refine ⟨n, varint_loop wide (toU32 boneMap.size) 5 0 ++ post, h1,
    resolved_bone vcBones n h2, ?_⟩
  rw [hpost, h4]
  simp only [List.append_assoc, List.append_nil, List.nil_append]

theorem offset_entry_writes (wide : WideShift) (vcSlots : List String) (offsetMap : Json)
    (s s1 : State) (h : offset_entry wide vcSlots offsetMap s = Res.ok () s1) :
    ∃ n post, Json_getString offsetMap "slot" none = some n ∧
      Lookup.Resolved ⟨vcSlots, n, find_string vcSlots n⟩ ∧
      s1.buff_data = s.buff_data ++ [] ++
        varint_loop wide (toU32 (find_string vcSlots n)) 5 0 ++ post := by
  unfold offset_entry at h
  obtain ⟨n, s2, h1, k1⟩ := bind_ok_inv h
  obtain ⟨e1, e2⟩ := defined_ok h1
  subst e2
  obtain ⟨i, s3, h2, k2⟩ := bind_ok_inv k1
  obtain ⟨e3, e4, e5, _⟩ := resolve_string_ok h2
  obtain ⟨_, s4, h3, k3⟩ := bind_ok_inv k2
  obtain ⟨e6, _⟩ := push_varint_ok h3
  obtain ⟨e7, _⟩ := push_varint_ok k3
  refine ⟨n, varint_loop wide (toU32 (Json_getInt offsetMap "offset" 0)) 5 0, e1,
    resolved_find vcSlots n (by rw [← e3]; exact e4), ?_⟩
  rw [e7, e6, e5, e3]
  simp only [List.append_assoc, List.append_nil, List.nil_append]

theorem event_frame_writes (wide : WideShift) (vcEvents : List EventData) (valueMap : Json)
    (s s1 : State) (h : event_frame wide vcEvents valueMap s = Res.ok () s1) :
    ∃ n post, Json_getString valueMap "name" none = some n ∧
      Lookup.Resolved ⟨vcEvents.map fun e => e.name, n, find_event_loop n vcEvents 0⟩ ∧
      s1.buff_data = s.buff_data ++ float_bytes (Json_getFloat valueMap "time" 0) ++
        varint_loop wide (toU32 (find_event_loop n vcEvents 0)) 5 0 ++ post := by
  unfold event_frame at h
  cases hn : Json_getString valueMap "name" none with
  | none =>
    rw [hn] at h
    cases h
  | some name =>
    rw [hn] at h
    dsimp only at h
    rw [bind_ok (push_float_run _ s)] at h
    obtain ⟨i, t2, r2, g2, h⟩ := step_ok (sound_resolve_event _ _ _ (by decide)) h
    obtain ⟨e3, e4, e5, _⟩ := resolve_event_ok r2
    obtain ⟨_, t3, r3, g3, h⟩ := step_ok (sound_push_varint _ _ _) h
    obtain ⟨e7, _⟩ := push_varint_ok r3
    have q : Grows t3 s1 := by
      refine grows_ok ?_ h
      repeat' first
        | with_reducible exact sound_pure _
        | with_reducible exact sound_defined _
        | with_reducible exact sound_push_float _
        | with_reducible exact sound_push_boolen _
        | with_reducible exact sound_push_varint _ _ _
        | with_reducible exact sound_push_string _ _
        | with_reducible apply sound_bind
        | intro _
        | split
    obtain ⟨_, post, hpost⟩ := q
    refine ⟨name, post, rfl, resolved_event vcEvents name (by rw [← e3]; exact e4), ?_⟩
    rw [hpost, e7, e5, e3]
    rfl

theorem checked_called {base : Int} {f : M Int} (hf : Exits f) {s s1 : State}
    (h : call_checked base f s = Res.ok () s1) : f s = Res.ret 0 s1 := by
  rcases call_checked_ok h with h1 | h1
  · exact absurd h1 (hf.never s s1 0)
  · exact h1

theorem named_skin_called (wide : WideShift) (vcSlots acc r : List String) (skin : Json)
    {s s1 : State} (h : push_named_skin wide vcSlots acc skin s = Res.ok r s1)
    (hn : skin.name ≠ some "default") : Called (parse_skin wide skin vcSlots) s s1 := by
  unfold push_named_skin at h
  obtain ⟨name, t1, r1, g1, h⟩ := step_ok (sound_defined _) h
  obtain ⟨e1, _⟩ := defined_ok r1
  have hd : name ≠ "default" := fun he => hn (by rw [e1, he])
  rw [if_pos hd] at h
  obtain ⟨_, t2, _, g2, h⟩ := step_ok (sound_push_string _ _) h
  obtain ⟨_, t3, r3, g3, h⟩ := step_ok
    (sound_call_checked (-200) _ (by decide) (sound_parse_skin wide skin vcSlots)) h
  simp only [pure_run, Res.ok.injEq] at h
  obtain ⟨_, he⟩ := h
  subst he
  exact ⟨t2, t3, checked_called (exits_parse_skin wide skin vcSlots) r3, grows_trans g1 g2,
    grows_refl _⟩

theorem skins_called (wide : WideShift) (vcSlots : List String) (skins : Json)
    (vcSkins : List String) {s s1 : State}
    (h : push_skins wide vcSlots skins s = Res.ok vcSkins s1) :
    (∀ d, find_default skins.child = some (some d) →
      Called (parse_skin wide d vcSlots) s s1) ∧
    ∀ skin ∈ skins.child, skin.name ≠ some "default" →
      Called (parse_skin wide skin vcSlots) s s1 := by
  have named : ∀ (acc : List String) (t : State), Grows s t →
      (push_varint wide (skins.size - 1) true >>= fun _ =>
        forAcc skins.child acc (push_named_skin wide vcSlots)) t = Res.ok vcSkins s1 →
      ∀ skin ∈ skins.child, skin.name ≠ some "default" →
        Called (parse_skin wide skin vcSlots) s s1 := by
    intro acc t gt ht skin hm hn
    obtain ⟨_, t2, _, g2, h2⟩ := step_ok (sound_push_varint _ _ _) ht
    obtain ⟨a, a1, u, u1, hu, k1, k2⟩ :=
      forAcc_ran _ _ (fun a x => sound_push_named_skin wide vcSlots a x) h2 skin hm
    exact called_mono (named_skin_called wide vcSlots a a1 skin hu hn)
      (grows_trans (grows_trans gt g2) k1) k2
  unfold push_skins at h
  obtain ⟨d, t1, r1, g1, h⟩ := step_ok (sound_defined _) h
  obtain ⟨hd, _⟩ := defined_ok r1
  cases d with
  | none =>
    dsimp only at h
    obtain ⟨acc, t2, r2, g2, h⟩ := step_ok (sound_pure _) h
    refine ⟨fun d hd2 => ?_, named _ _ (grows_trans g1 g2) h⟩
    rw [hd] at hd2
    cases hd2
  | some skin =>
    dsimp only at h
    obtain ⟨_, t3, r3, g3, h⟩ := step_ok
      (sound_call_checked (-100) _ (by decide) (sound_parse_skin wide skin vcSlots)) h
    obtain ⟨acc, t2, r2, g2, h⟩ := step_ok (sound_pure _) h
    have gend : Grows t3 s1 := by
      refine grows_trans g2 (grows_ok ?_ h)
      exact sound_bind (sound_push_varint _ _ _) fun _ =>
        sound_forAcc _ _ _ fun a x => sound_push_named_skin wide vcSlots a x
    refine ⟨fun d hd2 => ?_, named _ _ (grows_trans (grows_trans g1 g3) g2) h⟩
    rw [hd] at hd2
    cases hd2
    exact ⟨t1, t3, checked_called (exits_parse_skin wide skin vcSlots) r3, g1, gend⟩

theorem parse_skin_entries (wide : WideShift) (skin : Json) (slots : List String)
    {s s1 : State} (h : parse_skin wide skin slots s = Res.ret 0 s1) :
    ∀ entry ∈ skin.child, Ran (push_skin_entry wide slots entry) () s s1 := by
  unfold parse_skin at h
  rcases step_ret (sound_push_varint _ _ _) h with h1 | ⟨_, t1, _, g1, h⟩
  · exact ((returns_push_varint (fun _ => False) _ _ _).code _ _ _ h1).elim
  by_cases hz : skin.size = 0
  · intro entry he
    have hl : skin.child = [] := by
      unfold Json.size at hz
      exact List.length_eq_zero.1 (by omega)
    rw [hl] at he
    cases he
  · rw [if_neg hz] at h
    rcases step_ret (sound_pure _) h with h1 | ⟨_, t2, _, g2, h⟩
    · cases h1
    rcases step_ret (sound_forEach _ _ (sound_push_skin_entry wide slots)) h with
      h1 | ⟨_, t3, r3, g3, h⟩
    · obtain ⟨x, _, u, hu⟩ := forEach_ret_inv _ _ h1
      have := (returns_push_skin_entry wide slots x).code _ _ _ hu
      omega
    obtain ⟨_, he⟩ := ret_zero_run h
    subst he
    intro entry hm
    exact ran_mono (forEach_ran _ _ (sound_push_skin_entry wide slots) r3 entry hm)
      (grows_trans g1 g2) (grows_refl _)

theorem animation_called (wide : WideShift) (vcSlots : List String)
    (vcBones : List BoneData) (vcIK vcTransform vcPaths vcSkins : List String)
    (vcEvents : List EventData) (aniMap : Json) {s s1 : State}
    (h : push_animation wide vcSlots vcBones vcIK vcTransform vcPaths vcSkins vcEvents aniMap s =
      Res.ok () s1) :
    Called (parse_animation wide aniMap vcSlots vcBones vcIK vcTransform vcPaths vcSkins
      vcEvents) s s1 := by
  unfold push_animation at h
  obtain ⟨_, t1, _, g1, h⟩ := step_ok (sound_push_string _ _) h
  exact ⟨t1, s1, checked_called (exits_parse_animation wide aniMap vcSlots vcBones vcIK
    vcTransform vcPaths vcSkins vcEvents) h, g1, grows_refl _⟩

theorem draw_order_offsets (wide : WideShift) (vcSlots : List String) (valueMap : Json)
    {s s1 : State} (h : draw_order_frame wide vcSlots valueMap s = Res.ok () s1) :
    ∀ offsetMap ∈ children (Json_getItem valueMap "offsets"),
      Ran (offset_entry wide vcSlots offsetMap) () s s1 := by
  unfold draw_order_frame at h
  obtain ⟨_, t1, _, g1, h⟩ := step_ok (sound_push_float _) h
  obtain ⟨_, t2, _, g2, h⟩ := step_ok (sound_push_varint _ _ _) h
  intro x hx
  exact ran_mono (forEach_ran _ _ (sound_offset_entry wide vcSlots) h x hx)
    (grows_trans g1 g2) (grows_refl _)

theorem called_inside {f : M Int} {α : Type} {m : M α} {a : α} {s s1 : State}
    (hf : Called f s s1) (he : ∀ t t1, f t = Res.ret 0 t1 → Ran m a t t1) : Ran m a s s1 := by
  obtain ⟨t, t1, hrun, g1, g2⟩ := hf
  exact ran_mono (he t t1 hrun) g1 g2

theorem ran_called {α : Type} {m : M α} {a : α} {f : M Int} {s s1 : State}
    (hm : Ran m a s s1) (he : ∀ t t1, m t = Res.ok a t1 → Called f t t1) : Called f s s1 := by
  obtain ⟨t, t1, hrun, g1, g2⟩ := hm
  exact called_mono (he t t1 hrun) g1 g2

theorem convert_root_ret (wide : WideShift) (r : Json) (s s1 : State) (c : Int)
    (h : convert_body wide r s = Res.ret c s1) : convert_root wide r s = Res.ret c s1 := by
  unfold convert_root
  rw [bind_run, h]

theorem stages_not_header (wide : WideShift) (root skeleton : Json) (s s1 : State) (c : Int)
    (h : convert_stages wide root skeleton s = Res.ret c s1) : c ≠ -5 ∧ c ≠ -6 ∧ c ≠ -7 := by
  have hc := (returns_convert_stages wide root skeleton).code _ s1 c h
  simp only [constraintCode, skinCode, skinInner, animationCode, animationInner] at hc
  rcases hc with h1 | h1 | h1 | h1
  · exact ⟨by omega, by omega, by omega⟩
  · exact ⟨by omega, by omega, by omega⟩
  · rcases h1 with h1 | ⟨i, hi, h1 | h1⟩ <;> exact ⟨by omega, by omega, by omega⟩
  · obtain ⟨i, hi, h1⟩ := h1
    exact ⟨by omega, by omega, by omega⟩

theorem body_ok_stages (wide : WideShift) (root : Json) (s s1 : State)
    (h : convert_body wide root s = Res.ok () s1) :
    ∃ skeleton hash version, Json_getItem root "skeleton" = some skeleton ∧
      Json_getString skeleton "hash" (some "") = some hash ∧
      Json_getString skeleton "spine" (some "") = some version ∧
      convert_stages wide root skeleton
        (s.append (string_bytes wide hash ++ string_bytes wide version)) = Res.ok () s1 := by
  rw [convert_body_run] at h
  cases hs : Json_getItem root "skeleton" with
  | none =>
    rw [hs] at h
    cases h
  | some skeleton =>
    rw [hs] at h
    dsimp only at h
    cases hh : Json_getString skeleton "hash" (some "") with
    | none =>
      rw [hh] at h
      cases h
    | some hash =>
      rw [hh] at h
      dsimp only at h
      cases hv : Json_getString skeleton "spine" (some "") with
      | none =>
        rw [hv] at h
        cases h
      | some version =>
        rw [hv] at h
        exact ⟨skeleton, hash, version, rfl, hh, hv, h⟩

theorem convert_origin_neg (wide : WideShift) (json : String) (len : Nat)
    (root : Option Json) (c : Int) (s1 : State)
    (h : convertOrigin wide json len root c s1) : c < 0 := by
  rcases h with h | h | h | h | ⟨r, _, _, h⟩
  · omega
  · omega
  · omega
  · omega
  · exact body_origin_neg wide r c s1 h

theorem skins_missing_codes (wide : WideShift) (root : Json) (c : Int) (s1 : State)
    (hm : missing (Json_getItem root "skins")) (h : bodyOrigin wide root c s1) :
    c = -20 ∨ (-19 ≤ c ∧ c ≤ -5) := by
  have no : ∀ skins, Json_getItem root "skins" = some skins → 0 < skins.size → False :=
    fun skins h1 h2 => absurd (hm skins h1) (by omega)
  simp only [bodyOrigin, stagesOrigin] at h
  rcases h with h | ⟨_, _, h | ⟨_, _, h | ⟨_, _, h⟩⟩⟩
  · omega
  · omega
  · omega
  · rcases h with h | ⟨_, _, _, _, _, h | ⟨_, _, _, h | ⟨_, _, h | h | h | h | h⟩⟩⟩
    · omega
    · omega
    · omega
    · omega
    · omega
    · omega
    · omega
    · obtain ⟨skins, h1, h2, _⟩ := h
      exact (no skins h1 h2).elim

theorem sampleNoSkins_missing : missing (Json_getItem sampleNoSkins "skins") :=
  fun j hj => Option.noConfusion (show (none : Option Json) = some j from hj)

theorem three_frames (body : Json → Bool → M Unit) (f1 f2 f3 : Json) {s s1 : State}
    (h : Curves [f1, f2, f3] body s s1) :
    ∃ t t1, Grows s t ∧ Grows t1 s1 ∧ forFrames [f1, f2, f3] body t = Res.ok () t1 ∧
      isCurveRecord (written (push_curve (Json_getItem f1 "curve")) t.all_atlas) ∧
      isCurveRecord (written (push_curve (Json_getItem f2 "curve")) t.all_atlas) ∧
      t1.buff_data = t.buff_data ++
        (written (body f1 false) t.all_atlas ++
          written (push_curve (Json_getItem f1 "curve")) t.all_atlas) ++
        (written (body f2 false) t.all_atlas ++
          written (push_curve (Json_getItem f2 "curve")) t.all_atlas) ++
        written (body f3 false) t.all_atlas := by
  obtain ⟨t, t1, curves, g1, g2, hrun, _, hrec, hc, hb⟩ := h
  subst hc
  refine ⟨t, t1, g1, g2, hrun, hrec _ (by simp), hrec _ (by simp), ?_⟩
  rw [hb]
  simp [timeline_bytes]

theorem convert_ok (wide : WideShift) (json : String) (len : Nat) (root : Option Json)
    (atlas : Option String) (s s1 : State) (c : Int)
    (h : convert_json_to_binary wide json len root atlas s = Res.ret c s1) (hc : 0 ≤ c) :
    ∃ r s0 skeleton t, root = some r ∧ passes json len ∧ s0.buff_data = [] ∧
      convert_body wide r s0 = Res.ok () s1 ∧ c = toI32 s1.buff_pos ∧
      Json_getItem r "skeleton" = some skeleton ∧ Grows s0 t ∧
      convert_stages wide r skeleton t = Res.ok () s1 := by
  rcases convert_origin wide json len root atlas s s1 c h with
    h1 | ⟨r, s0, hr, hp, h0, hb, hv⟩
  · exact absurd (convert_origin_neg wide json len root c s1 h1) (by omega)
  · obtain ⟨skeleton, hash, version, hs, _, _, hst⟩ := body_ok_stages wide r s0 s1 hb
    exact ⟨r, s0, skeleton, _, hr, hp, h0, hb, hv, hs, grows_append s0 _, hst⟩

theorem slot_sites (wide : WideShift) (vcBones : List BoneData) (slots : List Json)
    (vcSlots : List String) {s s1 : State}
    (h : Ran (forAcc slots [] (push_slot wide vcBones)) vcSlots s s1) :
    ∀ slot ∈ slots, ∃ acc, Site wide (push_slot wide vcBones acc slot) (boneNames vcBones)
      (Json_getString slot "bone" (some "")) (find_bone vcBones)
      (opt_string_bytes wide (Json_getString slot "name" (some ""))) s s1 := by
  obtain ⟨t, t1, hrun, g1, g2⟩ := h
  intro slot hm
  obtain ⟨a, a1, hr⟩ :=
    forAcc_ran _ _ (fun a x => sound_push_slot wide vcBones a x) hrun slot hm
  exact ⟨a, site_of_ran (ran_mono hr g1 g2) fun u u1 hu =>
    push_slot_writes wide vcBones a slot a1 u u1 hu⟩

theorem bone_sites (wide : WideShift) (vcBones : List BoneData) (code : Int) (hc : code < 0)
    (bones : Json) {s s1 : State}
    (h : Ran (push_constraint_bones wide vcBones code bones) () s s1) :
    ∀ bone ∈ bones.child, Site wide (constraint_bone wide vcBones code bone)
      (boneNames vcBones) bone.valueString (find_bone vcBones) [] s s1 := by
  intro bone hm
  exact site_of_ran
    (ran_trans h fun t t1 ht => constraint_bones_ran wide vcBones code hc bones ht bone hm)
    fun u u1 hu => constraint_bone_writes wide vcBones code bone u u1 hu

theorem ik_sites (wide : WideShift) (vcBones : List BoneData) (items : List Json)
    (vcIK : List String) {s s1 : State}
    (h : Ran (forAcc items [] (push_ik wide vcBones)) vcIK s s1) :
    ∀ ikMap ∈ items, ∃ bones, Json_getItem ikMap "bones" = some bones ∧
      (∀ bone ∈ bones.child, Site wide (constraint_bone wide vcBones (-12) bone)
        (boneNames vcBones) bone.valueString (find_bone vcBones) [] s s1) ∧
      ∃ acc pre, Site wide (push_ik wide vcBones acc ikMap) (boneNames vcBones)
        (Json_getString ikMap "target" (some "")) (find_bone vcBones) pre s s1 := by
  obtain ⟨t, t1, hrun, g1, g2⟩ := h
  intro ikMap hm
  obtain ⟨a, a1, u, u1, hu, k1, k2⟩ :=
    forAcc_ran _ _ (fun a x => sound_push_ik wide vcBones a x) hrun ikMap hm
  obtain ⟨bones, hb, hr, pre, n, post, e1, e2, e3⟩ := push_ik_ok wide vcBones a ikMap a1 u u1 hu
  have p1 : Grows s u := grows_trans g1 k1
  have p2 : Grows u1 s1 := grows_trans k2 g2
  exact ⟨bones, hb, fun bone hbm =>
      site_mono (bone_sites wide vcBones (-12) (by decide) bones hr bone hbm) p1 p2,
    a, pre, n, u, a1, u1, post, e1, e2, hu, p1, p2, e3⟩

theorem transform_sites (wide : WideShift) (vcBones : List BoneData) (items : List Json)
    (vcTransform : List String) {s s1 : State}
    (h : Ran (forAcc items [] (push_transform wide vcBones)) vcTransform s s1) :
    ∀ transformMap ∈ items, ∃ bones, Json_getItem transformMap "bones" = some bones ∧
      (∀ bone ∈ bones.child, Site wide (constraint_bone wide vcBones (-15) bone)
        (boneNames vcBones) bone.valueString (find_bone vcBones) [] s s1) ∧
      ∃ acc pre, Site wide (push_transform wide vcBones acc transformMap) (boneNames vcBones)
        (Json_getString transformMap "target" (some "")) (find_bone vcBones) pre s s1 := by
  obtain ⟨t, t1, hrun, g1, g2⟩ := h
  intro transformMap hm
  obtain ⟨a, a1, u, u1, hu, k1, k2⟩ :=
    forAcc_ran _ _ (fun a x => sound_push_transform wide vcBones a x) hrun transformMap hm
  obtain ⟨bones, hb, hr, pre, n, post, e1, e2, e3⟩ :=
    push_transform_ok wide vcBones a transformMap a1 u u1 hu
  have p1 : Grows s u := grows_trans g1 k1
  have p2 : Grows u1 s1 := grows_trans k2 g2
  exact ⟨bones, hb, fun bone hbm =>
      site_mono (bone_sites wide vcBones (-15) (by decide) bones hr bone hbm) p1 p2,
    a, pre, n, u, a1, u1, post, e1, e2, hu, p1, p2, e3⟩

theorem path_sites (wide : WideShift) (vcBones : List BoneData) (vcSlots : List String)
    (items : List Json) (vcPaths : List String) {s s1 : State}
    (h : Ran (forAcc items [] (push_path wide vcBones vcSlots)) vcPaths s s1) :
    ∀ pathMap ∈ items, ∃ bones, Json_getItem pathMap "bones" = some bones ∧
      (∀ bone ∈ bones.child, Site wide (constraint_bone wide vcBones (-18) bone)
        (boneNames vcBones) bone.valueString (find_bone vcBones) [] s s1) ∧
      ∃ acc pre, Site wide (push_path wide vcBones vcSlots acc pathMap) vcSlots
        (Json_getString pathMap "target" (some "")) (find_string vcSlots) pre s s1 := by
  obtain ⟨t, t1, hrun, g1, g2⟩ := h
  intro pathMap hm
  obtain ⟨a, a1, u, u1, hu, k1, k2⟩ :=
    forAcc_ran _ _ (fun a x => sound_push_path wide vcBones vcSlots a x) hrun pathMap hm
  obtain ⟨bones, hb, hr, pre, n, post, e1, e2, e3⟩ :=
    push_path_ok wide vcBones vcSlots a pathMap a1 u u1 hu
  have p1 : Grows s u := grows_trans g1 k1
  have p2 : Grows u1 s1 := grows_trans k2 g2
  exact ⟨bones, hb, fun bone hbm =>
      site_mono (bone_sites wide vcBones (-18) (by decide) bones hr bone hbm) p1 p2,
    a, pre, n, u, a1, u1, post, e1, e2, hu, p1, p2, e3⟩

theorem skin_sites (wide : WideShift) (vcSlots : List String) (skins : Json)
    (vcSkins : List String) {s s1 : State}
    (h : Ran (push_skins wide vcSlots skins) vcSkins s s1) :
    ∀ skin, (find_default skins.child = some (some skin) ∨
        (skin ∈ skins.child ∧ skin.name ≠ some "default")) →
      ∀ entry ∈ skin.child, Site wide (push_skin_entry wide vcSlots entry) vcSlots entry.name
        (find_string vcSlots) [] s s1 := by
  obtain ⟨t, t1, hrun, g1, g2⟩ := h
  obtain ⟨hd, hn⟩ := skins_called wide vcSlots skins vcSkins hrun
  intro skin hs entry he
  have hc : Called (parse_skin wide skin vcSlots) s s1 := by
    rcases hs with hs | ⟨hs1, hs2⟩
    · exact called_mono (hd skin hs) g1 g2
    · exact called_mono (hn skin hs1 hs2) g1 g2
  exact site_of_ran
    (called_inside hc fun u u1 hu => parse_skin_entries wide skin vcSlots hu entry he)
    fun u u1 hu => push_skin_entry_writes wide vcSlots entry u u1 hu

theorem animation_sites (wide : WideShift) (animation : Json) (vcSlots : List String)
    (vcBones : List BoneData) (vcIK vcTransform vcPaths vcSkins : List String)
    (vcEvents : List EventData) {s s1 : State}
    (h : Called (parse_animation wide animation vcSlots vcBones vcIK vcTransform vcPaths
      vcSkins vcEvents) s s1) :
    (∀ slotMap ∈ children (Json_getItem animation "slots"),
      Site wide (slot_entry wide vcSlots slotMap) vcSlots slotMap.name (find_string vcSlots)
        [] s s1) ∧
    (∀ boneMap ∈ children (Json_getItem animation "bones"),
      Site wide (bone_entry wide vcBones boneMap) (boneNames vcBones) boneMap.name
        (find_bone vcBones) [] s s1) ∧
    (∀ ikMap ∈ children (Json_getItem animation "ik"),
      Site wide (ik_entry wide vcIK ikMap) vcIK ikMap.name (find_string vcIK) [] s s1) ∧
    (∀ transMap ∈ children (Json_getItem animation "transform"),
      Site wide (transform_entry wide vcTransform transMap) vcTransform transMap.name
        (find_string vcTransform) [] s s1) ∧
    (∀ pathMap ∈ children (Json_getItem animation "paths"),
      Site wide (path_entry wide vcPaths pathMap) vcPaths pathMap.name (find_string vcPaths)
        [] s s1) ∧
    (∀ deformMap ∈ children (Json_getItem animation "deform"),
      Site wide (deform_entry wide vcSkins vcSlots deformMap) vcSkins deformMap.name
        (find_string vcSkins) [] s s1 ∧
      ∀ slotMap ∈ deformMap.child,
        Site wide (deform_slot_entry wide vcSlots slotMap) vcSlots slotMap.name
          (find_string vcSlots) [] s s1) ∧
    (∀ valueMap ∈ children (Json_getItem animation "drawOrder"),
      ∀ offsetMap ∈ children (Json_getItem valueMap "offsets"),
        Site wide (offset_entry wide vcSlots offsetMap) vcSlots
          (Json_getString offsetMap "slot" none) (find_string vcSlots) [] s s1) ∧
    (∀ valueMap ∈ children (Json_getItem animation "events"),
      Site wide (event_frame wide vcEvents valueMap) (vcEvents.map fun e => e.name)
        (Json_getString valueMap "name" none) (fun n => find_event_loop n vcEvents 0)
        (float_bytes (Json_getFloat valueMap "time" 0)) s s1) := by
  obtain ⟨t, t1, hrun, g1, g2⟩ := h
  obtain ⟨h1, h2, h3, h4, h5, h6, h7, h8⟩ :=
    parse_animation_ran wide animation vcSlots vcBones vcIK vcTransform vcPaths vcSkins
      vcEvents t t1 hrun
  refine ⟨fun x hx => ?_, fun x hx => ?_, fun x hx => ?_, fun x hx => ?_, fun x hx => ?_,
    fun x hx => ⟨?_, fun y hy => ?_⟩, fun x hx y hy => ?_, fun x hx => ?_⟩
  · exact site_of_ran (ran_mono (h1 x hx) g1 g2) fun u u1 hu =>
      entry_writes (sound_forEach _ _ (sound_slot_timeline wide))
        (slot_entry_ok wide vcSlots x hu)
  · exact site_of_ran (ran_mono (h2 x hx) g1 g2) fun u u1 hu =>
      bone_entry_writes wide vcBones x u u1 hu
  · exact site_of_ran (ran_mono (h3 x hx) g1 g2) fun u u1 hu =>
      entry_writes (sound_forFrames _ _ sound_ik_frame) (ik_entry_ok wide vcIK x hu)
  · exact site_of_ran (ran_mono (h4 x hx) g1 g2) fun u u1 hu =>
      entry_writes (sound_forFrames _ _ sound_transform_frame)
        (transform_entry_ok wide vcTransform x hu)
  · exact site_of_ran (ran_mono (h5 x hx) g1 g2) fun u u1 hu =>
      entry_writes (sound_forEach _ _ (sound_path_timeline wide))
        (path_entry_ok wide vcPaths x hu)
  · exact site_of_ran (ran_mono (h6 x hx) g1 g2) fun u u1 hu =>
      entry_writes (sound_forEach _ _ (sound_deform_slot_entry wide vcSlots))
        (deform_entry_ok wide vcSkins vcSlots x hu)
  · exact site_of_ran
      (ran_trans (ran_mono (h6 x hx) g1 g2) fun u u1 hu =>
        deform_entry_slots wide vcSkins vcSlots x hu y hy)
      fun u u1 hu => entry_writes (sound_forEach _ _ (sound_deform_timeline wide))
        (deform_slot_entry_ok wide vcSlots y hu)
  · exact site_of_ran
      (ran_trans (ran_mono (h7 x hx) g1 g2) fun u u1 hu =>
        draw_order_offsets wide vcSlots x hu y hy)
      fun u u1 hu => offset_entry_writes wide vcSlots y u u1 hu
  · exact site_of_ran (ran_mono (h8 x hx) g1 g2) fun u u1 hu =>
      event_frame_writes wide vcEvents x u u1 hu

theorem yields_pure {α : Type} {P : α → Prop} (a : α) (h : P a) : Yields (pure a : M α) P := by
  intro s b s1 hb
  simp only [pure_run, Res.ok.injEq] at hb
  rw [← hb.1]
  exact h

theorem yields_ret {α : Type} {P : α → Prop} (c : Int) : Yields (ret c : M α) P := by
  intro s b s1 hb
  cases hb

theorem yields_bind {α β : Type} {m : M α} {f : α → M β} {P : β → Prop}
    (hf : ∀ a, Yields (f a) P) : Yields (m >>= f) P := by
  intro s b s1 hb
  obtain ⟨a, t, _, h2⟩ := bind_ok_inv hb
  exact hf a t b s1 h2

theorem yields_defined {α β : Type} {o : Option α} {f : α → M β} {P : β → Prop}
    (hf : ∀ a, o = some a → Yields (f a) P) : Yields (defined o >>= f) P := by
  intro s b s1 hb
  obtain ⟨a, t, h1, h2⟩ := bind_ok_inv hb
  exact hf a (defined_ok h1).1 t b s1 h2

theorem forAcc_names {α β : Type} (xs : List α) (body : List β → α → M (List β))
    (key : α → Option String) (proj : β → String)
    (hb : ∀ a x, Yields (body a x) fun r => ∃ n, key x = some n ∧
      r.map proj = a.map proj ++ [n]) (acc : List β) :
    Yields (forAcc xs acc body) fun r =>
      (r.map proj).map some = (acc.map proj).map some ++ xs.map key := by
  induction xs generalizing acc with
  | nil =>
    unfold forAcc
    exact yields_pure _ (by simp)
  | cons x rest ih =>
    unfold forAcc
    intro s r s1 h
    obtain ⟨acc1, t, h1, h2⟩ := bind_ok_inv h
    obtain ⟨n, e1, e2⟩ := hb acc x s acc1 t h1
    have := ih acc1 t r s1 h2
    dsimp only at this
    rw [this, e2]
    simp [e1]

theorem push_slot_table (wide : WideShift) (vcBones : List BoneData) (acc : List String)
    (slot : Json) : Yields (push_slot wide vcBones acc slot) fun r =>
      ∃ n, Json_getString slot "name" (some "") = some n ∧ r.map id = acc.map id ++ [n] := by
  unfold push_slot
  apply yields_bind
  intro _
  apply yields_defined
  intro n hn
  refine ?_
  repeat' first
    | with_reducible apply yields_bind
    | with_reducible exact yields_pure _ ⟨n, hn, by simp⟩
    | split
    | intro _

theorem push_ik_table (wide : WideShift) (vcBones : List BoneData) (acc : List String)
    (ikMap : Json) : Yields (push_ik wide vcBones acc ikMap) fun r =>
      ∃ n, Json_getString ikMap "name" (some "") = some n ∧ r.map id = acc.map id ++ [n] := by
  unfold push_ik
  apply yields_bind
  intro _
  apply yields_defined
  intro n hn
  apply yields_bind
  intro _
  dsimp only
  split
  · exact yields_ret _
  · repeat' first
      | with_reducible apply yields_bind
      | with_reducible exact yields_pure _ ⟨n, hn, by simp⟩
      | split
      | intro _

theorem push_transform_table (wide : WideShift) (vcBones : List BoneData)
    (acc : List String) (transformMap : Json) :
    Yields (push_transform wide vcBones acc transformMap) fun r =>
      ∃ n, Json_getString transformMap "name" (some "") = some n ∧
        r.map id = acc.map id ++ [n] := by
  unfold push_transform
  apply yields_bind
  intro _
  apply yields_defined
  intro n hn
  apply yields_bind
  intro _
  dsimp only
  split
  · exact yields_ret _
  · repeat' first
      | with_reducible apply yields_bind
      | with_reducible exact yields_pure _ ⟨n, hn, by simp⟩
      | split
      | intro _

theorem push_path_table (wide : WideShift) (vcBones : List BoneData)
    (vcSlots acc : List String) (pathMap : Json) :
    Yields (push_path wide vcBones vcSlots acc pathMap) fun r =>
      ∃ n, Json_getString pathMap "name" (some "") = some n ∧
        r.map id = acc.map id ++ [n] := by
  unfold push_path
  apply yields_bind
  intro _
  apply yields_defined
  intro n hn
  apply yields_bind
  intro _
  dsimp only
  split
  · exact yields_ret _
  · repeat' first
      | with_reducible apply yields_bind
      | with_reducible exact yields_pure _ ⟨n, hn, by simp⟩
      | split
      | intro _

theorem push_event_table (wide : WideShift) (acc : List EventData) (eventMap : Json) :
    Yields (push_event wide acc eventMap) fun r =>
      ∃ n, eventMap.name = some n ∧
        r.map (fun e => e.name) = acc.map (fun e => e.name) ++ [n] := by
  unfold push_event
  apply yields_defined
  intro n hn
  repeat' first
    | with_reducible apply yields_bind
    | with_reducible exact yields_pure _ ⟨n, hn, by simp⟩
    | split
    | intro _

theorem tables_of_ran {α β : Type} {xs : List α} {body : List β → α → M (List β)}
    {key : α → Option String} (proj : β → String) {r : List β} {s s1 : State}
    (hb : ∀ a x, Yields (body a x) fun r => ∃ n, key x = some n ∧
      r.map proj = a.map proj ++ [n])
    (h : Ran (forAcc xs [] body) r s s1) : (r.map proj).map some = xs.map key := by
  obtain ⟨t, t1, hrun, _, _⟩ := h
  have := forAcc_names xs body key proj hb [] t r t1 hrun
  simpa using this

theorem convert_stages_split (wide : WideShift) (root skeleton : Json) :
    convert_stages wide root skeleton =
      stages_to_skins wide root skeleton >>= stages_from_skins wide root := by
  unfold convert_stages stages_to_skins stages_from_skins
  simp only [bind_assoc_run, pure_bind_run]

theorem stages_reach_skins (wide : WideShift) (root skeleton : Json) (tb : StageTables)
    (t t1 : State) (h : stages_to_skins wide root skeleton t = Res.ok tb t1) :
    convert_stages wide root skeleton t = stages_from_skins wide root tb t1 := by
  rw [convert_stages_split, bind_ok h]

theorem skins_missing_run (wide : WideShift) (root : Json) (tb : StageTables) (t : State)
    (hm : missing (Json_getItem root "skins")) :
    stages_from_skins wide root tb t = Res.ret (-20) t := by
  unfold stages_from_skins
  rw [bind_run, require_items_missing _ _ _ hm]

theorem resolve_string_fail (vcStr : List String) (str : String) (code : Int) (t : State)
    (hn : str ∉ vcStr) :
    ∃ t1, resolve_string vcStr str code t = Res.ret code t1 ∧ t1.buff_data = t.buff_data := by
  refine ⟨{ t with lookups := t.lookups ++ [⟨vcStr, str, -1⟩] }, ?_, rfl⟩
  unfold resolve_string lookup_string
  simp only [bind_run, noted, find_string_absent vcStr str hn, if_true, ret]

theorem resolve_bone_fail (bones : List BoneData) (name : String) (code : Int) (t : State)
    (hn : name ∉ bones.map (fun b => b.name)) :
    ∃ t1, resolve_bone bones name code t = Res.ret code t1 ∧ t1.buff_data = t.buff_data := by
  refine ⟨{ t with lookups := t.lookups ++ [⟨bones.map fun b => b.name, name, -1⟩] },
    ?_, rfl⟩
  unfold resolve_bone lookup_bone find_bone
  rw [find_bone_loop_eq]
  have := find_string_absent _ name hn
  unfold find_string at this
  simp only [bind_run, noted, this, if_true, ret]

theorem resolve_event_fail (vcEvents : List EventData) (name : String) (code : Int)
    (t : State) (hn : name ∉ vcEvents.map (fun e => e.name)) :
    ∃ t1, resolve_event vcEvents name code t = Res.ret code t1 ∧
      t1.buff_data = t.buff_data := by
  refine ⟨{ t with lookups := t.lookups ++ [⟨vcEvents.map fun e => e.name, name, -1⟩] },
    ?_, rfl⟩
  unfold resolve_event lookup_event
  rw [find_event_loop_eq]
  have := find_string_absent _ name hn
  unfold find_string at this
  simp only [bind_run, noted, this, if_true, ret]

theorem bind_ret {α β : Type} {m : M α} {f : α → M β} {s s1 : State} {c : Int}
    (h : m s = Res.ret c s1) : (m >>= f) s = Res.ret c s1 := by
  rw [bind_run, h]

theorem indexed_fail {α : Type} (table : List String) (name : Option String) (n : String)
    (code : Int) (f : Int → M α) (t : State) (hn : name = some n) (ha : n ∉ table) :
    ∃ t1, (do
      let i ← resolve_string table (← defined name) code
      f i : M α) t = Res.ret code t1 ∧ t1.buff_data = t.buff_data := by
  obtain ⟨t1, h1, h2⟩ := resolve_string_fail table n code t ha
  refine ⟨t1, ?_, h2⟩
  rw [hn, bind_ok (rfl : defined (some n) t = Res.ok n t)]
  exact bind_ret h1

theorem indexed_bone_fail {α : Type} (vcBones : List BoneData) (name : Option String)
    (n : String) (code : Int) (f : Int → M α) (t : State) (hn : name = some n)
    (ha : n ∉ boneNames vcBones) :
    ∃ t1, (do
      let i ← resolve_bone vcBones (← defined name) code
      f i : M α) t = Res.ret code t1 ∧ t1.buff_data = t.buff_data := by
  obtain ⟨t1, h1, h2⟩ := resolve_bone_fail vcBones n code t ha
  refine ⟨t1, ?_, h2⟩
  rw [hn, bind_ok (rfl : defined (some n) t = Res.ok n t)]
  exact bind_ret h1

theorem push_slot_fail (wide : WideShift) (vcBones : List BoneData) (acc : List String)
    (slot : Json) (name boneName : String) (t : State)
    (h1 : Json_getString slot "name" (some "") = some name)
    (h2 : Json_getString slot "bone" (some "") = some boneName)
    (ha : boneName ∉ boneNames vcBones) :
    ∃ t1, push_slot wide vcBones acc slot t = Res.ret (-10) t1 ∧
      t1.buff_data = t.buff_data ++ string_bytes wide name := by
  obtain ⟨t1, k1, k2⟩ :=
    resolve_bone_fail vcBones boneName (-10) (t.append (string_bytes wide name)) ha
  refine ⟨t1, ?_, k2⟩
  unfold push_slot
  dsimp only
  rw [h1, bind_ok (push_string_run wide name t),
    bind_ok (rfl : defined (some name) _ = Res.ok name _), h2,
    bind_ok (rfl : defined (some boneName) _ = Res.ok boneName _)]
  exact bind_ret k1

theorem event_frame_fail (wide : WideShift) (vcEvents : List EventData) (valueMap : Json)
    (n : String) (t : State) (h1 : Json_getString valueMap "name" none = some n)
    (ha : n ∉ vcEvents.map (fun e => e.name)) :
    ∃ t1, event_frame wide vcEvents valueMap t = Res.ret (-13) t1 ∧
      t1.buff_data = t.buff_data ++ float_bytes (Json_getFloat valueMap "time" 0) := by
  obtain ⟨t1, k1, k2⟩ := resolve_event_fail vcEvents n (-13)
    (t.append (float_bytes (Json_getFloat valueMap "time" 0))) ha
  refine ⟨t1, ?_, k2⟩
  unfold event_frame
  rw [h1]
  dsimp only
  rw [bind_ok (push_float_run _ t)]
  exact bind_ret k1

theorem sites_fail (wide : WideShift) :
    (∀ vcBones code bone n t, bone.valueString = some n → n ∉ boneNames vcBones →
      ∃ t1, constraint_bone wide vcBones code bone t = Res.ret code t1 ∧
        t1.buff_data = t.buff_data) ∧
    (∀ slots entry n t, entry.name = some n → n ∉ slots →
      ∃ t1, push_skin_entry wide slots entry t = Res.ret (-1) t1 ∧
        t1.buff_data = t.buff_data) ∧
    (∀ vcSlots slotMap n t, slotMap.name = some n → n ∉ vcSlots →
      ∃ t1, slot_entry wide vcSlots slotMap t = Res.ret (-1) t1 ∧
        t1.buff_data = t.buff_data) ∧
    (∀ vcBones boneMap n t, boneMap.name = some n → n ∉ boneNames vcBones →
      ∃ t1, bone_entry wide vcBones boneMap t = Res.ret (-3) t1 ∧
        t1.buff_data = t.buff_data) ∧
    (∀ vcIK ikMap n t, ikMap.name = some n → n ∉ vcIK →
      ∃ t1, ik_entry wide vcIK ikMap t = Res.ret (-5) t1 ∧ t1.buff_data = t.buff_data) ∧
    (∀ vcTransform transMap n t, transMap.name = some n → n ∉ vcTransform →
      ∃ t1, transform_entry wide vcTransform transMap t = Res.ret (-6) t1 ∧
        t1.buff_data = t.buff_data) ∧
    (∀ vcPaths pathMap n t, pathMap.name = some n → n ∉ vcPaths →
      ∃ t1, path_entry wide vcPaths pathMap t = Res.ret (-7) t1 ∧
        t1.buff_data = t.buff_data) ∧
    (∀ vcSkins vcSlots deformMap n t, deformMap.name = some n → n ∉ vcSkins →
      ∃ t1, deform_entry wide vcSkins vcSlots deformMap t = Res.ret (-9) t1 ∧
        t1.buff_data = t.buff_data) ∧
    (∀ vcSlots slotMap n t, slotMap.name = some n → n ∉ vcSlots →
      ∃ t1, deform_slot_entry wide vcSlots slotMap t = Res.ret (-10) t1 ∧
        t1.buff_data = t.buff_data) ∧
    (∀ vcSlots offsetMap n t, Json_getString offsetMap "slot" none = some n → n ∉ vcSlots →
      ∃ t1, offset_entry wide vcSlots offsetMap t = Res.ret (-11) t1 ∧
        t1.buff_data = t.buff_data) :=
  ⟨fun vcBones code _ n t hn ha => indexed_bone_fail vcBones _ n code _ t hn ha,
    fun slots _ n t hn ha => indexed_fail slots _ n (-1) _ t hn ha,
    fun vcSlots _ n t hn ha => indexed_fail vcSlots _ n (-1) _ t hn ha,
    fun vcBones _ n t hn ha => indexed_bone_fail vcBones _ n (-3) _ t hn ha,
    fun vcIK _ n t hn ha => indexed_fail vcIK _ n (-5) _ t hn ha,
    fun vcTransform _ n t hn ha => indexed_fail vcTransform _ n (-6) _ t hn ha,
    fun vcPaths _ n t hn ha => indexed_fail vcPaths _ n (-7) _ t hn ha,
    fun vcSkins _ _ n t hn ha => indexed_fail vcSkins _ n (-9) _ t hn ha,
    fun vcSlots _ n t hn ha => indexed_fail vcSlots _ n (-10) _ t hn ha,
    fun vcSlots _ n t hn ha => indexed_fail vcSlots _ n (-11) _ t hn ha⟩

theorem completes_pure {α : Type} (a : α) : Completes (pure a : M α) :=
  fun s => ⟨a, s, rfl⟩

theorem completes_bind {α β : Type} {m : M α} {f : α → M β} (hm : Completes m)
    (hf : ∀ a, Completes (f a)) : Completes (m >>= f) := by
  intro s
  obtain ⟨a, s1, h1⟩ := hm s
  obtain ⟨b, s2, h2⟩ := hf a s1
  exact ⟨b, s2, by rw [bind_ok h1, h2]⟩

theorem completes_emit (bs : List Nat) : Completes (emit bs) := fun _ => ⟨(), _, rfl⟩

theorem completes_push_byte (c : Int) : Completes (push_byte c) := completes_emit _

theorem completes_push_varint (wide : WideShift) (v : Int) (o : Bool) :
    Completes (push_varint wide v o) := completes_emit _

theorem completes_push_float (v : Nat) : Completes (push_float v) :=
  fun s => ⟨(), _, push_float_run v s⟩

theorem completes_forEach {α : Type} (xs : List α) (body : α → M Unit)
    (h : ∀ x ∈ xs, Completes (body x)) : Completes (forEach xs body) := by
  induction xs with
  | nil => exact completes_pure ()
  | cons x rest ih =>
    unfold forEach
    exact completes_bind (h x (List.mem_cons_self _ _))
      fun _ => ih fun y hy => h y (List.mem_cons_of_mem _ hy)

theorem completes_push_curve (curve : Option Json) (h : curveDefined curve) :
    Completes (push_curve curve) := by
  unfold push_curve
  cases curve with
  | none => exact completes_push_byte 0
  | some c =>
    obtain ⟨h1, h2⟩ := h c rfl
    dsimp only
    have tail : ∀ stepped : Bool, Completes (if stepped = true then push_byte 1
        else if c.type = JsonType.Array then do
          push_byte 2
          match c.child with
          | child0 :: child1 :: child2 :: child3 :: _ => do
            push_float child0.valueFloat
            push_float child1.valueFloat
            push_float child2.valueFloat
            push_float child3.valueFloat
          | _ => crash
        else push_byte 0 : M Unit) := by
      intro stepped
      split
      · exact completes_push_byte 1
      · split
        · rename_i ha
          apply completes_bind (completes_push_byte 2)
          intro _
          have hl := h2 ha
          split
          · exact completes_bind (completes_push_float _) fun _ =>
              completes_bind (completes_push_float _) fun _ =>
                completes_bind (completes_push_float _) fun _ => completes_push_float _
          · rename_i hne
            exfalso
            match hc : c.child with
            | [] => rw [hc] at hl; simp at hl
            | [_] => rw [hc] at hl; simp at hl
            | [_, _] => rw [hc] at hl; simp at hl
            | [_, _, _] => rw [hc] at hl; simp at hl
            | c0 :: c1 :: c2 :: c3 :: r => exact hne c0 c1 c2 c3 r hc
        · exact completes_push_byte 0
    split
    · rename_i hs
      cases hv : c.valueString with
      | none => exact absurd hv (h1 hs)
      | some v =>
        exact completes_bind (completes_pure v) fun _ =>
          completes_bind (completes_pure _) fun y => tail y
    · exact completes_bind (completes_pure false) fun y => tail y

theorem charAt_some (c : String) (i : Nat) (h : i ≤ c.length) : ∃ ch, charAt c i = some ch := by
  unfold charAt
  by_cases h1 : i < c.length
  · exact ⟨_, if_pos h1⟩
  · rw [if_neg h1, if_pos (by omega)]
    exact ⟨_, rfl⟩

theorem completes_color_byte (c : String) (i : Nat) (h : i + 1 ≤ c.length) :
    Completes (color_byte c i) := by
  obtain ⟨hi, e1⟩ := charAt_some c i (by omega)
  obtain ⟨lo, e2⟩ := charAt_some c (i + 1) h
  unfold color_byte
  rw [e1, e2]
  exact completes_bind (completes_pure hi) fun _ =>
    completes_bind (completes_pure lo) fun _ => completes_pure _

theorem completes_push_color (color : Option String) (h : colorDefined color) :
    Completes (push_color color) := by
  unfold push_color
  cases color with
  | none =>
    exact completes_bind (completes_push_byte _) fun _ =>
      completes_bind (completes_push_byte _) fun _ =>
        completes_bind (completes_push_byte _) fun _ => completes_push_byte _
  | some c =>
    have hl := h c rfl
    dsimp only
    exact completes_bind (completes_color_byte c 0 (by omega)) fun _ =>
      completes_bind (completes_push_byte _) fun _ =>
      completes_bind (completes_color_byte c 2 (by omega)) fun _ =>
      completes_bind (completes_push_byte _) fun _ =>
      completes_bind (completes_color_byte c 4 (by omega)) fun _ =>
      completes_bind (completes_push_byte _) fun _ =>
      completes_bind (completes_color_byte c 6 (by omega)) fun _ => completes_push_byte _

theorem color_byte_cases (c : String) (i : Nat) (s : State) :
    (∃ v, color_byte c i s = Res.ok v s) ∨ color_byte c i s = Res.crash := by
  unfold color_byte
  cases h1 : charAt c i with
  | none => exact Or.inr rfl
  | some hi =>
    cases h2 : charAt c (i + 1) with
    | none => exact Or.inr rfl
    | some lo => exact Or.inl ⟨_, rfl⟩

theorem push_color_short (c : String) (h : c.length < 7) (s : State) :
    push_color (some c) s = Res.crash := by
  have h7 : charAt c 7 = none := by
    unfold charAt
    rw [if_neg (by omega), if_neg (by omega)]
  have last : ∀ t, color_byte c 6 t = Res.crash := by
    intro t
    unfold color_byte
    cases h1 : charAt c 6 with
    | none => rfl
    | some hi =>
      rw [h7]
      rfl
  unfold push_color
  dsimp only
  rcases color_byte_cases c 0 s with ⟨v0, e0⟩ | e0
  · rw [bind_ok e0, bind_ok (push_byte_run _ _)]
    rcases color_byte_cases c 2 (s.append [toU8 v0]) with ⟨v2, e2⟩ | e2
    · rw [bind_ok e2, bind_ok (push_byte_run _ _)]
      rcases color_byte_cases c 4 ((s.append [toU8 v0]).append [toU8 v2]) with ⟨v4, e4⟩ | e4
      · rw [bind_ok e4, bind_ok (push_byte_run _ _), bind_run, last]
      · rw [bind_run, e4]
    · rw [bind_run, e2]
  · rw [bind_run, e0]

theorem completes_frames (wide : WideShift) (v : Json) :
    Completes (rotate_frame v false) ∧ Completes (translate_frame v false) ∧
      Completes (ik_frame v false) ∧ Completes (transform_frame v false) ∧
      (∀ name, Completes (path_value_frame name v false)) ∧
      Completes (path_mix_frame v false) ∧ Completes (deform_frame wide v false) ∧
      (colorDefined (Json_getString v "color" none) → Completes (color_frame v false)) ∧
      (colorDefined (Json_getString v "light" none) →
        colorDefined (Json_getString v "dark" none) → Completes (two_color_frame v false)) := by
  refine ⟨?_, ?_, ?_, ?_, fun name => ?_, ?_, ?_, fun h => ?_, fun h1 h2 => ?_⟩
  · unfold rotate_frame
    exact completes_bind (completes_push_float _) fun _ =>
      completes_bind (completes_push_float _) fun _ => completes_pure ()
  · unfold translate_frame
    exact completes_bind (completes_push_float _) fun _ =>
      completes_bind (completes_push_float _) fun _ =>
      completes_bind (completes_push_float _) fun _ => completes_pure ()
  · unfold ik_frame
    exact completes_bind (completes_push_float _) fun _ =>
      completes_bind (completes_push_float _) fun _ =>
      completes_bind (completes_push_byte _) fun _ => completes_pure ()
  · unfold transform_frame
    exact completes_bind (completes_push_float _) fun _ =>
      completes_bind (completes_push_float _) fun _ =>
      completes_bind (completes_push_float _) fun _ =>
      completes_bind (completes_push_float _) fun _ =>
      completes_bind (completes_push_float _) fun _ => completes_pure ()
  · unfold path_value_frame
    exact completes_bind (completes_push_float _) fun _ =>
      completes_bind (completes_push_float _) fun _ => completes_pure ()
  · unfold path_mix_frame
    exact completes_bind (completes_push_float _) fun _ =>
      completes_bind (completes_push_float _) fun _ =>
      completes_bind (completes_push_float _) fun _ => completes_pure ()
  · unfold deform_frame
    apply completes_bind (completes_push_float _)
    intro _
    dsimp only
    split
    · exact completes_bind (completes_push_varint _ _ _) fun _ => completes_pure ()
    · exact completes_bind (completes_push_varint _ _ _) fun _ =>
        completes_bind (completes_push_varint _ _ _) fun _ =>
        completes_bind (completes_forEach _ _ fun _ _ => completes_push_float _) fun _ =>
        completes_pure ()
  · unfold color_frame
    exact completes_bind (completes_push_float _) fun _ =>
      completes_bind (completes_push_color _ h) fun _ => completes_pure ()
  · unfold two_color_frame
    exact completes_bind (completes_push_float _) fun _ =>
      completes_bind (completes_push_color _ h1) fun _ =>
      completes_bind (completes_push_color _ h2) fun _ => completes_pure ()

theorem completes_forFrames (wide : WideShift) (body : Json → Bool → M Unit)
    (hb : isCurveFrame wide body) (frames : List Json)
    (h1 : ∀ v ∈ frames, Completes (body v false))
    (h2 : ∀ v ∈ frames.dropLast, curveDefined (Json_getItem v "curve")) :
    Completes (forFrames frames body) := by
  induction frames with
  | nil => exact completes_pure ()
  | cons x rest ih =>
    unfold forFrames
    rw [curve_frame_split wide body hb x]
    cases rest with
    | nil =>
      exact completes_bind
        (completes_bind (h1 x (List.mem_cons_self _ _)) fun _ => completes_pure ())
        fun _ => completes_pure ()
    | cons y rest2 =>
      have hx : curveDefined (Json_getItem x "curve") :=
        h2 x (by rw [List.dropLast_cons₂]; exact List.mem_cons_self _ _)
      refine completes_bind
        (completes_bind (h1 x (List.mem_cons_self _ _)) fun _ =>
          completes_push_curve _ hx) fun _ => ?_
      exact ih (fun v hv => h1 v (List.mem_cons_of_mem _ hv))
        (fun v hv => h2 v (by rw [List.dropLast_cons₂]; exact List.mem_cons_of_mem _ hv))

/-! ## The header, the skins and the codes of the driver -/

/-- C11: on a text that passes the tests on the text, the driver returns -5
when the root has no `skeleton` object.  With the object there, it returns -6
when `hash` is present with a value that is not a string, and -7 when `spine`
is so; a `hash` or `spine` key that is absent stands for the empty string, which
is written as the single byte 1, and the conversion goes on to the later
stages, whose codes are not -5, -6 or -7. -/
theorem header_strings (wide : WideShift) (json : String) (len : Nat) (root : Json)
    (atlas : Option String) (s : State) (hp : passes json len) :
    (Json_getItem root "skeleton" = none →
      (∀ t, convert_body wide root t = Res.ret (-5) t) ∧
      ∃ s1, convert_json_to_binary wide json len (some root) atlas s = Res.ret (-5) s1) ∧
    (∀ skeleton, Json_getItem root "skeleton" = some skeleton →
      (nonStringKey skeleton "hash" →
        (∀ t, convert_body wide root t = Res.ret (-6) t) ∧
        ∃ s1, convert_json_to_binary wide json len (some root) atlas s = Res.ret (-6) s1) ∧
      ∀ hash, stringKey skeleton "hash" hash →
        (nonStringKey skeleton "spine" →
          (∀ t, convert_body wide root t =
            Res.ret (-7) (t.append (string_bytes wide hash))) ∧
          ∃ s1, convert_json_to_binary wide json len (some root) atlas s =
            Res.ret (-7) s1) ∧
        ∀ version, stringKey skeleton "spine" version →
          (∀ t, convert_body wide root t = convert_stages wide root skeleton
            (t.append (string_bytes wide hash ++ string_bytes wide version))) ∧
          (∀ t c s1, convert_body wide root t = Res.ret c s1 → c ≠ -5 ∧ c ≠ -6 ∧ c ≠ -7) ∧
          ∀ c s1, convert_json_to_binary wide json len (some root) atlas s = Res.ret c s1 →
            (c ≠ -5 ∧ c ≠ -6 ∧ c ≠ -7) ∨
            ∃ t, convert_body wide root t = Res.ok () s1 ∧ c = toI32 s1.buff_pos) ∧
    string_bytes wide "" = [1] := by
  obtain ⟨set, _, hset⟩ := convert_past wide json len root atlas s hp
  refine ⟨fun hn => ?_, fun skeleton hs => ⟨fun hh => ?_, fun hash hh =>
    ⟨fun hv => ?_, fun version hv => ?_⟩⟩, string_bytes_empty wide⟩
  · have hb : ∀ t, convert_body wide root t = Res.ret (-5) t := by
      intro t
      rw [convert_body_run, hn]
    exact ⟨hb, _, by rw [hset]; exact convert_root_ret wide root _ _ _ (hb _)⟩
  · have hb : ∀ t, convert_body wide root t = Res.ret (-6) t := by
      intro t
      rw [convert_body_run, hs]
      dsimp only
      rw [getString_nonStringKey _ _ hh]
    exact ⟨hb, _, by rw [hset]; exact convert_root_ret wide root _ _ _ (hb _)⟩
  · have hb : ∀ t, convert_body wide root t =
        Res.ret (-7) (t.append (string_bytes wide hash)) := by
      intro t
      rw [convert_body_run, hs]
      dsimp only
      rw [getString_stringKey _ _ _ hh]
      dsimp only
      rw [getString_nonStringKey _ _ hv]
    exact ⟨hb, _, by rw [hset]; exact convert_root_ret wide root _ _ _ (hb _)⟩
  · have hb : ∀ t, convert_body wide root t = convert_stages wide root skeleton
        (t.append (string_bytes wide hash ++ string_bytes wide version)) := by
      intro t
      rw [convert_body_run, hs]
      dsimp only
      rw [getString_stringKey _ _ _ hh]
      dsimp only
      rw [getString_stringKey _ _ _ hv]
    have hc : ∀ t c s1, convert_body wide root t = Res.ret c s1 →
        c ≠ -5 ∧ c ≠ -6 ∧ c ≠ -7 := by
      intro t c s1 h
      rw [hb] at h
      exact stages_not_header wide root skeleton _ s1 c h
    refine ⟨hb, hc, fun c s1 h => ?_⟩
    rw [hset] at h
    unfold convert_root at h
    rcases bind_ret_inv h with h1 | ⟨_, s2, h1, h2⟩
    · exact Or.inl (hc _ c s1 h1)
    · simp only [return_pos, Res.ret.injEq] at h2
      refine Or.inr ⟨⟨[], set, []⟩, ?_, ?_⟩
      · rw [← h2.2]
        exact h1
      · rw [← h2.2, ← h2.1]

theorem header_strings_witness :
    passes sampleText sampleText.length ∧
      Json_getItem sampleEmptyRoot "skeleton" = none ∧
      convert_json_to_binary wideZero sampleText sampleText.length (some sampleEmptyRoot) none
        ⟨[], [], []⟩ = Res.ret (-5) ⟨[], [], []⟩ ∧
      (∃ s1, convert_json_to_binary wideZero sampleText sampleText.length
        (some sampleEmptyRoot) none ⟨[], [], []⟩ = Res.ret (-5) s1) ∧
      stringKey (sampleObject (some "skeleton") []) "hash" "" ∧
      stringKey (sampleObject (some "skeleton") []) "spine" "" ∧
      ∀ t, convert_body wideZero sampleBare t =
        convert_stages wideZero sampleBare (sampleObject (some "skeleton") [])
          (t.append (string_bytes wideZero "" ++ string_bytes wideZero "")) :=
  ⟨passes_sampleText, rfl, rfl,
    ((header_strings wideZero sampleText sampleText.length sampleEmptyRoot none ⟨[], [], []⟩
      passes_sampleText).1 rfl).2,
    Or.inl ⟨rfl, rfl⟩, Or.inl ⟨rfl, rfl⟩,
    ((((header_strings wideZero sampleText sampleText.length sampleBare none ⟨[], [], []⟩
      passes_sampleText).2.1 (sampleObject (some "skeleton") []) rfl).2 ""
      (Or.inl ⟨rfl, rfl⟩)).2 "" (Or.inl ⟨rfl, rfl⟩)).1⟩

/-- C9: an input whose `skins` are absent or empty is rejected with the code
-20: when the statements of the driver before the skins complete, the driver
returns -20 there, on a text that passes the tests on the text and with a
`skeleton` object whose `hash` and `spine` are strings or absent.  The
conversion never completes on such an input, and a code that it returns is -20
unless a test or stage before the skins returns its own code (-1 to -4 and -5 to
-19) for its own reason.  Skins that are not empty and have no skin named
`default` are not rejected for that: when the skins block is written, no
unnamed block is stored; the count of the skins minus one is stored, then every
skin as a named block, in input order, and the skin table holds the names of
the skins. -/
theorem skins_without_default (wide : WideShift) (json : String) (len : Nat) (root : Json)
    (atlas : Option String) (s : State) :
    (∀ skeleton, convert_stages wide root skeleton =
      stages_to_skins wide root skeleton >>= stages_from_skins wide root) ∧
    (missing (Json_getItem root "skins") →
      (∀ skeleton tb t t1, stages_to_skins wide root skeleton t = Res.ok tb t1 →
        convert_stages wide root skeleton t = Res.ret (-20) t1) ∧
      (∀ skeleton hash version tb t t1, Json_getItem root "skeleton" = some skeleton →
        stringKey skeleton "hash" hash → stringKey skeleton "spine" version →
        stages_to_skins wide root skeleton
          (t.append (string_bytes wide hash ++ string_bytes wide version)) = Res.ok tb t1 →
        convert_body wide root t = Res.ret (-20) t1) ∧
      (passes json len → ∃ set, (atlas = none → set = []) ∧
        ∀ skeleton hash version tb t1, Json_getItem root "skeleton" = some skeleton →
          stringKey skeleton "hash" hash → stringKey skeleton "spine" version →
          stages_to_skins wide root skeleton
            ⟨string_bytes wide hash ++ string_bytes wide version, set, []⟩ = Res.ok tb t1 →
          convert_json_to_binary wide json len (some root) atlas s = Res.ret (-20) t1) ∧
      (∀ t t1, convert_body wide root t ≠ Res.ok () t1) ∧
      (∀ skeleton t t1, convert_stages wide root skeleton t ≠ Res.ok () t1) ∧
      ∀ c s1, convert_json_to_binary wide json len (some root) atlas s = Res.ret c s1 →
        convertOrigin wide json len (some root) c s1 ∧ (c = -20 ∨ (-19 ≤ c ∧ c ≤ -1))) ∧
    ∀ vcSlots skins vcSkins t t1, find_default skins.child = some none →
      push_skins wide vcSlots skins t = Res.ok vcSkins t1 →
      t1.buff_data = t.buff_data ++ varint_loop wide (toU32 (skins.size - 1)) 5 0 ++
        (skins.child.map (named_block wide vcSlots t.all_atlas)).flatten ∧
      vcSkins = skins.child.filterMap Json.name := by
  refine ⟨convert_stages_split wide root, fun hm => ?_,
    fun vcSlots skins vcSkins t t1 hd h => ?_⟩
  · have fw : ∀ skeleton tb t t1, stages_to_skins wide root skeleton t = Res.ok tb t1 →
        convert_stages wide root skeleton t = Res.ret (-20) t1 := by
      intro skeleton tb t t1 h
      rw [stages_reach_skins wide root skeleton tb t t1 h]
      exact skins_missing_run wide root tb t1 hm
    have fwb : ∀ skeleton hash version tb t t1, Json_getItem root "skeleton" = some skeleton →
        stringKey skeleton "hash" hash → stringKey skeleton "spine" version →
        stages_to_skins wide root skeleton
          (t.append (string_bytes wide hash ++ string_bytes wide version)) = Res.ok tb t1 →
        convert_body wide root t = Res.ret (-20) t1 := by
      intro skeleton hash version tb t t1 hs hh hv h
      rw [convert_body_run, hs]
      dsimp only
      rw [getString_stringKey _ _ _ hh]
      dsimp only
      rw [getString_stringKey _ _ _ hv]
      exact fw skeleton tb _ t1 h
    have no : ∀ skeleton t t1, convert_stages wide root skeleton t ≠ Res.ok () t1 := by
      intro skeleton t t1 h
      obtain ⟨_, _, _, _, _, _, _, skins, _, _, _, _, _, _, _, h1, h2, _⟩ :=
        stages_ok wide root skeleton t t1 h
      exact absurd (hm skins h1) (by omega)
    have nob : ∀ t t1, convert_body wide root t ≠ Res.ok () t1 := by
      intro t t1 h
      obtain ⟨skeleton, _, _, _, _, _, h1⟩ := body_ok_stages wide root t t1 h
      exact no skeleton _ t1 h1
    refine ⟨fw, fwb, fun hp => ?_, nob, no, fun c s1 h => ?_⟩
    · obtain ⟨set, hset, hrun⟩ := convert_past wide json len root atlas s hp
      refine ⟨set, hset, fun skeleton hash version tb t1 hs hh hv h => ?_⟩
      rw [hrun]
      exact convert_root_ret wide root _ t1 (-20)
        (fwb skeleton hash version tb ⟨[], set, []⟩ t1 hs hh hv h)
    · rcases convert_origin wide json len (some root) atlas s s1 c h with
        h1 | ⟨r, s0, hr, _, _, h1, _⟩
      · refine ⟨h1, ?_⟩
        rcases h1 with h2 | h2 | h2 | h2 | ⟨r, hr, _, h2⟩
        · omega
        · omega
        · omega
        · omega
        · cases hr
          rcases skins_missing_codes wide root c s1 hm h2 with h3 | h3
          · exact Or.inl h3
          · exact Or.inr ⟨h3.1, by omega⟩
      · cases hr
        exact absurd h1 (nob s0 s1)
  · obtain ⟨d, h1, h2, h3⟩ := push_skins_bytes wide vcSlots skins vcSkins t t1 h
    rw [hd] at h1
    have hd2 : d = none := (Option.some.inj h1).symm
    subst hd2
    rw [find_default_none _ hd] at h2 h3
    exact ⟨by simpa using h2, by simpa using h3⟩

theorem skins_without_default_witness :
    missing (Json_getItem sampleNoSkins "skins") ∧
      passes sampleText sampleText.length ∧
      stages_to_skins wideZero sampleNoSkins (sampleObject (some "skeleton") [])
          ⟨string_bytes wideZero "" ++ string_bytes wideZero "", [], []⟩ =
        Res.ok ⟨[rootBone], ["s"], [], [], []⟩ sampleNoSkinsState ∧
      convert_json_to_binary wideZero sampleText sampleText.length (some sampleNoSkins) none
        ⟨[], [], []⟩ = Res.ret (-20) sampleNoSkinsState ∧
      (convertOrigin wideZero sampleText sampleText.length (some sampleNoSkins) (-20)
          sampleNoSkinsState ∧
        ((-20 : Int) = -20 ∨ (-19 ≤ (-20 : Int) ∧ (-20 : Int) ≤ -1))) ∧
      find_default (sampleObject (some "skins") sampleNoDefault).child = some none ∧
      ∃ s1, push_skins wideZero ["s"] (sampleObject (some "skins") sampleNoDefault)
          ⟨[], [], []⟩ = Res.ok ["a"] s1 ∧
        s1.buff_data = [] ++ varint_loop wideZero
            (toU32 ((sampleObject (some "skins") sampleNoDefault).size - 1)) 5 0 ++
          ((sampleObject (some "skins") sampleNoDefault).child.map
            (named_block wideZero ["s"] [])).flatten :=
  ⟨sampleNoSkins_missing, passes_sampleText, rfl,
    (let ⟨set, hset, hf⟩ :=
      ((skins_without_default wideZero sampleText sampleText.length sampleNoSkins none
        ⟨[], [], []⟩).2.1 sampleNoSkins_missing).2.2.1 passes_sampleText
    hf (sampleObject (some "skeleton") []) "" "" ⟨[rootBone], ["s"], [], [], []⟩
      sampleNoSkinsState rfl (Or.inl ⟨rfl, rfl⟩) (Or.inl ⟨rfl, rfl⟩)
      (by rw [hset rfl]; rfl)),
    ((skins_without_default wideZero sampleText sampleText.length sampleNoSkins none
      ⟨[], [], []⟩).2.1 sampleNoSkins_missing).2.2.2.2.2 (-20) _ rfl,
    rfl, _, rfl,
    ((skins_without_default wideZero sampleText sampleText.length sampleNoSkins none
      ⟨[], [], []⟩).2.2 ["s"] (sampleObject (some "skins") sampleNoDefault) ["a"]
      ⟨[], [], []⟩ _ rfl rfl).1⟩

/-- C12: the driver returns -1 when `len < 16`; otherwise -2 when the first
character is not an opening brace; otherwise -3 when the first 18 characters do
not contain the quoted token `skeleton`; otherwise -4 when there is no parse
tree.  Every `return` of a code comes from the stage whose code it is
(`convertOrigin`): -5, -6 and -7 from the three tests of the header, -8 and -9
from missing or empty bones and slots, -10 from the record of a slot, -11 to
-13, -15 to -16 and -17 to -19 from the record of an IK, transform and path
constraint, -20 from missing or empty skins, -100 and -200 plus the code of
`parse_skin` from the default and a named skin, -300 plus the code of
`parse_animation` from an animation, each reached only when the tests and
stages before it have passed; all of them are negative.  The only other
`return` is the final `return buff_pos`, whose value is not negative for a
write position below 2^31. -/
theorem error_codes (wide : WideShift) (json : String) (len : Nat) (root : Option Json)
    (atlas : Option String) (s : State) :
    (∀ c s1, convert_json_to_binary wide json len root atlas s = Res.ret c s1 →
        convertOrigin wide json len root c s1 ∨
        ∃ r s0, root = some r ∧ passes json len ∧ s0.buff_data = [] ∧
          convert_body wide r s0 = Res.ok () s1 ∧ c = toI32 s1.buff_pos) ∧
      (∀ c s1, convertOrigin wide json len root c s1 → c < 0) ∧
      (∀ r t c s1, convert_body wide r t = Res.ret c s1 → bodyOrigin wide r c s1) ∧
      (∀ r skeleton t c s1, convert_stages wide r skeleton t = Res.ret c s1 →
        stagesOrigin wide r c s1) ∧
      (len < 16 → ∃ s1, convert_json_to_binary wide json len root atlas s = Res.ret (-1) s1) ∧
      (16 ≤ len → ∀ ch, charAt json 0 = some ch → ch ≠ '{' →
        ∃ s1, convert_json_to_binary wide json len root atlas s = Res.ret (-2) s1) ∧
      (16 ≤ len → charAt json 0 = some '{' → ∀ head, read_chars json 18 0 = some head →
        (contains_sub "\"skeleton\"".toList head = false →
          ∃ s1, convert_json_to_binary wide json len root atlas s = Res.ret (-3) s1) ∧
        (contains_sub "\"skeleton\"".toList head = true → root = none →
          ∃ s1, convert_json_to_binary wide json len root atlas s = Res.ret (-4) s1)) ∧
      (∀ c s1, convert_json_to_binary wide json len root atlas s = Res.ret c s1 →
        (c = -1 ∨ c = -2 ∨ c = -3 ∨ c = -4 ∨ stageCode c) ∧ c < 0 ∨
        ∃ r s0, root = some r ∧ convert_body wide r s0 = Res.ok () s1 ∧
          c = toI32 s1.buff_pos ∧ (s1.buff_pos < 2147483648 → 0 ≤ c)) ∧
      (∀ r, Returns stageCode (convert_body wide r)) ∧
      (∀ r skeleton, Returns
        (fun c => (-10 ≤ c ∧ c ≤ -8) ∨ constraintCode c ∨ skinCode c ∨ animationCode c)
        (convert_stages wide r skeleton)) ∧
      (∀ vcBones vcSlots slot, Returns headerCode (push_slot wide vcBones vcSlots slot)) ∧
      (∀ vcBones vcIK ikMap, Returns constraintCode (push_ik wide vcBones vcIK ikMap)) ∧
      (∀ vcBones vcTransform transformMap,
        Returns constraintCode (push_transform wide vcBones vcTransform transformMap)) ∧
      (∀ vcBones vcSlots vcPaths pathMap,
        Returns constraintCode (push_path wide vcBones vcSlots vcPaths pathMap)) ∧
      (∀ vcSlots skins, Returns skinCode (push_skins wide vcSlots skins)) ∧
      (∀ vcSlots vcBones vcIK vcTransform vcPaths vcSkins vcEvents aniMap,
        Returns animationCode
          (push_animation wide vcSlots vcBones vcIK vcTransform vcPaths vcSkins vcEvents
            aniMap)) ∧
      (∀ skin slots, Returns (fun c => c = 0 ∨ skinInner c) (parse_skin wide skin slots)) ∧
      (∀ animation vcSlots vcBones vcIK vcTransform vcPaths vcSkins vcEvents,
        Returns (fun c => c = 0 ∨ animationInner c)
          (parse_animation wide animation vcSlots vcBones vcIK vcTransform vcPaths vcSkins
            vcEvents)) :=
  ⟨fun c s1 h => convert_origin wide json len root atlas s s1 c h,
    fun c s1 h => convert_origin_neg wide json len root c s1 h,
    fun r t c s1 h => body_origin wide r t s1 c h,
    fun r skeleton t c s1 h => stages_origin wide r skeleton t s1 c h,
    codes_in_range wide json len root atlas s⟩

theorem error_codes_witness :
    (3 < 16 ∧ ∃ s1, convert_json_to_binary wideZero "abc" 3 none none ⟨[], [], []⟩ =
        Res.ret (-1) s1) ∧
      (∃ s1, convert_json_to_binary wideZero sampleText sampleText.length
          (some sampleSkeleton) none ⟨[], [], []⟩ = Res.ret 75 s1 ∧
        ((75 = -1 ∨ 75 = -2 ∨ 75 = -3 ∨ 75 = -4 ∨ stageCode 75) ∧ (75 : Int) < 0 ∨
        ∃ r s0, some sampleSkeleton = some r ∧ convert_body wideZero r s0 = Res.ok () s1 ∧
          75 = toI32 s1.buff_pos ∧ (s1.buff_pos < 2147483648 → (0 : Int) ≤ 75))) ∧
      ∃ s1, convert_json_to_binary wideZero sampleText sampleText.length
          (some sampleNoSkins) none ⟨[], [], []⟩ = Res.ret (-20) s1 ∧
        (convertOrigin wideZero sampleText sampleText.length (some sampleNoSkins) (-20) s1 ∨
          ∃ r s0, some sampleNoSkins = some r ∧ passes sampleText sampleText.length ∧
            s0.buff_data = [] ∧ convert_body wideZero r s0 = Res.ok () s1 ∧
            -20 = toI32 s1.buff_pos) :=
  ⟨⟨by decide, (error_codes wideZero "abc" 3 none none ⟨[], [], []⟩).2.2.2.2.1
      (by decide)⟩,
    ⟨_, rfl,
      (error_codes wideZero sampleText sampleText.length (some sampleSkeleton) none
        ⟨[], [], []⟩).2.2.2.2.2.2.2.1 75 _ rfl⟩,
    _, rfl,
    (error_codes wideZero sampleText sampleText.length (some sampleNoSkins) none
      ⟨[], [], []⟩).1 (-20) _ rfl⟩

/-! ## Curve records of the timelines -/

/-- C17: when `parse_animation` returns 0, every timeline of the color,
twoColor, rotate, translate, scale, shear, IK, transform, path position, path
spacing, path mix and deform families that the animation holds has been written
by the loop over its frames with the frame body of its family, in the course of
that call, and the bytes of that loop are the frames, each of the first `n - 1`
followed by its curve record (the tag 0 or 1, or the tag 2 and four floats) and
the last one by nothing: `n - 1` curve records for `n >= 1` frames.  A color
timeline of three frames is the first frame, its curve record, the second
frame, its curve record, and the third frame.  The statement of a timeline is
its type byte, the count of its frames and that loop; the frame body of every
family writes the fields of the frame and then, when a next frame exists, the
curve record.  The loop completes when every curve that it writes can be
written (`curveDefined`) and, for a color and a twoColor timeline, every color
string has the seven characters before the last one read; `push_color` has no
defined behaviour on a shorter string. -/
theorem curve_records (wide : WideShift) :
    (∀ (animation : Json) (vcSlots : List String) (vcBones : List BoneData)
        (vcIK vcTransform vcPaths vcSkins : List String) (vcEvents : List EventData)
        (s s1 : State),
      parse_animation wide animation vcSlots vcBones vcIK vcTransform vcPaths vcSkins
        vcEvents s = Res.ret 0 s1 →
      (∀ slotMap ∈ children (Json_getItem animation "slots"), ∀ tl ∈ slotMap.child,
        (tl.name = some "color" → Curves tl.child color_frame s s1) ∧
        (tl.name = some "twoColor" → Curves tl.child two_color_frame s s1)) ∧
      (∀ boneMap ∈ children (Json_getItem animation "bones"), ∀ tl ∈ boneMap.child,
        (tl.name = some "rotate" → Curves tl.child rotate_frame s s1) ∧
        (tl.name = some "translate" ∨ tl.name = some "scale" ∨ tl.name = some "shear" →
          Curves tl.child translate_frame s s1)) ∧
      (∀ ikMap ∈ children (Json_getItem animation "ik"), Curves ikMap.child ik_frame s s1) ∧
      (∀ transMap ∈ children (Json_getItem animation "transform"),
        Curves transMap.child transform_frame s s1) ∧
      (∀ pathMap ∈ children (Json_getItem animation "paths"), ∀ tl ∈ pathMap.child,
        (tl.name = some "position" → Curves tl.child (path_value_frame "position") s s1) ∧
        (tl.name = some "spacing" → Curves tl.child (path_value_frame "spacing") s s1) ∧
        (tl.name = some "mix" → Curves tl.child path_mix_frame s s1)) ∧
      (∀ deformMap ∈ children (Json_getItem animation "deform"), ∀ slotMap ∈ deformMap.child,
        ∀ tl ∈ slotMap.child, Curves tl.child (deform_frame wide) s s1) ∧
      (∀ slotMap ∈ children (Json_getItem animation "slots"), ∀ tl ∈ slotMap.child,
        tl.name = some "color" → ∀ f1 f2 f3, tl.child = [f1, f2, f3] →
        ∃ t t1, Grows s t ∧ Grows t1 s1 ∧
          forFrames [f1, f2, f3] color_frame t = Res.ok () t1 ∧
          isCurveRecord (written (push_curve (Json_getItem f1 "curve")) t.all_atlas) ∧
          isCurveRecord (written (push_curve (Json_getItem f2 "curve")) t.all_atlas) ∧
          t1.buff_data = t.buff_data ++
            (written (color_frame f1 false) t.all_atlas ++
              written (push_curve (Json_getItem f1 "curve")) t.all_atlas) ++
            (written (color_frame f2 false) t.all_atlas ++
              written (push_curve (Json_getItem f2 "curve")) t.all_atlas) ++
            written (color_frame f3 false) t.all_atlas)) ∧
    (∀ (tl : Json) (t : State),
      (tl.name = some "color" → slot_timeline wide tl t = forFrames tl.child color_frame
        (t.append ([1] ++ varint_loop wide (toU32 tl.size) 5 0))) ∧
      (tl.name = some "twoColor" → slot_timeline wide tl t =
        forFrames tl.child two_color_frame
          (t.append ([2] ++ varint_loop wide (toU32 tl.size) 5 0))) ∧
      (tl.name = some "rotate" → bone_timeline wide tl t = forFrames tl.child rotate_frame
        (t.append ([0] ++ varint_loop wide (toU32 tl.size) 5 0))) ∧
      (tl.name = some "translate" → bone_timeline wide tl t =
        forFrames tl.child translate_frame
          (t.append ([1] ++ varint_loop wide (toU32 tl.size) 5 0))) ∧
      (tl.name = some "scale" → bone_timeline wide tl t =
        forFrames tl.child translate_frame
          (t.append ([2] ++ varint_loop wide (toU32 tl.size) 5 0))) ∧
      (tl.name = some "shear" → bone_timeline wide tl t =
        forFrames tl.child translate_frame
          (t.append ([3] ++ varint_loop wide (toU32 tl.size) 5 0))) ∧
      (tl.name = some "position" → path_timeline wide tl t =
        forFrames tl.child (path_value_frame "position")
          (t.append ([0] ++ varint_loop wide (toU32 tl.size) 5 0))) ∧
      (tl.name = some "spacing" → path_timeline wide tl t =
        forFrames tl.child (path_value_frame "spacing")
          (t.append ([1] ++ varint_loop wide (toU32 tl.size) 5 0))) ∧
      (tl.name = some "mix" → path_timeline wide tl t = forFrames tl.child path_mix_frame
        (t.append ([2] ++ varint_loop wide (toU32 tl.size) 5 0))) ∧
      deform_timeline wide tl t = forFrames tl.child (deform_frame wide)
        (t.append (opt_string_bytes wide tl.name ++
          varint_loop wide (toU32 tl.size) 5 0))) ∧
    (∀ body, isCurveFrame wide body →
      (∀ v next, body v next = body v false >>= fun _ => curve_if_next v next) ∧
      (∀ frames t t1, forFrames frames body t = Res.ok () t1 → Curves frames body t t1) ∧
      ∀ frames, (∀ v ∈ frames, Completes (body v false)) →
        (∀ v ∈ frames.dropLast, curveDefined (Json_getItem v "curve")) →
        Completes (forFrames frames body)) ∧
    (∀ v, Completes (rotate_frame v false) ∧ Completes (translate_frame v false) ∧
      Completes (ik_frame v false) ∧ Completes (transform_frame v false) ∧
      (∀ name, Completes (path_value_frame name v false)) ∧
      Completes (path_mix_frame v false) ∧ Completes (deform_frame wide v false) ∧
      (colorDefined (Json_getString v "color" none) → Completes (color_frame v false)) ∧
      (colorDefined (Json_getString v "light" none) →
        colorDefined (Json_getString v "dark" none) →
        Completes (two_color_frame v false))) ∧
    (∀ curve, curveDefined curve → Completes (push_curve curve)) ∧
    ∀ c : String, c.length < 7 → ∀ t, push_color (some c) t = Res.crash := by
  refine ⟨fun animation vcSlots vcBones vcIK vcTransform vcPaths vcSkins vcEvents s s1 h => ?_,
    fun tl t => ⟨slot_timeline_color wide tl t, slot_timeline_two_color wide tl t,
      bone_timeline_rotate wide tl t, bone_timeline_translate wide tl t,
      bone_timeline_scale wide tl t, bone_timeline_shear wide tl t,
      path_timeline_position wide tl t, path_timeline_spacing wide tl t,
      path_timeline_mix wide tl t, deform_timeline_run wide tl t⟩,
    fun body hb => ⟨curve_frame_split wide body hb, fun frames t t1 ht =>
      curves_of_ran wide frames body hb (ran_self ht),
      fun frames h1 h2 => completes_forFrames wide body hb frames h1 h2⟩,
    completes_frames wide, completes_push_curve, push_color_short⟩
  obtain ⟨hslots, hbones, hik, htransform, hpaths, hdeform, _, _⟩ :=
    parse_animation_ran wide animation vcSlots vcBones vcIK vcTransform vcPaths vcSkins
      vcEvents s s1 h
  have slot : ∀ slotMap ∈ children (Json_getItem animation "slots"), ∀ tl ∈ slotMap.child,
      Ran (slot_timeline wide tl) () s s1 := fun slotMap hm tl htl =>
    ran_trans (hslots slotMap hm) fun t t1 ht =>
      slot_entry_timelines wide vcSlots slotMap ht tl htl
  have bone : ∀ boneMap ∈ children (Json_getItem animation "bones"), ∀ tl ∈ boneMap.child,
      Ran (bone_timeline wide tl) () s s1 := fun boneMap hm tl htl =>
    ran_trans (hbones boneMap hm) fun t t1 ht =>
      bone_entry_timelines wide vcBones boneMap ht tl htl
  have path : ∀ pathMap ∈ children (Json_getItem animation "paths"), ∀ tl ∈ pathMap.child,
      Ran (path_timeline wide tl) () s s1 := fun pathMap hm tl htl =>
    ran_trans (hpaths pathMap hm) fun t t1 ht =>
      path_entry_timelines wide vcPaths pathMap ht tl htl
  have color : ∀ slotMap ∈ children (Json_getItem animation "slots"), ∀ tl ∈ slotMap.child,
      tl.name = some "color" → Curves tl.child color_frame s s1 := fun slotMap hm tl htl hn =>
    curves_of_ran wide _ _ (Or.inl rfl)
      (timeline_frames (slot slotMap hm tl htl) fun t => slot_timeline_color wide tl t hn)
  refine ⟨fun slotMap hm tl htl => ⟨color slotMap hm tl htl, fun hn => ?_⟩,
    fun boneMap hm tl htl => ⟨fun hn => ?_, fun hn => ?_⟩,
    fun ikMap hm => ?_, fun transMap hm => ?_,
    fun pathMap hm tl htl => ⟨fun hn => ?_, fun hn => ?_, fun hn => ?_⟩,
    fun deformMap hm slotMap hsm tl htl => ?_,
    fun slotMap hm tl htl hn f1 f2 f3 hf => ?_⟩
  · exact curves_of_ran wide _ _ (Or.inr (Or.inl rfl))
      (timeline_frames (slot slotMap hm tl htl) fun t => slot_timeline_two_color wide tl t hn)
  · exact curves_of_ran wide _ _ (Or.inr (Or.inr (Or.inl rfl)))
      (timeline_frames (bone boneMap hm tl htl) fun t => bone_timeline_rotate wide tl t hn)
  · rcases hn with hn | hn | hn
    · exact curves_of_ran wide _ _ (Or.inr (Or.inr (Or.inr (Or.inl rfl))))
        (timeline_frames (bone boneMap hm tl htl) fun t =>
          bone_timeline_translate wide tl t hn)
    · exact curves_of_ran wide _ _ (Or.inr (Or.inr (Or.inr (Or.inl rfl))))
        (timeline_frames (bone boneMap hm tl htl) fun t => bone_timeline_scale wide tl t hn)
    · exact curves_of_ran wide _ _ (Or.inr (Or.inr (Or.inr (Or.inl rfl))))
        (timeline_frames (bone boneMap hm tl htl) fun t => bone_timeline_shear wide tl t hn)
  · exact curves_of_ran wide _ _ (Or.inr (Or.inr (Or.inr (Or.inr (Or.inl rfl)))))
      (ran_trans (hik ikMap hm) fun t t1 ht => ik_entry_frames wide vcIK ikMap ht)
  · exact curves_of_ran wide _ _ (Or.inr (Or.inr (Or.inr (Or.inr (Or.inr (Or.inl rfl))))))
      (ran_trans (htransform transMap hm) fun t t1 ht =>
        transform_entry_frames wide vcTransform transMap ht)
  · exact curves_of_ran wide _ _
      (Or.inr (Or.inr (Or.inr (Or.inr (Or.inr (Or.inr (Or.inl ⟨_, rfl⟩)))))))
      (timeline_frames (path pathMap hm tl htl) fun t => path_timeline_position wide tl t hn)
  · exact curves_of_ran wide _ _
      (Or.inr (Or.inr (Or.inr (Or.inr (Or.inr (Or.inr (Or.inl ⟨_, rfl⟩)))))))
      (timeline_frames (path pathMap hm tl htl) fun t => path_timeline_spacing wide tl t hn)
  · exact curves_of_ran wide _ _
      (Or.inr (Or.inr (Or.inr (Or.inr (Or.inr (Or.inr (Or.inr (Or.inl rfl))))))))
      (timeline_frames (path pathMap hm tl htl) fun t => path_timeline_mix wide tl t hn)
  · have hd : Ran (deform_timeline wide tl) () s s1 :=
      ran_trans (hdeform deformMap hm) fun t t1 ht =>
        ran_trans (deform_entry_slots wide vcSkins vcSlots deformMap ht slotMap hsm)
          fun u u1 hu => deform_slot_entry_timelines wide vcSlots slotMap hu tl htl
    exact curves_of_ran wide _ _
      (Or.inr (Or.inr (Or.inr (Or.inr (Or.inr (Or.inr (Or.inr (Or.inr rfl))))))))
      (timeline_frames hd fun t => deform_timeline_run wide tl t)
  · have hc := color slotMap hm tl htl hn
    rw [hf] at hc
    exact three_frames color_frame f1 f2 f3 hc


theorem curve_records_witness :
    parse_animation wideZero sampleColorAnimation ["s"] [] [] [] [] [] [] ⟨[], [], []⟩ =
        Res.ret 0 ⟨[1, 0, 1, 1, 3] ++
          ([63, 128, 0, 0, 255, 0, 0, 255] ++ [1]) ++
          ([63, 128, 0, 0, 255, 0, 0, 255] ++ [0]) ++
          [63, 128, 0, 0, 255, 0, 0, 255] ++ [0, 0, 0, 0, 0, 0, 0], [],
          [⟨["s"], "s", 0⟩]⟩ ∧
      written (push_curve (Json_getItem (sampleColorFrame [sampleString "curve" "stepped"])
        "curve")) [] = [1] ∧
      written (push_curve (Json_getItem (sampleColorFrame []) "curve")) [] = [0] ∧
      written (color_frame (sampleColorFrame []) false) [] =
        [63, 128, 0, 0, 255, 0, 0, 255] ∧
      ∃ t t1, Grows ⟨[], [], []⟩ t ∧
        Grows t1 ⟨[1, 0, 1, 1, 3] ++
          ([63, 128, 0, 0, 255, 0, 0, 255] ++ [1]) ++
          ([63, 128, 0, 0, 255, 0, 0, 255] ++ [0]) ++
          [63, 128, 0, 0, 255, 0, 0, 255] ++ [0, 0, 0, 0, 0, 0, 0], [],
          [⟨["s"], "s", 0⟩]⟩ ∧
        forFrames [sampleColorFrame [sampleString "curve" "stepped"], sampleColorFrame [],
          sampleColorFrame [sampleString "curve" "stepped"]] color_frame t = Res.ok () t1 ∧
        isCurveRecord (written (push_curve (Json_getItem
          (sampleColorFrame [sampleString "curve" "stepped"]) "curve")) t.all_atlas) ∧
        isCurveRecord (written (push_curve (Json_getItem (sampleColorFrame []) "curve"))
          t.all_atlas) ∧
        t1.buff_data = t.buff_data ++
          (written (color_frame (sampleColorFrame [sampleString "curve" "stepped"]) false)
              t.all_atlas ++
            written (push_curve (Json_getItem
              (sampleColorFrame [sampleString "curve" "stepped"]) "curve")) t.all_atlas) ++
          (written (color_frame (sampleColorFrame []) false) t.all_atlas ++
            written (push_curve (Json_getItem (sampleColorFrame []) "curve")) t.all_atlas) ++
          written (color_frame (sampleColorFrame [sampleString "curve" "stepped"]) false)
            t.all_atlas :=
  ⟨rfl, rfl, rfl, rfl,
    ((curve_records wideZero).1 sampleColorAnimation ["s"] [] [] [] [] [] []
      ⟨[], [], []⟩ _ rfl).2.2.2.2.2.2 (sampleObject (some "s")
        [sampleColorTimeline [sampleColorFrame [sampleString "curve" "stepped"],
          sampleColorFrame [], sampleColorFrame [sampleString "curve" "stepped"]]])
      (List.mem_singleton.2 rfl)
      (sampleColorTimeline [sampleColorFrame [sampleString "curve" "stepped"],
        sampleColorFrame [], sampleColorFrame [sampleString "curve" "stepped"]])
      (List.mem_singleton.2 rfl) rfl _ _ _ rfl⟩

/-! ## References and indices -/

/-- C5: in a successful conversion (one that returns a non-negative code) the
tables are the bone table of `process_bones` and the names of the slots, the
constraints, the skins and the events in the order in which their records are
written, and every reference of the input is resolved and written (`Site`): the
bone of a slot, the bones and the target of an IK, transform and path
constraint, the slot of an entry of a skin, and in an animation the slot, bone,
IK, transform and path constraint of a timeline, the skin and the slot of a
deform timeline, the slot of a draw order offset and the event of an event
frame.  For each of them the statement that writes it is executed in the course
of the conversion, the index it stores is the position of the first entry of
the table with the name referred to, so it is not negative and is below the
size of the table, and it is stored as a positive varint at its place in the
record.  Every lookup made is of that kind.  A name that is in no table makes
the lookup return its error code without a byte written, and so the statement
that would write the index returns that code with no index written. -/
theorem indices_resolved (wide : WideShift) (json : String) (len : Nat)
    (root : Option Json) (atlas : Option String) (s s1 : State) (c : Int)
    (h : convert_json_to_binary wide json len root atlas s = Res.ret c s1) (hc : 0 ≤ c) :
    (∃ r s0 bones vcBones slots vcSlots vcIK vcTransform vcPaths skins vcSkins vcEvents,
      root = some r ∧ s0.buff_data = [] ∧ convert_body wide r s0 = Res.ok () s1 ∧
      Json_getItem r "bones" = some bones ∧ process_bones bones = some vcBones ∧
      Json_getItem r "slots" = some slots ∧ Json_getItem r "skins" = some skins ∧
      Ran (push_bones wide vcBones 0) () s0 s1 ∧
      Ran (forAcc slots.child [] (push_slot wide vcBones)) vcSlots s0 s1 ∧
      Ran (forAcc (children (Json_getItem r "ik")) [] (push_ik wide vcBones)) vcIK s0 s1 ∧
      Ran (forAcc (children (Json_getItem r "transform")) [] (push_transform wide vcBones))
        vcTransform s0 s1 ∧
      Ran (forAcc (children (Json_getItem r "path")) [] (push_path wide vcBones vcSlots))
        vcPaths s0 s1 ∧
      Ran (push_skins wide vcSlots skins) vcSkins s0 s1 ∧
      Ran (forAcc (children (Json_getItem r "events")) [] (push_event wide)) vcEvents
        s0 s1 ∧
      vcSlots.map some = slots.child.map (fun x => Json_getString x "name" (some "")) ∧
      vcIK.map some =
        (children (Json_getItem r "ik")).map (fun x => Json_getString x "name" (some "")) ∧
      vcTransform.map some = (children (Json_getItem r "transform")).map
        (fun x => Json_getString x "name" (some "")) ∧
      vcPaths.map some =
        (children (Json_getItem r "path")).map (fun x => Json_getString x "name" (some "")) ∧
      (∃ defaultSkin, find_default skins.child = some defaultSkin ∧
        vcSkins = (match defaultSkin with
          | some _ => ["default"]
          | none => []) ++ (skins.child.filter isNamed).filterMap Json.name) ∧
      (vcEvents.map fun e => e.name).map some =
        (children (Json_getItem r "events")).map Json.name ∧
      (∀ slot ∈ slots.child, ∃ acc,
        Site wide (push_slot wide vcBones acc slot) (boneNames vcBones)
          (Json_getString slot "bone" (some "")) (find_bone vcBones)
          (opt_string_bytes wide (Json_getString slot "name" (some ""))) s0 s1) ∧
      (∀ ikMap ∈ children (Json_getItem r "ik"),
        ∃ ikBones, Json_getItem ikMap "bones" = some ikBones ∧
          (∀ bone ∈ ikBones.child, Site wide (constraint_bone wide vcBones (-12) bone)
            (boneNames vcBones) bone.valueString (find_bone vcBones) [] s0 s1) ∧
          ∃ acc pre, Site wide (push_ik wide vcBones acc ikMap) (boneNames vcBones)
            (Json_getString ikMap "target" (some "")) (find_bone vcBones) pre s0 s1) ∧
      (∀ transformMap ∈ children (Json_getItem r "transform"),
        ∃ transformBones, Json_getItem transformMap "bones" = some transformBones ∧
          (∀ bone ∈ transformBones.child, Site wide (constraint_bone wide vcBones (-15) bone)
            (boneNames vcBones) bone.valueString (find_bone vcBones) [] s0 s1) ∧
          ∃ acc pre, Site wide (push_transform wide vcBones acc transformMap)
            (boneNames vcBones) (Json_getString transformMap "target" (some ""))
            (find_bone vcBones) pre s0 s1) ∧
      (∀ pathMap ∈ children (Json_getItem r "path"),
        ∃ pathBones, Json_getItem pathMap "bones" = some pathBones ∧
          (∀ bone ∈ pathBones.child, Site wide (constraint_bone wide vcBones (-18) bone)
            (boneNames vcBones) bone.valueString (find_bone vcBones) [] s0 s1) ∧
          ∃ acc pre, Site wide (push_path wide vcBones vcSlots acc pathMap) vcSlots
            (Json_getString pathMap "target" (some "")) (find_string vcSlots) pre s0 s1) ∧
      (∀ skin, (find_default skins.child = some (some skin) ∨
          (skin ∈ skins.child ∧ skin.name ≠ some "default")) →
        ∀ entry ∈ skin.child, Site wide (push_skin_entry wide vcSlots entry) vcSlots
          entry.name (find_string vcSlots) [] s0 s1) ∧
      ∀ animation ∈ children (Json_getItem r "animations"),
        (∀ slotMap ∈ children (Json_getItem animation "slots"),
          Site wide (slot_entry wide vcSlots slotMap) vcSlots slotMap.name
            (find_string vcSlots) [] s0 s1) ∧
        (∀ boneMap ∈ children (Json_getItem animation "bones"),
          Site wide (bone_entry wide vcBones boneMap) (boneNames vcBones) boneMap.name
            (find_bone vcBones) [] s0 s1) ∧
        (∀ ikMap ∈ children (Json_getItem animation "ik"),
          Site wide (ik_entry wide vcIK ikMap) vcIK ikMap.name (find_string vcIK) [] s0 s1) ∧
        (∀ transMap ∈ children (Json_getItem animation "transform"),
          Site wide (transform_entry wide vcTransform transMap) vcTransform transMap.name
            (find_string vcTransform) [] s0 s1) ∧
        (∀ pathMap ∈ children (Json_getItem animation "paths"),
          Site wide (path_entry wide vcPaths pathMap) vcPaths pathMap.name
            (find_string vcPaths) [] s0 s1) ∧
        (∀ deformMap ∈ children (Json_getItem animation "deform"),
          Site wide (deform_entry wide vcSkins vcSlots deformMap) vcSkins deformMap.name
            (find_string vcSkins) [] s0 s1 ∧
          ∀ slotMap ∈ deformMap.child,
            Site wide (deform_slot_entry wide vcSlots slotMap) vcSlots slotMap.name
              (find_string vcSlots) [] s0 s1) ∧
        (∀ valueMap ∈ children (Json_getItem animation "drawOrder"),
          ∀ offsetMap ∈ children (Json_getItem valueMap "offsets"),
            Site wide (offset_entry wide vcSlots offsetMap) vcSlots
              (Json_getString offsetMap "slot" none) (find_string vcSlots) [] s0 s1) ∧
        (∀ valueMap ∈ children (Json_getItem animation "events"),
          Site wide (event_frame wide vcEvents valueMap) (vcEvents.map fun e => e.name)
            (Json_getString valueMap "name" none) (fun n => find_event_loop n vcEvents 0)
            (float_bytes (Json_getFloat valueMap "time" 0)) s0 s1)) ∧
    (∀ l ∈ s1.lookups, ∃ i : Nat, l.index = (i : Int) ∧ i < l.table.length ∧
      l.table.get? i = some l.name ∧ ∀ j, j < i → l.table.get? j ≠ some l.name) ∧
    (∀ (vcStr : List String) (str : String) (code : Int) (t : State), str ∉ vcStr →
      ∃ t1, resolve_string vcStr str code t = Res.ret code t1 ∧
        t1.buff_data = t.buff_data) ∧
    (∀ (bones : List BoneData) (name : String) (code : Int) (t : State),
      name ∉ bones.map (fun b => b.name) →
      ∃ t1, resolve_bone bones name code t = Res.ret code t1 ∧ t1.buff_data = t.buff_data) ∧
    (∀ (vcEvents : List EventData) (name : String) (code : Int) (t : State),
      name ∉ vcEvents.map (fun e => e.name) →
      ∃ t1, resolve_event vcEvents name code t = Res.ret code t1 ∧
        t1.buff_data = t.buff_data) ∧
    (∀ vcBones acc slot name boneName t, Json_getString slot "name" (some "") = some name →
      Json_getString slot "bone" (some "") = some boneName → boneName ∉ boneNames vcBones →
      ∃ t1, push_slot wide vcBones acc slot t = Res.ret (-10) t1 ∧
        t1.buff_data = t.buff_data ++ string_bytes wide name) ∧
    (∀ vcEvents valueMap n t, Json_getString valueMap "name" none = some n →
      n ∉ vcEvents.map (fun e => e.name) →
      ∃ t1, event_frame wide vcEvents valueMap t = Res.ret (-13) t1 ∧
        t1.buff_data = t.buff_data ++ float_bytes (Json_getFloat valueMap "time" 0)) ∧
    (∀ vcBones code bone n t, bone.valueString = some n → n ∉ boneNames vcBones →
      ∃ t1, constraint_bone wide vcBones code bone t = Res.ret code t1 ∧
        t1.buff_data = t.buff_data) ∧
    (∀ slots entry n t, entry.name = some n → n ∉ slots →
      ∃ t1, push_skin_entry wide slots entry t = Res.ret (-1) t1 ∧
        t1.buff_data = t.buff_data) ∧
    (∀ vcSlots slotMap n t, slotMap.name = some n → n ∉ vcSlots →
      ∃ t1, slot_entry wide vcSlots slotMap t = Res.ret (-1) t1 ∧
        t1.buff_data = t.buff_data) ∧
    (∀ vcBones boneMap n t, boneMap.name = some n → n ∉ boneNames vcBones →
      ∃ t1, bone_entry wide vcBones boneMap t = Res.ret (-3) t1 ∧
        t1.buff_data = t.buff_data) ∧
    (∀ vcIK ikMap n t, ikMap.name = some n → n ∉ vcIK →
      ∃ t1, ik_entry wide vcIK ikMap t = Res.ret (-5) t1 ∧ t1.buff_data = t.buff_data) ∧
    (∀ vcTransform transMap n t, transMap.name = some n → n ∉ vcTransform →
      ∃ t1, transform_entry wide vcTransform transMap t = Res.ret (-6) t1 ∧
        t1.buff_data = t.buff_data) ∧
    (∀ vcPaths pathMap n t, pathMap.name = some n → n ∉ vcPaths →
      ∃ t1, path_entry wide vcPaths pathMap t = Res.ret (-7) t1 ∧
        t1.buff_data = t.buff_data) ∧
    (∀ vcSkins vcSlots deformMap n t, deformMap.name = some n → n ∉ vcSkins →
      ∃ t1, deform_entry wide vcSkins vcSlots deformMap t = Res.ret (-9) t1 ∧
        t1.buff_data = t.buff_data) ∧
    (∀ vcSlots slotMap n t, slotMap.name = some n → n ∉ vcSlots →
      ∃ t1, deform_slot_entry wide vcSlots slotMap t = Res.ret (-10) t1 ∧
        t1.buff_data = t.buff_data) ∧
    (∀ vcSlots offsetMap n t, Json_getString offsetMap "slot" none = some n → n ∉ vcSlots →
      ∃ t1, offset_entry wide vcSlots offsetMap t = Res.ret (-11) t1 ∧
        t1.buff_data = t.buff_data) := by
  refine ⟨?_, checked_convert wide json len root atlas s s1 c h hc, resolve_string_fail,
    resolve_bone_fail, resolve_event_fail,
    fun vcBones acc slot name boneName t h1 h2 ha =>
      push_slot_fail wide vcBones acc slot name boneName t h1 h2 ha,
    fun vcEvents valueMap n t h1 ha => event_frame_fail wide vcEvents valueMap n t h1 ha,
    sites_fail wide⟩
  obtain ⟨r, s0, skeleton, t, hr, _, h0, hb, _, _, gt, hst⟩ :=
    convert_ok wide json len root atlas s s1 c h hc
  obtain ⟨bones, vcBones, slots, vcSlots, vcIK, vcTransform, vcPaths, skins, vcSkins,
    vcEvents, hb1, _, hv, hs1, _, hk1, _, rb, rs, ri, rt, rp, rk, re, ra⟩ :=
    stages_ok wide r skeleton t s1 hst
  have up : ∀ {α : Type} {m : M α} {a : α}, Ran m a t s1 → Ran m a s0 s1 :=
    fun hm => ran_mono hm gt (grows_refl s1)
  have hskins : ∃ defaultSkin, find_default skins.child = some defaultSkin ∧
      vcSkins = (match defaultSkin with
        | some _ => ["default"]
        | none => []) ++ (skins.child.filter isNamed).filterMap Json.name := by
    obtain ⟨u, u1, hrun, _, _⟩ := rk
    obtain ⟨d, h1, _, h3⟩ := push_skins_bytes wide vcSlots skins vcSkins u u1 hrun
    exact ⟨d, h1, h3⟩
  have t1 := tables_of_ran id (fun a x => push_slot_table wide vcBones a x) rs
  have t2 := tables_of_ran id (fun a x => push_ik_table wide vcBones a x) ri
  have t3 := tables_of_ran id
    (fun a x => push_transform_table wide vcBones a x) rt
  have t4 := tables_of_ran id
    (fun a x => push_path_table wide vcBones vcSlots a x) rp
  have t5 := tables_of_ran (fun e => e.name) (fun a x => push_event_table wide a x) re
  rw [List.map_id] at t1 t2 t3 t4
  refine ⟨r, s0, bones, vcBones, slots, vcSlots, vcIK, vcTransform, vcPaths, skins, vcSkins,
    vcEvents, hr, h0, hb, hb1, hv, hs1, hk1, up rb, up rs, up ri, up rt, up rp, up rk, up re,
    t1, t2, t3, t4, hskins, t5,
    slot_sites wide vcBones slots.child vcSlots (up rs),
    ik_sites wide vcBones _ vcIK (up ri),
    transform_sites wide vcBones _ vcTransform (up rt),
    path_sites wide vcBones vcSlots _ vcPaths (up rp),
    skin_sites wide vcSlots skins vcSkins (up rk), fun animation hm => ?_⟩
  obtain ⟨u, u1, hrun, g1, g2⟩ := up ra
  exact animation_sites wide animation vcSlots vcBones vcIK vcTransform vcPaths vcSkins
    vcEvents (ran_called
      (ran_mono (forEach_ran _ _ (fun x => sound_push_animation wide vcSlots vcBones vcIK
        vcTransform vcPaths vcSkins vcEvents x) hrun animation hm) g1 g2)
      fun v v1 hv => animation_called wide vcSlots vcBones vcIK vcTransform vcPaths vcSkins
        vcEvents animation hv)

theorem indices_resolved_witness :
    convert_json_to_binary wideZero sampleText sampleText.length (some sampleAnimated) none
        ⟨[], [], []⟩ = Res.ret 129 sampleAnimatedState ∧ (0 : Int) ≤ 129 ∧
      (∀ l ∈ sampleAnimatedState.lookups, ∃ i : Nat, l.index = (i : Int) ∧
        i < l.table.length ∧ l.table.get? i = some l.name ∧
        ∀ j, j < i → l.table.get? j ≠ some l.name) ∧
      ∃ vcBones vcSlots acc s0,
        vcSlots.map some = [some "s"] ∧
        Site wideZero (push_slot wideZero vcBones acc sampleSlot) (boneNames vcBones)
          (some "root") (find_bone vcBones) [2, 115] s0 sampleAnimatedState ∧
        Site wideZero (constraint_bone wideZero vcBones (-12) sampleBoneRef) (boneNames vcBones)
          (some "root") (find_bone vcBones) [] s0 sampleAnimatedState ∧
        Site wideZero (slot_entry wideZero vcSlots (sampleObject (some "s")
            [sampleColorTimeline [sampleColorFrame [sampleString "curve" "stepped"],
              sampleColorFrame [], sampleColorFrame [sampleString "curve" "stepped"]]]))
          vcSlots (some "s") (find_string vcSlots) [] s0 sampleAnimatedState :=
  ⟨rfl, by decide,
    (indices_resolved wideZero sampleText sampleText.length (some sampleAnimated) none
      ⟨[], [], []⟩ sampleAnimatedState 129 rfl (by decide)).2.1,
    (let ⟨r, s0, _, vcBones, slots, vcSlots, _, _, _, _, _, _, hr, _, _, _, _, hs, _, _, _, _, _,
        _, _, _, ht, _, _, _, _, _, hslot, hik, _, _, _, hanim⟩ :=
      (indices_resolved wideZero sampleText sampleText.length (some sampleAnimated) none
        ⟨[], [], []⟩ sampleAnimatedState 129 rfl (by decide)).1
    have e1 : sampleAnimated = r := Option.some.inj hr
    have e2 : sampleArray (some "slots") [sampleSlot] = slots :=
      Option.some.inj ((e1 ▸ hs : Json_getItem sampleAnimated "slots" = some slots))
    have hm : sampleSlot ∈ slots.child := e2 ▸ List.mem_singleton.2 rfl
    have ha : sampleColorAnimation ∈ children (Json_getItem r "animations") :=
      e1 ▸ List.mem_singleton.2 rfl
    let ⟨acc, hsite⟩ := hslot sampleSlot hm
    let ⟨ikBones, hb, hbones, _⟩ := hik sampleIk (e1 ▸ List.mem_singleton.2 rfl)
    have e3 : sampleArray (some "bones") [sampleBoneRef] = ikBones := Option.some.inj hb
    ⟨vcBones, vcSlots, acc, s0,
      Eq.trans ht (congrArg (fun j : Json =>
        j.child.map fun x => Json_getString x "name" (some "")) e2.symm), hsite,
      hbones sampleBoneRef (e3 ▸ List.mem_singleton.2 rfl),
      (hanim sampleColorAnimation ha).1 _ (List.mem_singleton.2 rfl)⟩)⟩

end SpineExporter
